import Mathlib

/-!
# Invaders: a shallow embedding of `AInvadersGameMode`

The game mode of `Source/Invaders/InvadersGameMode.cpp` is embedded as a record
`AInvadersGameMode` together with one Lean function per C++ member function.

Conventions of the embedding

* `float` values are exact rationals (`ℚ`), and the arithmetic on positions and
  times is exact. Where the code narrows a value to `float` for a test or an
  array index (`float BulletDist = Pos[1]`, `int(Col) * (Types /
  Rules.EnemiesInColumn)`), the narrowing is explicit: `ToFloat` rounds to the
  nearest IEEE 754 binary32 value, a tie to the even significand.
* `int` counters (levels, lives, numbers of active units) are `Int`, they change
  by one per event; the `int32` score is added to with `Int32Add`, which wraps,
  since a point value is configuration data. Grid dimensions and array indices
  are `Nat`.
* An actor is a record (class, location, hidden flag, collision flag); the
  arrays of actor pointers (`EnemyShips`, `PlayerBullets`, ...) are lists of
  such records, so a pointer is a slot index (`ActorRef`).
* Engine collaborators are reduced to what the game mode observes: the timer
  manager is five optional timer records, widgets are "in viewport" flags,
  sounds / save requests are appended to an event log, and the values the engine
  feeds in (overlaps, random numbers, input axes) are explicit arguments.
* An array access out of range, or a map lookup of a missing key, is `none`.
-/

namespace Invaders

/-! ## Data types (`DataTypes.h`) -/

/-- Capacity of both bullet pools: `const int MAX_BULLETS = 20;`. -/
def MAX_BULLETS : Nat := 20

/-- Engine vector; index 0 is `X`, index 1 is `Y`, index 2 is `Z`. -/
structure FVector where
  X : ℚ
  Y : ℚ
  Z : ℚ
deriving DecidableEq

/-- Component-wise sum of two vectors. -/
def FVector.add (a b : FVector) : FVector := ⟨a.X + b.X, a.Y + b.Y, a.Z + b.Z⟩

/-- The part of an `AActor` the game mode reads and writes. -/
structure AActor where
  Class : Nat
  Location : FVector
  Hidden : Bool
  Collision : Bool
deriving DecidableEq

/-- `SetActorHiddenInGame(true); SetActorEnableCollision(false);`. -/
def AActor.deactivate (a : AActor) : AActor := { a with Hidden := true, Collision := false }

/-- `SetActorHiddenInGame(false); SetActorEnableCollision(true);`. -/
def AActor.activate (a : AActor) : AActor := { a with Hidden := false, Collision := true }

/-- `SetActorLocation(P)`. -/
def AActor.SetActorLocation (a : AActor) (P : FVector) : AActor := { a with Location := P }

/-- Game rules, `struct FGameRules`. -/
structure FGameRules where
  EnemiesInRow : Nat
  EnemiesInColumn : Nat
  EnemySpread : ℚ
  EnemyShootFrequency : ℚ
  EnemyShootFrequencyRand : ℚ
  ForwardMovementAmount : ℚ
  SideMovementAmount : ℚ
  MinSpeedFactor : ℚ
  MaxSpeedFactor : ℚ
  UfoAppearTimeMin : ℚ
  UfoAppearTimeMax : ℚ
  LastRow : Int

/-- The member initialisers of `FGameRules`. -/
def FGameRules.default : FGameRules where
  EnemiesInRow := 10
  EnemiesInColumn := 5
  EnemySpread := 25
  EnemyShootFrequency := 1
  EnemyShootFrequencyRand := 1 / 2
  ForwardMovementAmount := 100
  SideMovementAmount := 200
  MinSpeedFactor := 1 / 4
  MaxSpeedFactor := 1
  UfoAppearTimeMin := 6
  UfoAppearTimeMax := 12
  LastRow := 8

/-- Enemy definition, `struct FEnemyDef`. -/
structure FEnemyDef where
  ShipClass : Nat
  ShipRTClass : Nat
  Points : Int

/-- Player definition, `struct FPlayerDef`; `SpawnPoint` is the location of the target point. -/
structure FPlayerDef where
  ShipClass : Nat
  SpawnPoint : FVector
  Speed : ℚ
  Lives : Int
  ShootFrequency : ℚ

/-- Bullet definition, `struct FBulletDef`. -/
structure FBulletDef where
  BulletClass : Nat
  Velocity : ℚ

/-- Asteroid definition, `struct FAsteroidDef`. -/
structure FAsteroidDef where
  AsteroidClass : Nat
  SpawnPoint : FVector
  Spread : ℚ
  Health : Int

/-- Lightweight game state, `struct FInvadersGameState`. -/
structure FInvadersGameState where
  LevelStarted : Bool
  EnemyProgTime : ℚ
  EnemyAppearAnimTime : ℚ
  PlayerAppearAnimTime : ℚ
  UfoProgTime : ℚ
  TotalEnemyNum : Nat
  ActiveEnemyNum : Int
  ActiveEnemyBullets : Int
  ActivePlayerBullets : Int
  CurrentLevel : Int
  CurrentLives : Int
  Score : Int
  PrevHiScore : Int
  HiScore : Int

/-! ## Engine collaborators -/

/-- A timer held by the timer manager for one handle: its delay, whether it
repeats, and whether it is paused. -/
structure FTimer where
  Rate : ℚ
  Loop : Bool
  Paused : Bool
deriving DecidableEq

/-- `GetWorldTimerManager().SetTimer(Handle, ..., Rate, Loop)`. -/
def SetTimer (Rate : ℚ) (Loop : Bool) : Option FTimer := some ⟨Rate, Loop, false⟩

/-- `GetWorldTimerManager().IsTimerActive(Handle)`: the timer exists and is not paused. -/
def IsTimerActive : Option FTimer → Bool
  | some t => !t.Paused
  | none => false

/-- `GetWorldTimerManager().PauseTimer(Handle)`. -/
def PauseTimer : Option FTimer → Option FTimer
  | some t => some { t with Paused := true }
  | none => none

/-- `GetWorldTimerManager().UnPauseTimer(Handle)`. -/
def UnPauseTimer : Option FTimer → Option FTimer
  | some t => some { t with Paused := false }
  | none => none

/-- The timer manager removes a one-shot timer when it fires and keeps a repeating one. -/
def afterFire : Option FTimer → Option FTimer
  | some t => if t.Loop then some t else none
  | none => none

/-- An actor pointer, resolved to the slot that owns the actor. -/
inductive ActorRef where
  | Player
  | Ufo
  | Enemy (Idx : Nat)
  | Asteroid (Idx : Nat)
  | PlayerBullet (Idx : Nat)
  | EnemyBullet (Idx : Nat)
deriving DecidableEq

/-- `ActorHasTag("IsEnemy")`: grid enemies, the ufo and the asteroids carry the tag. -/
def ActorRef.IsEnemy : ActorRef → Bool
  | .Ufo => true
  | .Enemy _ => true
  | .Asteroid _ => true
  | _ => false

/-- `ActorHasTag("IsAsteroid")`. -/
def ActorRef.IsAsteroid : ActorRef → Bool
  | .Asteroid _ => true
  | _ => false

/-- `ActorHasTag("IsUfo")`. -/
def ActorRef.IsUfo : ActorRef → Bool
  | .Ufo => true
  | _ => false

/-- `ActorHasTag("IsPlayer")`. -/
def ActorRef.IsPlayer : ActorRef → Bool
  | .Player => true
  | _ => false

/-- Calls into the engine that leave the game mode: sounds, the save request and
the game-over menu. -/
inductive Event where
  | PlaySoundAtLocation
  | SaveGameToSlot (HiScore : Nat)
  | ShowRestartMenu
  | DisableInput
  | ScoreTexts (HiScoreText : Int) (CurScoreText : Option (Int × Bool))
deriving DecidableEq

/-- What the engine feeds into one `Tick`: the two input axes, the first
overlapping actor of the bullet in each pool slot (none when
`OverlappedActors` is empty) and the value drawn by `FMath::RandRange` for the
ufo timer. -/
structure FTickInput where
  MoveRight : ℚ
  MoveLeft : ℚ
  PlayerOverlap : Nat → Option ActorRef
  EnemyOverlap : Nat → Option ActorRef
  UfoAppearTime : ℚ

/-- The game mode object, `class AInvadersGameMode`. -/
structure AInvadersGameMode where
  Rules : FGameRules
  PlayerDef : FPlayerDef
  EnemyDefs : List FEnemyDef
  EnemySpawnPoint : FVector
  UfoSpawnPoint : FVector
  AsteroidDef : FAsteroidDef
  PlayerBulletDef : FBulletDef
  EnemyBulletDef : FBulletDef
  InvadersGameState : FInvadersGameState
  PlayerShip : AActor
  UfoShip : AActor
  EnemyShips : List AActor
  EnemyShipGroup : FVector
  PlayerMovement : ℚ
  IsPlayerShooting : Bool
  ShootingEnemies : List Nat
  PlayerBullets : List AActor
  EnemyBullets : List AActor
  Asteroids : List AActor
  AsteroidHP : List Int
  EnemyPointMap : List (Nat × Int)
  EnemyShootTHandle : Option FTimer
  PlayerShootTHandle : Option FTimer
  UfoAppearTHandle : Option FTimer
  EnemyAppearTHandle : Option FTimer
  PlayerAppearTHandle : Option FTimer
  GameOverInViewport : Bool
  MainMenuInViewport : Bool
  PauseMenuInViewport : Bool
  TutorialMenuInViewport : Bool
  TickEnabled : Bool
  SaveSlot : Option Nat
  Events : List Event

/-! ## Engine math (`FMath`) and array helpers -/

/-- `FMath::RoundToFloat(F)`, i.e. `FloorToFloat(F + 0.5f)`: round half up. -/
def RoundToFloat (F : ℚ) : ℚ := ((⌊F + 1 / 2⌋ : Int) : ℚ)

/-- `FMath::Lerp(A, B, Alpha)`, i.e. `A + Alpha * (B - A)`. -/
def Lerp (A B Alpha : ℚ) : ℚ := A + Alpha * (B - A)

/-- `FMath::Lerp` on vectors. -/
def LerpV (A B : FVector) (Alpha : ℚ) : FVector :=
  ⟨Lerp A.X B.X Alpha, Lerp A.Y B.Y Alpha, Lerp A.Z B.Z Alpha⟩

/-- Truncation toward zero (`truncf`, and the conversion of a `float` to `int`). -/
def TruncToInt (x : ℚ) : Int := if 0 ≤ x then ⌊x⌋ else ⌈x⌉

/-- `FMath::Fmod(X, Y)`: `X - Y * trunc(X / Y)`. -/
def Fmod (X Y : ℚ) : ℚ := X - Y * (TruncToInt (X / Y) : ℚ)

/-- `FMath::Modf(Value, &IntPart)`: the pair (fractional part, integer part). -/
def Modf (Value : ℚ) : ℚ × ℚ := (Value - (TruncToInt Value : ℚ), (TruncToInt Value : ℚ))

/-- `FMath::Clamp(X, Min, Max)`. -/
def Clamp (X Min Max : ℚ) : ℚ := if X < Min then Min else if X < Max then X else Max

/-- `TArray::operator[]` with an `int` index; `none` when the index is out of range. -/
def getAt {α : Type} (l : List α) (i : Int) : Option α :=
  if 0 ≤ i then l[i.toNat]? else none

/-- `TArray<int>::Find`: position of the first occurrence, `none` for `INDEX_NONE`. -/
def FindIdx (l : List Nat) (v : Nat) : Option Nat :=
  if v ∈ l then some (l.indexOf v) else none

/-- `TMap::operator[]` on `EnemyPointMap`: the value stored for a key, `none` when the key is missing. -/
def MapFind (m : List (Nat × Int)) (k : Nat) : Option Int :=
  (m.find? fun e => e.1 == k).map Prod.snd

/-- `TMap::Add`: sets the value of the key, replacing a previous entry. -/
def MapAdd (m : List (Nat × Int)) (k : Nat) (v : Int) : List (Nat × Int) :=
  (k, v) :: m.filter fun e => e.1 != k

/-- Conversion of an `int32` to the `uint32` of the save object. -/
def toUInt32 (x : Int) : Nat := (x % 2 ^ 32).toNat

/-- Conversion of the stored `uint32` to the `int32` of the game state. -/
def toInt32 (v : Nat) : Int :=
  if v % 2 ^ 32 < 2 ^ 31 then ((v % 2 ^ 32 : Nat) : Int) else ((v % 2 ^ 32 : Nat) : Int) - 2 ^ 32

/-- The `int32` addition `a + b`: the sum, wrapped into `[-2^31, 2^31)` (two's complement),
as the compiled addition of the target gives it. -/
def Int32Add (a b : Int) : Int := toInt32 (toUInt32 (a + b))

/-- The bisection of `Log2`: with `2^lo ≤ n < 2^(lo + 2^k)` the exponent `e` of `n`, i.e.
`2^e ≤ n < 2^(e+1)`, found in `k` halvings of the range. -/
def Bisect (n : Nat) : Nat → Nat → Nat
  | 0, lo => lo
  | k + 1, lo => bif Nat.ble (2 ^ (lo + 2 ^ k)) n then Bisect n k (lo + 2 ^ k) else Bisect n k lo

/-- The range search of `Log2`: the first `j ≥ k` with `n < 2^(2^j)`, tried for at most `fuel`
values of `j`. -/
def Doubling (n : Nat) : Nat → Nat → Nat
  | 0, k => k
  | fuel + 1, k => bif Nat.blt n (2 ^ (2 ^ k)) then k else Doubling n fuel (k + 1)

/-- The position of the leading bit of `n ≥ 1`: `2^(Log2 n) ≤ n < 2^(Log2 n + 1)`. -/
def Log2 (n : Nat) : Nat := Bisect n (Doubling n n 0) 0

/-- The power of two `2^e` for an integer exponent. -/
def Pow2 (e : Int) : ℚ :=
  if 0 ≤ e then ((2 ^ e.toNat : Nat) : ℚ) else 1 / ((2 ^ (-e).toNat : Nat) : ℚ)

/-- The binary exponent of a value `x ≠ 0`: the `e` with `2^e ≤ |x| < 2^(e+1)`. It is the
difference of the leading bit positions of numerator and denominator, or one less. -/
def FloatExp (x : ℚ) : Int :=
  if 2 ^ (Log2 x.num.natAbs - Log2 x.den) * x.den
      ≤ 2 ^ (Log2 x.den - Log2 x.num.natAbs) * x.num.natAbs then
    (Log2 x.num.natAbs : Int) - (Log2 x.den : Int)
  else (Log2 x.num.natAbs : Int) - (Log2 x.den : Int) - 1

/-- Rounding to the nearest integer, a tie to the even one. -/
def RoundHalfEven (q : ℚ) : Int :=
  if q - (⌊q⌋ : ℚ) < 1 / 2 then ⌊q⌋
  else if 1 / 2 < q - (⌊q⌋ : ℚ) then ⌊q⌋ + 1
  else if ⌊q⌋ % 2 = 0 then ⌊q⌋ else ⌊q⌋ + 1

/-- The quotient `N / D` of integers, `D > 0`, rounded to the nearest integer, a tie to the
even one: `RoundHalfEven (N / D)` in integer arithmetic. -/
def RoundDiv (N : Int) (D : Nat) : Int :=
  if 2 * (N % (D : Int)) < (D : Int) then N / (D : Int)
  else if (D : Int) < 2 * (N % (D : Int)) then N / (D : Int) + 1
  else if (N / (D : Int)) % 2 = 0 then N / (D : Int) else N / (D : Int) + 1

/-- The multiple of `2^s` nearest to `n / d`, a tie to the even multiple. -/
def ToFloatScaled (n : Int) (d : Nat) : Int → ℚ
  | Int.ofNat k => ((RoundDiv n (d * 2 ^ k) * ((2 ^ k : Nat) : Int) : Int) : ℚ)
  | Int.negSucc k => mkRat (RoundDiv (n * ((2 ^ (k + 1) : Nat) : Int)) d) (2 ^ (k + 1))

/-- The value of a C++ `float` (IEEE 754 binary32) that results from converting or rounding
the exact value `x`: the nearest multiple of `2^(e-23)`, where `e` is the binary exponent of
`x` and at least `-126` (gradual underflow), a tie to the even significand. A result of
magnitude `2^128` or more stands for an infinity: it compares with finite values as the
infinity does. -/
def ToFloat (x : ℚ) : ℚ :=
  if x.num = 0 then 0
  else ToFloatScaled x.num x.den (max (FloatExp x) (-126) - 23)

/-! ## Enemy formation movement -/

/-- The speed factor of `UpdateEnemyGroupMovement`:
`Lerp(MinSpeedFactor, 1.5, Pow(1.0 - RoundToFloat(ActiveEnemyNum / 10.f) / 5.f, 2))`. -/
def SpeedFact (MinSpeedFactor : ℚ) (ActiveEnemyNum : Int) : ℚ :=
  Lerp MinSpeedFactor (3 / 2) ((1 - RoundToFloat ((ActiveEnemyNum : ℚ) / 10) / 5) ^ 2)

/-- The side term `Clamp(SideDirection * OscXYRatio, -1, 1)` at progress time `t`. -/
def SideTerm (t : ℚ) : ℚ := Clamp ((1 - |Fmod t 4 - 2|) * 2) (-1) 1

/-- The group location computed by `UpdateEnemyGroupMovement` from the progress time. -/
def GroupPos (Rules : FGameRules) (EnemySpawnPoint : FVector) (CurrentLevel : Int)
    (EnemyProgTime : ℚ) : FVector :=
  let OscXYRatio : ℚ := 2
  let N := Fmod EnemyProgTime 4
  let SideDirection := 1 - |N - 2|
  let RowPosition := (EnemyProgTime + 1 / 2) / 2
  let RowFract := (Modf (min RowPosition (Rules.LastRow : ℚ))).1
  let RowInt := (CurrentLevel : ℚ) + (Modf (min RowPosition (Rules.LastRow : ℚ))).2
  { X := EnemySpawnPoint.X + Rules.SideMovementAmount * Clamp (SideDirection * OscXYRatio) (-1) 1
    Y := EnemySpawnPoint.Y + (RowInt * Rules.ForwardMovementAmount +
          Rules.ForwardMovementAmount * Clamp (RowFract * OscXYRatio) 0 1)
    Z := EnemySpawnPoint.Z }

/-- `AInvadersGameMode::UpdateEnemyGroupMovement`. -/
def UpdateEnemyGroupMovement (DeltaSeconds : ℚ) (s : AInvadersGameMode) : AInvadersGameMode :=
  let g := s.InvadersGameState
  let T := g.EnemyProgTime + DeltaSeconds * SpeedFact s.Rules.MinSpeedFactor g.ActiveEnemyNum
  { s with
    InvadersGameState := { g with EnemyProgTime := T }
    EnemyShipGroup := GroupPos s.Rules s.EnemySpawnPoint g.CurrentLevel T }

/-- `AInvadersGameMode::UpdateUfoMovement`; `Rand` is the value `FMath::RandRange` returns. -/
def UpdateUfoMovement (DeltaSeconds Rand : ℚ) (s : AInvadersGameMode) : AInvadersGameMode :=
  if !s.UfoShip.Hidden then
    let P0 := s.UfoSpawnPoint
    let P1 := P0.add ⟨-P0.X * 2, 0, 0⟩
    let T := s.InvadersGameState.UfoProgTime + DeltaSeconds
    let N := T / 5
    let s1 := { s with
      InvadersGameState := { s.InvadersGameState with UfoProgTime := T }
      UfoShip := s.UfoShip.SetActorLocation (LerpV P0 P1 N) }
    if N ≥ 1 then
      { s1 with
        InvadersGameState := { s1.InvadersGameState with UfoProgTime := 0 }
        UfoShip := s1.UfoShip.deactivate
        UfoAppearTHandle := SetTimer Rand false }
    else s1
  else s

/-- `AInvadersGameMode::UpdatePlayerMovement` (the asteroid rotation is not part of the model). -/
def UpdatePlayerMovement (DeltaSeconds : ℚ) (inp : FTickInput) (s : AInvadersGameMode) :
    AInvadersGameMode :=
  if s.PlayerShip.Hidden then s
  else
    let PlayerSideMovement := inp.MoveRight - inp.MoveLeft
    let M := Lerp s.PlayerMovement PlayerSideMovement (DeltaSeconds * 5)
    let X := Clamp (s.PlayerShip.Location.X + M * s.PlayerDef.Speed * DeltaSeconds)
      (-s.Rules.SideMovementAmount * 2) (s.Rules.SideMovementAmount * 2)
    { s with
      PlayerMovement := M
      PlayerShip := s.PlayerShip.SetActorLocation { s.PlayerShip.Location with X := X } }

/-- `AInvadersGameMode::UpdateEnemyAppearAnimation` (the material parameters are not part of the model). -/
def UpdateEnemyAppearAnimation (DeltaSeconds : ℚ) (s : AInvadersGameMode) : AInvadersGameMode :=
  if s.InvadersGameState.EnemyAppearAnimTime > 1 then
    { s with InvadersGameState := { s.InvadersGameState with
        EnemyAppearAnimTime := max 1 (s.InvadersGameState.EnemyAppearAnimTime - DeltaSeconds * 8) } }
  else s

/-- `AInvadersGameMode::UpdatePlayerAppearAnimation` (the material parameters are not part of the model). -/
def UpdatePlayerAppearAnimation (DeltaSeconds : ℚ) (s : AInvadersGameMode) : AInvadersGameMode :=
  if s.InvadersGameState.PlayerAppearAnimTime > 1 then
    { s with InvadersGameState := { s.InvadersGameState with
        PlayerAppearAnimTime := max 1 (s.InvadersGameState.PlayerAppearAnimTime - DeltaSeconds * 8) } }
  else s

/-! ## High score, menus and player hits -/

/-- `GameUtils::UpdateScoreTexts`: the number shown as "hiscore: " is `PrevHiScore`;
with a score text, the score and whether " // new hiscore //" is appended. -/
def UpdateScoreTexts (State : FInvadersGameState) (CurScoreText : Bool) : Event :=
  Event.ScoreTexts State.PrevHiScore
    (if CurScoreText then some (State.Score, decide (State.Score > State.PrevHiScore)) else none)

/-- `AInvadersGameMode::SaveHiScore`. -/
def SaveHiScore (s : AInvadersGameMode) : AInvadersGameMode :=
  let g := s.InvadersGameState
  let g1 := if g.Score > g.HiScore then { g with PrevHiScore := g.HiScore, HiScore := g.Score } else g
  { s with
    InvadersGameState := g1
    SaveSlot := some (toUInt32 g1.HiScore)
    Events := s.Events ++ [Event.SaveGameToSlot (toUInt32 g1.HiScore)] }

/-- `AInvadersGameMode::LoadHiScore`. -/
def LoadHiScore (s : AInvadersGameMode) : AInvadersGameMode :=
  match s.SaveSlot with
  | some v =>
    { s with InvadersGameState :=
        { s.InvadersGameState with HiScore := toInt32 v, PrevHiScore := toInt32 v } }
  | none => s

/-- `AInvadersGameMode::ShowRestartMenu`. -/
def ShowRestartMenu (s : AInvadersGameMode) : AInvadersGameMode :=
  { s with
    GameOverInViewport := true
    Events := s.Events ++ [Event.ShowRestartMenu, UpdateScoreTexts s.InvadersGameState true] }

/-- `AInvadersGameMode::ShowPauseMenu`. -/
def ShowPauseMenu (s : AInvadersGameMode) : AInvadersGameMode :=
  { s with
    PauseMenuInViewport := true
    Events := s.Events ++ [UpdateScoreTexts s.InvadersGameState true] }

/-- `AInvadersGameMode::ShowTutorialMenu`. -/
def ShowTutorialMenu (s : AInvadersGameMode) : AInvadersGameMode :=
  { s with MainMenuInViewport := false, TutorialMenuInViewport := true }

/-- `AInvadersGameMode::HandlePlayerHit`. -/
def HandlePlayerHit (s : AInvadersGameMode) : AInvadersGameMode :=
  let s1 := { s with
    InvadersGameState :=
      { s.InvadersGameState with CurrentLives := s.InvadersGameState.CurrentLives - 1 }
    IsPlayerShooting := false
    PlayerShootTHandle := none
    PlayerShip := s.PlayerShip.deactivate }
  if s1.InvadersGameState.CurrentLives == 0 then
    let s2 := SaveHiScore s1
    ShowRestartMenu { s2 with Events := s2.Events ++ [Event.DisableInput] }
  else
    { s1 with
      PlayerShip := s1.PlayerShip.SetActorLocation s1.PlayerDef.SpawnPoint
      PlayerAppearTHandle := SetTimer 1 false }

/-- `AInvadersGameMode::PauseGame`. -/
def PauseGame (s : AInvadersGameMode) : AInvadersGameMode :=
  { s with
    EnemyAppearTHandle := PauseTimer s.EnemyAppearTHandle
    PlayerAppearTHandle := PauseTimer s.PlayerAppearTHandle
    EnemyShootTHandle := PauseTimer s.EnemyShootTHandle
    PlayerShootTHandle := PauseTimer s.PlayerShootTHandle
    UfoAppearTHandle := PauseTimer s.UfoAppearTHandle }

/-- `AInvadersGameMode::UnpauseGame`. -/
def UnpauseGame (s : AInvadersGameMode) : AInvadersGameMode :=
  { s with
    EnemyAppearTHandle := UnPauseTimer s.EnemyAppearTHandle
    PlayerAppearTHandle := UnPauseTimer s.PlayerAppearTHandle
    EnemyShootTHandle := UnPauseTimer s.EnemyShootTHandle
    PlayerShootTHandle := UnPauseTimer s.PlayerShootTHandle
    UfoAppearTHandle := UnPauseTimer s.UfoAppearTHandle }

/-- `AInvadersGameMode::HandleTogglePausePressed`. -/
def HandleTogglePausePressed (s : AInvadersGameMode) : AInvadersGameMode :=
  if !s.PauseMenuInViewport then ShowPauseMenu (PauseGame s)
  else UnpauseGame { s with PauseMenuInViewport := false }

/-! ## Resetting and spawning units -/

/-- A loop `for (Idx = 0; Idx < n; Idx++) f(Units[Idx])` over the first `n` slots of an actor array. -/
def forFirst (f : AActor → AActor) : Nat → List AActor → List AActor
  | 0, l => l
  | _ + 1, [] => []
  | n + 1, E :: l => f E :: forFirst f n l

/-- `AInvadersGameMode::ResetUnits`. `UpdateUfoMovement(0.0)` runs just after the
ufo was hidden, so it draws no random number. -/
def ResetUnits (s : AInvadersGameMode) : AInvadersGameMode :=
  let s1 := { s with
    PlayerShip := (s.PlayerShip.SetActorLocation s.PlayerDef.SpawnPoint).deactivate
    EnemyShips := forFirst AActor.deactivate s.InvadersGameState.TotalEnemyNum s.EnemyShips }
  let s2 := UpdateEnemyGroupMovement 0 s1
  let s3 := UpdateUfoMovement 0 0 { s2 with UfoShip := s2.UfoShip.deactivate }
  { s3 with
    AsteroidHP := s3.Asteroids.map fun _ => s3.AsteroidDef.Health
    Asteroids := s3.Asteroids.map AActor.activate
    EnemyBullets := s3.EnemyBullets.map AActor.deactivate
    PlayerBullets := s3.PlayerBullets.map AActor.deactivate
    InvadersGameState :=
      { s3.InvadersGameState with ActiveEnemyBullets := 0, ActivePlayerBullets := 0 } }

/-- The `ShootingEnemies.Add(Idx)` part of the loop of `SpawnEnemies`. -/
def AddFirstRow (EnemiesInRow TotalEnemyNum : Nat) (ShootingEnemies : List Nat) : List Nat :=
  (List.range TotalEnemyNum).foldl
    (fun acc Idx => if Idx < EnemiesInRow then acc ++ [Idx] else acc) ShootingEnemies

/-- `AInvadersGameMode::SpawnEnemies`. -/
def SpawnEnemies (s : AInvadersGameMode) : AInvadersGameMode :=
  let g := s.InvadersGameState
  let s1 := { s with
    ShootingEnemies := []
    InvadersGameState :=
      { g with EnemyProgTime := 0, EnemyAppearAnimTime := 5, ActiveEnemyNum := g.TotalEnemyNum } }
  let s2 := UpdateEnemyGroupMovement 0 s1
  { s2 with
    EnemyShips := forFirst AActor.activate s2.InvadersGameState.TotalEnemyNum s2.EnemyShips
    ShootingEnemies :=
      AddFirstRow s2.Rules.EnemiesInRow s2.InvadersGameState.TotalEnemyNum s2.ShootingEnemies
    EnemyShootTHandle := SetTimer s2.Rules.EnemyShootFrequency false }

/-- `AInvadersGameMode::SpawnPlayer`. -/
def SpawnPlayer (s : AInvadersGameMode) : AInvadersGameMode :=
  { s with
    InvadersGameState := { s.InvadersGameState with PlayerAppearAnimTime := 5 }
    PlayerShip := s.PlayerShip.activate }

/-- `AInvadersGameMode::ShowMainMenu`. -/
def ShowMainMenu (s : AInvadersGameMode) : AInvadersGameMode :=
  let s1 := ResetUnits
    { s with InvadersGameState := { s.InvadersGameState with LevelStarted := false } }
  let g := { s1.InvadersGameState with PrevHiScore := s1.InvadersGameState.HiScore }
  { s1 with
    TickEnabled := false
    GameOverInViewport := false
    PauseMenuInViewport := false
    InvadersGameState := g
    Events := s1.Events ++ [UpdateScoreTexts g false]
    MainMenuInViewport := true }

/-- `AInvadersGameMode::RestartInvadersGame`; `Rand` is the value `FMath::RandRange` returns. -/
def RestartInvadersGame (Rand : ℚ) (s : AInvadersGameMode) : AInvadersGameMode :=
  let s1 := { s with
    EnemyAppearTHandle := none
    PlayerAppearTHandle := none
    EnemyShootTHandle := none
    UfoAppearTHandle := none
    PlayerShootTHandle := none
    TutorialMenuInViewport := false
    GameOverInViewport := false
    PauseMenuInViewport := false
    InvadersGameState := { s.InvadersGameState with
      EnemyProgTime := 0
      UfoProgTime := 0
      EnemyAppearAnimTime := 5
      PlayerAppearAnimTime := 1
      CurrentLives := s.PlayerDef.Lives
      LevelStarted := true } }
  let s2 := ResetUnits s1
  { s2 with
    PlayerShip := s2.PlayerShip.activate
    PlayerAppearTHandle := SetTimer (1 / 2) false
    EnemyAppearTHandle := SetTimer 2 false
    UfoAppearTHandle := SetTimer Rand false
    TickEnabled := true }

/-! ## Bullet pools -/

/-- The actor behind a reference, `none` for a dangling one. -/
def Deref (s : AInvadersGameMode) : ActorRef → Option AActor
  | .Player => some s.PlayerShip
  | .Ufo => some s.UfoShip
  | .Enemy Idx => s.EnemyShips[Idx]?
  | .Asteroid Idx => s.Asteroids[Idx]?
  | .PlayerBullet Idx => s.PlayerBullets[Idx]?
  | .EnemyBullet Idx => s.EnemyBullets[Idx]?

/-- `UnitActor->SetActorHiddenInGame(true); UnitActor->SetActorEnableCollision(false);`. -/
def DeactivateUnit (s : AInvadersGameMode) : ActorRef → Option AInvadersGameMode
  | .Player => some { s with PlayerShip := s.PlayerShip.deactivate }
  | .Ufo => some { s with UfoShip := s.UfoShip.deactivate }
  | .Enemy Idx =>
    (s.EnemyShips[Idx]?).bind fun E =>
    some { s with EnemyShips := s.EnemyShips.set Idx E.deactivate }
  | .Asteroid Idx =>
    (s.Asteroids[Idx]?).bind fun E =>
    some { s with Asteroids := s.Asteroids.set Idx E.deactivate }
  | .PlayerBullet Idx =>
    (s.PlayerBullets[Idx]?).bind fun E =>
    some { s with PlayerBullets := s.PlayerBullets.set Idx E.deactivate }
  | .EnemyBullet Idx =>
    (s.EnemyBullets[Idx]?).bind fun E =>
    some { s with EnemyBullets := s.EnemyBullets.set Idx E.deactivate }

/-- `EnemyShips.Find(UnitActor)`; `none` is `INDEX_NONE`. -/
def EnemyShipsFind (s : AInvadersGameMode) : ActorRef → Option Nat
  | .Enemy Idx => if Idx < s.EnemyShips.length then some Idx else none
  | _ => none

/-- `Asteroids.Find(UnitActor)`; `none` is `INDEX_NONE`. -/
def AsteroidsFind (s : AInvadersGameMode) : ActorRef → Option Nat
  | .Asteroid Idx => if Idx < s.Asteroids.length then some Idx else none
  | _ => none

/-- The asteroid branch shared by both bullet loops: `HP--`, hide the asteroid
at `HP <= 0`, store the new `HP`. -/
def AsteroidHit (UnitActor : ActorRef) (s : AInvadersGameMode) : Option AInvadersGameMode :=
  (AsteroidsFind s UnitActor).bind fun HPIdx =>
  (s.AsteroidHP[HPIdx]?).bind fun HP0 =>
  (if HP0 - 1 ≤ 0 then DeactivateUnit s UnitActor else some s).bind fun s1 =>
  some { s1 with AsteroidHP := s1.AsteroidHP.set HPIdx (HP0 - 1) }

/-- The `while (NewIdx < TotalEnemyNum)` loop of `UpdatePlayerBullets`: walk down the
column in steps of `EnemiesInRow` and add the first enemy that is not hidden.
The first argument bounds the number of iterations; `none` when it is used up
or `EnemyShips[NewIdx]` is out of range. -/
def FindNextVisible (EnemyShips : List AActor) (EnemiesInRow TotalEnemyNum : Nat) :
    Nat → Nat → List Nat → Option (List Nat)
  | 0, _, _ => none
  | fuel + 1, NewIdx, ShootingEnemies =>
    if NewIdx < TotalEnemyNum then
      match EnemyShips[NewIdx]? with
      | none => none
      | some E =>
        if !E.Hidden then some (ShootingEnemies ++ [NewIdx])
        else FindNextVisible EnemyShips EnemiesInRow TotalEnemyNum fuel (NewIdx + EnemiesInRow)
          ShootingEnemies
    else some ShootingEnemies

/-- "Reorganize shootter enemies (first row)": the update of `ShootingEnemies`
after the enemy `UnitActor` was hidden. -/
def ReorganizeShooters (UnitActor : ActorRef) (s : AInvadersGameMode) :
    Option AInvadersGameMode :=
  match (EnemyShipsFind s UnitActor).bind (FindIdx s.ShootingEnemies) with
  | none => some s
  | some ShootingIdx =>
    (s.ShootingEnemies[ShootingIdx]?).bind fun NewIdx =>
    (FindNextVisible s.EnemyShips s.Rules.EnemiesInRow s.InvadersGameState.TotalEnemyNum
      (s.InvadersGameState.TotalEnemyNum + 1) (NewIdx + s.Rules.EnemiesInRow)
      (s.ShootingEnemies.eraseIdx ShootingIdx)).bind fun Sh =>
    some { s with ShootingEnemies := Sh }

/-- The `if (UnitActor)` block of `UpdatePlayerBullets`, up to the sound.
`InvadersGameState.Score += EnemyPointMap[...]` is an addition of `int32`. -/
def PlayerBulletHit (Rand : ℚ) (UnitActor : ActorRef) (s : AInvadersGameMode) :
    Option AInvadersGameMode :=
  if UnitActor.IsAsteroid then AsteroidHit UnitActor s
  else
    (Deref s UnitActor).bind fun U =>
    (DeactivateUnit s UnitActor).bind fun s1 =>
    (MapFind s1.EnemyPointMap U.Class).bind fun Points =>
    let s2 := { s1 with InvadersGameState :=
      { s1.InvadersGameState with
        Score := Int32Add s1.InvadersGameState.Score Points } }
    if UnitActor.IsUfo then
      some { s2 with
        InvadersGameState := { s2.InvadersGameState with UfoProgTime := 0 }
        UfoAppearTHandle := SetTimer Rand false }
    else
      ReorganizeShooters UnitActor { s2 with InvadersGameState :=
        { s2.InvadersGameState with ActiveEnemyNum := s2.InvadersGameState.ActiveEnemyNum - 1 } }

/-- The `if (DeleteBullet)` block of both loops on a pool and its active count:
hide the last active bullet, move the bullet at `BulletRIdx` to its location,
decrement the count. -/
def DeleteBullet (Bullets : List AActor) (Active : Int) (BulletRIdx : Nat) :
    Option (List AActor × Int) :=
  (getAt Bullets (Active - 1)).bind fun LastBullet =>
  ((Bullets.set (Active - 1).toNat LastBullet.deactivate)[BulletRIdx]?).bind fun BulletActor =>
  some ((Bullets.set (Active - 1).toNat LastBullet.deactivate).set BulletRIdx
    (BulletActor.SetActorLocation LastBullet.Location), Active - 1)

/-- The "All enemies killed" block at the end of each iteration of `UpdatePlayerBullets`. -/
def AllEnemiesKilled (s : AInvadersGameMode) : AInvadersGameMode :=
  if !IsTimerActive s.EnemyAppearTHandle && s.InvadersGameState.ActiveEnemyNum == 0 then
    { s with
      InvadersGameState := { s.InvadersGameState with
        CurrentLevel := s.InvadersGameState.CurrentLevel + 1
        EnemyProgTime := 0 }
      EnemyAppearTHandle := SetTimer 3 false }
  else s

/-- The player bullet in slot `BulletRIdx` after `Pos[1] -= Velocity * DeltaSeconds`. -/
def MovePlayerBullet (DeltaSeconds : ℚ) (s : AInvadersGameMode) (BulletActor : AActor) : AActor :=
  BulletActor.SetActorLocation { BulletActor.Location with
    Y := BulletActor.Location.Y - s.PlayerBulletDef.Velocity * DeltaSeconds }

/-- `UnitActor` of `UpdatePlayerBullets`: the first overlapping actor when it has the tag
"IsEnemy", otherwise `nullptr`. -/
def PlayerUnitActor (inp : FTickInput) (BulletRIdx : Nat) : Option ActorRef :=
  match inp.PlayerOverlap BulletRIdx with
  | some A => if A.IsEnemy then some A else none
  | none => none

/-- The `if (UnitActor)` and `if (PlaySound)` blocks of `UpdatePlayerBullets`. -/
def PlayerBulletUnit (Rand : ℚ) (UnitActor : Option ActorRef) (s : AInvadersGameMode) :
    Option AInvadersGameMode :=
  match UnitActor with
  | some U =>
    (PlayerBulletHit Rand U s).bind fun t =>
    some { t with Events := t.Events ++ [Event.PlaySoundAtLocation] }
  | none => some s

/-- The `if (DeleteBullet)` block of `UpdatePlayerBullets`. -/
def DeletePlayerBullet (Delete : Bool) (BulletRIdx : Nat) (s : AInvadersGameMode) :
    Option AInvadersGameMode :=
  if Delete then
    (DeleteBullet s.PlayerBullets s.InvadersGameState.ActivePlayerBullets BulletRIdx).bind fun r =>
    some { s with
      PlayerBullets := r.1
      InvadersGameState := { s.InvadersGameState with ActivePlayerBullets := r.2 } }
  else some s

/-- One iteration of the loop of `UpdatePlayerBullets`, for the bullet in slot `BulletRIdx`.
The out-of-bounds test reads the advanced position narrowed to `float BulletDist`. -/
def PlayerBulletBody (DeltaSeconds : ℚ) (inp : FTickInput) (BulletRIdx : Nat)
    (s : AInvadersGameMode) : Option AInvadersGameMode :=
  (s.PlayerBullets[BulletRIdx]?).bind fun BulletActor =>
  let Moved := MovePlayerBullet DeltaSeconds s BulletActor
  let BulletDist := ToFloat Moved.Location.Y
  let UnitActor := PlayerUnitActor inp BulletRIdx
  let Delete : Bool := decide (BulletDist < -500) || UnitActor.isSome
  (PlayerBulletUnit inp.UfoAppearTime UnitActor
    { s with PlayerBullets := s.PlayerBullets.set BulletRIdx Moved }).bind fun s1 =>
  (DeletePlayerBullet Delete BulletRIdx s1).bind fun s2 =>
  some (AllEnemiesKilled s2)

/-- The loop of `UpdatePlayerBullets` over the slots `n - 1, ..., 0`. -/
def PlayerBulletLoop (DeltaSeconds : ℚ) (inp : FTickInput) :
    Nat → AInvadersGameMode → Option AInvadersGameMode
  | 0, s => some s
  | n + 1, s => (PlayerBulletBody DeltaSeconds inp n s).bind (PlayerBulletLoop DeltaSeconds inp n)

/-- `AInvadersGameMode::UpdatePlayerBullets`. -/
def UpdatePlayerBullets (DeltaSeconds : ℚ) (inp : FTickInput) (s : AInvadersGameMode) :
    Option AInvadersGameMode :=
  PlayerBulletLoop DeltaSeconds inp s.InvadersGameState.ActivePlayerBullets.toNat s

/-- The enemy bullet in slot `BulletRIdx` after `Pos[1] += Velocity * DeltaSeconds`. -/
def MoveEnemyBullet (DeltaSeconds : ℚ) (s : AInvadersGameMode) (BulletActor : AActor) : AActor :=
  BulletActor.SetActorLocation { BulletActor.Location with
    Y := BulletActor.Location.Y + s.EnemyBulletDef.Velocity * DeltaSeconds }

/-- Whether the overlap of an enemy bullet sets `DeleteBullet` (and `PlaySound`): the first
overlapping actor is an asteroid or the player. -/
def EnemyBulletHits (Overlap : Option ActorRef) : Bool :=
  match Overlap with
  | some Actor => Actor.IsAsteroid || Actor.IsPlayer
  | none => false

/-- The `if (OverlappedActors.Num() > 0)` and `if (PlaySound)` blocks of `UpdateEnemyBullets`. -/
def EnemyBulletUnit (Overlap : Option ActorRef) (s : AInvadersGameMode) :
    Option AInvadersGameMode :=
  match Overlap with
  | some Actor =>
    if Actor.IsAsteroid then
      (AsteroidHit Actor s).bind fun t =>
      some { t with Events := t.Events ++ [Event.PlaySoundAtLocation] }
    else if Actor.IsPlayer then
      some { HandlePlayerHit s with
        Events := (HandlePlayerHit s).Events ++ [Event.PlaySoundAtLocation] }
    else some s
  | none => some s

/-- The `if (DeleteBullet)` block of `UpdateEnemyBullets`. -/
def DeleteEnemyBullet (Delete : Bool) (BulletRIdx : Nat) (s : AInvadersGameMode) :
    Option AInvadersGameMode :=
  if Delete then
    (DeleteBullet s.EnemyBullets s.InvadersGameState.ActiveEnemyBullets BulletRIdx).bind fun r =>
    some { s with
      EnemyBullets := r.1
      InvadersGameState := { s.InvadersGameState with ActiveEnemyBullets := r.2 } }
  else some s

/-- One iteration of the loop of `UpdateEnemyBullets`, for the bullet in slot `BulletRIdx`.
The out-of-bounds test reads the advanced position narrowed to `float BulletDist`. -/
def EnemyBulletBody (DeltaSeconds : ℚ) (inp : FTickInput) (BulletRIdx : Nat)
    (s : AInvadersGameMode) : Option AInvadersGameMode :=
  (s.EnemyBullets[BulletRIdx]?).bind fun BulletActor =>
  let Moved := MoveEnemyBullet DeltaSeconds s BulletActor
  let BulletDist := ToFloat Moved.Location.Y
  let Delete : Bool := decide (BulletDist > 500) || EnemyBulletHits (inp.EnemyOverlap BulletRIdx)
  (EnemyBulletUnit (inp.EnemyOverlap BulletRIdx)
    { s with EnemyBullets := s.EnemyBullets.set BulletRIdx Moved }).bind fun s1 =>
  DeleteEnemyBullet Delete BulletRIdx s1

/-- The loop of `UpdateEnemyBullets` over the slots `n - 1, ..., 0`. -/
def EnemyBulletLoop (DeltaSeconds : ℚ) (inp : FTickInput) :
    Nat → AInvadersGameMode → Option AInvadersGameMode
  | 0, s => some s
  | n + 1, s => (EnemyBulletBody DeltaSeconds inp n s).bind (EnemyBulletLoop DeltaSeconds inp n)

/-- `AInvadersGameMode::UpdateEnemyBullets`. -/
def UpdateEnemyBullets (DeltaSeconds : ℚ) (inp : FTickInput) (s : AInvadersGameMode) :
    Option AInvadersGameMode :=
  EnemyBulletLoop DeltaSeconds inp s.InvadersGameState.ActiveEnemyBullets.toNat s

/-- `AInvadersGameMode::Tick`. -/
def Tick (DeltaSeconds : ℚ) (inp : FTickInput) (s : AInvadersGameMode) :
    Option AInvadersGameMode :=
  if s.PauseMenuInViewport || !s.InvadersGameState.LevelStarted then some s
  else
    let s1 := UpdateEnemyAppearAnimation DeltaSeconds s
    let s2 := UpdatePlayerAppearAnimation DeltaSeconds s1
    let s3 := UpdatePlayerMovement DeltaSeconds inp s2
    let s4 := UpdateEnemyGroupMovement DeltaSeconds s3
    let s5 := UpdateUfoMovement DeltaSeconds inp.UfoAppearTime s4
    (UpdatePlayerBullets DeltaSeconds inp s5).bind (UpdateEnemyBullets DeltaSeconds inp)

/-! ## Timer callbacks and input handlers -/

/-- The `if (ActiveEnemyBullets < MAX_BULLETS)` block of `EnemyShootTimerCallback`: the
enemy `ShootingEnemies[Rand]` fires the next free bullet of the pool. -/
def EnemyShoot (Rand : Nat) (s : AInvadersGameMode) : Option AInvadersGameMode :=
  if s.InvadersGameState.ActiveEnemyBullets < (MAX_BULLETS : Int) then
    (s.ShootingEnemies[Rand]?).bind fun Idx =>
    (s.EnemyShips[Idx]?).bind fun EnemyActor =>
    (getAt s.EnemyBullets s.InvadersGameState.ActiveEnemyBullets).bind fun Bullet =>
    some { s with
      EnemyBullets := s.EnemyBullets.set s.InvadersGameState.ActiveEnemyBullets.toNat
        (Bullet.SetActorLocation (s.EnemyShipGroup.add EnemyActor.Location)).activate
      InvadersGameState := { s.InvadersGameState with
        ActiveEnemyBullets := s.InvadersGameState.ActiveEnemyBullets + 1 } }
  else some s

/-- `AInvadersGameMode::EnemyShootTimerCallback`; `Rand` is the value of
`FMath::RandRange(0, ShootingEnemies.Num() - 1)`. -/
def EnemyShootTimerCallback (Rand : Nat) (s : AInvadersGameMode) : Option AInvadersGameMode :=
  if !s.PauseMenuInViewport then
    if s.ShootingEnemies.length == 0 then some s
    else
      (EnemyShoot Rand s).bind fun s1 =>
      some { s1 with EnemyShootTHandle := SetTimer s1.Rules.EnemyShootFrequency false }
  else some s

/-- `AInvadersGameMode::PlayerShootTimerCallback`. -/
def PlayerShootTimerCallback (s : AInvadersGameMode) : Option AInvadersGameMode :=
  if !s.PauseMenuInViewport then
    if !s.IsPlayerShooting then some { s with PlayerShootTHandle := none }
    else if s.InvadersGameState.ActivePlayerBullets < (MAX_BULLETS : Int) then
      (getAt s.PlayerBullets s.InvadersGameState.ActivePlayerBullets).bind fun Bullet =>
      some { s with
        PlayerBullets := s.PlayerBullets.set s.InvadersGameState.ActivePlayerBullets.toNat
          (Bullet.SetActorLocation s.PlayerShip.Location).activate
        InvadersGameState := { s.InvadersGameState with
          ActivePlayerBullets := s.InvadersGameState.ActivePlayerBullets + 1 } }
    else some s
  else some s

/-- `AInvadersGameMode::HandlePlayerShootPressed`. -/
def HandlePlayerShootPressed (s : AInvadersGameMode) : Option AInvadersGameMode :=
  let s1 := if !s.PlayerShip.Hidden then { s with IsPlayerShooting := true } else s
  if !IsTimerActive s1.PlayerShootTHandle then
    PlayerShootTimerCallback
      { s1 with PlayerShootTHandle := SetTimer s1.PlayerDef.ShootFrequency true }
  else some s1

/-- `AInvadersGameMode::HandlePlayerShootReleased`. -/
def HandlePlayerShootReleased (s : AInvadersGameMode) : AInvadersGameMode :=
  if !s.PlayerShip.Hidden then { s with IsPlayerShooting := false } else s

/-- `AInvadersGameMode::UfoAppearCallback`; `Rand` is the value `FMath::RandRange` returns. -/
def UfoAppearCallback (Rand : ℚ) (s : AInvadersGameMode) : AInvadersGameMode :=
  UpdateUfoMovement 0 Rand { s with UfoShip := s.UfoShip.activate }

/-! ## Initialisation -/

/-- `World->SpawnActor<AActor>(Class)`: a visible, collidable actor at the origin. -/
def SpawnActor (Class : Nat) : AActor := ⟨Class, ⟨0, 0, 0⟩, false, true⟩

/-- The game mode object before `InitGame`: the editable properties as given, the
stored high score (if a save exists), every other member empty or zero. -/
def NewGameMode (Rules : FGameRules) (PlayerDef : FPlayerDef) (EnemyDefs : List FEnemyDef)
    (EnemySpawnPoint UfoSpawnPoint : FVector) (AsteroidDef : FAsteroidDef)
    (PlayerBulletDef EnemyBulletDef : FBulletDef) (SaveSlot : Option Nat) : AInvadersGameMode where
  Rules := Rules
  PlayerDef := PlayerDef
  EnemyDefs := EnemyDefs
  EnemySpawnPoint := EnemySpawnPoint
  UfoSpawnPoint := UfoSpawnPoint
  AsteroidDef := AsteroidDef
  PlayerBulletDef := PlayerBulletDef
  EnemyBulletDef := EnemyBulletDef
  InvadersGameState := ⟨false, 0, 0, 0, 0, 0, 0, 0, 0, 0, 0, 0, 0, 0⟩
  PlayerShip := SpawnActor 0
  UfoShip := SpawnActor 0
  EnemyShips := []
  EnemyShipGroup := ⟨0, 0, 0⟩
  PlayerMovement := 0
  IsPlayerShooting := false
  ShootingEnemies := []
  PlayerBullets := []
  EnemyBullets := []
  Asteroids := []
  AsteroidHP := []
  EnemyPointMap := []
  EnemyShootTHandle := none
  PlayerShootTHandle := none
  UfoAppearTHandle := none
  EnemyAppearTHandle := none
  PlayerAppearTHandle := none
  GameOverInViewport := false
  MainMenuInViewport := false
  PauseMenuInViewport := false
  TutorialMenuInViewport := false
  TickEnabled := true
  SaveSlot := SaveSlot
  Events := []

/-- `AInvadersGameMode::InitGame`. -/
def InitGame (s : AInvadersGameMode) : AInvadersGameMode :=
  let EnemyNum := s.Rules.EnemiesInRow * s.Rules.EnemiesInColumn
  { s with InvadersGameState :=
      ⟨false, 0, 0, 0, 0, EnemyNum, EnemyNum, 0, 0, 0, s.PlayerDef.Lives, 0, 0, 0⟩ }

/-- The index into `EnemyDefs` in the enemy instancing loop of `InitGameObjects`:
`int(Col) * (Types / Rules.EnemiesInColumn)` with `float Types = EnemyDefs.Num() - 1`. The
`int` operands are converted to `float`, quotient and product are `float` operations, and
the product is truncated to the `int` index of `operator[]`. -/
def EnemyDefIndex (EnemiesInColumn NumDefs : Nat) (Col : ℚ) : Int :=
  TruncToInt (ToFloat (ToFloat (TruncToInt Col : ℚ) *
    ToFloat (ToFloat ((((NumDefs : Int) - 1 : Int)) : ℚ) / ToFloat (EnemiesInColumn : ℚ))))

/-- The `float Col` of the enemy instancing loop for the index `Idx` (the `float` loop
counter, exact up to `2^24`): the integer part of the `float` quotient
`Idx / Rules.EnemiesInRow`. -/
def FloatCol (EnemiesInRow Idx : Nat) : ℚ :=
  (Modf (ToFloat ((Idx : ℚ) / ToFloat (EnemiesInRow : ℚ)))).2

/-- The body of the enemy instancing loop of `InitGameObjects` for the index `Idx`. The
location, relative to `EnemyShipGroup`, is computed in exact arithmetic; the enemy
definition is read at the index that the `float` operations of the code give. -/
def SpawnEnemy (s : AInvadersGameMode) (Idx : Nat) : Option AActor :=
  let RowWidth : ℚ := (TruncToInt (s.Rules.EnemySpread * s.Rules.EnemiesInRow) : ℚ)
  let m := Modf ((Idx : ℚ) / s.Rules.EnemiesInRow)
  let Col := m.2
  let Row := m.1
  let EnemyLocStart : FVector := ⟨RowWidth * Row - RowWidth * (1 / 2), -s.Rules.EnemySpread * Col, 0⟩
  (getAt s.EnemyDefs
    (EnemyDefIndex s.Rules.EnemiesInColumn s.EnemyDefs.length
      (FloatCol s.Rules.EnemiesInRow Idx))).bind fun EDef =>
  some ((SpawnActor EDef.ShipClass).SetActorLocation EnemyLocStart)

/-- The enemy instancing loop of `InitGameObjects`, for the indices below `n`. -/
def SpawnEnemyShips (s : AInvadersGameMode) : Nat → Option (List AActor)
  | 0 => some []
  | n + 1 =>
    (SpawnEnemyShips s n).bind fun l =>
    (SpawnEnemy s n).bind fun E =>
    some (l ++ [E])

/-- `AInvadersGameMode::InitGameObjects`; a failed `check` or array access is `none`. -/
def InitGameObjects (s : AInvadersGameMode) : Option AInvadersGameMode :=
  if ¬ (s.EnemyDefs.length > 2) then none
  else
  (SpawnEnemyShips s s.InvadersGameState.TotalEnemyNum).bind fun Ships =>
  (s.EnemyDefs.getLast?).bind fun Top =>
  let Spread : ℚ := s.Rules.SideMovementAmount * 4 / 3
  let Asteroids := (List.range 4).map fun Idx =>
    (SpawnActor s.AsteroidDef.AsteroidClass).SetActorLocation
      (s.AsteroidDef.SpawnPoint.add ⟨(Idx : ℚ) * Spread - s.Rules.SideMovementAmount * 2, 0, 0⟩)
  some (ResetUnits { s with
    PlayerShip := SpawnActor s.PlayerDef.ShipClass
    EnemyShipGroup := ⟨0, 0, 0⟩
    EnemyShips := s.EnemyShips ++ Ships
    UfoShip := SpawnActor Top.ShipClass
    Asteroids := s.Asteroids ++ Asteroids
    EnemyBullets := s.EnemyBullets ++
      List.replicate MAX_BULLETS (SpawnActor s.EnemyBulletDef.BulletClass).deactivate
    PlayerBullets := s.PlayerBullets ++
      List.replicate MAX_BULLETS (SpawnActor s.PlayerBulletDef.BulletClass).deactivate })

/-- `AInvadersGameMode::StartPlay`. -/
def StartPlay (s : AInvadersGameMode) : Option AInvadersGameMode :=
  let Map := s.EnemyDefs.foldl (fun m Def => MapAdd m Def.ShipClass Def.Points) s.EnemyPointMap
  (InitGameObjects (LoadHiScore { s with EnemyPointMap := Map })).bind fun s2 =>
  some (ShowMainMenu s2)

/-! ## The game as a transition system -/

/-- The calls the engine makes into the game mode after `StartPlay`. -/
inductive Input where
  | Tick (DeltaSeconds : ℚ) (inp : FTickInput)
  | StartGameButton
  | TutorialShootPressed (Rand : ℚ)
  | RestartButton (Rand : ℚ)
  | ExitButton
  | ShootPressed
  | ShootReleased
  | EscapePressed
  | EnemyAppearTimer
  | PlayerAppearTimer
  | EnemyShootTimer (Rand : Nat)
  | PlayerShootTimer
  | UfoAppearTimer (Rand : ℚ)

/-- One call of the engine into the game mode. A button needs its widget in the
viewport, a timer callback needs its timer active, `Tick` needs ticking enabled;
`none` when the call cannot happen or an array access fails. -/
def Step (s : AInvadersGameMode) : Input → Option AInvadersGameMode
  | .Tick DeltaSeconds inp => if s.TickEnabled then Tick DeltaSeconds inp s else none
  | .StartGameButton => if s.MainMenuInViewport then some (ShowTutorialMenu s) else none
  | .TutorialShootPressed Rand =>
    if s.TutorialMenuInViewport then some (RestartInvadersGame Rand s) else none
  | .RestartButton Rand =>
    if s.GameOverInViewport || s.PauseMenuInViewport then some (RestartInvadersGame Rand s)
    else none
  | .ExitButton =>
    if s.GameOverInViewport || s.PauseMenuInViewport then some (ShowMainMenu s) else none
  | .ShootPressed => HandlePlayerShootPressed s
  | .ShootReleased => some (HandlePlayerShootReleased s)
  | .EscapePressed => some (HandleTogglePausePressed s)
  | .EnemyAppearTimer =>
    if IsTimerActive s.EnemyAppearTHandle then
      some (SpawnEnemies { s with EnemyAppearTHandle := afterFire s.EnemyAppearTHandle })
    else none
  | .PlayerAppearTimer =>
    if IsTimerActive s.PlayerAppearTHandle then
      some (SpawnPlayer { s with PlayerAppearTHandle := afterFire s.PlayerAppearTHandle })
    else none
  | .EnemyShootTimer Rand =>
    if IsTimerActive s.EnemyShootTHandle then
      EnemyShootTimerCallback Rand { s with EnemyShootTHandle := afterFire s.EnemyShootTHandle }
    else none
  | .PlayerShootTimer =>
    if IsTimerActive s.PlayerShootTHandle then
      PlayerShootTimerCallback { s with PlayerShootTHandle := afterFire s.PlayerShootTHandle }
    else none
  | .UfoAppearTimer Rand =>
    if IsTimerActive s.UfoAppearTHandle then
      some (UfoAppearCallback Rand { s with UfoAppearTHandle := afterFire s.UfoAppearTHandle })
    else none

/-- Runs a sequence of engine calls. -/
def Run (s : AInvadersGameMode) : List Input → Option AInvadersGameMode
  | [] => some s
  | i :: is => (Step s i).bind fun t => Run t is

/-- The states the game can be in: `StartPlay` of an initialised game mode, and
what engine calls make of them. -/
inductive Reachable : AInvadersGameMode → Prop where
  | start (Rules : FGameRules) (PlayerDef : FPlayerDef) (EnemyDefs : List FEnemyDef)
      (EnemySpawnPoint UfoSpawnPoint : FVector) (AsteroidDef : FAsteroidDef)
      (PlayerBulletDef EnemyBulletDef : FBulletDef) (SaveSlot : Option Nat)
      (s : AInvadersGameMode)
      (h : StartPlay (InitGame (NewGameMode Rules PlayerDef EnemyDefs EnemySpawnPoint
        UfoSpawnPoint AsteroidDef PlayerBulletDef EnemyBulletDef SaveSlot)) = some s) :
      Reachable s
  | step (s t : AInvadersGameMode) (i : Input) (hs : Reachable s) (h : Step s i = some t) :
      Reachable t

/-! ## Specification predicates -/

/-- The grid enemy in slot `Idx` exists and is not hidden. -/
def IsVisible (EnemyShips : List AActor) (Idx : Nat) : Bool :=
  match EnemyShips[Idx]? with
  | some E => !E.Hidden
  | none => false

/-- `j` is the front of its column: a visible grid enemy with no visible enemy of the
same column (same index modulo `EnemiesInRow`) at a smaller index. -/
def IsFront (EnemyShips : List AActor) (EnemiesInRow TotalEnemyNum j : Nat) : Prop :=
  j < TotalEnemyNum ∧ IsVisible EnemyShips j = true ∧
    ∀ k, k < j → k % EnemiesInRow = j % EnemiesInRow → IsVisible EnemyShips k = false

instance (EnemyShips : List AActor) (EnemiesInRow TotalEnemyNum j : Nat) :
    Decidable (IsFront EnemyShips EnemiesInRow TotalEnemyNum j) := by
  unfold IsFront; infer_instance

/-- The front invariant on the data it depends on. -/
def FrontInvL (EnemyShips : List AActor) (EnemiesInRow TotalEnemyNum : Nat)
    (ShootingEnemies : List Nat) : Prop :=
  ShootingEnemies.Nodup ∧
  (∀ j ∈ ShootingEnemies, IsFront EnemyShips EnemiesInRow TotalEnemyNum j) ∧
  (∀ j, j < TotalEnemyNum → IsFront EnemyShips EnemiesInRow TotalEnemyNum j → j ∈ ShootingEnemies)

instance (EnemyShips : List AActor) (EnemiesInRow TotalEnemyNum : Nat)
    (ShootingEnemies : List Nat) :
    Decidable (FrontInvL EnemyShips EnemiesInRow TotalEnemyNum ShootingEnemies) := by
  unfold FrontInvL; infer_instance

/-- The shooting front of a game mode is exactly the set of front-most visible enemies:
`ShootingEnemies` has no duplicates, each of its entries is the front of its column, and
the front of every column is an entry. -/
def FrontInv (s : AInvadersGameMode) : Prop :=
  FrontInvL s.EnemyShips s.Rules.EnemiesInRow s.InvadersGameState.TotalEnemyNum s.ShootingEnemies

/-- A relation between the state before and after that is kept by every block of `Tick`. -/
structure TickClosed (P : AInvadersGameMode → AInvadersGameMode → Prop) : Prop where
  refl : ∀ s, P s s
  trans : ∀ a b c, P a b → P b c → P a c
  enemyAnim : ∀ dt s, P s (UpdateEnemyAppearAnimation dt s)
  playerAnim : ∀ dt s, P s (UpdatePlayerAppearAnimation dt s)
  playerMove : ∀ dt inp s, P s (UpdatePlayerMovement dt inp s)
  groupMove : ∀ dt s, P s (UpdateEnemyGroupMovement dt s)
  ufoMove : ∀ dt Rand s, P s (UpdateUfoMovement dt Rand s)
  playerBullets : ∀ (s : AInvadersGameMode) (Bs : List AActor),
    Bs.length = s.PlayerBullets.length → P s { s with PlayerBullets := Bs }
  enemyBullets : ∀ (s : AInvadersGameMode) (Bs : List AActor),
    Bs.length = s.EnemyBullets.length → P s { s with EnemyBullets := Bs }
  asteroid : ∀ (s : AInvadersGameMode) (As : List AActor) (HPs : List Int),
    As.length = s.Asteroids.length → P s { s with Asteroids := As, AsteroidHP := HPs }
  ufoKill : ∀ (s : AInvadersGameMode) (Points : Int) (h : Option FTimer),
    P s { s with
      UfoShip := s.UfoShip.deactivate
      InvadersGameState := { s.InvadersGameState with
        Score := Int32Add s.InvadersGameState.Score Points
        UfoProgTime := 0 }
      UfoAppearTHandle := h }
  enemyKill : ∀ (s t : AInvadersGameMode) (i : Nat) (E : AActor) (Points : Int),
    s.EnemyShips[i]? = some E →
    ReorganizeShooters (.Enemy i)
      { s with
        EnemyShips := s.EnemyShips.set i E.deactivate
        InvadersGameState := { s.InvadersGameState with
          Score := Int32Add s.InvadersGameState.Score Points
          ActiveEnemyNum := s.InvadersGameState.ActiveEnemyNum - 1 } } = some t →
    P s t
  sound : ∀ (s : AInvadersGameMode) (e : Event), P s { s with Events := s.Events ++ [e] }
  playerDelete : ∀ (s : AInvadersGameMode) (Bs : List AActor),
    Bs.length = s.PlayerBullets.length →
    1 ≤ s.InvadersGameState.ActivePlayerBullets →
    s.InvadersGameState.ActivePlayerBullets ≤ s.PlayerBullets.length →
    P s { s with
      PlayerBullets := Bs
      InvadersGameState := { s.InvadersGameState with
        ActivePlayerBullets := s.InvadersGameState.ActivePlayerBullets - 1 } }
  enemyDelete : ∀ (s : AInvadersGameMode) (Bs : List AActor),
    Bs.length = s.EnemyBullets.length →
    1 ≤ s.InvadersGameState.ActiveEnemyBullets →
    s.InvadersGameState.ActiveEnemyBullets ≤ s.EnemyBullets.length →
    P s { s with
      EnemyBullets := Bs
      InvadersGameState := { s.InvadersGameState with
        ActiveEnemyBullets := s.InvadersGameState.ActiveEnemyBullets - 1 } }
  allKilled : ∀ s, P s (AllEnemiesKilled s)
  playerHit : ∀ s, P s (HandlePlayerHit s)

/-- A relation between the state before and after that is kept by every engine call
except the two that reset the units (`RestartInvadersGame`, `ShowMainMenu`). -/
structure StepClosed (P : AInvadersGameMode → AInvadersGameMode → Prop)
    extends TickClosed P : Prop where
  tutorial : ∀ s, P s (ShowTutorialMenu s)
  shootPressed : ∀ s t, HandlePlayerShootPressed s = some t → P s t
  shootReleased : ∀ s, P s (HandlePlayerShootReleased s)
  togglePause : ∀ s, P s (HandleTogglePausePressed s)
  fired : ∀ (s : AInvadersGameMode) (a b c d e : Option FTimer),
    P s { s with
      EnemyShootTHandle := a
      PlayerShootTHandle := b
      UfoAppearTHandle := c
      EnemyAppearTHandle := d
      PlayerAppearTHandle := e }
  spawnEnemies : ∀ s, P s (SpawnEnemies s)
  spawnPlayer : ∀ s, P s (SpawnPlayer s)
  enemyShoot : ∀ Rand s t, EnemyShootTimerCallback Rand s = some t → P s t
  playerShoot : ∀ s t, PlayerShootTimerCallback s = some t → P s t
  ufoAppear : ∀ Rand s, P s (UfoAppearCallback Rand s)

/-- The engine calls that run `ResetUnits`. -/
def Input.Resets : Input → Bool
  | .TutorialShootPressed _ => true
  | .RestartButton _ => true
  | .ExitButton => true
  | _ => false

/-- Both active counts are within `[0, MAX_BULLETS]`. -/
def BulletsWithinCapacity (s : AInvadersGameMode) : Prop :=
  0 ≤ s.InvadersGameState.ActivePlayerBullets ∧
  s.InvadersGameState.ActivePlayerBullets ≤ (MAX_BULLETS : Int) ∧
  0 ≤ s.InvadersGameState.ActiveEnemyBullets ∧
  s.InvadersGameState.ActiveEnemyBullets ≤ (MAX_BULLETS : Int)

instance (s : AInvadersGameMode) : Decidable (BulletsWithinCapacity s) := by
  unfold BulletsWithinCapacity; infer_instance

/-- Neither active count grows. -/
def CountsNotGrown (s t : AInvadersGameMode) : Prop :=
  t.InvadersGameState.ActivePlayerBullets ≤ s.InvadersGameState.ActivePlayerBullets ∧
  t.InvadersGameState.ActiveEnemyBullets ≤ s.InvadersGameState.ActiveEnemyBullets

/-- The capacity bounds of the state before carry over to the state after. -/
def CapacityKept (s t : AInvadersGameMode) : Prop :=
  BulletsWithinCapacity s → BulletsWithinCapacity t

/-- The grid is well formed: `TotalEnemyNum` is the product of the grid dimensions and
`EnemyShips` has that many slots. -/
def GridWF (s : AInvadersGameMode) : Prop :=
  s.InvadersGameState.TotalEnemyNum = s.Rules.EnemiesInRow * s.Rules.EnemiesInColumn ∧
  s.EnemyShips.length = s.InvadersGameState.TotalEnemyNum

instance (s : AInvadersGameMode) : Decidable (GridWF s) := by
  unfold GridWF; infer_instance

instance (s : AInvadersGameMode) : Decidable (FrontInv s) := by
  unfold FrontInv; infer_instance

/-- The rules, the number of enemies and the number of enemy slots stay as they are. -/
def GridSame (s t : AInvadersGameMode) : Prop :=
  t.Rules = s.Rules ∧
  t.InvadersGameState.TotalEnemyNum = s.InvadersGameState.TotalEnemyNum ∧
  t.EnemyShips.length = s.EnemyShips.length

/-- A well-formed grid with an exact front stays so. -/
def FrontKept (s t : AInvadersGameMode) : Prop :=
  GridWF s ∧ FrontInv s → GridWF t ∧ FrontInv t

/-- The states of a wave: those reached by the enemy-appear timer (`SpawnEnemies`) from a
reachable state, and by engine calls that do not run `ResetUnits` from there. -/
inductive InWave : AInvadersGameMode → Prop where
  | spawn (s t : AInvadersGameMode) (hs : Reachable s)
      (h : Step s .EnemyAppearTimer = some t) : InWave t
  | step (s t : AInvadersGameMode) (i : Input) (hs : InWave s) (hi : i.Resets = false)
      (h : Step s i = some t) : InWave t

/-- `ShootingEnemies` holds at most one index per column: no duplicates, and no two
entries congruent modulo `EnemiesInRow`. -/
def OnePerColumn (s : AInvadersGameMode) : Prop :=
  s.ShootingEnemies.Nodup ∧
  ∀ a ∈ s.ShootingEnemies, ∀ b ∈ s.ShootingEnemies,
    a % s.Rules.EnemiesInRow = b % s.Rules.EnemiesInRow → a = b

/-- A well-formed grid with at most one front index per column stays so. -/
def OnePerColumnKept (s t : AInvadersGameMode) : Prop :=
  GridWF s ∧ OnePerColumn s → GridWF t ∧ OnePerColumn t

/-- The level is raised at most once, and not at all while the enemy-appear timer is
active; an active timer stays active. -/
def LevelRel (s t : AInvadersGameMode) : Prop :=
  (IsTimerActive s.EnemyAppearTHandle = true →
    t.InvadersGameState.CurrentLevel = s.InvadersGameState.CurrentLevel ∧
    t.EnemyAppearTHandle = s.EnemyAppearTHandle) ∧
  (t.InvadersGameState.CurrentLevel = s.InvadersGameState.CurrentLevel ∨
    (t.InvadersGameState.CurrentLevel = s.InvadersGameState.CurrentLevel + 1 ∧
      IsTimerActive t.EnemyAppearTHandle = true)) ∧
  t.InvadersGameState.LevelStarted = s.InvadersGameState.LevelStarted ∧
  t.PauseMenuInViewport = s.PauseMenuInViewport

/-- While the level runs, the next spawn is scheduled: the enemy-appear timer exists, and
it is paused only while the pause menu is shown. -/
def SpawnPending (s : AInvadersGameMode) : Prop :=
  s.InvadersGameState.LevelStarted = true →
    ∃ tm, s.EnemyAppearTHandle = some tm ∧ (s.PauseMenuInViewport = false → tm.Paused = false)

/-- The engine call that fires the enemy-appear timer. -/
def Input.IsEnemyAppear : Input → Bool
  | .EnemyAppearTimer => true
  | _ => false

/-- The level and the spawn schedule across the loop of `UpdatePlayerBullets`: the enemy
count does not grow, and either nothing of the schedule changed or the wave was completed
once, from a state whose enemy-appear timer was not active, with the enemy count going
from a value `≥ 0` to a value `≤ 0`. -/
def WaveRel (s t : AInvadersGameMode) : Prop :=
  t.InvadersGameState.ActiveEnemyNum ≤ s.InvadersGameState.ActiveEnemyNum ∧
  ((t.InvadersGameState.CurrentLevel = s.InvadersGameState.CurrentLevel ∧
      t.InvadersGameState.EnemyProgTime = s.InvadersGameState.EnemyProgTime ∧
      t.EnemyAppearTHandle = s.EnemyAppearTHandle) ∨
    (IsTimerActive s.EnemyAppearTHandle = false ∧
      0 ≤ s.InvadersGameState.ActiveEnemyNum ∧ t.InvadersGameState.ActiveEnemyNum ≤ 0 ∧
      t.InvadersGameState.CurrentLevel = s.InvadersGameState.CurrentLevel + 1 ∧
      t.InvadersGameState.EnemyProgTime = 0 ∧
      t.EnemyAppearTHandle = some ⟨3, false, false⟩))

/-- The editable properties, the point map and the sizes of the pools stay as they are. -/
def ConfigSame (s t : AInvadersGameMode) : Prop :=
  t.Rules = s.Rules ∧ t.PlayerDef = s.PlayerDef ∧ t.EnemyDefs = s.EnemyDefs ∧
  t.AsteroidDef = s.AsteroidDef ∧ t.PlayerBulletDef = s.PlayerBulletDef ∧
  t.EnemyBulletDef = s.EnemyBulletDef ∧ t.EnemyPointMap = s.EnemyPointMap ∧
  t.PlayerBullets.length = s.PlayerBullets.length ∧
  t.EnemyBullets.length = s.EnemyBullets.length ∧
  t.Asteroids.length = s.Asteroids.length

/-- The score is the same. -/
def ScoreSame (s t : AInvadersGameMode) : Prop :=
  t.InvadersGameState.Score = s.InvadersGameState.Score

/-- The points of the last definition with the ship class `c`: what `StartPlay` maps the
class to (`TMap::Add` replaces the entry of an earlier definition with the same class). -/
def DefPoints (EnemyDefs : List FEnemyDef) (c : Nat) : Option Int :=
  (EnemyDefs.reverse.find? fun d => d.ShipClass == c).map fun d => d.Points

/-- The asteroid in slot `k` is hit `n` times in a row. -/
def AsteroidHits (k : Nat) : Nat → AInvadersGameMode → Option AInvadersGameMode
  | 0, s => some s
  | n + 1, s => (AsteroidHit (.Asteroid k) s).bind (AsteroidHits k n)

/-- The number of enemy slots that are not hidden. -/
def VisibleCount (EnemyShips : List AActor) : Nat := EnemyShips.countP fun a => !a.Hidden

/-- The overlap reports nothing, or a unit that exists and is visible and collidable. -/
def OverlapVisible (s : AInvadersGameMode) : Option ActorRef → Bool
  | some U =>
    match Deref s U with
    | some a => !a.Hidden && a.Collision
    | none => false
  | none => true

/-- Along the loop of `UpdatePlayerBullets` over the slots `n - 1, ..., 0`, the overlap of
each bullet reports only a unit that is visible and collidable when its iteration starts. -/
def PlayerOverlapsVisible (DeltaSeconds : ℚ) (inp : FTickInput) :
    Nat → AInvadersGameMode → Bool
  | 0, _ => true
  | n + 1, s =>
    OverlapVisible s (inp.PlayerOverlap n) &&
      match PlayerBulletBody DeltaSeconds inp n s with
      | some u => PlayerOverlapsVisible DeltaSeconds inp n u
      | none => true

/-- The state in which `Tick` calls `UpdatePlayerBullets`. -/
def BeforePlayerBullets (DeltaSeconds : ℚ) (inp : FTickInput) (s : AInvadersGameMode) :
    AInvadersGameMode :=
  UpdateUfoMovement DeltaSeconds inp.UfoAppearTime
    (UpdateEnemyGroupMovement DeltaSeconds
      (UpdatePlayerMovement DeltaSeconds inp
        (UpdatePlayerAppearAnimation DeltaSeconds (UpdateEnemyAppearAnimation DeltaSeconds s))))

/-- The engine call feeds in overlaps of visible and collidable units only: for a tick that
is not gated, along the loop of `UpdatePlayerBullets`. -/
def Input.OverlapsVisible (s : AInvadersGameMode) : Input → Bool
  | .Tick DeltaSeconds inp =>
    s.PauseMenuInViewport || !s.InvadersGameState.LevelStarted ||
      PlayerOverlapsVisible DeltaSeconds inp
        (BeforePlayerBullets DeltaSeconds inp s).InvadersGameState.ActivePlayerBullets.toNat
        (BeforePlayerBullets DeltaSeconds inp s)
  | _ => true

/-- The states the game can be in when every overlap reports a visible and collidable
unit. -/
inductive ReachableVisible : AInvadersGameMode → Prop where
  | start (Rules : FGameRules) (PlayerDef : FPlayerDef) (EnemyDefs : List FEnemyDef)
      (EnemySpawnPoint UfoSpawnPoint : FVector) (AsteroidDef : FAsteroidDef)
      (PlayerBulletDef EnemyBulletDef : FBulletDef) (SaveSlot : Option Nat)
      (s : AInvadersGameMode)
      (h : StartPlay (InitGame (NewGameMode Rules PlayerDef EnemyDefs EnemySpawnPoint
        UfoSpawnPoint AsteroidDef PlayerBulletDef EnemyBulletDef SaveSlot)) = some s) :
      ReachableVisible s
  | step (s t : AInvadersGameMode) (i : Input) (hs : ReachableVisible s)
      (hv : i.OverlapsVisible s = true) (h : Step s i = some t) : ReachableVisible t

/-- Runs a sequence of engine calls, as long as their overlaps report visible units only. -/
def RunVisible (s : AInvadersGameMode) : List Input → Option AInvadersGameMode
  | [] => some s
  | i :: is => if i.OverlapsVisible s then (Step s i).bind fun t => RunVisible t is else none

/-- The grid is well formed and the number of visible enemies is at most `ActiveEnemyNum`,
which is at most `TotalEnemyNum`. -/
def EnemyCountInv (s : AInvadersGameMode) : Prop :=
  GridWF s ∧ (VisibleCount s.EnemyShips : Int) ≤ s.InvadersGameState.ActiveEnemyNum ∧
  s.InvadersGameState.ActiveEnemyNum ≤ (s.InvadersGameState.TotalEnemyNum : Int)

/-- The grid, its rules and the enemy count stay as they are. -/
def EnemyCountSame (s t : AInvadersGameMode) : Prop :=
  t.Rules = s.Rules ∧ t.EnemyShips = s.EnemyShips ∧
  t.InvadersGameState.TotalEnemyNum = s.InvadersGameState.TotalEnemyNum ∧
  t.InvadersGameState.ActiveEnemyNum = s.InvadersGameState.ActiveEnemyNum

/-- The locations held by the slots `[a, b)` of a pool, as a multiset. -/
def Seg (l : List AActor) (a b : Nat) : Multiset FVector :=
  ((((l.take b).drop a).map AActor.Location : List FVector) : Multiset FVector)

/-- The effect of one loop iteration for the slot `n` on a pool and its active count: the
bullet of slot `n` is advanced by `mv`, and then either nothing else happens or the delete
step runs. -/
def PoolStep (mv : AActor → AActor) (n : Nat) (p q : List AActor × Int) : Prop :=
  ∃ B, p.1[n]? = some B ∧
    ((q.1 = p.1.set n (mv B) ∧ q.2 = p.2) ∨ DeleteBullet (p.1.set n (mv B)) p.2 n = some q)

/-- The loop invariant of a bullet loop that started on the pool `pool0` with count `A0`,
when the slots `n - 1, ..., 0` are still to be visited: the count is in `[n, A0]`, the slots
below `n` are untouched, the active slots are visible if they were so at the start, and the
locations in the active slots `[n, count)` are locations of start bullets of the slots
`[n, A0)`, each advanced once. -/
def PoolInv (mv : AActor → AActor) (pool0 : List AActor) (A0 : Int) (n : Nat)
    (p : List AActor × Int) : Prop :=
  (n : Int) ≤ p.2 ∧ p.2 ≤ A0 ∧ A0 ≤ pool0.length ∧ p.1.length = pool0.length ∧
  p.1.take n = pool0.take n ∧
  ((∀ a ∈ pool0.take A0.toNat, a.Hidden = false) →
    ∀ (j : Nat) (a : AActor), (j : Int) < p.2 → p.1[j]? = some a → a.Hidden = false) ∧
  Seg p.1 n p.2.toNat ≤ Seg (pool0.map mv) n A0.toNat

/-- The loop indices and the states in which the iterations of a reverse loop over the
slots `n - 1, ..., 0` start, up to the first iteration that fails. -/
def LoopTrace (Body : Nat → AInvadersGameMode → Option AInvadersGameMode) :
    Nat → AInvadersGameMode → List (Nat × AInvadersGameMode)
  | 0, _ => []
  | n + 1, s =>
    (n, s) :: match Body n s with
      | some u => LoopTrace Body n u
      | none => []

/-- Whether the iteration of `UpdatePlayerBullets` for the slot `r` sets `DeleteBullet`. -/
def PlayerDeleteFlag (dt : ℚ) (inp : FTickInput) (r : Nat) (s : AInvadersGameMode) : Bool :=
  match s.PlayerBullets[r]? with
  | some B =>
    decide (ToFloat (MovePlayerBullet dt s B).Location.Y < -500) ||
      (PlayerUnitActor inp r).isSome
  | none => false

/-- Whether the iteration of `UpdateEnemyBullets` for the slot `r` sets `DeleteBullet`. -/
def EnemyDeleteFlag (dt : ℚ) (inp : FTickInput) (r : Nat) (s : AInvadersGameMode) : Bool :=
  match s.EnemyBullets[r]? with
  | some B =>
    decide (ToFloat (MoveEnemyBullet dt s B).Location.Y > 500) ||
      EnemyBulletHits (inp.EnemyOverlap r)
  | none => false

/-- The loop invariant of `UpdatePlayerBullets` started in `s0`. -/
def PlayerLoopInv (dt : ℚ) (s0 : AInvadersGameMode) (n : Nat) (s : AInvadersGameMode) : Prop :=
  s.PlayerBulletDef = s0.PlayerBulletDef ∧
  PoolInv (MovePlayerBullet dt s0) s0.PlayerBullets s0.InvadersGameState.ActivePlayerBullets n
    (s.PlayerBullets, s.InvadersGameState.ActivePlayerBullets)

/-- The loop invariant of `UpdateEnemyBullets` started in `s0`. -/
def EnemyLoopInv (dt : ℚ) (s0 : AInvadersGameMode) (n : Nat) (s : AInvadersGameMode) : Prop :=
  s.EnemyBulletDef = s0.EnemyBulletDef ∧
  PoolInv (MoveEnemyBullet dt s0) s0.EnemyBullets s0.InvadersGameState.ActiveEnemyBullets n
    (s.EnemyBullets, s.InvadersGameState.ActiveEnemyBullets)

/-- The bullets in the active slots of both pools are visible. -/
def ActiveVisible (s : AInvadersGameMode) : Prop :=
  (∀ a ∈ s.PlayerBullets.take s.InvadersGameState.ActivePlayerBullets.toNat, a.Hidden = false) ∧
  (∀ a ∈ s.EnemyBullets.take s.InvadersGameState.ActiveEnemyBullets.toNat, a.Hidden = false)

/-- Both pools and their counts stay as they are. -/
def PoolsSame (s t : AInvadersGameMode) : Prop :=
  t.PlayerBullets = s.PlayerBullets ∧
  t.InvadersGameState.ActivePlayerBullets = s.InvadersGameState.ActivePlayerBullets ∧
  t.EnemyBullets = s.EnemyBullets ∧
  t.InvadersGameState.ActiveEnemyBullets = s.InvadersGameState.ActiveEnemyBullets

/-- The enemy pool and its count stay as they are. -/
def EnemyPoolSame (s t : AInvadersGameMode) : Prop :=
  t.EnemyBullets = s.EnemyBullets ∧
  t.InvadersGameState.ActiveEnemyBullets = s.InvadersGameState.ActiveEnemyBullets

/-- The player pool and its count stay as they are. -/
def PlayerPoolSame (s t : AInvadersGameMode) : Prop :=
  t.PlayerBullets = s.PlayerBullets ∧
  t.InvadersGameState.ActivePlayerBullets = s.InvadersGameState.ActivePlayerBullets

/-- The forward term `Clamp(RowFract * OscXYRatio, 0, 1)` at progress time `t`. -/
def ForwardTerm (LastRow : Int) (t : ℚ) : ℚ :=
  Clamp ((Modf (min ((t + 1 / 2) / 2) (LastRow : ℚ))).1 * 2) 0 1

/-- The iteration of `UpdatePlayerBullets` for the slot `r` takes the grid-enemy branch: the
bullet has a `UnitActor` that is neither an asteroid nor the ufo. -/
def GridEnemyHit (inp : FTickInput) (r : Nat) : Bool :=
  match PlayerUnitActor inp r with
  | some U => !U.IsAsteroid && !U.IsUfo
  | none => false

/-- The enemy bookkeeping stays as it is: `ActiveEnemyNum` and `ShootingEnemies`. -/
def BookkeepingSame (s t : AInvadersGameMode) : Prop :=
  t.InvadersGameState.ActiveEnemyNum = s.InvadersGameState.ActiveEnemyNum ∧
  t.ShootingEnemies = s.ShootingEnemies

/-- The frame of `UpdateEnemyBullets`: the enemy bookkeeping, the score and the level stay
as they are. -/
def EnemyLoopFrame (s t : AInvadersGameMode) : Prop :=
  t.InvadersGameState.ActiveEnemyNum = s.InvadersGameState.ActiveEnemyNum ∧
  t.ShootingEnemies = s.ShootingEnemies ∧
  t.InvadersGameState.Score = s.InvadersGameState.Score ∧
  t.InvadersGameState.CurrentLevel = s.InvadersGameState.CurrentLevel

/-- The grid is well formed and `ActiveEnemyNum` is the number of visible grid enemies. -/
def EnemyCountExact (s : AInvadersGameMode) : Prop :=
  GridWF s ∧ (VisibleCount s.EnemyShips : Int) = s.InvadersGameState.ActiveEnemyNum

/-- The states of a wave in which every overlap reported a visible and collidable unit:
those reached by the enemy-appear timer (`SpawnEnemies`) from a reachable state, and by
engine calls that do not run `ResetUnits` and feed in such overlaps from there. -/
inductive InWaveVisible : AInvadersGameMode → Prop where
  | spawn (s t : AInvadersGameMode) (hs : Reachable s)
      (h : Step s .EnemyAppearTimer = some t) : InWaveVisible t
  | step (s t : AInvadersGameMode) (i : Input) (hs : InWaveVisible s) (hi : i.Resets = false)
      (hv : i.OverlapsVisible s = true) (h : Step s i = some t) : InWaveVisible t

/-- The high score does not decrease, and `PrevHiScore ≤ HiScore` carries over. -/
def HiScoreRel (s t : AInvadersGameMode) : Prop :=
  s.InvadersGameState.HiScore ≤ t.InvadersGameState.HiScore ∧
  (s.InvadersGameState.PrevHiScore ≤ s.InvadersGameState.HiScore →
    t.InvadersGameState.PrevHiScore ≤ t.InvadersGameState.HiScore)

/-! ## Sample data -/

/-- Three enemy definitions (the last one is the ufo) with 10, 20 and 100 points. -/
def SampleDefs : List FEnemyDef := [⟨1, 11, 10⟩, ⟨2, 12, 20⟩, ⟨4, 14, 100⟩]

/-- A game mode object with the default rules, three lives and no stored high score. -/
def SampleMode (Rules : FGameRules) : AInvadersGameMode :=
  InitGame (NewGameMode Rules ⟨9, ⟨0, 400, 0⟩, 250, 3, 3 / 4⟩ SampleDefs ⟨0, -400, 0⟩
    ⟨-600, -450, 0⟩ ⟨7, ⟨0, 300, 0⟩, 200, 5⟩ ⟨5, 100⟩ ⟨6, 100⟩ none)

/-- The sample game mode with the given score, high scores, level and lives. -/
def SampleRun (Score PrevHiScore HiScore CurrentLevel CurrentLives : Int) : AInvadersGameMode :=
  { SampleMode FGameRules.default with InvadersGameState :=
      { (SampleMode FGameRules.default).InvadersGameState with
        Score := Score
        PrevHiScore := PrevHiScore
        HiScore := HiScore
        CurrentLevel := CurrentLevel
        CurrentLives := CurrentLives } }

/-- The sample game mode with all actors instanced and every grid enemy hidden. -/
def SampleBase : AInvadersGameMode :=
  { SampleMode FGameRules.default with
    EnemyShips := List.replicate 50 (SpawnActor 1).deactivate
    EnemyPointMap := [(1, 10), (2, 20), (4, 100)]
    PlayerBullets := List.replicate 20 (SpawnActor 5).deactivate
    EnemyBullets := List.replicate 20 (SpawnActor 6).deactivate
    Asteroids := List.replicate 4 (SpawnActor 7)
    AsteroidHP := List.replicate 4 5 }

/-- A fresh wave of the sample game mode: 50 enemies in rows of 10. -/
def SampleWave : AInvadersGameMode := SpawnEnemies SampleBase

/-- A bullet pool with bullets at `Y = 1, 2, 3, 4`. -/
def SamplePool : List AActor :=
  [⟨5, ⟨0, 1, 0⟩, false, true⟩, ⟨5, ⟨0, 2, 0⟩, false, true⟩, ⟨5, ⟨0, 3, 0⟩, false, true⟩,
    ⟨5, ⟨0, 4, 0⟩, true, false⟩]

/-- The sample game after `StartPlay` and the given engine calls (the game mode object
itself when a call is impossible). -/
def SampleAfter (ins : List Input) : AInvadersGameMode :=
  ((StartPlay (SampleMode FGameRules.default)).bind fun s => Run s ins).getD
    (SampleMode FGameRules.default)

/-- Start the game from the menus, let the player appear, press shoot and let the shoot
timer fire 19 times: the player pool is full. -/
def FullPoolInputs : List Input :=
  [.StartGameButton, .TutorialShootPressed 7, .PlayerAppearTimer, .ShootPressed] ++
    List.replicate 19 .PlayerShootTimer

/-- A wave is spawned, the game is paused and restarted from the pause menu. -/
def RestartInWaveInputs : List Input :=
  [.StartGameButton, .TutorialShootPressed 7, .EnemyAppearTimer, .EscapePressed, .RestartButton 7]

/-- A tick in which the bullet in every player slot overlaps the grid enemy 3 and no
enemy bullet overlaps anything. -/
def HitEnemy3 : FTickInput := ⟨0, 0, fun _ => some (.Enemy 3), fun _ => none, 8⟩

/-- The engine calls after the wave was spawned: the player appears, shoots, and the
bullet hits the grid enemy 3 in the next tick. -/
def KillInWaveInputs : List Input :=
  [.PlayerAppearTimer, .ShootPressed, .Tick (1 / 10) HitEnemy3]

/-- The rules of a game with a single grid enemy. -/
def SmallRules : FGameRules := { FGameRules.default with EnemiesInRow := 1, EnemiesInColumn := 1 }

/-- The single-enemy game after `StartPlay` and the given engine calls. -/
def SmallAfter (ins : List Input) : AInvadersGameMode :=
  ((StartPlay (SampleMode SmallRules)).bind fun s => Run s ins).getD (SampleMode SmallRules)

/-- A tick in which the bullet in every player slot overlaps the grid enemy 0. -/
def HitEnemy0 : FTickInput := ⟨0, 0, fun _ => some (.Enemy 0), fun _ => none, 8⟩

/-- The game is started, the wave and the player appear, and the player shoots. -/
def LastShotInputs : List Input :=
  [.StartGameButton, .TutorialShootPressed 7, .EnemyAppearTimer, .PlayerAppearTimer, .ShootPressed]

/-- The single-enemy game with one player bullet in flight. -/
def SmallShot : AInvadersGameMode := SmallAfter LastShotInputs

/-- The state after the bullet loop in which the bullet hits the last enemy. -/
def SmallCleared : AInvadersGameMode :=
  (UpdatePlayerBullets (1 / 10) HitEnemy0 SmallShot).getD SmallShot

/-- A tick in which the bullet in every enemy slot overlaps the player and no player
bullet overlaps anything. -/
def HitPlayer : FTickInput := ⟨0, 0, fun _ => none, fun _ => some .Player, 8⟩

/-- An enemy of the front shoots and the bullet hits the player in the next tick. -/
def LoseLife : List Input := [.EnemyShootTimer 0, .Tick (1 / 10) HitPlayer]

/-- A first game with one kill that ends with a new high score of 10, then a restart from
the game-over menu and a second game up to the last life, with an enemy bullet in flight. -/
def SecondGameInputs : List Input :=
  [.StartGameButton, .TutorialShootPressed 7, .EnemyAppearTimer] ++ KillInWaveInputs ++
    LoseLife ++ [.PlayerAppearTimer] ++ LoseLife ++ [.PlayerAppearTimer] ++ LoseLife ++
    [.RestartButton 7, .EnemyAppearTimer, .PlayerAppearTimer] ++
    LoseLife ++ [.PlayerAppearTimer] ++ LoseLife ++ [.PlayerAppearTimer, .EnemyShootTimer 0]

/-- The second game over: the bullet in flight hits the player. -/
def SecondGameOverInputs : List Input := SecondGameInputs ++ [.Tick (1 / 10) HitPlayer]

/-- The sample game paused in a wave with a player bullet in flight. -/
def PausedInputs : List Input :=
  [.StartGameButton, .TutorialShootPressed 7, .EnemyAppearTimer] ++
    [.PlayerAppearTimer, .ShootPressed, .EscapePressed]

/-- Start the game from the menus: the state in which the enemy-appear timer is pending. -/
def StartedInputs : List Input := [.StartGameButton, .TutorialShootPressed 7]

/-- A tick in which the bullet in every player slot overlaps the asteroid 1. -/
def HitAsteroid1 : FTickInput := ⟨0, 0, fun _ => some (.Asteroid 1), fun _ => none, 8⟩

/-- A tick in which the player bullets of the slots 19 and 3 overlap the asteroid 0 and no
other bullet overlaps anything. -/
def TwoHits : FTickInput :=
  ⟨0, 0, fun r => if r = 19 ∨ r = 3 then some (.Asteroid 0) else none, fun _ => none, 8⟩

/-- The state after `UpdatePlayerBullets` on the full player pool with two hits. -/
def AfterTwoHits : AInvadersGameMode :=
  (UpdatePlayerBullets (1 / 10) TwoHits (SampleAfter FullPoolInputs)).getD
    (SampleAfter FullPoolInputs)

/-- A wave is spawned, the player shoots, the ufo appears and an enemy of the front shoots:
one bullet of each pool is in flight. -/
def BothInFlight : List Input := LastShotInputs ++ [.UfoAppearTimer 7, .EnemyShootTimer 0]

/-- A tick in which every player bullet overlaps the ufo and every enemy bullet overlaps
the grid enemy 3. -/
def UfoAndEnemyOverlap : FTickInput := ⟨0, 0, fun _ => some .Ufo, fun _ => some (.Enemy 3), 8⟩

/-- The state after the player loop in which the bullet in flight hits the ufo. -/
def AfterUfoHit : AInvadersGameMode :=
  (UpdatePlayerBullets (1 / 10) UfoAndEnemyOverlap (SampleAfter BothInFlight)).getD
    (SampleAfter BothInFlight)

/-- The state after the enemy loop in which the bullet in flight overlaps an enemy ship. -/
def AfterEnemyOverlap : AInvadersGameMode :=
  (UpdateEnemyBullets (1 / 10) UfoAndEnemyOverlap AfterUfoHit).getD AfterUfoHit

/-- The state after the player loop in which the bullet in flight kills the grid enemy 3. -/
def AfterEnemyKill : AInvadersGameMode :=
  (UpdatePlayerBullets (1 / 10) HitEnemy3 (SampleAfter BothInFlight)).getD
    (SampleAfter BothInFlight)

/-- The single-enemy game: the wave and the player appear, the player shoots and the bullet
hits the only enemy in the next tick. -/
def LastKillInputs : List Input :=
  StartedInputs ++ [.EnemyAppearTimer] ++
    [.PlayerAppearTimer, .ShootPressed, .Tick (1 / 10) HitEnemy0]

/-- The sample game mode with the stored high score 500. -/
def StoredMode : AInvadersGameMode :=
  InitGame (NewGameMode FGameRules.default ⟨9, ⟨0, 400, 0⟩, 250, 3, 3 / 4⟩ SampleDefs
    ⟨0, -400, 0⟩ ⟨-600, -450, 0⟩ ⟨7, ⟨0, 300, 0⟩, 200, 5⟩ ⟨5, 100⟩ ⟨6, 100⟩ (some 500))

/-- The sample game with the stored high score 500 after `StartPlay`. -/
def StoredStart : AInvadersGameMode := (StartPlay StoredMode).getD StoredMode

/-- Three enemy definitions whose grid enemies of the first rows are worth `2^30` points. -/
def BigPointDefs : List FEnemyDef := [⟨1, 11, 1073741824⟩, ⟨2, 12, 20⟩, ⟨4, 14, 100⟩]

/-- The sample game mode with the enemy definitions `BigPointDefs`. -/
def BigPointMode : AInvadersGameMode :=
  InitGame (NewGameMode FGameRules.default ⟨9, ⟨0, 400, 0⟩, 250, 3, 3 / 4⟩ BigPointDefs
    ⟨0, -400, 0⟩ ⟨-600, -450, 0⟩ ⟨7, ⟨0, 300, 0⟩, 200, 5⟩ ⟨5, 100⟩ ⟨6, 100⟩ none)

/-- The game of `BigPointMode` after `StartPlay` and the given engine calls (the game mode
object itself when a call is impossible). -/
def BigPointAfter (ins : List Input) : AInvadersGameMode :=
  ((StartPlay BigPointMode).bind fun s => Run s ins).getD BigPointMode

/-- A tick in which the player bullet of the slot 1 overlaps the grid enemy 3 and no other
bullet overlaps anything. -/
def SecondBulletHits3 : FTickInput :=
  ⟨0, 0, fun r => if r = 1 then some (.Enemy 3) else none, fun _ => none, 8⟩

/-- A tick in which the bullet in every player slot overlaps the grid enemy 4. -/
def HitEnemy4 : FTickInput := ⟨0, 0, fun _ => some (.Enemy 4), fun _ => none, 8⟩

/-- A wave is spawned, the player fires two bullets, and the second one kills the grid
enemy 3 in the next tick; the first bullet stays in flight. -/
def FirstKillInputs : List Input :=
  LastShotInputs ++ [.PlayerShootTimer, .Tick (1 / 10) SecondBulletHits3]

/-! ## Theorems -/

/-! ### Rounding to float -/

theorem Doubling_spec (n : Nat) : ∀ (fuel k : Nat), n < 2 ^ (2 ^ (k + fuel)) →
    n < 2 ^ (2 ^ Doubling n fuel k) := by
  intro fuel
  induction fuel with
  | zero => intro k h; simpa [Doubling] using h
  | succ fuel ih =>
    intro k h
    unfold Doubling
    cases hc : Nat.blt n (2 ^ (2 ^ k))
    · simp only [cond_false]
      exact ih (k + 1) (by rw [show k + 1 + fuel = k + (fuel + 1) by omega]; exact h)
    · simp only [cond_true]
      exact Nat.blt_eq ▸ hc

theorem Bisect_spec (n : Nat) : ∀ (k lo : Nat), 2 ^ lo ≤ n → n < 2 ^ (lo + 2 ^ k) →
    2 ^ Bisect n k lo ≤ n ∧ n < 2 ^ (Bisect n k lo + 1) := by
  intro k
  induction k with
  | zero => intro lo h1 h2; exact ⟨h1, by simpa [Bisect] using h2⟩
  | succ k ih =>
    intro lo h1 h2
    unfold Bisect
    cases hc : Nat.ble (2 ^ (lo + 2 ^ k)) n
    · simp only [cond_false]
      refine ih lo h1 ?_
      have hn : ¬ 2 ^ (lo + 2 ^ k) ≤ n := fun hle => by
        rw [Nat.ble_eq_true_of_le hle] at hc
        exact Bool.noConfusion hc
      omega
    · simp only [cond_true]
      refine ih (lo + 2 ^ k) (Nat.le_of_ble_eq_true hc) ?_
      rw [show lo + 2 ^ k + 2 ^ k = lo + 2 ^ (k + 1) by rw [pow_succ]; omega]
      exact h2

theorem Log2_spec (n : Nat) (h : 0 < n) : 2 ^ Log2 n ≤ n ∧ n < 2 ^ (Log2 n + 1) := by
  unfold Log2
  refine Bisect_spec n _ 0 (by simpa using h) ?_
  rw [Nat.zero_add]
  apply Doubling_spec
  rw [Nat.zero_add]
  exact lt_trans (Nat.lt_two_pow n) (Nat.lt_two_pow _)

theorem Pow2_eq (e : Int) : Pow2 e = (2 : ℚ) ^ e := by
  unfold Pow2
  split
  · rename_i h
    obtain ⟨n, rfl⟩ := Int.eq_ofNat_of_zero_le h
    simp
  · rename_i h
    obtain ⟨n, hn⟩ := Int.eq_ofNat_of_zero_le (show 0 ≤ -e by omega)
    have : e = -(n : Int) := by omega
    subst this
    simp

theorem Pow2_pos (e : Int) : 0 < Pow2 e := by
  rw [Pow2_eq]; positivity

theorem Pow2_add (a b : Int) : Pow2 (a + b) = Pow2 a * Pow2 b := by
  rw [Pow2_eq, Pow2_eq, Pow2_eq, zpow_add₀ (by norm_num)]

theorem Pow2_le (a b : Int) (h : a ≤ b) : Pow2 a ≤ Pow2 b := by
  rw [Pow2_eq, Pow2_eq]
  exact zpow_le_zpow_right₀ (by norm_num) h

theorem Pow2_lt_imp (a b : Int) (h : Pow2 a < Pow2 b) : a < b := by
  by_contra hn
  exact absurd (Pow2_le b a (by omega)) (not_le.2 h)

theorem Pow2_natCast (n : Nat) : Pow2 (n : Int) = ((2 ^ n : Nat) : ℚ) := by
  simp [Pow2]

theorem Pow2_succ (a : Int) : Pow2 (a + 1) = Pow2 a * 2 := by
  rw [Pow2_add]
  congr 1

theorem abs_eq_natAbs_div (x : ℚ) : |x| = (x.num.natAbs : ℚ) / (x.den : ℚ) := by
  have hd : (0 : ℚ) < x.den := by exact_mod_cast x.den_pos
  conv_lhs => rw [← Rat.num_div_den x]
  rw [abs_div, abs_of_pos hd, Nat.cast_natAbs, Int.cast_abs]

/-- The integer comparison of `FloatExp` compares the magnitude with a power of two. -/
theorem FloatExp_eq (x : ℚ) :
    FloatExp x = if Pow2 ((Log2 x.num.natAbs : Int) - (Log2 x.den : Int)) ≤ |x| then
        (Log2 x.num.natAbs : Int) - (Log2 x.den : Int)
      else (Log2 x.num.natAbs : Int) - (Log2 x.den : Int) - 1 := by
  have hd : (0 : ℚ) < x.den := by exact_mod_cast x.den_pos
  have key : (2 ^ (Log2 x.num.natAbs - Log2 x.den) * x.den
      ≤ 2 ^ (Log2 x.den - Log2 x.num.natAbs) * x.num.natAbs) ↔
      Pow2 ((Log2 x.num.natAbs : Int) - (Log2 x.den : Int)) ≤ |x| := by
    rw [abs_eq_natAbs_div, Pow2_eq, zpow_sub₀ (by norm_num), zpow_natCast, zpow_natCast,
      div_le_div_iff₀ (by positivity) hd]
    generalize Log2 x.num.natAbs = a
    generalize Log2 x.den = b
    generalize x.num.natAbs = n
    generalize x.den = d
    rcases le_total a b with h | h
    · obtain ⟨c, rfl⟩ := Nat.exists_eq_add_of_le h
      rw [Nat.sub_eq_zero_of_le h, Nat.add_sub_cancel_left, pow_zero, one_mul, pow_add]
      constructor
      · intro g
        have g2 : (d : ℚ) ≤ (2 : ℚ) ^ c * (n : ℚ) := by exact_mod_cast g
        have p : (0 : ℚ) < (2 : ℚ) ^ a := by positivity
        nlinarith
      · intro g
        have p : (0 : ℚ) < (2 : ℚ) ^ a := by positivity
        have g2 : (d : ℚ) ≤ (2 : ℚ) ^ c * (n : ℚ) := by
          by_contra hc
          push_neg at hc
          nlinarith
        exact_mod_cast g2
    · obtain ⟨c, rfl⟩ := Nat.exists_eq_add_of_le h
      rw [Nat.sub_eq_zero_of_le h, Nat.add_sub_cancel_left, pow_zero, one_mul, pow_add]
      constructor
      · intro g
        have g2 : (2 : ℚ) ^ c * (d : ℚ) ≤ (n : ℚ) := by exact_mod_cast g
        have p : (0 : ℚ) < (2 : ℚ) ^ b := by positivity
        nlinarith
      · intro g
        have p : (0 : ℚ) < (2 : ℚ) ^ b := by positivity
        have g2 : (2 : ℚ) ^ c * (d : ℚ) ≤ (n : ℚ) := by
          by_contra hc
          push_neg at hc
          nlinarith
        exact_mod_cast g2
  unfold FloatExp
  by_cases h : 2 ^ (Log2 x.num.natAbs - Log2 x.den) * x.den
      ≤ 2 ^ (Log2 x.den - Log2 x.num.natAbs) * x.num.natAbs
  · rw [if_pos h, if_pos (key.1 h)]
  · rw [if_neg h, if_neg (fun g => h (key.2 g))]

/-- The binary exponent brackets the magnitude. -/
theorem FloatExp_spec (x : ℚ) (hx : x ≠ 0) :
    Pow2 (FloatExp x) ≤ |x| ∧ |x| < Pow2 (FloatExp x + 1) := by
  have hn : 0 < x.num.natAbs := Int.natAbs_pos.2 (Rat.num_ne_zero.2 hx)
  obtain ⟨a1, a2⟩ := Log2_spec _ hn
  obtain ⟨b1, b2⟩ := Log2_spec _ x.den_pos
  have hd : (0 : ℚ) < x.den := by exact_mod_cast x.den_pos
  have a1q : ((2 ^ Log2 x.num.natAbs : Nat) : ℚ) ≤ (x.num.natAbs : ℚ) := by exact_mod_cast a1
  have a2q : (x.num.natAbs : ℚ) < ((2 ^ (Log2 x.num.natAbs + 1) : Nat) : ℚ) := by
    exact_mod_cast a2
  have b1q : ((2 ^ Log2 x.den : Nat) : ℚ) ≤ (x.den : ℚ) := by exact_mod_cast b1
  have b2q : (x.den : ℚ) < ((2 ^ (Log2 x.den + 1) : Nat) : ℚ) := by exact_mod_cast b2
  have pa : (0 : ℚ) < ((2 ^ Log2 x.num.natAbs : Nat) : ℚ) := by positivity
  have pb : (0 : ℚ) < ((2 ^ Log2 x.den : Nat) : ℚ) := by positivity
  have e0 : Pow2 ((Log2 x.num.natAbs : Int) - (Log2 x.den : Int))
      = ((2 ^ Log2 x.num.natAbs : Nat) : ℚ) / ((2 ^ Log2 x.den : Nat) : ℚ) := by
    rw [Pow2_eq, zpow_sub₀ (by norm_num)]
    simp
  rw [Nat.pow_succ] at a2q b2q
  push_cast at a1q a2q b1q b2q pa pb e0
  rw [FloatExp_eq]
  split
  · rename_i h
    refine ⟨h, ?_⟩
    rw [Pow2_succ, e0, abs_eq_natAbs_div, div_mul_eq_mul_div, div_lt_div_iff₀ hd (by positivity)]
    nlinarith
  · rename_i h
    refine ⟨?_, ?_⟩
    · have e1 : Pow2 ((Log2 x.num.natAbs : Int) - (Log2 x.den : Int) - 1) * 2
          = (2 : ℚ) ^ Log2 x.num.natAbs / (2 : ℚ) ^ Log2 x.den := by
        rw [← Pow2_succ, ← e0]; congr 1; ring
      have e2 : Pow2 ((Log2 x.num.natAbs : Int) - (Log2 x.den : Int) - 1)
          = (2 : ℚ) ^ Log2 x.num.natAbs / ((2 : ℚ) ^ Log2 x.den * 2) := by
        rw [← div_div, ← e1]; ring
      rw [e2, abs_eq_natAbs_div, div_le_div_iff₀ (by positivity) hd]
      nlinarith
    · have : Pow2 ((Log2 x.num.natAbs : Int) - (Log2 x.den : Int) - 1 + 1)
          = Pow2 ((Log2 x.num.natAbs : Int) - (Log2 x.den : Int)) := by congr 1; ring
      rw [this]
      exact not_le.1 h

theorem FloatExp_unique (x : ℚ) (k : Int) (h1 : Pow2 k ≤ |x|) (h2 : |x| < Pow2 (k + 1)) :
    FloatExp x = k := by
  have hx : x ≠ 0 := by
    intro e
    rw [e, abs_zero] at h1
    exact absurd h1 (not_le.2 (Pow2_pos k))
  obtain ⟨g1, g2⟩ := FloatExp_spec x hx
  have := Pow2_lt_imp _ _ (lt_of_le_of_lt h1 g2)
  have := Pow2_lt_imp _ _ (lt_of_le_of_lt g1 h2)
  omega

theorem FloatExp_ge (x : ℚ) (k : Int) (h1 : Pow2 k ≤ |x|) : k ≤ FloatExp x := by
  have hx : x ≠ 0 := by
    intro e
    rw [e, abs_zero] at h1
    exact absurd h1 (not_le.2 (Pow2_pos k))
  have := Pow2_lt_imp _ _ (lt_of_le_of_lt h1 (FloatExp_spec x hx).2)
  omega

theorem FloatExp_lt (x : ℚ) (k : Int) (hx : x ≠ 0) (h2 : |x| < Pow2 k) : FloatExp x < k :=
  Pow2_lt_imp _ _ (lt_of_le_of_lt (FloatExp_spec x hx).1 h2)

theorem FloatExp_neg (x : ℚ) : FloatExp (-x) = FloatExp x := by
  unfold FloatExp
  simp

theorem RoundHalfEven_le (q : ℚ) : (RoundHalfEven q : ℚ) ≤ q + 1 / 2 := by
  have h1 := Int.floor_le q
  unfold RoundHalfEven
  split_ifs <;> push_cast <;> linarith

theorem RoundHalfEven_ge (q : ℚ) : q - 1 / 2 ≤ (RoundHalfEven q : ℚ) := by
  have h2 := Int.lt_floor_add_one q
  unfold RoundHalfEven
  split_ifs <;> push_cast <;> linarith

theorem RoundHalfEven_abs (q : ℚ) : |(RoundHalfEven q : ℚ) - q| ≤ 1 / 2 :=
  abs_le.2 ⟨by linarith [RoundHalfEven_ge q], by linarith [RoundHalfEven_le q]⟩

theorem RoundHalfEven_intCast (n : Int) : RoundHalfEven (n : ℚ) = n := by
  unfold RoundHalfEven
  simp

theorem RoundHalfEven_mono (p q : ℚ) (h : p ≤ q) : RoundHalfEven p ≤ RoundHalfEven q := by
  have hf : ⌊p⌋ ≤ ⌊q⌋ := Int.floor_mono h
  rcases lt_or_eq_of_le hf with hlt | heq
  · have a : RoundHalfEven p ≤ ⌊p⌋ + 1 := by
      unfold RoundHalfEven; split_ifs <;> omega
    have b : ⌊q⌋ ≤ RoundHalfEven q := by
      unfold RoundHalfEven; split_ifs <;> omega
    omega
  · unfold RoundHalfEven
    rw [← heq]
    split_ifs <;> first | omega | (exfalso; linarith)

theorem RoundHalfEven_neg (q : ℚ) : RoundHalfEven (-q) = -RoundHalfEven q := by
  have h1 := Int.floor_le q
  have h2 := Int.lt_floor_add_one q
  have g1 := Int.floor_le (-q)
  have g2 := Int.lt_floor_add_one (-q)
  have c1 : ⌊-q⌋ ≤ -⌊q⌋ := by
    have : ((⌊-q⌋ : Int) : ℚ) ≤ ((-⌊q⌋ : Int) : ℚ) := by push_cast; linarith
    exact_mod_cast this
  have c2 : -⌊q⌋ - 2 < ⌊-q⌋ := by
    have : ((-⌊q⌋ - 2 : Int) : ℚ) < ((⌊-q⌋ : Int) : ℚ) := by push_cast; linarith
    exact_mod_cast this
  have hcase : ⌊-q⌋ = -⌊q⌋ ∨ ⌊-q⌋ = -⌊q⌋ - 1 := by omega
  unfold RoundHalfEven
  rcases hcase with e | e
  · have eq : ((⌊-q⌋ : Int) : ℚ) = -((⌊q⌋ : Int) : ℚ) := by rw [e]; push_cast; ring
    have hq : q = ((⌊q⌋ : Int) : ℚ) := by linarith
    rw [e]
    split_ifs <;> first | omega | (exfalso; push_cast at *; linarith)
  · have eq : ((⌊-q⌋ : Int) : ℚ) = -((⌊q⌋ : Int) : ℚ) - 1 := by rw [e]; push_cast; ring
    rw [e]
    split_ifs <;> first | omega | (exfalso; push_cast at *; linarith)

/-- The integer rounding division is the rounding of the quotient. -/
theorem RoundDiv_eq (N : Int) (D : Nat) (hD : 0 < D) :
    RoundDiv N D = RoundHalfEven ((N : ℚ) / (D : ℚ)) := by
  have hd : (0 : ℚ) < (D : ℚ) := by exact_mod_cast hD
  have hfl : ⌊(N : ℚ) / (D : ℚ)⌋ = N / (D : Int) := Rat.floor_intCast_div_natCast N D
  have hmod : (N : ℚ) / (D : ℚ) - ((N / (D : Int) : Int) : ℚ) = ((N % (D : Int) : Int) : ℚ) / (D : ℚ) := by
    have := Int.emod_add_ediv N (D : Int)
    have e : (N : ℚ) = ((N % (D : Int) : Int) : ℚ) + (D : ℚ) * ((N / (D : Int) : Int) : ℚ) := by
      exact_mod_cast this.symm
    field_simp
    linarith
  have c1 : (((N % (D : Int) : Int) : ℚ) / (D : ℚ) < 1 / 2) ↔ 2 * (N % (D : Int)) < (D : Int) := by
    rw [div_lt_div_iff₀ hd (by norm_num)]
    constructor
    · intro h
      have : ((2 * (N % (D : Int)) : Int) : ℚ) < ((D : Int) : ℚ) := by push_cast; linarith
      exact_mod_cast this
    · intro h
      have : ((2 * (N % (D : Int)) : Int) : ℚ) < ((D : Int) : ℚ) := by exact_mod_cast h
      push_cast at this
      linarith
  have c2 : (1 / 2 < ((N % (D : Int) : Int) : ℚ) / (D : ℚ)) ↔ (D : Int) < 2 * (N % (D : Int)) := by
    rw [div_lt_div_iff₀ (by norm_num) hd]
    constructor
    · intro h
      have : ((D : Int) : ℚ) < ((2 * (N % (D : Int)) : Int) : ℚ) := by push_cast; linarith
      exact_mod_cast this
    · intro h
      have : ((D : Int) : ℚ) < ((2 * (N % (D : Int)) : Int) : ℚ) := by exact_mod_cast h
      push_cast at this
      linarith
  unfold RoundDiv RoundHalfEven
  rw [hfl, hmod]
  simp only [c1, c2]

/-- The scaled rounding in integer arithmetic is the rounding of the scaled quotient. -/
theorem ToFloatScaled_eq (n : Int) (d : Nat) (hd : 0 < d) (s : Int) :
    ToFloatScaled n d s = Pow2 s * (RoundHalfEven ((n : ℚ) / (d : ℚ) / Pow2 s) : ℚ) := by
  have hdq : (d : ℚ) ≠ 0 := by exact_mod_cast (ne_of_gt hd)
  cases s with
  | ofNat k =>
    have hp : Pow2 (Int.ofNat k) = (2 : ℚ) ^ k := by rw [Pow2_eq]; simp
    have hk : (0 : ℚ) < (2 : ℚ) ^ k := by positivity
    simp only [ToFloatScaled]
    rw [RoundDiv_eq n (d * 2 ^ k) (by positivity), hp]
    push_cast
    rw [div_div]
    ring
  | negSucc k =>
    have hp : Pow2 (Int.negSucc k) = 1 / (2 : ℚ) ^ (k + 1) := by
      rw [Pow2_eq, Int.negSucc_eq, zpow_neg]
      have : ((k : Int) + 1) = ((k + 1 : Nat) : Int) := by push_cast; ring
      rw [this, zpow_natCast]
      simp
    have hk : (0 : ℚ) < (2 : ℚ) ^ (k + 1) := by positivity
    simp only [ToFloatScaled]
    rw [RoundDiv_eq _ d hd, hp, Rat.mkRat_eq_div]
    have e : (n : ℚ) / (d : ℚ) / (1 / (2 : ℚ) ^ (k + 1))
        = ((n * ((2 ^ (k + 1) : Nat) : Int) : Int) : ℚ) / (d : ℚ) := by
      push_cast
      field_simp
    rw [e]
    push_cast
    ring

/-- The value of `ToFloat`: the nearest multiple of the unit in the last place, a tie to the
even multiple. -/
theorem ToFloat_eq (x : ℚ) :
    ToFloat x = if x = 0 then 0
      else Pow2 (max (FloatExp x) (-126) - 23) *
        (RoundHalfEven (x / Pow2 (max (FloatExp x) (-126) - 23)) : ℚ) := by
  unfold ToFloat
  by_cases h : x = 0
  · rw [if_pos h, if_pos (by rw [h]; rfl)]
  · rw [if_neg h, if_neg (fun g => h (Rat.num_eq_zero.1 g)), ToFloatScaled_eq _ _ x.den_pos,
      Rat.num_div_den]

theorem ToFloat_zero : ToFloat 0 = 0 := by simp [ToFloat_eq]

theorem ToFloat_neg (x : ℚ) : ToFloat (-x) = -ToFloat x := by
  simp only [ToFloat_eq]
  by_cases h : x = 0
  · simp [h]
  · rw [if_neg h, if_neg (neg_ne_zero.2 h), FloatExp_neg, neg_div, RoundHalfEven_neg]
    push_cast
    ring

/-- The rounding error is at most half a unit in the last place. -/
theorem ToFloat_error (x : ℚ) :
    |ToFloat x - x| ≤ Pow2 (max (FloatExp x) (-126) - 24) := by
  simp only [ToFloat_eq]
  by_cases h : x = 0
  · simp [h, le_of_lt (Pow2_pos _)]
  · rw [if_neg h]
    have hu := Pow2_pos (max (FloatExp x) (-126) - 23)
    have e : Pow2 (max (FloatExp x) (-126) - 23) = Pow2 (max (FloatExp x) (-126) - 24) * 2 := by
      rw [← Pow2_succ]; congr 1; ring
    have hr := RoundHalfEven_abs (x / Pow2 (max (FloatExp x) (-126) - 23))
    have e2 : Pow2 (max (FloatExp x) (-126) - 23) *
          (RoundHalfEven (x / Pow2 (max (FloatExp x) (-126) - 23)) : ℚ) - x
        = Pow2 (max (FloatExp x) (-126) - 23) *
          ((RoundHalfEven (x / Pow2 (max (FloatExp x) (-126) - 23)) : ℚ)
            - x / Pow2 (max (FloatExp x) (-126) - 23)) := by
      have hne := ne_of_gt hu
      field_simp
      ring
    rw [e2, abs_mul, abs_of_pos hu]
    calc Pow2 (max (FloatExp x) (-126) - 23) *
          |(RoundHalfEven (x / Pow2 (max (FloatExp x) (-126) - 23)) : ℚ)
            - x / Pow2 (max (FloatExp x) (-126) - 23)|
        ≤ Pow2 (max (FloatExp x) (-126) - 23) * (1 / 2) :=
          mul_le_mul_of_nonneg_left hr (le_of_lt hu)
      _ = Pow2 (max (FloatExp x) (-126) - 24) := by rw [e]; ring

/-- In the normal range the rounding error is at most `2^-24` of the magnitude. -/
theorem ToFloat_rel_error (x : ℚ) (h : Pow2 (-126) ≤ |x|) :
    |ToFloat x - x| ≤ |x| / 2 ^ 24 := by
  have hx : x ≠ 0 := by
    intro e
    rw [e, abs_zero] at h
    exact absurd h (not_le.2 (Pow2_pos _))
  have hE := FloatExp_ge x (-126) h
  have h1 := ToFloat_error x
  rw [max_eq_left hE] at h1
  have e : Pow2 (FloatExp x - 24) = Pow2 (FloatExp x) / 2 ^ 24 := by
    have : FloatExp x - 24 = FloatExp x + (-24) := by ring
    rw [this, Pow2_add]
    have : Pow2 (-24) = 1 / 2 ^ 24 := by rw [Pow2_eq]; norm_num
    rw [this]; ring
  rw [e] at h1
  have h2 := (FloatExp_spec x hx).1
  calc |ToFloat x - x| ≤ Pow2 (FloatExp x) / 2 ^ 24 := h1
    _ ≤ |x| / 2 ^ 24 := by
      apply div_le_div_of_nonneg_right h2
      positivity

theorem ToFloat_nonneg (x : ℚ) (h : 0 ≤ x) : 0 ≤ ToFloat x := by
  simp only [ToFloat_eq]
  split
  · exact le_refl _
  · apply mul_nonneg (le_of_lt (Pow2_pos _))
    have := RoundHalfEven_mono 0 _ (div_nonneg h (le_of_lt (Pow2_pos
      (max (FloatExp x) (-126) - 23))))
    rw [show (0 : ℚ) = ((0 : Int) : ℚ) by simp, RoundHalfEven_intCast] at this
    exact_mod_cast this
theorem ToFloat_le_of_lt_pow (x : ℚ) (hx : 0 < x) :
    ToFloat x ≤ Pow2 (max (FloatExp x) (-126) + 1) := by
  have hne : x ≠ 0 := ne_of_gt hx
  have h2 := (FloatExp_spec x hne).2
  rw [abs_of_pos hx] at h2
  have h3 : x < Pow2 (max (FloatExp x) (-126) + 1) :=
    lt_of_lt_of_le h2 (Pow2_le _ _ (by omega))
  have hu := Pow2_pos (max (FloatExp x) (-126) - 23)
  have e : Pow2 (max (FloatExp x) (-126) + 1)
      = Pow2 (max (FloatExp x) (-126) - 23) * ((2 ^ 24 : Int) : ℚ) := by
    have : max (FloatExp x) (-126) + 1 = (max (FloatExp x) (-126) - 23) + 24 := by ring
    rw [this, Pow2_add]
    congr 1
  simp only [ToFloat_eq]
  rw [if_neg hne, e]
  apply mul_le_mul_of_nonneg_left _ (le_of_lt hu)
  have hq : x / Pow2 (max (FloatExp x) (-126) - 23) ≤ ((2 ^ 24 : Int) : ℚ) := by
    rw [div_le_iff₀ hu, mul_comm, ← e]
    exact le_of_lt h3
  have := RoundHalfEven_mono _ _ hq
  rw [RoundHalfEven_intCast] at this
  exact_mod_cast this

theorem ToFloat_ge_of_pow_le (x : ℚ) (hx : 0 < x) (hE : -126 ≤ FloatExp x) :
    Pow2 (FloatExp x) ≤ ToFloat x := by
  have hne : x ≠ 0 := ne_of_gt hx
  have h1 := (FloatExp_spec x hne).1
  rw [abs_of_pos hx] at h1
  have hu := Pow2_pos (FloatExp x - 23)
  have e : Pow2 (FloatExp x) = Pow2 (FloatExp x - 23) * ((2 ^ 23 : Int) : ℚ) := by
    have : FloatExp x = (FloatExp x - 23) + 23 := by ring
    conv_lhs => rw [this, Pow2_add]
    congr 1
  simp only [ToFloat_eq]
  rw [if_neg hne, max_eq_left hE]
  conv_lhs => rw [e]
  apply mul_le_mul_of_nonneg_left _ (le_of_lt hu)
  have hq : ((2 ^ 23 : Int) : ℚ) ≤ x / Pow2 (FloatExp x - 23) := by
    rw [le_div_iff₀ hu, mul_comm, ← e]
    exact h1
  have := RoundHalfEven_mono _ _ hq
  rw [RoundHalfEven_intCast] at this
  exact_mod_cast this

theorem ToFloat_mono_pos (x y : ℚ) (hx : 0 < x) (h : x ≤ y) : ToFloat x ≤ ToFloat y := by
  have hy : 0 < y := lt_of_lt_of_le hx h
  have hxne : x ≠ 0 := ne_of_gt hx
  have hyne : y ≠ 0 := ne_of_gt hy
  have hle : FloatExp x ≤ FloatExp y := by
    apply FloatExp_ge
    rw [abs_of_pos hy]
    have := (FloatExp_spec x hxne).1
    rw [abs_of_pos hx] at this
    exact le_trans this h
  rcases lt_or_eq_of_le (max_le_max hle (le_refl (-126 : Int))) with hlt | heq
  · have hE : -126 ≤ FloatExp y := by
      by_contra hc
      rw [max_eq_right (by omega : FloatExp y ≤ -126)] at hlt
      have := le_max_right (FloatExp x) (-126)
      omega
    rw [max_eq_left hE] at hlt
    calc ToFloat x ≤ Pow2 (max (FloatExp x) (-126) + 1) := ToFloat_le_of_lt_pow x hx
      _ ≤ Pow2 (FloatExp y) := Pow2_le _ _ (by omega)
      _ ≤ ToFloat y := ToFloat_ge_of_pow_le y hy hE
  · simp only [ToFloat_eq]
    rw [if_neg hxne, if_neg hyne, heq]
    have hu := Pow2_pos (max (FloatExp y) (-126) - 23)
    apply mul_le_mul_of_nonneg_left _ (le_of_lt hu)
    have := RoundHalfEven_mono _ _ (div_le_div_of_nonneg_right h (le_of_lt hu))
    exact_mod_cast this

/-- Rounding to `float` is monotone. -/
theorem ToFloat_mono (x y : ℚ) (h : x ≤ y) : ToFloat x ≤ ToFloat y := by
  rcases lt_trichotomy 0 x with hx | hx | hx
  · exact ToFloat_mono_pos x y hx h
  · rw [← hx, ToFloat_zero]
    exact ToFloat_nonneg y (by rw [hx]; exact h)
  · rcases le_or_lt 0 y with hy | hy
    · have h1 : ToFloat x ≤ 0 := by
        have := ToFloat_nonneg (-x) (by linarith)
        rw [ToFloat_neg] at this
        linarith
      exact le_trans h1 (ToFloat_nonneg y hy)
    · have := ToFloat_mono_pos (-y) (-x) (by linarith) (by linarith)
      rw [ToFloat_neg, ToFloat_neg] at this
      linarith

/-- A value `m · 2^k` with `|m| ≤ 2^24` and `k ≥ -149` is a `float`. -/
theorem ToFloat_representable (m k : Int) (hm : |m| ≤ 2 ^ 24) (hk : -149 ≤ k) :
    ToFloat ((m : ℚ) * Pow2 k) = (m : ℚ) * Pow2 k := by
  by_cases h0 : (m : ℚ) * Pow2 k = 0
  · rw [h0, ToFloat_zero]
  · have hm0 : m ≠ 0 := by
      intro e; apply h0; rw [e]; simp
    have habs : |(m : ℚ) * Pow2 k| ≤ Pow2 (k + 24) := by
      rw [abs_mul, abs_of_pos (Pow2_pos k), Pow2_add, mul_comm (Pow2 k)]
      apply mul_le_mul_of_nonneg_right _ (le_of_lt (Pow2_pos k))
      have : Pow2 24 = ((2 ^ 24 : Int) : ℚ) := by rw [Pow2_eq]; norm_num
      rw [this, ← Int.cast_abs]
      exact_mod_cast hm
    by_cases hlt : |(m : ℚ) * Pow2 k| < Pow2 (k + 24)
    · have hE : max (FloatExp ((m : ℚ) * Pow2 k)) (-126) - 23 ≤ k := by
        have := FloatExp_lt _ _ h0 hlt
        have h2 : max (FloatExp ((m : ℚ) * Pow2 k)) (-126) ≤ k + 23 := max_le (by omega) (by omega)
        omega
      obtain ⟨j, hj⟩ := Int.eq_ofNat_of_zero_le (show 0 ≤ k - (max (FloatExp ((m : ℚ) * Pow2 k))
        (-126) - 23) by omega)
      have ek : Pow2 k = Pow2 (max (FloatExp ((m : ℚ) * Pow2 k)) (-126) - 23) *
          ((2 ^ j : Nat) : ℚ) := by
        rw [← Pow2_natCast, ← hj, ← Pow2_add]
        congr 1; ring
      have hu := Pow2_pos (max (FloatExp ((m : ℚ) * Pow2 k)) (-126) - 23)
      simp only [ToFloat_eq]
      rw [if_neg h0]
      have eq : (m : ℚ) * Pow2 k / Pow2 (max (FloatExp ((m : ℚ) * Pow2 k)) (-126) - 23)
          = ((m * (2 ^ j : Nat) : Int) : ℚ) := by
        rw [div_eq_iff (ne_of_gt hu)]
        conv_lhs => rw [ek]
        push_cast
        ring
      rw [eq, RoundHalfEven_intCast]
      conv_rhs => rw [ek]
      push_cast
      ring
    · have heq : |(m : ℚ) * Pow2 k| = Pow2 (k + 24) := le_antisymm habs (not_lt.1 hlt)
      have hF : FloatExp ((m : ℚ) * Pow2 k) = k + 24 := by
        apply FloatExp_unique
        · rw [heq]
        · rw [heq, Pow2_succ]
          linarith [Pow2_pos (k + 24)]
      have hu := Pow2_pos (k + 1)
      have ek : Pow2 k * 2 = Pow2 (k + 1) := (Pow2_succ k).symm
      simp only [ToFloat_eq]
      rw [if_neg h0, hF, max_eq_left (by omega), show k + 24 - 23 = k + 1 by ring]
      have hmabs : |m| = 2 ^ 24 := by
        have h3 : |(m : ℚ)| * Pow2 k = ((2 ^ 24 : Int) : ℚ) * Pow2 k := by
          rw [← abs_of_pos (Pow2_pos k), ← abs_mul, abs_of_pos (Pow2_pos k), heq, Pow2_add,
            mul_comm]
          congr 1
        have h4 := mul_right_cancel₀ (ne_of_gt (Pow2_pos k)) h3
        rw [← Int.cast_abs] at h4
        exact_mod_cast h4
      have hdiv : ∃ n : Int, m = 2 * n := by
        rcases abs_cases m with ⟨e, _⟩ | ⟨e, _⟩
        · exact ⟨2 ^ 23, by rw [← e, hmabs]; norm_num⟩
        · exact ⟨-2 ^ 23, by
            have : m = -|m| := by omega
            rw [this, hmabs]; norm_num⟩
      obtain ⟨n, hn⟩ := hdiv
      have eq : (m : ℚ) * Pow2 k / Pow2 (k + 1) = ((n : Int) : ℚ) := by
        rw [div_eq_iff (ne_of_gt hu), ← ek, hn]
        push_cast
        ring
      rw [eq, RoundHalfEven_intCast, ← ek, hn]
      push_cast
      ring

/-- An integer of magnitude at most `2^24` converts to `float` exactly. -/
theorem ToFloat_intCast (m : Int) (hm : |m| ≤ 2 ^ 24) : ToFloat (m : ℚ) = (m : ℚ) := by
  have := ToFloat_representable m 0 hm (by norm_num)
  have e : Pow2 0 = 1 := by rw [Pow2_eq]; norm_num
  rw [e, mul_one] at this
  exact this

theorem ToFloat_natCast (n : Nat) (hn : n ≤ 2 ^ 24) : ToFloat (n : ℚ) = (n : ℚ) := by
  have := ToFloat_intCast (n : Int) (by
    rw [abs_of_nonneg (Int.natCast_nonneg n)]
    exact_mod_cast hn)
  exact_mod_cast this

/-! ### Speed factor -/

theorem RoundToFloat_div_ten (n : Int) :
    RoundToFloat ((n : ℚ) / 10) = (((n + 5) / 10 : Int) : ℚ) := by
  unfold RoundToFloat
  congr 1
  rw [Int.floor_eq_iff]
  have hd : ((n + 5) / 10 : Int) * 10 + (n + 5) % 10 = n + 5 := Int.ediv_add_emod' (n + 5) 10
  have hm0 : 0 ≤ (n + 5) % 10 := Int.emod_nonneg _ (by norm_num)
  have hm1 : (n + 5) % 10 < 10 := Int.emod_lt_of_pos _ (by norm_num)
  have hq : (((n + 5) / 10 : Int) : ℚ) * 10 + (((n + 5) % 10 : Int) : ℚ) = (n : ℚ) + 5 := by
    exact_mod_cast hd
  have hm0q : (0 : ℚ) ≤ (((n + 5) % 10 : Int) : ℚ) := by exact_mod_cast hm0
  have hm1q : (((n + 5) % 10 : Int) : ℚ) < 10 := by exact_mod_cast hm1
  constructor <;> linarith

/-- C10 (as stated, refuted): on an 11 x 5 grid with `MinSpeedFactor = 1/4`, the speed
factor at 55 active enemies is larger than at 50, although `50 ≤ 55 ≤ TotalEnemyNum`. -/
theorem SpeedFact_not_antitone_on_grid_11x5 :
    (1 / 4 : ℚ) ≤ 3 / 2 ∧ (0 : Int) ≤ 50 ∧ (50 : Int) ≤ 55 ∧ (55 : Int) ≤ ((11 * 5 : Nat) : Int) ∧
      ¬ (SpeedFact (1 / 4) 55 ≤ SpeedFact (1 / 4) 50) := by
  refine ⟨by norm_num, by norm_num, by norm_num, by norm_num, ?_⟩
  rw [SpeedFact, SpeedFact, Lerp, Lerp, RoundToFloat_div_ten, RoundToFloat_div_ten]
  norm_num

/-- C10 (amended): on every grid with at most 54 enemies (the default 10 x 5 grid is
one), for `MinSpeedFactor ≤ 1.5` and `0 ≤ m ≤ n ≤ TotalEnemyNum`, the speed factor that
`UpdateEnemyGroupMovement` computes at `n` active enemies is at most the one at `m`. -/
theorem SpeedFact_antitone_upto_54 (Rules : FGameRules)
    (hGrid : Rules.EnemiesInRow * Rules.EnemiesInColumn ≤ 54)
    (hMin : Rules.MinSpeedFactor ≤ 3 / 2) (m n : Int) (hm : 0 ≤ m) (hmn : m ≤ n)
    (hn : n ≤ ((Rules.EnemiesInRow * Rules.EnemiesInColumn : Nat) : Int)) :
    SpeedFact Rules.MinSpeedFactor n ≤ SpeedFact Rules.MinSpeedFactor m := by
  have hn54 : n ≤ 54 := by
    have : ((Rules.EnemiesInRow * Rules.EnemiesInColumn : Nat) : Int) ≤ 54 := by exact_mod_cast hGrid
    omega
  unfold SpeedFact Lerp
  rw [RoundToFloat_div_ten, RoundToFloat_div_ten]
  have h1 : (m + 5) / 10 ≤ (n + 5) / 10 := Int.ediv_le_ediv (by norm_num) (by linarith)
  have h2 : (n + 5) / 10 ≤ 5 := by omega
  have h3 : 0 ≤ (m + 5) / 10 := by omega
  have h1q : (((m + 5) / 10 : Int) : ℚ) ≤ (((n + 5) / 10 : Int) : ℚ) := by exact_mod_cast h1
  have h2q : (((n + 5) / 10 : Int) : ℚ) ≤ 5 := by exact_mod_cast h2
  have h3q : (0 : ℚ) ≤ (((m + 5) / 10 : Int) : ℚ) := by exact_mod_cast h3
  have hsq : (1 - (((n + 5) / 10 : Int) : ℚ) / 5) ^ 2
      ≤ (1 - (((m + 5) / 10 : Int) : ℚ) / 5) ^ 2 := by
    apply pow_le_pow_left₀
    · linarith
    · linarith
  have hpos : 0 ≤ 3 / 2 - Rules.MinSpeedFactor := by linarith
  nlinarith [mul_le_mul_of_nonneg_right hsq hpos]

/-- C10 (amended), at the default rules: 50 enemies, 20 and 45 active. -/
theorem SpeedFact_antitone_upto_54_witness :
    SpeedFact FGameRules.default.MinSpeedFactor 45
      ≤ SpeedFact FGameRules.default.MinSpeedFactor 20 :=
  SpeedFact_antitone_upto_54 FGameRules.default (by decide)
    (by norm_num [FGameRules.default]) 20 45 (by decide) (by decide) (by decide)

/-! ### High score and lives -/

theorem toUInt32_of_nonneg (x : Int) (h0 : 0 ≤ x) (h1 : x < 2 ^ 32) : ((toUInt32 x : Nat) : Int) = x := by
  unfold toUInt32
  rw [Int.emod_eq_of_lt h0 h1, Int.toNat_of_nonneg h0]

/-- C8: after `SaveHiScore` (and after the `HandlePlayerHit` that takes the last life)
`HiScore` is the maximum of the previous `HiScore` and `Score`, and the save slot receives
that value, converted to the `uint32` of the save object (the same number when it is in
range). -/
theorem SaveHiScore_max (s : AInvadersGameMode) :
    (SaveHiScore s).InvadersGameState.HiScore
        = max s.InvadersGameState.HiScore s.InvadersGameState.Score ∧
    (SaveHiScore s).SaveSlot
        = some (toUInt32 (max s.InvadersGameState.HiScore s.InvadersGameState.Score)) ∧
    (SaveHiScore s).Events = s.Events ++
        [Event.SaveGameToSlot (toUInt32 (max s.InvadersGameState.HiScore s.InvadersGameState.Score))] ∧
    (s.InvadersGameState.CurrentLives = 1 →
      (HandlePlayerHit s).InvadersGameState.HiScore
          = max s.InvadersGameState.HiScore s.InvadersGameState.Score ∧
      (HandlePlayerHit s).SaveSlot
          = some (toUInt32 (max s.InvadersGameState.HiScore s.InvadersGameState.Score))) ∧
    (0 ≤ max s.InvadersGameState.HiScore s.InvadersGameState.Score →
      max s.InvadersGameState.HiScore s.InvadersGameState.Score < 2 ^ 32 →
      ((toUInt32 (max s.InvadersGameState.HiScore s.InvadersGameState.Score) : Nat) : Int)
        = max s.InvadersGameState.HiScore s.InvadersGameState.Score) := by
  by_cases h : s.InvadersGameState.Score > s.InvadersGameState.HiScore
  · have hm : max s.InvadersGameState.HiScore s.InvadersGameState.Score = s.InvadersGameState.Score := max_eq_right (le_of_lt h)
    refine ⟨?_, ?_, ?_, ?_, ?_⟩
    · simp [SaveHiScore, h, hm]
    · simp [SaveHiScore, h, hm]
    · simp [SaveHiScore, h, hm]
    · intro h1
      simp [HandlePlayerHit, SaveHiScore, ShowRestartMenu, h, hm, h1]
    · exact toUInt32_of_nonneg _
  · have h2 : s.InvadersGameState.Score ≤ s.InvadersGameState.HiScore := not_lt.mp h
    have hm : max s.InvadersGameState.HiScore s.InvadersGameState.Score = s.InvadersGameState.HiScore := max_eq_left h2
    refine ⟨?_, ?_, ?_, ?_, ?_⟩
    · simp [SaveHiScore, h, hm]
    · simp [SaveHiScore, h, hm]
    · simp [SaveHiScore, h, hm]
    · intro h1
      simp [HandlePlayerHit, SaveHiScore, ShowRestartMenu, h, hm, h1]
    · exact toUInt32_of_nonneg _

/-- C8 at a sample state: score 120, high score 50, one life left. -/
theorem SaveHiScore_max_witness :
    (HandlePlayerHit (SampleRun 120 0 50 0 1)).InvadersGameState.HiScore = 120 ∧
    (HandlePlayerHit (SampleRun 120 0 50 0 1)).SaveSlot = some 120 ∧
    ((toUInt32 120 : Nat) : Int) = 120 := by
  have e : max (SampleRun 120 0 50 0 1).InvadersGameState.HiScore
      (SampleRun 120 0 50 0 1).InvadersGameState.Score = 120 := by decide
  have h := (SaveHiScore_max (SampleRun 120 0 50 0 1)).2.2.2.1 rfl
  have h2 := (SaveHiScore_max (SampleRun 120 0 50 0 1)).2.2.2.2 (by decide) (by decide)
  rw [e] at h h2
  exact ⟨h.1, h.2, h2⟩

/-- What a hit does while more than one life is left (or none). -/
theorem HandlePlayerHit_of_ne_one (s : AInvadersGameMode) (h : s.InvadersGameState.CurrentLives ≠ 1) :
    (HandlePlayerHit s).InvadersGameState.CurrentLives = s.InvadersGameState.CurrentLives - 1 ∧
    (HandlePlayerHit s).InvadersGameState.Score = s.InvadersGameState.Score ∧
    (HandlePlayerHit s).InvadersGameState.HiScore = s.InvadersGameState.HiScore ∧
    (HandlePlayerHit s).InvadersGameState.PrevHiScore = s.InvadersGameState.PrevHiScore ∧
    (HandlePlayerHit s).Events = s.Events ∧
    (HandlePlayerHit s).SaveSlot = s.SaveSlot ∧
    (HandlePlayerHit s).GameOverInViewport = s.GameOverInViewport ∧
    (HandlePlayerHit s).PlayerAppearTHandle = some ⟨1, false, false⟩ := by
  have h' : ¬ (s.InvadersGameState.CurrentLives - 1 = 0) := by omega
  simp [HandlePlayerHit, h', SetTimer]

/-- What the hit that takes the last life does. -/
theorem HandlePlayerHit_of_eq_one (s : AInvadersGameMode) (h : s.InvadersGameState.CurrentLives = 1) :
    (HandlePlayerHit s).InvadersGameState.CurrentLives = 0 ∧
    (∃ hi cur, (HandlePlayerHit s).Events = s.Events ++
      [Event.SaveGameToSlot (toUInt32 (max s.InvadersGameState.HiScore s.InvadersGameState.Score)),
        Event.DisableInput, Event.ShowRestartMenu, Event.ScoreTexts hi cur]) ∧
    (HandlePlayerHit s).GameOverInViewport = true ∧
    (HandlePlayerHit s).PlayerAppearTHandle = s.PlayerAppearTHandle := by
  by_cases hs : s.InvadersGameState.Score > s.InvadersGameState.HiScore
  · have hm := max_eq_right (le_of_lt hs)
    simp [HandlePlayerHit, SaveHiScore, ShowRestartMenu, UpdateScoreTexts, h, hs, hm]
  · have hm := max_eq_left (not_lt.mp hs)
    simp [HandlePlayerHit, SaveHiScore, ShowRestartMenu, UpdateScoreTexts, h, hs, hm]

/-- The state after `k < n` hits, starting with `n` lives. -/
theorem HandlePlayerHit_iterate_before (n : Nat) (s : AInvadersGameMode)
    (hs : s.InvadersGameState.CurrentLives = n) :
    ∀ k : Nat, k < n →
      (HandlePlayerHit^[k] s).InvadersGameState.CurrentLives = (n : Int) - k ∧
      (HandlePlayerHit^[k] s).InvadersGameState.Score = s.InvadersGameState.Score ∧
      (HandlePlayerHit^[k] s).InvadersGameState.HiScore = s.InvadersGameState.HiScore ∧
      (HandlePlayerHit^[k] s).Events = s.Events ∧
      (HandlePlayerHit^[k] s).SaveSlot = s.SaveSlot ∧
      (HandlePlayerHit^[k] s).GameOverInViewport = s.GameOverInViewport := by
  intro k
  induction k with
  | zero => intro _; simp [hs]
  | succ k ih =>
    intro hk
    obtain ⟨h1, h2, h3, h4, h5, h6⟩ := ih (by omega)
    have hne : (HandlePlayerHit^[k] s).InvadersGameState.CurrentLives ≠ 1 := by omega
    obtain ⟨g1, g2, g3, _, g5, g6, g7, _⟩ := HandlePlayerHit_of_ne_one _ hne
    rw [Function.iterate_succ_apply']
    refine ⟨?_, ?_, ?_, ?_, ?_, ?_⟩
    · rw [g1, h1]; push_cast; ring
    · rw [g2, h2]
    · rw [g3, h3]
    · rw [g5, h4]
    · rw [g6, h5]
    · rw [g7, h6]

/-- C7: from `CurrentLives = n ≥ 1`, `n` calls of `HandlePlayerHit` end with no life
left; each of the first `n - 1` calls adds no event, leaves the save slot and the game-over
widget alone and schedules the player respawn (one-shot, delay 1); the `n`-th call alone
requests the save and shows the game-over menu. -/
theorem HandlePlayerHit_game_over_once (n : Nat) (hn : 1 ≤ n) (s : AInvadersGameMode)
    (hs : s.InvadersGameState.CurrentLives = n) :
    (HandlePlayerHit^[n] s).InvadersGameState.CurrentLives = 0 ∧
    (∀ k : Nat, k + 1 < n →
      (HandlePlayerHit^[k + 1] s).Events = (HandlePlayerHit^[k] s).Events ∧
      (HandlePlayerHit^[k + 1] s).SaveSlot = (HandlePlayerHit^[k] s).SaveSlot ∧
      (HandlePlayerHit^[k + 1] s).GameOverInViewport = (HandlePlayerHit^[k] s).GameOverInViewport ∧
      (HandlePlayerHit^[k + 1] s).PlayerAppearTHandle = some ⟨1, false, false⟩) ∧
    (∃ hi cur, (HandlePlayerHit^[n] s).Events = (HandlePlayerHit^[n - 1] s).Events ++
      [Event.SaveGameToSlot (toUInt32 (max s.InvadersGameState.HiScore s.InvadersGameState.Score)),
        Event.DisableInput, Event.ShowRestartMenu, Event.ScoreTexts hi cur]) ∧
    (HandlePlayerHit^[n - 1] s).Events = s.Events ∧
    (HandlePlayerHit^[n] s).GameOverInViewport = true ∧
    (HandlePlayerHit^[n] s).PlayerAppearTHandle = (HandlePlayerHit^[n - 1] s).PlayerAppearTHandle := by
  obtain ⟨m, rfl⟩ : ∃ m, n = m + 1 := ⟨n - 1, by omega⟩
  obtain ⟨h1, h2, h3, h4, h5, h6⟩ := HandlePlayerHit_iterate_before (m + 1) s hs m (by omega)
  have hone : (HandlePlayerHit^[m] s).InvadersGameState.CurrentLives = 1 := by
    rw [h1]; push_cast; ring
  obtain ⟨g1, ⟨hi, cur, g2⟩, g3, g4⟩ := HandlePlayerHit_of_eq_one _ hone
  simp only [Nat.add_sub_cancel]
  refine ⟨?_, ?_, ?_, h4, ?_, ?_⟩
  · rw [Function.iterate_succ_apply']; exact g1
  · intro k hk
    obtain ⟨k1, _, _, _, _, _⟩ := HandlePlayerHit_iterate_before (m + 1) s hs k (by omega)
    have hne : (HandlePlayerHit^[k] s).InvadersGameState.CurrentLives ≠ 1 := by omega
    obtain ⟨_, _, _, _, g5, g6, g7, g8⟩ := HandlePlayerHit_of_ne_one _ hne
    rw [Function.iterate_succ_apply']
    exact ⟨g5, g6, g7, g8⟩
  · refine ⟨hi, cur, ?_⟩
    rw [Function.iterate_succ_apply', g2, h2, h3]
  · rw [Function.iterate_succ_apply']; exact g3
  · rw [Function.iterate_succ_apply']; exact g4

/-- C7 with three lives. -/
theorem HandlePlayerHit_game_over_once_witness :
    (HandlePlayerHit^[3] (SampleRun 120 0 50 0 3)).InvadersGameState.CurrentLives = 0 ∧
    (HandlePlayerHit^[1] (SampleRun 120 0 50 0 3)).Events = [] ∧
    (HandlePlayerHit^[2] (SampleRun 120 0 50 0 3)).Events = [] ∧
    (∃ hi cur, (HandlePlayerHit^[3] (SampleRun 120 0 50 0 3)).Events =
      [Event.SaveGameToSlot 120, Event.DisableInput, Event.ShowRestartMenu, Event.ScoreTexts hi cur]) := by
  have h := HandlePlayerHit_game_over_once 3 (by decide) (SampleRun 120 0 50 0 3) rfl
  obtain ⟨h1, h2, ⟨hi, cur, h3⟩, h4, h5, h6⟩ := h
  have e1 := (h2 0 (by decide)).1
  have e2 := (h2 1 (by decide)).1
  have e0 : (SampleRun 120 0 50 0 3).Events = [] := rfl
  simp only [Function.iterate_zero, id_eq, zero_add] at e1
  rw [e0] at e1
  refine ⟨h1, e1, ?_, hi, cur, ?_⟩
  · rw [← e1]; exact e2
  · rw [h3]
    simp only [show 3 - 1 = 2 from rfl] at h4 ⊢
    rw [h4]
    rfl

/-! ### Restart -/

/-- `ResetUnits` only zeroes the two bullet counts of the game state. -/
theorem ResetUnits_gameState (s : AInvadersGameMode) :
    (ResetUnits s).InvadersGameState =
      { s.InvadersGameState with ActiveEnemyBullets := 0, ActivePlayerBullets := 0 } := by
  simp [ResetUnits, UpdateEnemyGroupMovement, UpdateUfoMovement, AActor.deactivate]

/-- The game state after `RestartInvadersGame`. -/
theorem RestartInvadersGame_gameState (Rand : ℚ) (s : AInvadersGameMode) :
    (RestartInvadersGame Rand s).InvadersGameState =
      { s.InvadersGameState with
        EnemyProgTime := 0
        UfoProgTime := 0
        EnemyAppearAnimTime := 5
        PlayerAppearAnimTime := 1
        CurrentLives := s.PlayerDef.Lives
        LevelStarted := true
        ActiveEnemyBullets := 0
        ActivePlayerBullets := 0 } := by
  simp [RestartInvadersGame, ResetUnits_gameState]

/-- C6 (code defect): a restart after a run with score 120 on level 2 resets the lives
and sets `LevelStarted`, but `Score` is still 120 and `CurrentLevel` still 2. -/
theorem RestartInvadersGame_keeps_score_and_level :
    (RestartInvadersGame 8 (SampleRun 120 0 120 2 0)).InvadersGameState.Score = 120 ∧
    (RestartInvadersGame 8 (SampleRun 120 0 120 2 0)).InvadersGameState.CurrentLevel = 2 ∧
    (RestartInvadersGame 8 (SampleRun 120 0 120 2 0)).InvadersGameState.CurrentLives = 3 ∧
    (RestartInvadersGame 8 (SampleRun 120 0 120 2 0)).InvadersGameState.LevelStarted = true := by
  rw [RestartInvadersGame_gameState]
  exact ⟨rfl, rfl, rfl, rfl⟩

/-! ### Shooting front -/

/-- Two indices of one column differ by at least a row. -/
theorem same_column_step (R a b : Nat) (hab : a < b) (hmod : b % R = a % R) : a + R ≤ b := by
  have h1 : (b - a) % R = 0 := Nat.sub_mod_eq_zero_of_mod_eq hmod
  have h2 : R ∣ b - a := Nat.dvd_of_mod_eq_zero h1
  have h3 : R ≤ b - a := Nat.le_of_dvd (by omega) h2
  omega

/-- With enough iterations the column scan returns: it adds the first visible index of the
column at or after `Idx`, or nothing when the column has none. -/
theorem FindNextVisible_spec (EnemyShips : List AActor) (R Total : Nat) (hR : 0 < R)
    (hlen : Total ≤ EnemyShips.length) (Sh : List Nat) :
    ∀ (fuel Idx : Nat), 0 < fuel → Total < Idx + fuel →
      (∃ j, FindNextVisible EnemyShips R Total fuel Idx Sh = some (Sh ++ [j]) ∧
          Idx ≤ j ∧ j < Total ∧ j % R = Idx % R ∧ IsVisible EnemyShips j = true ∧
          ∀ k, Idx ≤ k → k < j → k % R = Idx % R → IsVisible EnemyShips k = false) ∨
      (FindNextVisible EnemyShips R Total fuel Idx Sh = some Sh ∧
          ∀ k, Idx ≤ k → k < Total → k % R = Idx % R → IsVisible EnemyShips k = false) := by
  intro fuel
  induction fuel with
  | zero => intro Idx h0; omega
  | succ fuel ih =>
    intro Idx _ h
    unfold FindNextVisible
    by_cases hI : Idx < Total
    · have hlt : Idx < EnemyShips.length := by omega
      simp only [hI, if_true, List.getElem?_eq_getElem hlt]
      by_cases hH : (EnemyShips[Idx]).Hidden = true
      · simp only [hH, Bool.not_true, Bool.false_eq_true, if_false]
        have hvis : IsVisible EnemyShips Idx = false := by
          simp [IsVisible, List.getElem?_eq_getElem hlt, hH]
        have hstep : ∀ k, Idx ≤ k → k % R = Idx % R → IsVisible EnemyShips k = true → Idx + R ≤ k := by
          intro k hk hm hv
          have : k ≠ Idx := by intro e; rw [e, hvis] at hv; exact absurd hv (by decide)
          exact same_column_step R Idx k (by omega) hm
        rcases ih (Idx + R) (by omega) (by omega) with ⟨j, h1, h2, h3, h4, h5, h6⟩ | ⟨h1, h2⟩
        · left
          refine ⟨j, h1, by omega, h3, by rw [h4, Nat.add_mod_right], h5, ?_⟩
          intro k hk hkj hm
          by_contra hv
          have hv' : IsVisible EnemyShips k = true := by simpa using hv
          have := hstep k hk hm hv'
          have := h6 k this hkj (by rw [hm, Nat.add_mod_right])
          rw [this] at hv'; exact absurd hv' (by decide)
        · right
          refine ⟨h1, ?_⟩
          intro k hk hkT hm
          by_contra hv
          have hv' : IsVisible EnemyShips k = true := by simpa using hv
          have := hstep k hk hm hv'
          have := h2 k this hkT (by rw [hm, Nat.add_mod_right])
          rw [this] at hv'; exact absurd hv' (by decide)
      · left
        have hH' : (EnemyShips[Idx]).Hidden = false := by simpa using hH
        refine ⟨Idx, by simp [hH'], le_refl _, hI, rfl, by simp [IsVisible, List.getElem?_eq_getElem hlt, hH'], ?_⟩
        intro k hk hk2; omega
    · right
      simp only [hI, if_false, true_and]
      intro k hk hk2; omega

/-- Visibility after hiding the enemy in slot `i`. -/
theorem IsVisible_set_deactivate (Ships : List AActor) (i : Nat) (E : AActor)
    (hE : Ships[i]? = some E) (k : Nat) :
    IsVisible (Ships.set i E.deactivate) k = (if k = i then false else IsVisible Ships k) := by
  have hi : i < Ships.length := by
    by_contra h
    rw [List.getElem?_eq_none (by omega)] at hE
    exact absurd hE (by simp)
  by_cases hk : k = i
  · subst hk
    simp [IsVisible, List.getElem?_set, hi, AActor.deactivate]
  · have : ¬ i = k := fun e => hk e.symm
    simp [IsVisible, List.getElem?_set, hk, this]

/-- A column has at most one front. -/
theorem IsFront_unique (Ships : List AActor) (R Total a b : Nat)
    (ha : IsFront Ships R Total a) (hb : IsFront Ships R Total b) (hab : a % R = b % R) : a = b := by
  rcases Nat.lt_trichotomy a b with h | h | h
  · have := hb.2.2 a h hab
    rw [ha.2.1] at this; exact absurd this (by decide)
  · exact h
  · have := ha.2.2 b h hab.symm
    rw [hb.2.1] at this; exact absurd this (by decide)

/-- Hiding an enemy that is not in the front keeps the front invariant. -/
theorem FrontInvL_kill_not_front (Ships : List AActor) (R Total : Nat) (Sh : List Nat)
    (hInv : FrontInvL Ships R Total Sh) (i : Nat) (E : AActor) (hE : Ships[i]? = some E)
    (hi : i ∉ Sh) : FrontInvL (Ships.set i E.deactivate) R Total Sh := by
  obtain ⟨hnd, hall, hcomp⟩ := hInv
  have hV := IsVisible_set_deactivate Ships i E hE
  have hnf : ¬ IsFront Ships R Total i := fun h => hi (hcomp i h.1 h)
  refine ⟨hnd, ?_, ?_⟩
  · intro j hj
    have hji : j ≠ i := fun e => hi (e ▸ hj)
    obtain ⟨h1, h2, h3⟩ := hall j hj
    refine ⟨h1, by rw [hV, if_neg hji]; exact h2, ?_⟩
    intro k hk hm
    rw [hV]
    split
    · rfl
    · exact h3 k hk hm
  · intro j hjT hF
    apply hcomp j hjT
    obtain ⟨h1, h2, h3⟩ := hF
    rw [hV] at h2
    have hji : j ≠ i := by
      intro e; rw [if_pos e] at h2; exact absurd h2 (by decide)
    rw [if_neg hji] at h2
    refine ⟨h1, h2, ?_⟩
    intro k hk hm
    by_cases hki : k = i
    · by_contra hv
      have hv' : IsVisible Ships i = true := by rw [hki] at hv; simpa using hv
      apply hnf
      refine ⟨by omega, hv', ?_⟩
      intro k' hk' hm'
      have h4 := h3 k' (by omega) (by rw [hm', ← hki, hm])
      rw [hV, if_neg (by omega)] at h4
      exact h4
    · have h4 := h3 k hk hm
      rw [hV, if_neg hki] at h4
      exact h4

/-- Hiding a front enemy and replacing it by the result of the column scan keeps the
front invariant. -/
theorem FrontInvL_kill_front (Ships : List AActor) (R Total : Nat) (Sh : List Nat)
    (hInv : FrontInvL Ships R Total Sh) (i : Nat) (E : AActor) (hE : Ships[i]? = some E)
    (hi : i ∈ Sh) (Sh' : List Nat)
    (hSh : (∃ j, Sh' = Sh.erase i ++ [j] ∧ i + R ≤ j ∧ j < Total ∧ j % R = i % R ∧
              IsVisible (Ships.set i E.deactivate) j = true ∧
              ∀ k, i + R ≤ k → k < j → k % R = i % R →
                IsVisible (Ships.set i E.deactivate) k = false) ∨
           (Sh' = Sh.erase i ∧ ∀ k, i + R ≤ k → k < Total → k % R = i % R →
                IsVisible (Ships.set i E.deactivate) k = false)) :
    FrontInvL (Ships.set i E.deactivate) R Total Sh' := by
  obtain ⟨hnd, hall, hcomp⟩ := hInv
  have hV := IsVisible_set_deactivate Ships i E hE
  have hFi := hall i hi
  -- facts on the other columns
  have hother : ∀ x, x % R ≠ i % R →
      (IsFront (Ships.set i E.deactivate) R Total x ↔ IsFront Ships R Total x) := by
    intro x hx
    have hxi : x ≠ i := fun e => hx (e ▸ rfl)
    constructor
    · rintro ⟨h1, h2, h3⟩
      rw [hV, if_neg hxi] at h2
      refine ⟨h1, h2, ?_⟩
      intro k hk hm
      have h4 := h3 k hk hm
      have hki : k ≠ i := fun e => hx (by rw [← hm, e])
      rw [hV, if_neg hki] at h4
      exact h4
    · rintro ⟨h1, h2, h3⟩
      refine ⟨h1, by rw [hV, if_neg hxi]; exact h2, ?_⟩
      intro k hk hm
      rw [hV]
      split
      · rfl
      · exact h3 k hk hm
  have hmem_erase : ∀ x, x ∈ Sh.erase i ↔ x ≠ i ∧ x ∈ Sh := fun x => hnd.mem_erase_iff
  have hcol : ∀ x, x ∈ Sh.erase i → x % R ≠ i % R := by
    intro x hx hm
    obtain ⟨hxi, hxS⟩ := (hmem_erase x).1 hx
    exact hxi (IsFront_unique Ships R Total x i (hall x hxS) hFi hm)
  -- below `i` nothing of its column is visible after the kill either
  have hbelow : ∀ k, k ≤ i → k % R = i % R → IsVisible (Ships.set i E.deactivate) k = false := by
    intro k hk hm
    rw [hV]
    split
    · rfl
    · exact hFi.2.2 k (by omega) hm
  rcases hSh with ⟨j, rfl, hj1, hj2, hj3, hj4, hj5⟩ | ⟨rfl, hnone⟩
  · have hjS : j ∉ Sh.erase i := fun h => hcol j h hj3
    refine ⟨?_, ?_, ?_⟩
    · rw [List.nodup_append]
      refine ⟨hnd.erase i, List.nodup_singleton j, ?_⟩
      intro a ha hb
      rw [List.mem_singleton] at hb
      exact hjS (hb ▸ ha)
    · intro x hx
      rw [List.mem_append, List.mem_singleton] at hx
      rcases hx with hx | rfl
      · exact (hother x (hcol x hx)).2 (hall x ((hmem_erase x).1 hx).2)
      · refine ⟨hj2, hj4, ?_⟩
        intro k hk hm
        by_cases hki : k ≤ i
        · exact hbelow k hki (by rw [hm, hj3])
        · have := same_column_step R i k (by omega) (by rw [hm, hj3])
          exact hj5 k this hk (by rw [hm, hj3])
    · intro x hxT hF
      rw [List.mem_append, List.mem_singleton]
      by_cases hm : x % R = i % R
      · right
        have hFj : IsFront (Ships.set i E.deactivate) R Total j := by
          refine ⟨hj2, hj4, ?_⟩
          intro k hk hm'
          by_cases hki : k ≤ i
          · exact hbelow k hki (by rw [hm', hj3])
          · have := same_column_step R i k (by omega) (by rw [hm', hj3])
            exact hj5 k this hk (by rw [hm', hj3])
        exact IsFront_unique _ R Total x j hF hFj (by rw [hm, hj3])
      · left
        rw [hmem_erase]
        exact ⟨fun e => hm (e ▸ rfl), hcomp x hxT ((hother x hm).1 hF)⟩
  · refine ⟨hnd.erase i, ?_, ?_⟩
    · intro x hx
      exact (hother x (hcol x hx)).2 (hall x ((hmem_erase x).1 hx).2)
    · intro x hxT hF
      by_cases hm : x % R = i % R
      · exfalso
        have hvx := hF.2.1
        by_cases hxi : x ≤ i
        · rw [hbelow x hxi hm] at hvx; exact absurd hvx (by decide)
        · have := same_column_step R i x (by omega) hm
          rw [hnone x this hxT hm] at hvx; exact absurd hvx (by decide)
      · rw [hmem_erase]
        exact ⟨fun e => hm (e ▸ rfl), hcomp x hxT ((hother x hm).1 hF)⟩

/-- The front update for the enemy in slot `i`: nothing when `i` is not in the front,
otherwise `i` is removed and the column scan from `i + EnemiesInRow` decides the
replacement. -/
theorem ReorganizeShooters_enemy (i : Nat) (u : AInvadersGameMode)
    (hR : 0 < u.Rules.EnemiesInRow)
    (hlen : u.InvadersGameState.TotalEnemyNum ≤ u.EnemyShips.length)
    (hi : i < u.EnemyShips.length) :
    (i ∉ u.ShootingEnemies → ReorganizeShooters (.Enemy i) u = some u) ∧
    (i ∈ u.ShootingEnemies → ∃ Sh, ReorganizeShooters (.Enemy i) u
        = some { u with ShootingEnemies := Sh } ∧
      ((∃ j, Sh = u.ShootingEnemies.erase i ++ [j] ∧ i + u.Rules.EnemiesInRow ≤ j ∧
          j < u.InvadersGameState.TotalEnemyNum ∧
          j % u.Rules.EnemiesInRow = i % u.Rules.EnemiesInRow ∧
          IsVisible u.EnemyShips j = true ∧
          ∀ k, i + u.Rules.EnemiesInRow ≤ k → k < j →
            k % u.Rules.EnemiesInRow = i % u.Rules.EnemiesInRow →
            IsVisible u.EnemyShips k = false) ∨
       (Sh = u.ShootingEnemies.erase i ∧
          ∀ k, i + u.Rules.EnemiesInRow ≤ k → k < u.InvadersGameState.TotalEnemyNum →
            k % u.Rules.EnemiesInRow = i % u.Rules.EnemiesInRow →
            IsVisible u.EnemyShips k = false))) := by
  constructor
  · intro h
    simp [ReorganizeShooters, EnemyShipsFind, hi, FindIdx, h]
  · intro h
    have hk : List.indexOf i u.ShootingEnemies < u.ShootingEnemies.length :=
      List.indexOf_lt_length.2 h
    have hget : u.ShootingEnemies[List.indexOf i u.ShootingEnemies]? = some i :=
      List.getElem?_indexOf h
    have hspec := FindNextVisible_spec u.EnemyShips u.Rules.EnemiesInRow
      u.InvadersGameState.TotalEnemyNum hR hlen (u.ShootingEnemies.erase i)
      (u.InvadersGameState.TotalEnemyNum + 1) (i + u.Rules.EnemiesInRow) (by omega) (by omega)
    have hmod : (i + u.Rules.EnemiesInRow) % u.Rules.EnemiesInRow = i % u.Rules.EnemiesInRow :=
      Nat.add_mod_right _ _
    rcases hspec with ⟨j, h1, h2, h3, h4, h5, h6⟩ | ⟨h1, h2⟩
    · refine ⟨u.ShootingEnemies.erase i ++ [j], ?_, Or.inl ⟨j, rfl, h2, h3, by rw [h4, hmod], h5, ?_⟩⟩
      · simp [ReorganizeShooters, EnemyShipsFind, hi, FindIdx, h, hget, h1]
      · intro k hk1 hk2 hk3
        exact h6 k hk1 hk2 (by rw [hk3, hmod])
    · refine ⟨u.ShootingEnemies.erase i, ?_, Or.inr ⟨rfl, ?_⟩⟩
      · simp [ReorganizeShooters, EnemyShipsFind, hi, FindIdx, h, hget, h1]
      · intro k hk1 hk2 hk3
        exact h2 k hk1 hk2 (by rw [hk3, hmod])

/-- `forFirst` keeps the length. -/
theorem forFirst_length (f : AActor → AActor) : ∀ (n : Nat) (l : List AActor),
    (forFirst f n l).length = l.length := by
  intro n
  induction n with
  | zero => intro l; rfl
  | succ n ih =>
    intro l
    cases l with
    | nil => rfl
    | cons a l => simp [forFirst, ih]

/-- `forFirst` applies the function to the slots below `n` only. -/
theorem forFirst_getElem? (f : AActor → AActor) : ∀ (n : Nat) (l : List AActor) (i : Nat),
    (forFirst f n l)[i]? = if i < n then l[i]?.map f else l[i]? := by
  intro n
  induction n with
  | zero => intro l i; simp [forFirst]
  | succ n ih =>
    intro l i
    cases l with
    | nil => simp [forFirst]
    | cons a l =>
      cases i with
      | zero => simp [forFirst]
      | succ i => simp [forFirst, ih]

/-- The loop of `SpawnEnemies` appends the indices below `min EnemiesInRow TotalEnemyNum`. -/
theorem AddFirstRow_eq (R : Nat) : ∀ (n : Nat) (acc : List Nat),
    AddFirstRow R n acc = acc ++ List.range (min R n) := by
  intro n
  induction n with
  | zero => intro acc; simp [AddFirstRow]
  | succ n ih =>
    intro acc
    have ih' := ih acc
    unfold AddFirstRow at ih' ⊢
    rw [List.range_succ, List.foldl_append, ih']
    simp only [List.foldl_cons, List.foldl_nil]
    by_cases h : n < R
    · rw [if_pos h, Nat.min_eq_right (by omega), Nat.min_eq_right (by omega), List.range_succ,
        List.append_assoc]
    · rw [if_neg h, Nat.min_eq_left (by omega), Nat.min_eq_left (by omega)]

/-- The grid after `SpawnEnemies`. -/
theorem SpawnEnemies_fields (s : AInvadersGameMode) :
    (SpawnEnemies s).EnemyShips
      = forFirst AActor.activate s.InvadersGameState.TotalEnemyNum s.EnemyShips ∧
    (SpawnEnemies s).ShootingEnemies
      = List.range (min s.Rules.EnemiesInRow s.InvadersGameState.TotalEnemyNum) ∧
    (SpawnEnemies s).Rules = s.Rules ∧
    (SpawnEnemies s).InvadersGameState.TotalEnemyNum = s.InvadersGameState.TotalEnemyNum ∧
    (SpawnEnemies s).InvadersGameState.ActiveEnemyNum = s.InvadersGameState.TotalEnemyNum := by
  simp [SpawnEnemies, UpdateEnemyGroupMovement, AddFirstRow_eq]

/-- `SpawnEnemies` establishes the front invariant. -/
theorem SpawnEnemies_FrontInv (s : AInvadersGameMode)
    (hGrid : s.InvadersGameState.TotalEnemyNum = s.Rules.EnemiesInRow * s.Rules.EnemiesInColumn)
    (hlen : s.InvadersGameState.TotalEnemyNum ≤ s.EnemyShips.length) :
    FrontInv (SpawnEnemies s) := by
  obtain ⟨h1, h2, h3, h4, _⟩ := SpawnEnemies_fields s
  unfold FrontInv
  rw [h1, h2, h3, h4]
  have hvis : ∀ j, j < s.InvadersGameState.TotalEnemyNum →
      IsVisible (forFirst AActor.activate s.InvadersGameState.TotalEnemyNum s.EnemyShips) j = true := by
    intro j hj
    have hjl : j < s.EnemyShips.length := by omega
    simp [IsVisible, forFirst_getElem?, hj, List.getElem?_eq_getElem hjl, AActor.activate]
  refine ⟨List.nodup_range _, ?_, ?_⟩
  · intro j hj
    rw [List.mem_range] at hj
    refine ⟨by omega, hvis j (by omega), ?_⟩
    intro k hk hm
    exfalso
    have hjR : j < s.Rules.EnemiesInRow := by omega
    rw [Nat.mod_eq_of_lt (by omega), Nat.mod_eq_of_lt hjR] at hm
    omega
  · intro j hjT hF
    rw [List.mem_range]
    by_contra hn
    have hge : s.Rules.EnemiesInRow ≤ j := by omega
    have := hF.2.2 (j - s.Rules.EnemiesInRow) (by
      have : 0 < s.Rules.EnemiesInRow := by
        by_contra h0
        have h00 : s.Rules.EnemiesInRow = 0 := by omega
        rw [h00, Nat.zero_mul] at hGrid
        omega
      omega) (by
      conv_rhs => rw [← Nat.sub_add_cancel hge]
      rw [Nat.add_mod_right])
    rw [hvis _ (by omega)] at this
    exact absurd this (by decide)

/-- The hit of a player bullet on the grid enemy in slot `i`, up to the front update. -/
theorem PlayerBulletHit_enemy (Rand : ℚ) (i : Nat) (s : AInvadersGameMode) (E : AActor)
    (Points : Int) (hE : s.EnemyShips[i]? = some E)
    (hP : MapFind s.EnemyPointMap E.Class = some Points) :
    PlayerBulletHit Rand (.Enemy i) s = ReorganizeShooters (.Enemy i)
      { s with
        EnemyShips := s.EnemyShips.set i E.deactivate
        InvadersGameState := { s.InvadersGameState with
          Score := Int32Add s.InvadersGameState.Score Points
          ActiveEnemyNum := s.InvadersGameState.ActiveEnemyNum - 1 } } := by
  simp [PlayerBulletHit, ActorRef.IsAsteroid, ActorRef.IsUfo, Deref, DeactivateUnit, hE, hP]

/-- A slot that holds a value is within the list. -/
theorem getElem?_some_lt {α : Type} (l : List α) (i : Nat) (a : α) (h : l[i]? = some a) :
    i < l.length := by
  by_contra hn
  rw [List.getElem?_eq_none (by omega)] at h
  exact absurd h (by simp)

/-- C2: in a grid state whose shooting front is exact (`FrontInv`), the hit of a player
bullet on the visible grid enemy `i` succeeds and hides `i`; (a) if `i` was in the front it
is removed, and the front gets the smallest visible `j > i` of the same column appended, or
nothing when the column has no visible enemy behind `i`, in which case no index of that
column remains; (b) if `i` was not in the front, the front is unchanged; (c) membership of
the indices of all other columns is unchanged. -/
theorem kill_updates_front (Rand : ℚ) (s : AInvadersGameMode) (i : Nat)
    (hGrid : s.InvadersGameState.TotalEnemyNum = s.Rules.EnemiesInRow * s.Rules.EnemiesInColumn)
    (hlen : s.EnemyShips.length = s.InvadersGameState.TotalEnemyNum)
    (hPts : ∀ E ∈ s.EnemyShips, (MapFind s.EnemyPointMap E.Class).isSome = true)
    (hInv : FrontInv s)
    (hi : i < s.InvadersGameState.TotalEnemyNum) (_hvis : IsVisible s.EnemyShips i = true) :
    ∃ t, PlayerBulletHit Rand (.Enemy i) s = some t ∧
      IsVisible t.EnemyShips i = false ∧
      (i ∈ s.ShootingEnemies →
        i ∉ t.ShootingEnemies ∧
        (∀ j, i < j → j < s.InvadersGameState.TotalEnemyNum →
          j % s.Rules.EnemiesInRow = i % s.Rules.EnemiesInRow →
          IsVisible s.EnemyShips j = true →
          (∀ k, i < k → k < j → k % s.Rules.EnemiesInRow = i % s.Rules.EnemiesInRow →
            IsVisible s.EnemyShips k = false) →
          t.ShootingEnemies = s.ShootingEnemies.erase i ++ [j]) ∧
        ((∀ j, i < j → j < s.InvadersGameState.TotalEnemyNum →
            j % s.Rules.EnemiesInRow = i % s.Rules.EnemiesInRow →
            IsVisible s.EnemyShips j = false) →
          t.ShootingEnemies = s.ShootingEnemies.erase i ∧
          ∀ k ∈ t.ShootingEnemies, k % s.Rules.EnemiesInRow ≠ i % s.Rules.EnemiesInRow)) ∧
      (i ∉ s.ShootingEnemies → t.ShootingEnemies = s.ShootingEnemies) ∧
      (∀ k, k % s.Rules.EnemiesInRow ≠ i % s.Rules.EnemiesInRow →
        (k ∈ t.ShootingEnemies ↔ k ∈ s.ShootingEnemies)) := by
  have hil : i < s.EnemyShips.length := by omega
  have hR : 0 < s.Rules.EnemiesInRow := by
    rcases Nat.eq_zero_or_pos s.Rules.EnemiesInRow with h | h
    · rw [h, Nat.zero_mul] at hGrid; omega
    · exact h
  have hE : s.EnemyShips[i]? = some s.EnemyShips[i] := List.getElem?_eq_getElem hil
  obtain ⟨Points, hP⟩ := Option.isSome_iff_exists.1 (hPts _ (List.getElem_mem hil))
  have hV := IsVisible_set_deactivate s.EnemyShips i _ hE
  obtain ⟨hnd, hall, hcomp⟩ := hInv
  rw [PlayerBulletHit_enemy Rand i s _ Points hE hP]
  obtain ⟨hA, hB⟩ := ReorganizeShooters_enemy i
    { s with
      EnemyShips := s.EnemyShips.set i (s.EnemyShips[i]).deactivate
      InvadersGameState := { s.InvadersGameState with
        Score := Int32Add s.InvadersGameState.Score Points
        ActiveEnemyNum := s.InvadersGameState.ActiveEnemyNum - 1 } }
    hR (by simp [hlen]) (by simpa using hil)
  by_cases hmem : i ∈ s.ShootingEnemies
  · obtain ⟨Sh, hSh, hcases⟩ := hB hmem
    refine ⟨_, hSh, by simp [hV], ?_, fun h => absurd hmem h, ?_⟩
    · intro _
      have hcol : ∀ x, x ∈ s.ShootingEnemies.erase i →
          x % s.Rules.EnemiesInRow ≠ i % s.Rules.EnemiesInRow := by
        intro x hx hm
        obtain ⟨hxi, hxS⟩ := hnd.mem_erase_iff.1 hx
        exact hxi (IsFront_unique _ _ _ x i (hall x hxS) (hall i hmem) hm)
      rcases hcases with ⟨j0, rfl, h1, h2, h3, h4, h5⟩ | ⟨rfl, h2⟩
      · simp only at h4 h5 h2 h1 h3
        rw [hV, if_neg (by omega)] at h4
        refine ⟨?_, ?_, ?_⟩
        · simp only [List.mem_append, List.mem_singleton, not_or]
          exact ⟨fun h => (hnd.mem_erase_iff.1 h).1 rfl, by omega⟩
        · intro j hj1 hj2 hj3 hj4 hj5
          have : j = j0 := by
            rcases Nat.lt_trichotomy j j0 with h | h | h
            · have hge := same_column_step _ i j hj1 hj3
              have := h5 j hge h hj3
              rw [hV, if_neg (by omega), hj4] at this
              exact absurd this (by decide)
            · exact h
            · have := hj5 j0 (by omega) h h3
              rw [h4] at this
              exact absurd this (by decide)
          rw [this]
        · intro hnone
          have := hnone j0 (by omega) h2 h3
          rw [h4] at this
          exact absurd this (by decide)
      · simp only at h2
        refine ⟨fun h => (hnd.mem_erase_iff.1 h).1 rfl, ?_, ?_⟩
        · intro j hj1 hj2 hj3 hj4 _
          have hge := same_column_step _ i j hj1 hj3
          have := h2 j hge hj2 hj3
          rw [hV, if_neg (by omega), hj4] at this
          exact absurd this (by decide)
        · intro _
          exact ⟨rfl, hcol⟩
    · intro k hk
      have hki : k ≠ i := fun e => hk (e ▸ rfl)
      rcases hcases with ⟨j0, rfl, h1, h2, h3, h4, h5⟩ | ⟨rfl, h2⟩
      · simp only at h3
        have hkj : k ≠ j0 := fun e => hk (e ▸ h3)
        simp [List.mem_erase_of_ne hki, hkj]
      · simp [List.mem_erase_of_ne hki]
  · refine ⟨_, hA hmem, by simp [hV], fun h => absurd h hmem, fun _ => rfl, fun k _ => Iff.rfl⟩

/-- C2 on the sample wave: killing index 3 makes 13 the front of column 3. -/
theorem kill_updates_front_witness :
    ∃ t, PlayerBulletHit 8 (.Enemy 3) SampleWave = some t ∧
      t.ShootingEnemies = [0, 1, 2, 4, 5, 6, 7, 8, 9, 13] := by
  have hR : SampleWave.Rules.EnemiesInRow = 10 := rfl
  have hT : SampleWave.InvadersGameState.TotalEnemyNum = 50 := rfl
  have hSh : SampleWave.ShootingEnemies = List.range 10 := (SpawnEnemies_fields SampleBase).2.1
  have hvis : ∀ j, j < 50 → IsVisible SampleWave.EnemyShips j = true := by
    intro j hj
    have : SampleWave.EnemyShips = forFirst AActor.activate 50 SampleBase.EnemyShips :=
      (SpawnEnemies_fields SampleBase).1
    have hjl : j < SampleBase.EnemyShips.length := by simpa [SampleBase] using hj
    simp [this, IsVisible, forFirst_getElem?, hj, List.getElem?_eq_getElem hjl, AActor.activate]
  obtain ⟨t, ht, _, ha, _, _⟩ := kill_updates_front 8 SampleWave 3 rfl
    (by simp [SampleWave, (SpawnEnemies_fields SampleBase).1, forFirst_length, SampleBase]; rfl)
    (by decide)
    (SpawnEnemies_FrontInv SampleBase rfl (by simp [SampleBase]; decide))
    (by decide) (hvis 3 (by decide))
  refine ⟨t, ht, ?_⟩
  have h3 : 3 ∈ SampleWave.ShootingEnemies := by rw [hSh]; decide
  rw [(ha h3).2.1 13 (by decide) (by decide) (by rw [hR]) (hvis 13 (by decide))
    (by rw [hR]; intro k h1 h2 h3; omega), hSh]
  decide

/-! ### Bullet pools -/

/-- Overwriting slot `r` of a list by `x` gives, as a multiset, the list with `x` added and
one occurrence of the old content of slot `r` removed. -/
theorem Multiset_set_eq_erase {α : Type} [DecidableEq α] :
    ∀ (l : List α) (r : Nat) (x : α) (h : r < l.length),
      ((l.set r x : List α) : Multiset α) = ((l ++ [x] : List α) : Multiset α).erase l[r] := by
  intro l
  induction l with
  | nil => intro r x h; simp at h
  | cons a l ih =>
    intro r x h
    cases r with
    | zero =>
      show ((x :: l : List α) : Multiset α) = ((a :: (l ++ [x]) : List α) : Multiset α).erase a
      rw [Multiset.coe_erase, List.erase_cons_head, Multiset.coe_eq_coe]
      exact (List.perm_append_singleton x l).symm
    | succ r =>
      have h' : r < l.length := by simpa using h
      show ((a :: l.set r x : List α) : Multiset α)
        = ((a :: (l ++ [x]) : List α) : Multiset α).erase l[r]
      rw [← Multiset.cons_coe, ← Multiset.cons_coe, ih r x h']
      by_cases e : a = l[r]
      · rw [← e, Multiset.erase_cons_head]
        apply Multiset.cons_erase
        rw [e]
        simp
      · rw [Multiset.erase_cons_tail _ e]

/-- C3: for a pool with `1 ≤ Active ≤ capacity` and a slot `r < Active`, the delete step
succeeds with count `Active - 1`, keeps the pool size, leaves slot `Active - 1` hidden and
not collidable, and the multiset of locations in the slots `[0, Active - 1)` afterwards is
that of the slots `[0, Active)` before with one occurrence of the location of slot `r`
removed. -/
theorem DeleteBullet_keeps_other_bullets (Bullets : List AActor) (Active : Int) (r : Nat)
    (hA : 1 ≤ Active) (hcap : Active ≤ Bullets.length) (hr : (r : Int) < Active) :
    ∃ (Bullets1 : List AActor) (B : AActor),
      Bullets[r]? = some B ∧
      DeleteBullet Bullets Active r = some (Bullets1, Active - 1) ∧
      Bullets1.length = Bullets.length ∧
      (∀ L, Bullets1[(Active - 1).toNat]? = some L → L.Hidden = true ∧ L.Collision = false) ∧
      (((Bullets1.take (Active - 1).toNat).map AActor.Location : List FVector) : Multiset FVector)
        = (((Bullets.take Active.toNat).map AActor.Location : List FVector) : Multiset FVector).erase
            B.Location := by
  obtain ⟨a, rfl⟩ : ∃ a : Nat, Active = (a : Int) + 1 := ⟨(Active - 1).toNat, by omega⟩
  have ha : a < Bullets.length := by omega
  have hra : r ≤ a := by omega
  have hrl : r < Bullets.length := by omega
  have e1 : ((a : Int) + 1 - 1) = a := by ring
  have e2 : ((a : Int) + 1).toNat = a + 1 := by omega
  have hlast : getAt Bullets (a : Int) = some Bullets[a] := by
    simp [getAt, List.getElem?_eq_getElem ha]
  have htake : (Bullets.take (a + 1)).map AActor.Location
      = (Bullets.take a).map AActor.Location ++ [Bullets[a].Location] := by
    rw [← List.take_concat_get Bullets a ha, List.concat_eq_append, List.map_append]
    rfl
  have hrl1 : r < (Bullets.set a Bullets[a].deactivate).length := by simpa using hrl
  refine ⟨(Bullets.set a Bullets[a].deactivate).set r
      ((Bullets.set a Bullets[a].deactivate)[r].SetActorLocation
        Bullets[a].Location), Bullets[r], List.getElem?_eq_getElem hrl, ?_, by simp, ?_, ?_⟩
  · simp [DeleteBullet, hlast, e1, List.getElem?_eq_getElem, hrl]
  · intro L hL
    simp only [e1, Int.toNat_ofNat] at hL
    rcases Nat.lt_or_eq_of_le hra with hlt | heq
    · rw [List.getElem?_set_ne (by omega), List.getElem?_set_self ha] at hL
      cases hL
      exact ⟨rfl, rfl⟩
    · subst heq
      rw [List.getElem?_set_self (by simpa using hrl)] at hL
      cases hL
      simp [AActor.SetActorLocation, AActor.deactivate]
  · simp only [e1, e2, Int.toNat_ofNat]
    have h1 : (Bullets.take a).set a Bullets[a].deactivate = Bullets.take a :=
      @List.set_eq_of_length_le _ (Bullets.take a) a (by simp) _
    rw [List.set_take, List.set_take, h1, List.map_set, htake]
    show (((List.map AActor.Location (List.take a Bullets)).set r Bullets[a].Location :
      List FVector) : Multiset FVector) = _
    rcases Nat.lt_or_eq_of_le hra with hlt | heq
    · have hl : r < ((Bullets.take a).map AActor.Location).length := by
        simp; omega
      rw [Multiset_set_eq_erase _ r _ hl]
      congr 1
      simp
    · subst heq
      rw [@List.set_eq_of_length_le _ (List.map AActor.Location (List.take r Bullets)) r (by simp) _]
      rw [← Multiset.coe_add, Multiset.coe_singleton, add_comm, Multiset.singleton_add,
        Multiset.erase_cons_head]

/-- C3 on a pool of three active bullets at `Y = 1, 2, 3`, deleting slot 0. -/
theorem DeleteBullet_keeps_other_bullets_witness :
    ∃ (Bullets1 : List AActor) (B : AActor),
      SamplePool[0]? = some B ∧
      DeleteBullet SamplePool 3 0 = some (Bullets1, 3 - 1) ∧
      Bullets1.length = SamplePool.length ∧
      (∀ L, Bullets1[((3 : Int) - 1).toNat]? = some L → L.Hidden = true ∧ L.Collision = false) ∧
      (((Bullets1.take ((3 : Int) - 1).toNat).map AActor.Location : List FVector) : Multiset FVector)
        = (((SamplePool.take (3 : Int).toNat).map AActor.Location : List FVector) :
            Multiset FVector).erase B.Location :=
  DeleteBullet_keeps_other_bullets SamplePool 3 0 (by decide) (by decide) (by decide)

/-! ### Blocks of the engine calls -/

/-- What a successful `AsteroidHit` does. -/
theorem AsteroidHit_inv (U : ActorRef) (s t : AInvadersGameMode) (h : AsteroidHit U s = some t) :
    ∃ k HP0 A, U = .Asteroid k ∧ s.AsteroidHP[k]? = some HP0 ∧ s.Asteroids[k]? = some A ∧
      t = { s with
        Asteroids := if HP0 - 1 ≤ 0 then s.Asteroids.set k A.deactivate else s.Asteroids
        AsteroidHP := s.AsteroidHP.set k (HP0 - 1) } := by
  cases U with
  | Asteroid k =>
    simp only [AsteroidHit, AsteroidsFind, Option.bind_eq_some] at h
    obtain ⟨k', hk, HP0, hHP, s1, hs1, ht⟩ := h
    split at hk
    · rename_i hlt
      cases hk
      refine ⟨k, HP0, s.Asteroids[k], rfl, hHP, List.getElem?_eq_getElem hlt, ?_⟩
      by_cases hle : HP0 - 1 ≤ 0
      · simp only [hle, if_true, DeactivateUnit, List.getElem?_eq_getElem hlt,
          Option.some_bind, Option.some.injEq] at hs1 ⊢
        cases ht
        rw [← hs1]
      · simp only [hle, if_false, Option.some.injEq] at hs1 ⊢
        cases ht
        rw [← hs1]
    · cases hk
  | Player => simp [AsteroidHit, AsteroidsFind] at h
  | Ufo => simp [AsteroidHit, AsteroidsFind] at h
  | Enemy i => simp [AsteroidHit, AsteroidsFind] at h
  | PlayerBullet i => simp [AsteroidHit, AsteroidsFind] at h
  | EnemyBullet i => simp [AsteroidHit, AsteroidsFind] at h

/-- `ReorganizeShooters` changes `ShootingEnemies` only. -/
theorem ReorganizeShooters_inv (U : ActorRef) (u t : AInvadersGameMode)
    (h : ReorganizeShooters U u = some t) : ∃ Sh, t = { u with ShootingEnemies := Sh } := by
  unfold ReorganizeShooters at h
  split at h
  · cases h; exact ⟨u.ShootingEnemies, rfl⟩
  · simp only [Option.bind_eq_some] at h
    obtain ⟨_, _, Sh, _, ht⟩ := h
    cases ht
    exact ⟨Sh, rfl⟩

/-- The three kinds of hit of a player bullet on a unit with the tag "IsEnemy". -/
theorem PlayerBulletHit_inv (Rand : ℚ) (U : ActorRef) (s t : AInvadersGameMode)
    (hU : U.IsEnemy = true) (h : PlayerBulletHit Rand U s = some t) :
    (∃ k, U = .Asteroid k ∧ AsteroidHit U s = some t) ∨
    (U = .Ufo ∧ ∃ Points, MapFind s.EnemyPointMap s.UfoShip.Class = some Points ∧
      t = { s with
        UfoShip := s.UfoShip.deactivate
        InvadersGameState := { s.InvadersGameState with
          Score := Int32Add s.InvadersGameState.Score Points
          UfoProgTime := 0 }
        UfoAppearTHandle := SetTimer Rand false }) ∨
    (∃ i E Points, U = .Enemy i ∧ s.EnemyShips[i]? = some E ∧
      MapFind s.EnemyPointMap E.Class = some Points ∧
      ReorganizeShooters (.Enemy i)
        { s with
          EnemyShips := s.EnemyShips.set i E.deactivate
          InvadersGameState := { s.InvadersGameState with
            Score := Int32Add s.InvadersGameState.Score Points
            ActiveEnemyNum := s.InvadersGameState.ActiveEnemyNum - 1 } } = some t) := by
  cases U with
  | Asteroid k =>
    left
    refine ⟨k, rfl, ?_⟩
    simpa [PlayerBulletHit, ActorRef.IsAsteroid] using h
  | Ufo =>
    right; left
    refine ⟨rfl, ?_⟩
    simp only [PlayerBulletHit, ActorRef.IsAsteroid, Bool.false_eq_true, if_false, Deref,
      DeactivateUnit, Option.some_bind, Option.bind_eq_some,
      ActorRef.IsUfo, if_true, Option.some.injEq] at h
    obtain ⟨Points, hP, ht⟩ := h
    exact ⟨Points, hP, ht.symm⟩
  | Enemy i =>
    right; right
    simp only [PlayerBulletHit, ActorRef.IsAsteroid, Bool.false_eq_true, if_false, Deref,
      DeactivateUnit, Option.bind_eq_some,
      ActorRef.IsUfo, Option.some.injEq] at h
    obtain ⟨E, hE, s1, ⟨E', hE', hs1⟩, Points, hP, ht⟩ := h
    rw [hE] at hE'
    cases hE'
    subst hs1
    exact ⟨i, E, Points, rfl, hE, hP, ht⟩
  | Player => simp [ActorRef.IsEnemy] at hU
  | PlayerBullet i => simp [ActorRef.IsEnemy] at hU
  | EnemyBullet i => simp [ActorRef.IsEnemy] at hU

/-- `UnitActor` is the first overlapping actor and has the tag "IsEnemy". -/
theorem PlayerUnitActor_IsEnemy (inp : FTickInput) (r : Nat) (U : ActorRef)
    (h : PlayerUnitActor inp r = some U) : U.IsEnemy = true ∧ inp.PlayerOverlap r = some U := by
  unfold PlayerUnitActor at h
  split at h
  · rename_i A hA
    split at h
    · cases h; exact ⟨by assumption, hA⟩
    · cases h
  · cases h

/-- A successful delete step lowers the count by one, keeps the pool size, and read a slot
within the pool. -/
theorem DeleteBullet_inv (Bullets : List AActor) (Active : Int) (r : Nat)
    (res : List AActor × Int) (h : DeleteBullet Bullets Active r = some res) :
    res.2 = Active - 1 ∧ res.1.length = Bullets.length ∧ 1 ≤ Active ∧
      Active ≤ Bullets.length := by
  simp only [DeleteBullet, Option.bind_eq_some] at h
  obtain ⟨L, hL, B, hB, hres⟩ := h
  cases hres
  unfold getAt at hL
  split at hL
  · rename_i h0
    have := getElem?_some_lt _ _ _ hL
    refine ⟨rfl, by simp, by omega, by omega⟩
  · cases hL

/-- The blocks of one iteration of the loop of `UpdatePlayerBullets`. -/
theorem PlayerBulletBody_inv (dt : ℚ) (inp : FTickInput) (r : Nat) (s t : AInvadersGameMode)
    (h : PlayerBulletBody dt inp r s = some t) :
    ∃ B s1 s2, s.PlayerBullets[r]? = some B ∧
      PlayerBulletUnit inp.UfoAppearTime (PlayerUnitActor inp r)
        { s with PlayerBullets := s.PlayerBullets.set r (MovePlayerBullet dt s B) } = some s1 ∧
      DeletePlayerBullet (decide (ToFloat (MovePlayerBullet dt s B).Location.Y < -500) ||
        (PlayerUnitActor inp r).isSome) r s1 = some s2 ∧
      t = AllEnemiesKilled s2 := by
  simp only [PlayerBulletBody, Option.bind_eq_some] at h
  obtain ⟨B, hB, s1, hs1, s2, hs2, ht⟩ := h
  exact ⟨B, s1, s2, hB, hs1, hs2, by cases ht; rfl⟩

/-- The hit block of the player loop. -/
theorem PlayerBulletUnit_inv (Rand : ℚ) (UA : Option ActorRef) (s t : AInvadersGameMode)
    (h : PlayerBulletUnit Rand UA s = some t) :
    (UA = none ∧ t = s) ∨
    (∃ U t1, UA = some U ∧ PlayerBulletHit Rand U s = some t1 ∧
      t = { t1 with Events := t1.Events ++ [Event.PlaySoundAtLocation] }) := by
  cases UA with
  | none => left; simp only [PlayerBulletUnit, Option.some.injEq] at h; exact ⟨rfl, h.symm⟩
  | some U =>
    right
    simp only [PlayerBulletUnit, Option.bind_eq_some, Option.some.injEq] at h
    obtain ⟨t1, h1, h2⟩ := h
    exact ⟨U, t1, rfl, h1, h2.symm⟩

/-- The delete block of the player loop. -/
theorem DeletePlayerBullet_inv (Delete : Bool) (r : Nat) (s t : AInvadersGameMode)
    (h : DeletePlayerBullet Delete r s = some t) :
    (Delete = false ∧ t = s) ∨
    (Delete = true ∧ ∃ res,
      DeleteBullet s.PlayerBullets s.InvadersGameState.ActivePlayerBullets r = some res ∧
      t = { s with
        PlayerBullets := res.1
        InvadersGameState := { s.InvadersGameState with ActivePlayerBullets := res.2 } }) := by
  cases Delete with
  | false => left; simp only [DeletePlayerBullet, Bool.false_eq_true, if_false, Option.some.injEq] at h; exact ⟨rfl, h.symm⟩
  | true =>
    right
    simp only [DeletePlayerBullet, if_true, Option.bind_eq_some, Option.some.injEq] at h
    obtain ⟨res, h1, h2⟩ := h
    exact ⟨rfl, res, h1, h2.symm⟩

/-- A relation between the states before and after holds for the hit of a player bullet
on a unit once it holds for the three kinds of hit. -/
theorem PlayerBulletHit_rel (P : AInvadersGameMode → AInvadersGameMode → Prop)
    (hast : ∀ (s : AInvadersGameMode) (As : List AActor) (HPs : List Int),
      As.length = s.Asteroids.length →
      P s { s with Asteroids := As, AsteroidHP := HPs })
    (hufo : ∀ (s : AInvadersGameMode) (Points : Int) (h : Option FTimer),
      P s { s with
        UfoShip := s.UfoShip.deactivate
        InvadersGameState := { s.InvadersGameState with
          Score := Int32Add s.InvadersGameState.Score Points
          UfoProgTime := 0 }
        UfoAppearTHandle := h })
    (henemy : ∀ (s t : AInvadersGameMode) (i : Nat) (E : AActor) (Points : Int),
      s.EnemyShips[i]? = some E →
      ReorganizeShooters (.Enemy i)
        { s with
          EnemyShips := s.EnemyShips.set i E.deactivate
          InvadersGameState := { s.InvadersGameState with
            Score := Int32Add s.InvadersGameState.Score Points
            ActiveEnemyNum := s.InvadersGameState.ActiveEnemyNum - 1 } } = some t →
      P s t)
    (Rand : ℚ) (U : ActorRef) (s t : AInvadersGameMode) (hU : U.IsEnemy = true)
    (h : PlayerBulletHit Rand U s = some t) : P s t := by
  rcases PlayerBulletHit_inv Rand U s t hU h with ⟨k, _, hA⟩ | ⟨_, Points, _, ht⟩ |
    ⟨i, E, Points, _, hE, _, hR⟩
  · obtain ⟨k', HP0, A, _, _, _, ht⟩ := AsteroidHit_inv U s t hA
    rw [ht]
    apply hast
    split <;> simp
  · rw [ht]; exact hufo s Points _
  · exact henemy s t i E Points hE hR

/-- The same for relations that do not look at how the front is rebuilt. -/
theorem PlayerBulletHit_rel_frame (P : AInvadersGameMode → AInvadersGameMode → Prop)
    (hast : ∀ (s : AInvadersGameMode) (As : List AActor) (HPs : List Int),
      As.length = s.Asteroids.length →
      P s { s with Asteroids := As, AsteroidHP := HPs })
    (hufo : ∀ (s : AInvadersGameMode) (Points : Int) (h : Option FTimer),
      P s { s with
        UfoShip := s.UfoShip.deactivate
        InvadersGameState := { s.InvadersGameState with
          Score := Int32Add s.InvadersGameState.Score Points
          UfoProgTime := 0 }
        UfoAppearTHandle := h })
    (henemy : ∀ (s : AInvadersGameMode) (i : Nat) (E : AActor) (Points : Int) (Sh : List Nat),
      P s { s with
          EnemyShips := s.EnemyShips.set i E.deactivate
          ShootingEnemies := Sh
          InvadersGameState := { s.InvadersGameState with
            Score := Int32Add s.InvadersGameState.Score Points
            ActiveEnemyNum := s.InvadersGameState.ActiveEnemyNum - 1 } })
    (Rand : ℚ) (U : ActorRef) (s t : AInvadersGameMode) (hU : U.IsEnemy = true)
    (h : PlayerBulletHit Rand U s = some t) : P s t := by
  refine PlayerBulletHit_rel P hast hufo ?_ Rand U s t hU h
  intro s t i E Points _ hR
  obtain ⟨Sh, ht⟩ := ReorganizeShooters_inv _ _ _ hR
  rw [ht]
  exact henemy s i E Points Sh

/-- A reflexive and transitive relation holds for one iteration of the loop of
`UpdatePlayerBullets` once it holds for each of its blocks. -/
theorem PlayerBulletBody_rel (P : AInvadersGameMode → AInvadersGameMode → Prop)
    (hrefl : ∀ s, P s s) (htrans : ∀ a b c, P a b → P b c → P a c)
    (hmove : ∀ (s : AInvadersGameMode) (Bs : List AActor), Bs.length = s.PlayerBullets.length →
      P s { s with PlayerBullets := Bs })
    (hhit : ∀ (Rand : ℚ) (U : ActorRef) (s t : AInvadersGameMode), U.IsEnemy = true →
      PlayerBulletHit Rand U s = some t → P s t)
    (hsound : ∀ (s : AInvadersGameMode) (e : Event), P s { s with Events := s.Events ++ [e] })
    (hdel : ∀ (s : AInvadersGameMode) (Bs : List AActor),
      Bs.length = s.PlayerBullets.length →
      1 ≤ s.InvadersGameState.ActivePlayerBullets →
      s.InvadersGameState.ActivePlayerBullets ≤ s.PlayerBullets.length →
      P s { s with
        PlayerBullets := Bs
        InvadersGameState := { s.InvadersGameState with
          ActivePlayerBullets := s.InvadersGameState.ActivePlayerBullets - 1 } })
    (hkill : ∀ s, P s (AllEnemiesKilled s))
    (dt : ℚ) (inp : FTickInput) (r : Nat) (s t : AInvadersGameMode)
    (h : PlayerBulletBody dt inp r s = some t) : P s t := by
  obtain ⟨B, s1, s2, hB, h1, h2, ht⟩ := PlayerBulletBody_inv dt inp r s t h
  have hs0 : P s { s with PlayerBullets := s.PlayerBullets.set r (MovePlayerBullet dt s B) } :=
    hmove s _ (by simp)
  have hs1 : P { s with PlayerBullets := s.PlayerBullets.set r (MovePlayerBullet dt s B) } s1 := by
    rcases PlayerBulletUnit_inv _ _ _ _ h1 with ⟨_, e⟩ | ⟨U, t1, hU, hH, e⟩
    · rw [e]; exact hrefl _
    · rw [e]
      exact htrans _ _ _ (hhit _ U _ t1 (PlayerUnitActor_IsEnemy inp r U hU).1 hH) (hsound t1 _)
  have hs2 : P s1 s2 := by
    rcases DeletePlayerBullet_inv _ _ _ _ h2 with ⟨_, e⟩ | ⟨_, res, hD, e⟩
    · rw [e]; exact hrefl _
    · obtain ⟨e1, e2, e3, e4⟩ := DeleteBullet_inv _ _ _ _ hD
      rw [e, e1]
      exact hdel s1 res.1 e2 e3 e4
  rw [ht]
  exact htrans _ _ _ hs0 (htrans _ _ _ hs1 (htrans _ _ _ hs2 (hkill s2)))

/-- A reflexive and transitive relation that holds for each iteration holds for the loop. -/
theorem PlayerBulletLoop_rel (P : AInvadersGameMode → AInvadersGameMode → Prop)
    (hrefl : ∀ s, P s s) (htrans : ∀ a b c, P a b → P b c → P a c)
    (dt : ℚ) (inp : FTickInput)
    (hbody : ∀ r s t, PlayerBulletBody dt inp r s = some t → P s t) :
    ∀ (n : Nat) (s t : AInvadersGameMode), PlayerBulletLoop dt inp n s = some t → P s t := by
  intro n
  induction n with
  | zero =>
    intro s t h
    simp only [PlayerBulletLoop, Option.some.injEq] at h
    rw [← h]; exact hrefl s
  | succ n ih =>
    intro s t h
    simp only [PlayerBulletLoop, Option.bind_eq_some] at h
    obtain ⟨u, hu, ht⟩ := h
    exact htrans _ _ _ (hbody n s u hu) (ih u t ht)

/-- The blocks of one iteration of the loop of `UpdateEnemyBullets`. -/
theorem EnemyBulletBody_inv (dt : ℚ) (inp : FTickInput) (r : Nat) (s t : AInvadersGameMode)
    (h : EnemyBulletBody dt inp r s = some t) :
    ∃ B s1, s.EnemyBullets[r]? = some B ∧
      EnemyBulletUnit (inp.EnemyOverlap r)
        { s with EnemyBullets := s.EnemyBullets.set r (MoveEnemyBullet dt s B) } = some s1 ∧
      DeleteEnemyBullet (decide (ToFloat (MoveEnemyBullet dt s B).Location.Y > 500) ||
        EnemyBulletHits (inp.EnemyOverlap r)) r s1 = some t := by
  simp only [EnemyBulletBody, Option.bind_eq_some] at h
  obtain ⟨B, hB, s1, hs1, ht⟩ := h
  exact ⟨B, s1, hB, hs1, ht⟩

/-- The hit block of the enemy loop. -/
theorem EnemyBulletUnit_inv (O : Option ActorRef) (s t : AInvadersGameMode)
    (h : EnemyBulletUnit O s = some t) :
    (EnemyBulletHits O = false ∧ t = s) ∨
    (EnemyBulletHits O = true ∧ ∃ U t1, O = some U ∧ U.IsAsteroid = true ∧
      AsteroidHit U s = some t1 ∧
      t = { t1 with Events := t1.Events ++ [Event.PlaySoundAtLocation] }) ∨
    (EnemyBulletHits O = true ∧ ∃ U, O = some U ∧ U.IsAsteroid = false ∧ U.IsPlayer = true ∧
      t = { HandlePlayerHit s with
        Events := (HandlePlayerHit s).Events ++ [Event.PlaySoundAtLocation] }) := by
  cases O with
  | none =>
    left
    simp only [EnemyBulletUnit, Option.some.injEq] at h
    exact ⟨rfl, h.symm⟩
  | some U =>
    simp only [EnemyBulletUnit] at h
    by_cases hA : U.IsAsteroid = true
    · right; left
      simp only [hA, if_true, Option.bind_eq_some, Option.some.injEq] at h
      obtain ⟨t1, h1, h2⟩ := h
      exact ⟨by simp [EnemyBulletHits, hA], U, t1, rfl, hA, h1, h2.symm⟩
    · have hA' : U.IsAsteroid = false := by simpa using hA
      by_cases hP : U.IsPlayer = true
      · right; right
        simp only [hA', hP, Bool.false_eq_true, if_true, if_false, Option.some.injEq] at h
        exact ⟨by simp [EnemyBulletHits, hP], U, rfl, hA', hP, h.symm⟩
      · left
        have hP' : U.IsPlayer = false := by simpa using hP
        simp only [hA', hP', Bool.false_eq_true, if_false, Option.some.injEq] at h
        exact ⟨by simp [EnemyBulletHits, hA', hP'], h.symm⟩

/-- The delete block of the enemy loop. -/
theorem DeleteEnemyBullet_inv (Delete : Bool) (r : Nat) (s t : AInvadersGameMode)
    (h : DeleteEnemyBullet Delete r s = some t) :
    (Delete = false ∧ t = s) ∨
    (Delete = true ∧ ∃ res,
      DeleteBullet s.EnemyBullets s.InvadersGameState.ActiveEnemyBullets r = some res ∧
      t = { s with
        EnemyBullets := res.1
        InvadersGameState := { s.InvadersGameState with ActiveEnemyBullets := res.2 } }) := by
  cases Delete with
  | false =>
    left
    simp only [DeleteEnemyBullet, Bool.false_eq_true, if_false, Option.some.injEq] at h
    exact ⟨rfl, h.symm⟩
  | true =>
    right
    simp only [DeleteEnemyBullet, if_true, Option.bind_eq_some, Option.some.injEq] at h
    obtain ⟨res, h1, h2⟩ := h
    exact ⟨rfl, res, h1, h2.symm⟩

/-- A relation kept by every block holds for one iteration of the player loop. -/
theorem PlayerBulletBody_closed {P : AInvadersGameMode → AInvadersGameMode → Prop}
    (hP : TickClosed P) (dt : ℚ) (inp : FTickInput) (r : Nat) (s t : AInvadersGameMode)
    (h : PlayerBulletBody dt inp r s = some t) : P s t :=
  PlayerBulletBody_rel P hP.refl hP.trans hP.playerBullets
    (fun Rand U s t hU hH =>
      PlayerBulletHit_rel P hP.asteroid hP.ufoKill hP.enemyKill Rand U s t hU hH)
    hP.sound hP.playerDelete hP.allKilled dt inp r s t h

/-- A relation kept by every block holds for one iteration of the enemy loop. -/
theorem EnemyBulletBody_closed {P : AInvadersGameMode → AInvadersGameMode → Prop}
    (hP : TickClosed P) (dt : ℚ) (inp : FTickInput) (r : Nat) (s t : AInvadersGameMode)
    (h : EnemyBulletBody dt inp r s = some t) : P s t := by
  obtain ⟨B, s1, hB, h1, h2⟩ := EnemyBulletBody_inv dt inp r s t h
  have hs0 : P s { s with EnemyBullets := s.EnemyBullets.set r (MoveEnemyBullet dt s B) } :=
    hP.enemyBullets s _ (by simp)
  have hs1 : P { s with EnemyBullets := s.EnemyBullets.set r (MoveEnemyBullet dt s B) } s1 := by
    rcases EnemyBulletUnit_inv _ _ _ h1 with ⟨_, e⟩ | ⟨_, U, t1, _, _, hA, e⟩ | ⟨_, U, _, _, _, e⟩
    · rw [e]; exact hP.refl _
    · obtain ⟨k', HP0, A, _, _, _, ht1⟩ := AsteroidHit_inv U _ t1 hA
      rw [e]
      refine hP.trans _ _ _ ?_ (hP.sound t1 _)
      rw [ht1]
      apply hP.asteroid
      split <;> simp
    · rw [e]
      exact hP.trans _ _ _ (hP.playerHit _) (hP.sound _ _)
  have hs2 : P s1 t := by
    rcases DeleteEnemyBullet_inv _ _ _ _ h2 with ⟨_, e⟩ | ⟨_, res, hD, e⟩
    · rw [e]; exact hP.refl _
    · obtain ⟨e1, e2, e3, e4⟩ := DeleteBullet_inv _ _ _ _ hD
      rw [e, e1]
      exact hP.enemyDelete s1 res.1 e2 e3 e4
  exact hP.trans _ _ _ hs0 (hP.trans _ _ _ hs1 hs2)

/-- A reflexive and transitive relation that holds for each iteration holds for the loop. -/
theorem EnemyBulletLoop_rel (P : AInvadersGameMode → AInvadersGameMode → Prop)
    (hrefl : ∀ s, P s s) (htrans : ∀ a b c, P a b → P b c → P a c)
    (dt : ℚ) (inp : FTickInput)
    (hbody : ∀ r s t, EnemyBulletBody dt inp r s = some t → P s t) :
    ∀ (n : Nat) (s t : AInvadersGameMode), EnemyBulletLoop dt inp n s = some t → P s t := by
  intro n
  induction n with
  | zero =>
    intro s t h
    simp only [EnemyBulletLoop, Option.some.injEq] at h
    rw [← h]; exact hrefl s
  | succ n ih =>
    intro s t h
    simp only [EnemyBulletLoop, Option.bind_eq_some] at h
    obtain ⟨u, hu, ht⟩ := h
    exact htrans _ _ _ (hbody n s u hu) (ih u t ht)

/-- A relation kept by every block holds for `UpdatePlayerBullets`. -/
theorem UpdatePlayerBullets_closed {P : AInvadersGameMode → AInvadersGameMode → Prop}
    (hP : TickClosed P) (dt : ℚ) (inp : FTickInput) (s t : AInvadersGameMode)
    (h : UpdatePlayerBullets dt inp s = some t) : P s t :=
  PlayerBulletLoop_rel P hP.refl hP.trans dt inp (PlayerBulletBody_closed hP dt inp) _ s t h

/-- A relation kept by every block holds for `UpdateEnemyBullets`. -/
theorem UpdateEnemyBullets_closed {P : AInvadersGameMode → AInvadersGameMode → Prop}
    (hP : TickClosed P) (dt : ℚ) (inp : FTickInput) (s t : AInvadersGameMode)
    (h : UpdateEnemyBullets dt inp s = some t) : P s t :=
  EnemyBulletLoop_rel P hP.refl hP.trans dt inp (EnemyBulletBody_closed hP dt inp) _ s t h

/-- A relation kept by every block holds for `Tick`. -/
theorem Tick_closed {P : AInvadersGameMode → AInvadersGameMode → Prop}
    (hP : TickClosed P) (dt : ℚ) (inp : FTickInput) (s t : AInvadersGameMode)
    (h : Tick dt inp s = some t) : P s t := by
  unfold Tick at h
  split at h
  · cases h; exact hP.refl s
  · simp only [Option.bind_eq_some] at h
    obtain ⟨u, hu, ht⟩ := h
    refine hP.trans _ _ _ (hP.enemyAnim dt s) ?_
    refine hP.trans _ _ _ (hP.playerAnim dt _) ?_
    refine hP.trans _ _ _ (hP.playerMove dt inp _) ?_
    refine hP.trans _ _ _ (hP.groupMove dt _) ?_
    refine hP.trans _ _ _ (hP.ufoMove dt inp.UfoAppearTime _) ?_
    exact hP.trans _ _ _ (UpdatePlayerBullets_closed hP dt inp _ u hu)
      (UpdateEnemyBullets_closed hP dt inp u t ht)

/-- The fields `AllEnemiesKilled` may change. -/
theorem AllEnemiesKilled_frame (s : AInvadersGameMode) :
    AllEnemiesKilled s = { s with
      InvadersGameState := { s.InvadersGameState with
        CurrentLevel := (AllEnemiesKilled s).InvadersGameState.CurrentLevel
        EnemyProgTime := (AllEnemiesKilled s).InvadersGameState.EnemyProgTime }
      EnemyAppearTHandle := (AllEnemiesKilled s).EnemyAppearTHandle } := by
  unfold AllEnemiesKilled
  split <;> rfl

/-- The fields `UpdateEnemyAppearAnimation` may change. -/
theorem UpdateEnemyAppearAnimation_frame (dt : ℚ) (s : AInvadersGameMode) :
    UpdateEnemyAppearAnimation dt s = { s with
      InvadersGameState := { s.InvadersGameState with
        EnemyAppearAnimTime :=
          (UpdateEnemyAppearAnimation dt s).InvadersGameState.EnemyAppearAnimTime } } := by
  unfold UpdateEnemyAppearAnimation
  split <;> rfl

/-- The fields `UpdatePlayerAppearAnimation` may change. -/
theorem UpdatePlayerAppearAnimation_frame (dt : ℚ) (s : AInvadersGameMode) :
    UpdatePlayerAppearAnimation dt s = { s with
      InvadersGameState := { s.InvadersGameState with
        PlayerAppearAnimTime :=
          (UpdatePlayerAppearAnimation dt s).InvadersGameState.PlayerAppearAnimTime } } := by
  unfold UpdatePlayerAppearAnimation
  split <;> rfl

/-- The fields `UpdatePlayerMovement` may change. -/
theorem UpdatePlayerMovement_frame (dt : ℚ) (inp : FTickInput) (s : AInvadersGameMode) :
    UpdatePlayerMovement dt inp s = { s with
      PlayerMovement := (UpdatePlayerMovement dt inp s).PlayerMovement
      PlayerShip := (UpdatePlayerMovement dt inp s).PlayerShip } := by
  unfold UpdatePlayerMovement
  split <;> rfl

/-- The fields `UpdateEnemyGroupMovement` may change. -/
theorem UpdateEnemyGroupMovement_frame (dt : ℚ) (s : AInvadersGameMode) :
    UpdateEnemyGroupMovement dt s = { s with
      InvadersGameState := { s.InvadersGameState with
        EnemyProgTime := (UpdateEnemyGroupMovement dt s).InvadersGameState.EnemyProgTime }
      EnemyShipGroup := (UpdateEnemyGroupMovement dt s).EnemyShipGroup } := rfl

/-- The fields `UpdateUfoMovement` may change. -/
theorem UpdateUfoMovement_frame (dt Rand : ℚ) (s : AInvadersGameMode) :
    UpdateUfoMovement dt Rand s = { s with
      InvadersGameState := { s.InvadersGameState with
        UfoProgTime := (UpdateUfoMovement dt Rand s).InvadersGameState.UfoProgTime }
      UfoShip := (UpdateUfoMovement dt Rand s).UfoShip
      UfoAppearTHandle := (UpdateUfoMovement dt Rand s).UfoAppearTHandle } := by
  unfold UpdateUfoMovement
  by_cases h : (!s.UfoShip.Hidden) = true
  · by_cases h2 : (s.InvadersGameState.UfoProgTime + dt) / 5 ≥ 1
    · simp only [h, h2, if_true]
    · simp only [h, h2, if_true, if_false]
  · simp only [h, if_false]
    rfl

/-- The fields `HandlePlayerHit` may change; every other field is untouched. -/
theorem HandlePlayerHit_frame (s : AInvadersGameMode) :
    HandlePlayerHit s = { s with
      InvadersGameState := { s.InvadersGameState with
        CurrentLives := s.InvadersGameState.CurrentLives - 1
        PrevHiScore := (HandlePlayerHit s).InvadersGameState.PrevHiScore
        HiScore := (HandlePlayerHit s).InvadersGameState.HiScore }
      IsPlayerShooting := false
      PlayerShootTHandle := none
      PlayerShip := (HandlePlayerHit s).PlayerShip
      PlayerAppearTHandle := (HandlePlayerHit s).PlayerAppearTHandle
      GameOverInViewport := (HandlePlayerHit s).GameOverInViewport
      SaveSlot := (HandlePlayerHit s).SaveSlot
      Events := (HandlePlayerHit s).Events } := by
  by_cases h : s.InvadersGameState.CurrentLives - 1 = 0
  · by_cases h2 : s.InvadersGameState.Score > s.InvadersGameState.HiScore
    · simp [HandlePlayerHit, SaveHiScore, ShowRestartMenu, h, h2]
    · simp [HandlePlayerHit, SaveHiScore, ShowRestartMenu, h, h2]
  · simp [HandlePlayerHit, h]

/-- `HandlePlayerHit` leaves both bullet counts alone. -/
theorem HandlePlayerHit_counts (s : AInvadersGameMode) :
    (HandlePlayerHit s).InvadersGameState.ActivePlayerBullets
      = s.InvadersGameState.ActivePlayerBullets ∧
    (HandlePlayerHit s).InvadersGameState.ActiveEnemyBullets
      = s.InvadersGameState.ActiveEnemyBullets := by
  rw [HandlePlayerHit_frame]
  exact ⟨rfl, rfl⟩

/-- No block of `Tick` raises a bullet count. -/
theorem CountsNotGrown_closed : TickClosed CountsNotGrown where
  refl := fun s => ⟨le_refl _, le_refl _⟩
  trans := fun a b c h1 h2 => ⟨le_trans h2.1 h1.1, le_trans h2.2 h1.2⟩
  enemyAnim := by intro dt s; rw [UpdateEnemyAppearAnimation_frame]; simp [CountsNotGrown]
  playerAnim := by intro dt s; rw [UpdatePlayerAppearAnimation_frame]; simp [CountsNotGrown]
  playerMove := by intro dt inp s; rw [UpdatePlayerMovement_frame]; simp [CountsNotGrown]
  groupMove := by intro dt s; rw [UpdateEnemyGroupMovement_frame]; simp [CountsNotGrown]
  ufoMove := by intro dt Rand s; rw [UpdateUfoMovement_frame]; simp [CountsNotGrown]
  playerBullets := by intro s Bs _; simp [CountsNotGrown]
  enemyBullets := by intro s Bs _; simp [CountsNotGrown]
  asteroid := by intro s As HPs _; simp [CountsNotGrown]
  ufoKill := by intro s Points h; simp [CountsNotGrown]
  enemyKill := by
    intro s t i E Points _ hR
    obtain ⟨Sh, ht⟩ := ReorganizeShooters_inv _ _ _ hR
    rw [ht]; simp [CountsNotGrown]
  sound := by intro s e; simp [CountsNotGrown]
  playerDelete := by intro s Bs _ _ _; simp [CountsNotGrown]
  enemyDelete := by intro s Bs _ _ _; simp [CountsNotGrown]
  allKilled := by intro s; rw [AllEnemiesKilled_frame]; simp [CountsNotGrown]
  playerHit := by intro s; rw [HandlePlayerHit_frame]; simp [CountsNotGrown]

/-- The hit block of the player loop leaves the player count alone. -/
theorem PlayerBulletUnit_count (Rand : ℚ) (UA : Option ActorRef) (s t : AInvadersGameMode)
    (hUA : ∀ U, UA = some U → U.IsEnemy = true) (h : PlayerBulletUnit Rand UA s = some t) :
    t.InvadersGameState.ActivePlayerBullets = s.InvadersGameState.ActivePlayerBullets := by
  rcases PlayerBulletUnit_inv _ _ _ _ h with ⟨_, e⟩ | ⟨U, t1, hU, hH, e⟩
  · rw [e]
  · rw [e]
    exact PlayerBulletHit_rel_frame
      (fun a b => b.InvadersGameState.ActivePlayerBullets = a.InvadersGameState.ActivePlayerBullets)
      (by intro s As HPs _; rfl) (by intro s Points h; rfl) (by intro s i E Points Sh; rfl)
      Rand U s t1 (hUA U hU) hH

/-- One iteration of the player loop lowers the player count by at most one. -/
theorem PlayerBulletBody_count (dt : ℚ) (inp : FTickInput) (r : Nat) (s t : AInvadersGameMode)
    (h : PlayerBulletBody dt inp r s = some t) :
    s.InvadersGameState.ActivePlayerBullets - 1 ≤ t.InvadersGameState.ActivePlayerBullets := by
  obtain ⟨B, s1, s2, hB, h1, h2, ht⟩ := PlayerBulletBody_inv dt inp r s t h
  have e0 := PlayerBulletUnit_count _ _ _ _ (fun U hU => (PlayerUnitActor_IsEnemy inp r U hU).1) h1
  have e1 : s1.InvadersGameState.ActivePlayerBullets = s.InvadersGameState.ActivePlayerBullets :=
    e0
  have e2 : s1.InvadersGameState.ActivePlayerBullets - 1
      ≤ s2.InvadersGameState.ActivePlayerBullets := by
    rcases DeletePlayerBullet_inv _ _ _ _ h2 with ⟨_, e⟩ | ⟨_, res, hD, e⟩
    · rw [e]; omega
    · obtain ⟨e1, _, _, _⟩ := DeleteBullet_inv _ _ _ _ hD
      rw [e]; simp [e1]
  rw [ht, AllEnemiesKilled_frame]
  exact e1 ▸ e2

/-- One iteration of the enemy loop lowers the enemy count by at most one. -/
theorem EnemyBulletBody_count (dt : ℚ) (inp : FTickInput) (r : Nat) (s t : AInvadersGameMode)
    (h : EnemyBulletBody dt inp r s = some t) :
    s.InvadersGameState.ActiveEnemyBullets - 1 ≤ t.InvadersGameState.ActiveEnemyBullets := by
  obtain ⟨B, s1, hB, h1, h2⟩ := EnemyBulletBody_inv dt inp r s t h
  have e1 : s1.InvadersGameState.ActiveEnemyBullets = s.InvadersGameState.ActiveEnemyBullets := by
    rcases EnemyBulletUnit_inv _ _ _ h1 with ⟨_, e⟩ | ⟨_, U, t1, _, _, hA, e⟩ | ⟨_, U, _, _, _, e⟩
    · rw [e]
    · obtain ⟨k', HP0, A, _, _, _, ht1⟩ := AsteroidHit_inv U _ t1 hA
      rw [e, ht1]
    · rw [e]
      exact (HandlePlayerHit_counts _).2
  rcases DeleteEnemyBullet_inv _ _ _ _ h2 with ⟨_, e⟩ | ⟨_, res, hD, e⟩
  · rw [e]; omega
  · obtain ⟨e3, _, _, _⟩ := DeleteBullet_inv _ _ _ _ hD
    rw [e]; simp only [e3]; omega

/-- `n` iterations of the player loop lower the player count by at most `n`. -/
theorem PlayerBulletLoop_count (dt : ℚ) (inp : FTickInput) :
    ∀ (n : Nat) (s t : AInvadersGameMode), PlayerBulletLoop dt inp n s = some t →
      s.InvadersGameState.ActivePlayerBullets - n ≤ t.InvadersGameState.ActivePlayerBullets := by
  intro n
  induction n with
  | zero =>
    intro s t h
    simp only [PlayerBulletLoop, Option.some.injEq] at h
    rw [← h]; simp
  | succ n ih =>
    intro s t h
    simp only [PlayerBulletLoop, Option.bind_eq_some] at h
    obtain ⟨u, hu, ht⟩ := h
    have h1 := PlayerBulletBody_count dt inp n s u hu
    have h2 := ih u t ht
    push_cast
    omega

/-- `n` iterations of the enemy loop lower the enemy count by at most `n`. -/
theorem EnemyBulletLoop_count (dt : ℚ) (inp : FTickInput) :
    ∀ (n : Nat) (s t : AInvadersGameMode), EnemyBulletLoop dt inp n s = some t →
      s.InvadersGameState.ActiveEnemyBullets - n ≤ t.InvadersGameState.ActiveEnemyBullets := by
  intro n
  induction n with
  | zero =>
    intro s t h
    simp only [EnemyBulletLoop, Option.some.injEq] at h
    rw [← h]; simp
  | succ n ih =>
    intro s t h
    simp only [EnemyBulletLoop, Option.bind_eq_some] at h
    obtain ⟨u, hu, ht⟩ := h
    have h1 := EnemyBulletBody_count dt inp n s u hu
    have h2 := ih u t ht
    push_cast
    omega

/-- The fields `ResetUnits` may change. -/
theorem ResetUnits_frame (s : AInvadersGameMode) :
    ResetUnits s = { s with
      PlayerShip := (ResetUnits s).PlayerShip
      EnemyShips := forFirst AActor.deactivate s.InvadersGameState.TotalEnemyNum s.EnemyShips
      EnemyShipGroup := (ResetUnits s).EnemyShipGroup
      UfoShip := s.UfoShip.deactivate
      AsteroidHP := s.Asteroids.map fun _ => s.AsteroidDef.Health
      Asteroids := s.Asteroids.map AActor.activate
      EnemyBullets := s.EnemyBullets.map AActor.deactivate
      PlayerBullets := s.PlayerBullets.map AActor.deactivate
      InvadersGameState :=
        { s.InvadersGameState with ActiveEnemyBullets := 0, ActivePlayerBullets := 0 } } := by
  simp [ResetUnits, UpdateEnemyGroupMovement, UpdateUfoMovement, AActor.deactivate]

/-- The fields `SpawnEnemies` may change. -/
theorem SpawnEnemies_frame (s : AInvadersGameMode) :
    SpawnEnemies s = { s with
      ShootingEnemies := List.range (min s.Rules.EnemiesInRow s.InvadersGameState.TotalEnemyNum)
      EnemyShips := forFirst AActor.activate s.InvadersGameState.TotalEnemyNum s.EnemyShips
      EnemyShipGroup := (SpawnEnemies s).EnemyShipGroup
      EnemyShootTHandle := SetTimer s.Rules.EnemyShootFrequency false
      InvadersGameState := { s.InvadersGameState with
        EnemyProgTime := 0
        EnemyAppearAnimTime := 5
        ActiveEnemyNum := s.InvadersGameState.TotalEnemyNum } } := by
  simp [SpawnEnemies, UpdateEnemyGroupMovement, AddFirstRow_eq]

/-- The fields `ShowMainMenu` may change. -/
theorem ShowMainMenu_frame (s : AInvadersGameMode) :
    ShowMainMenu s = { s with
      PlayerShip := (ResetUnits s).PlayerShip
      EnemyShips := forFirst AActor.deactivate s.InvadersGameState.TotalEnemyNum s.EnemyShips
      EnemyShipGroup := (ShowMainMenu s).EnemyShipGroup
      UfoShip := s.UfoShip.deactivate
      AsteroidHP := s.Asteroids.map fun _ => s.AsteroidDef.Health
      Asteroids := s.Asteroids.map AActor.activate
      EnemyBullets := s.EnemyBullets.map AActor.deactivate
      PlayerBullets := s.PlayerBullets.map AActor.deactivate
      TickEnabled := false
      GameOverInViewport := false
      PauseMenuInViewport := false
      MainMenuInViewport := true
      Events := (ShowMainMenu s).Events
      InvadersGameState := { s.InvadersGameState with
        LevelStarted := false
        PrevHiScore := s.InvadersGameState.HiScore
        ActiveEnemyBullets := 0
        ActivePlayerBullets := 0 } } := by
  simp [ShowMainMenu, ResetUnits, UpdateEnemyGroupMovement, UpdateUfoMovement, AActor.deactivate]

/-- The fields `RestartInvadersGame` may change. -/
theorem RestartInvadersGame_frame (Rand : ℚ) (s : AInvadersGameMode) :
    RestartInvadersGame Rand s = { s with
      PlayerShip := (RestartInvadersGame Rand s).PlayerShip
      EnemyShips := forFirst AActor.deactivate s.InvadersGameState.TotalEnemyNum s.EnemyShips
      EnemyShipGroup := (RestartInvadersGame Rand s).EnemyShipGroup
      UfoShip := s.UfoShip.deactivate
      AsteroidHP := s.Asteroids.map fun _ => s.AsteroidDef.Health
      Asteroids := s.Asteroids.map AActor.activate
      EnemyBullets := s.EnemyBullets.map AActor.deactivate
      PlayerBullets := s.PlayerBullets.map AActor.deactivate
      EnemyAppearTHandle := SetTimer 2 false
      PlayerAppearTHandle := SetTimer (1 / 2) false
      EnemyShootTHandle := none
      UfoAppearTHandle := SetTimer Rand false
      PlayerShootTHandle := none
      TutorialMenuInViewport := false
      GameOverInViewport := false
      PauseMenuInViewport := false
      TickEnabled := true
      InvadersGameState := { s.InvadersGameState with
        EnemyProgTime := 0
        UfoProgTime := 0
        EnemyAppearAnimTime := 5
        PlayerAppearAnimTime := 1
        CurrentLives := s.PlayerDef.Lives
        LevelStarted := true
        ActiveEnemyBullets := 0
        ActivePlayerBullets := 0 } } := by
  simp [RestartInvadersGame, ResetUnits, UpdateEnemyGroupMovement, UpdateUfoMovement,
    AActor.deactivate]

/-- The fields `HandleTogglePausePressed` may change. -/
theorem HandleTogglePausePressed_frame (s : AInvadersGameMode) :
    HandleTogglePausePressed s = { s with
      EnemyAppearTHandle := (HandleTogglePausePressed s).EnemyAppearTHandle
      PlayerAppearTHandle := (HandleTogglePausePressed s).PlayerAppearTHandle
      EnemyShootTHandle := (HandleTogglePausePressed s).EnemyShootTHandle
      PlayerShootTHandle := (HandleTogglePausePressed s).PlayerShootTHandle
      UfoAppearTHandle := (HandleTogglePausePressed s).UfoAppearTHandle
      PauseMenuInViewport := !s.PauseMenuInViewport
      Events := (HandleTogglePausePressed s).Events } := by
  unfold HandleTogglePausePressed
  cases h : s.PauseMenuInViewport <;> simp [ShowPauseMenu, PauseGame, UnpauseGame, h]

/-- What `PlayerShootTimerCallback` does. -/
theorem PlayerShootTimerCallback_inv (s t : AInvadersGameMode)
    (h : PlayerShootTimerCallback s = some t) :
    t = s ∨ t = { s with PlayerShootTHandle := none } ∨
    (s.InvadersGameState.ActivePlayerBullets < (MAX_BULLETS : Int) ∧
      0 ≤ s.InvadersGameState.ActivePlayerBullets ∧
      ∃ Bs, Bs.length = s.PlayerBullets.length ∧ t = { s with
        PlayerBullets := Bs
        InvadersGameState := { s.InvadersGameState with
          ActivePlayerBullets := s.InvadersGameState.ActivePlayerBullets + 1 } }) := by
  unfold PlayerShootTimerCallback at h
  split at h
  · split at h
    · right; left; cases h; rfl
    · split at h
      · rename_i hlt
        right; right
        simp only [Option.bind_eq_some, Option.some.injEq] at h
        obtain ⟨B, hB, ht⟩ := h
        refine ⟨hlt, ?_, _, ?_, ht.symm⟩
        · unfold getAt at hB
          split at hB
          · assumption
          · cases hB
        · simp
      · left; cases h; rfl
  · left; cases h; rfl

/-- What `HandlePlayerShootPressed` does. -/
theorem HandlePlayerShootPressed_inv (s t : AInvadersGameMode)
    (h : HandlePlayerShootPressed s = some t) :
    ∃ (b : Bool) (hd : Option FTimer) (Bs : List AActor) (c : Int),
      Bs.length = s.PlayerBullets.length ∧
      (c = s.InvadersGameState.ActivePlayerBullets ∨
        (c = s.InvadersGameState.ActivePlayerBullets + 1 ∧
          0 ≤ s.InvadersGameState.ActivePlayerBullets ∧
          s.InvadersGameState.ActivePlayerBullets < (MAX_BULLETS : Int))) ∧
      (s.InvadersGameState.ActivePlayerBullets = (MAX_BULLETS : Int) → Bs = s.PlayerBullets) ∧
      t = { s with
        IsPlayerShooting := b
        PlayerShootTHandle := hd
        PlayerBullets := Bs
        InvadersGameState := { s.InvadersGameState with ActivePlayerBullets := c } } := by
  have key : ∀ (b : Bool),
      (if !IsTimerActive ({ s with IsPlayerShooting := b } : AInvadersGameMode).PlayerShootTHandle
        then PlayerShootTimerCallback
          { ({ s with IsPlayerShooting := b } : AInvadersGameMode) with
            PlayerShootTHandle := SetTimer s.PlayerDef.ShootFrequency true }
        else some { s with IsPlayerShooting := b }) = some t →
      ∃ (b : Bool) (hd : Option FTimer) (Bs : List AActor) (c : Int),
        Bs.length = s.PlayerBullets.length ∧
        (c = s.InvadersGameState.ActivePlayerBullets ∨
          (c = s.InvadersGameState.ActivePlayerBullets + 1 ∧
            0 ≤ s.InvadersGameState.ActivePlayerBullets ∧
            s.InvadersGameState.ActivePlayerBullets < (MAX_BULLETS : Int))) ∧
        (s.InvadersGameState.ActivePlayerBullets = (MAX_BULLETS : Int) → Bs = s.PlayerBullets) ∧
        t = { s with
          IsPlayerShooting := b
          PlayerShootTHandle := hd
          PlayerBullets := Bs
          InvadersGameState := { s.InvadersGameState with ActivePlayerBullets := c } } := by
    intro b hb
    split at hb
    · rcases PlayerShootTimerCallback_inv _ _ hb with e | e | ⟨h1, h2, Bs, hBs, e⟩
      · exact ⟨b, _, s.PlayerBullets, _, rfl, Or.inl rfl, fun _ => rfl, e⟩
      · exact ⟨b, _, s.PlayerBullets, _, rfl, Or.inl rfl, fun _ => rfl, e⟩
      · exact ⟨b, _, Bs, _, hBs, Or.inr ⟨rfl, h2, h1⟩,
          fun e1 => absurd h1 (by
            change ¬ (s.InvadersGameState.ActivePlayerBullets < (MAX_BULLETS : Int))
            change s.InvadersGameState.ActivePlayerBullets = (MAX_BULLETS : Int) at e1
            omega), e⟩
    · cases hb
      exact ⟨b, _, s.PlayerBullets, _, rfl, Or.inl rfl, fun _ => rfl, rfl⟩
  unfold HandlePlayerShootPressed at h
  cases hH : s.PlayerShip.Hidden
  · simp only [hH, Bool.not_false, if_true] at h
    exact key true h
  · simp only [hH, Bool.not_true, Bool.false_eq_true, if_false] at h
    have e : s = { s with IsPlayerShooting := s.IsPlayerShooting } := rfl
    exact key s.IsPlayerShooting h

/-- What `EnemyShootTimerCallback` does. -/
theorem EnemyShootTimerCallback_inv (Rand : Nat) (s t : AInvadersGameMode)
    (h : EnemyShootTimerCallback Rand s = some t) :
    ∃ (hd : Option FTimer) (Bs : List AActor) (c : Int),
      Bs.length = s.EnemyBullets.length ∧
      (c = s.InvadersGameState.ActiveEnemyBullets ∨
        (c = s.InvadersGameState.ActiveEnemyBullets + 1 ∧
          0 ≤ s.InvadersGameState.ActiveEnemyBullets ∧
          s.InvadersGameState.ActiveEnemyBullets < (MAX_BULLETS : Int))) ∧
      (s.InvadersGameState.ActiveEnemyBullets = (MAX_BULLETS : Int) → Bs = s.EnemyBullets) ∧
      t = { s with
        EnemyShootTHandle := hd
        EnemyBullets := Bs
        InvadersGameState := { s.InvadersGameState with ActiveEnemyBullets := c } } := by
  unfold EnemyShootTimerCallback at h
  split at h
  · split at h
    · cases h
      exact ⟨_, s.EnemyBullets, _, rfl, Or.inl rfl, fun _ => rfl, rfl⟩
    · simp only [Option.bind_eq_some, Option.some.injEq] at h
      obtain ⟨s1, hs1, ht⟩ := h
      unfold EnemyShoot at hs1
      split at hs1
      · rename_i hlt
        simp only [Option.bind_eq_some, Option.some.injEq] at hs1
        obtain ⟨Idx, _, E, _, B, hB, hs1⟩ := hs1
        have h0 : 0 ≤ s.InvadersGameState.ActiveEnemyBullets := by
          unfold getAt at hB
          split at hB
          · assumption
          · cases hB
        subst hs1
        subst ht
        exact ⟨_, _, _, by simp, Or.inr ⟨rfl, h0, hlt⟩, fun e => by omega, rfl⟩
      · cases hs1
        subst ht
        exact ⟨_, s.EnemyBullets, _, rfl, Or.inl rfl, fun _ => rfl, rfl⟩
  · cases h
    exact ⟨_, s.EnemyBullets, _, rfl, Or.inl rfl, fun _ => rfl, rfl⟩

/-- The fields `UfoAppearCallback` may change. -/
theorem UfoAppearCallback_frame (Rand : ℚ) (s : AInvadersGameMode) :
    UfoAppearCallback Rand s = { s with
      InvadersGameState := { s.InvadersGameState with
        UfoProgTime := (UfoAppearCallback Rand s).InvadersGameState.UfoProgTime }
      UfoShip := (UfoAppearCallback Rand s).UfoShip
      UfoAppearTHandle := (UfoAppearCallback Rand s).UfoAppearTHandle } := by
  unfold UfoAppearCallback
  rw [UpdateUfoMovement_frame]

/-- The fields `HandlePlayerShootReleased` may change. -/
theorem HandlePlayerShootReleased_frame (s : AInvadersGameMode) :
    HandlePlayerShootReleased s = { s with
      IsPlayerShooting := (HandlePlayerShootReleased s).IsPlayerShooting } := by
  unfold HandlePlayerShootReleased
  split <;> rfl

/-- A relation kept by every block of every engine call holds between the state before
and after a successful `Step`. -/
theorem Step_closed {P : AInvadersGameMode → AInvadersGameMode → Prop} (hP : StepClosed P)
    (i : Input)
    (hReset : i.Resets = true →
      (∀ Rand s, P s (RestartInvadersGame Rand s)) ∧ (∀ s, P s (ShowMainMenu s)))
    (s t : AInvadersGameMode) (h : Step s i = some t) : P s t := by
  cases i with
  | Tick dt inp =>
    simp only [Step] at h
    split at h
    · exact Tick_closed hP.toTickClosed dt inp s t h
    · cases h
  | StartGameButton =>
    simp only [Step] at h
    split at h
    · cases h; exact hP.tutorial s
    · cases h
  | TutorialShootPressed Rand =>
    simp only [Step] at h
    split at h
    · cases h; exact (hReset rfl).1 Rand s
    · cases h
  | RestartButton Rand =>
    simp only [Step] at h
    split at h
    · cases h; exact (hReset rfl).1 Rand s
    · cases h
  | ExitButton =>
    simp only [Step] at h
    split at h
    · cases h; exact (hReset rfl).2 s
    · cases h
  | ShootPressed => exact hP.shootPressed s t h
  | ShootReleased =>
    simp only [Step, Option.some.injEq] at h
    rw [← h]; exact hP.shootReleased s
  | EscapePressed =>
    simp only [Step, Option.some.injEq] at h
    rw [← h]; exact hP.togglePause s
  | EnemyAppearTimer =>
    simp only [Step] at h
    split at h
    · cases h
      exact hP.trans _ _ _ (hP.fired s s.EnemyShootTHandle s.PlayerShootTHandle s.UfoAppearTHandle
        (afterFire s.EnemyAppearTHandle) s.PlayerAppearTHandle) (hP.spawnEnemies _)
    · cases h
  | PlayerAppearTimer =>
    simp only [Step] at h
    split at h
    · cases h
      exact hP.trans _ _ _ (hP.fired s s.EnemyShootTHandle s.PlayerShootTHandle s.UfoAppearTHandle
        s.EnemyAppearTHandle (afterFire s.PlayerAppearTHandle)) (hP.spawnPlayer _)
    · cases h
  | EnemyShootTimer Rand =>
    simp only [Step] at h
    split at h
    · exact hP.trans _ _ _ (hP.fired s (afterFire s.EnemyShootTHandle) s.PlayerShootTHandle
        s.UfoAppearTHandle s.EnemyAppearTHandle s.PlayerAppearTHandle) (hP.enemyShoot Rand _ t h)
    · cases h
  | PlayerShootTimer =>
    simp only [Step] at h
    split at h
    · exact hP.trans _ _ _ (hP.fired s s.EnemyShootTHandle (afterFire s.PlayerShootTHandle)
        s.UfoAppearTHandle s.EnemyAppearTHandle s.PlayerAppearTHandle) (hP.playerShoot _ t h)
    · cases h
  | UfoAppearTimer Rand =>
    simp only [Step] at h
    split at h
    · cases h
      exact hP.trans _ _ _ (hP.fired s s.EnemyShootTHandle s.PlayerShootTHandle
        (afterFire s.UfoAppearTHandle) s.EnemyAppearTHandle s.PlayerAppearTHandle)
        (hP.ufoAppear Rand _)
    · cases h

/-! ### Bullet counts in reachable states -/

/-- A successful run from a reachable state ends in a reachable state. -/
theorem Reachable_Run : ∀ (s : AInvadersGameMode) (ins : List Input) (t : AInvadersGameMode),
    Reachable s → Run s ins = some t → Reachable t := by
  intro s ins
  induction ins generalizing s with
  | nil =>
    intro t hs h
    simp only [Run, Option.some.injEq] at h
    rw [← h]; exact hs
  | cons i ins ih =>
    intro t hs h
    simp only [Run, Option.bind_eq_some] at h
    obtain ⟨u, hu, ht⟩ := h
    exact ih u t (Reachable.step s u i hs hu) ht

/-- No engine call other than a reset breaks the capacity bounds. -/
theorem CapacityKept_closed : StepClosed CapacityKept where
  refl := fun s h => h
  trans := fun a b c h1 h2 h => h2 (h1 h)
  enemyAnim := by intro dt s; rw [UpdateEnemyAppearAnimation_frame]; exact fun h => h
  playerAnim := by intro dt s; rw [UpdatePlayerAppearAnimation_frame]; exact fun h => h
  playerMove := by intro dt inp s; rw [UpdatePlayerMovement_frame]; exact fun h => h
  groupMove := by intro dt s; rw [UpdateEnemyGroupMovement_frame]; exact fun h => h
  ufoMove := by intro dt Rand s; rw [UpdateUfoMovement_frame]; exact fun h => h
  playerBullets := by intro s Bs _; exact fun h => h
  enemyBullets := by intro s Bs _; exact fun h => h
  asteroid := by intro s As HPs _; exact fun h => h
  ufoKill := by intro s Points h; exact fun h => h
  enemyKill := by
    intro s t i E Points _ hR
    obtain ⟨Sh, ht⟩ := ReorganizeShooters_inv _ _ _ hR
    rw [ht]; exact fun h => h
  sound := by intro s e; exact fun h => h
  playerDelete := by
    intro s Bs _ h1 _ h
    obtain ⟨_, h3, h4, h5⟩ := h
    exact ⟨show 0 ≤ s.InvadersGameState.ActivePlayerBullets - 1 by omega,
      show s.InvadersGameState.ActivePlayerBullets - 1 ≤ _ by omega, h4, h5⟩
  enemyDelete := by
    intro s Bs _ h1 _ h
    obtain ⟨h2, h3, _, h5⟩ := h
    exact ⟨h2, h3, show 0 ≤ s.InvadersGameState.ActiveEnemyBullets - 1 by omega,
      show s.InvadersGameState.ActiveEnemyBullets - 1 ≤ _ by omega⟩
  allKilled := by intro s; rw [AllEnemiesKilled_frame]; exact fun h => h
  playerHit := by intro s; rw [HandlePlayerHit_frame]; exact fun h => h
  tutorial := by intro s; exact fun h => h
  shootPressed := by
    intro s t h
    obtain ⟨b, hd, Bs, c, _, hc, _, ht⟩ := HandlePlayerShootPressed_inv s t h
    rw [ht]
    rintro ⟨h1, h2, h3, h4⟩
    rcases hc with rfl | ⟨rfl, h5, h6⟩
    · exact ⟨h1, h2, h3, h4⟩
    · exact ⟨show 0 ≤ s.InvadersGameState.ActivePlayerBullets + 1 by omega,
        show s.InvadersGameState.ActivePlayerBullets + 1 ≤ _ by omega, h3, h4⟩
  shootReleased := by intro s; rw [HandlePlayerShootReleased_frame]; exact fun h => h
  togglePause := by intro s; rw [HandleTogglePausePressed_frame]; exact fun h => h
  fired := by intro s a b c d e; exact fun h => h
  spawnEnemies := by intro s; rw [SpawnEnemies_frame]; exact fun h => h
  spawnPlayer := by intro s; exact fun h => h
  enemyShoot := by
    intro Rand s t h
    obtain ⟨hd, Bs, c, _, hc, _, ht⟩ := EnemyShootTimerCallback_inv Rand s t h
    rw [ht]
    rintro ⟨h1, h2, h3, h4⟩
    rcases hc with rfl | ⟨rfl, h5, h6⟩
    · exact ⟨h1, h2, h3, h4⟩
    · exact ⟨h1, h2, show 0 ≤ s.InvadersGameState.ActiveEnemyBullets + 1 by omega,
        show s.InvadersGameState.ActiveEnemyBullets + 1 ≤ _ by omega⟩
  playerShoot := by
    intro s t h
    rcases PlayerShootTimerCallback_inv s t h with e | e | ⟨h1, h2, Bs, _, e⟩
    · rw [e]; exact fun h => h
    · rw [e]; exact fun h => h
    · rw [e]
      rintro ⟨_, _, h3, h4⟩
      exact ⟨show 0 ≤ s.InvadersGameState.ActivePlayerBullets + 1 by omega,
        show s.InvadersGameState.ActivePlayerBullets + 1 ≤ _ by omega, h3, h4⟩
  ufoAppear := by intro Rand s; rw [UfoAppearCallback_frame]; exact fun h => h

/-- Two empty pools are within capacity. -/
theorem BulletsWithinCapacity_of_zero (s : AInvadersGameMode)
    (h1 : s.InvadersGameState.ActivePlayerBullets = 0)
    (h2 : s.InvadersGameState.ActiveEnemyBullets = 0) : BulletsWithinCapacity s := by
  unfold BulletsWithinCapacity MAX_BULLETS
  rw [h1, h2]
  decide

/-- `StartPlay` ends with `ShowMainMenu`. -/
theorem StartPlay_inv (s0 s : AInvadersGameMode) (h : StartPlay s0 = some s) :
    ∃ s1 s2, InitGameObjects s1 = some s2 ∧ s1.Rules = s0.Rules ∧
      s1.InvadersGameState.TotalEnemyNum = s0.InvadersGameState.TotalEnemyNum ∧
      s1.EnemyShips = s0.EnemyShips ∧ s = ShowMainMenu s2 := by
  simp only [StartPlay, Option.bind_eq_some, Option.some.injEq] at h
  obtain ⟨s2, h1, h2⟩ := h
  refine ⟨_, s2, h1, ?_, ?_, ?_, h2.symm⟩
  · unfold LoadHiScore; split <;> rfl
  · unfold LoadHiScore; split <;> rfl
  · unfold LoadHiScore; split <;> rfl

/-- The capacity bounds hold in every reachable state. -/
theorem Reachable_BulletsWithinCapacity (s : AInvadersGameMode) (hs : Reachable s) :
    BulletsWithinCapacity s := by
  induction hs with
  | start Rules PlayerDef EnemyDefs EnemySpawnPoint UfoSpawnPoint AsteroidDef PlayerBulletDef
      EnemyBulletDef SaveSlot s h =>
    obtain ⟨s1, s2, _, _, _, _, rfl⟩ := StartPlay_inv _ _ h
    rw [ShowMainMenu_frame]
    exact BulletsWithinCapacity_of_zero _ rfl rfl
  | step s t i _ h ih =>
    refine Step_closed CapacityKept_closed i ?_ s t h ih
    intro _
    constructor
    · intro Rand s _
      rw [RestartInvadersGame_frame]
      exact BulletsWithinCapacity_of_zero _ rfl rfl
    · intro s _
      rw [ShowMainMenu_frame]
      exact BulletsWithinCapacity_of_zero _ rfl rfl

/-- C4: in every reachable state, and after every further sequence of engine calls from
it, both active bullet counts are within `[0, MAX_BULLETS]`; with a full pool the shoot
callbacks (and the shoot press) leave count and pool as they are; `UpdatePlayerBullets` and
`UpdateEnemyBullets` never raise their count nor take it below 0. -/
theorem bullet_counts_within_capacity (s : AInvadersGameMode) (hs : Reachable s) :
    BulletsWithinCapacity s ∧
    (∀ ins t, Run s ins = some t → BulletsWithinCapacity t) ∧
    (s.InvadersGameState.ActivePlayerBullets = (MAX_BULLETS : Int) →
      (∀ t, PlayerShootTimerCallback s = some t →
        t.InvadersGameState.ActivePlayerBullets = (MAX_BULLETS : Int) ∧
        t.PlayerBullets = s.PlayerBullets) ∧
      (∀ t, HandlePlayerShootPressed s = some t →
        t.InvadersGameState.ActivePlayerBullets = (MAX_BULLETS : Int) ∧
        t.PlayerBullets = s.PlayerBullets)) ∧
    (s.InvadersGameState.ActiveEnemyBullets = (MAX_BULLETS : Int) →
      ∀ Rand t, EnemyShootTimerCallback Rand s = some t →
        t.InvadersGameState.ActiveEnemyBullets = (MAX_BULLETS : Int) ∧
        t.EnemyBullets = s.EnemyBullets) ∧
    (∀ dt inp t, UpdatePlayerBullets dt inp s = some t →
      0 ≤ t.InvadersGameState.ActivePlayerBullets ∧
      t.InvadersGameState.ActivePlayerBullets ≤ s.InvadersGameState.ActivePlayerBullets) ∧
    (∀ dt inp t, UpdateEnemyBullets dt inp s = some t →
      0 ≤ t.InvadersGameState.ActiveEnemyBullets ∧
      t.InvadersGameState.ActiveEnemyBullets ≤ s.InvadersGameState.ActiveEnemyBullets) := by
  have hB := Reachable_BulletsWithinCapacity s hs
  refine ⟨hB, ?_, ?_, ?_, ?_, ?_⟩
  · intro ins t hrun
    exact Reachable_BulletsWithinCapacity t (Reachable_Run s ins t hs hrun)
  · intro hfull
    constructor
    · intro t ht
      rcases PlayerShootTimerCallback_inv s t ht with e | e | ⟨h1, _, _, _, _⟩
      · rw [e]; exact ⟨hfull, rfl⟩
      · rw [e]; exact ⟨hfull, rfl⟩
      · omega
    · intro t ht
      obtain ⟨b, hd, Bs, c, _, hc, hBs, e⟩ := HandlePlayerShootPressed_inv s t ht
      rw [e]
      rcases hc with rfl | ⟨_, _, h1⟩
      · exact ⟨hfull, hBs hfull⟩
      · omega
  · intro hfull Rand t ht
    obtain ⟨hd, Bs, c, _, hc, hBs, e⟩ := EnemyShootTimerCallback_inv Rand s t ht
    rw [e]
    rcases hc with rfl | ⟨_, _, h1⟩
    · exact ⟨hfull, hBs hfull⟩
    · omega
  · intro dt inp t ht
    have h1 := PlayerBulletLoop_count dt inp _ s t ht
    have h2 := (UpdatePlayerBullets_closed CountsNotGrown_closed dt inp s t ht).1
    have h0 := hB.1
    rw [Int.toNat_of_nonneg h0] at h1
    exact ⟨by omega, h2⟩
  · intro dt inp t ht
    have h1 := EnemyBulletLoop_count dt inp _ s t ht
    have h2 := (UpdateEnemyBullets_closed CountsNotGrown_closed dt inp s t ht).2
    have h0 := hB.2.2.1
    rw [Int.toNat_of_nonneg h0] at h1
    exact ⟨by omega, h2⟩

/-- A sample run that succeeds ends in a reachable state. -/
theorem Reachable_SampleAfter (ins : List Input)
    (h : ((StartPlay (SampleMode FGameRules.default)).bind fun s => Run s ins).isSome = true) :
    Reachable (SampleAfter ins) := by
  obtain ⟨t, ht⟩ := Option.isSome_iff_exists.1 h
  have e : SampleAfter ins = t := by simp [SampleAfter, ht]
  rw [e]
  simp only [Option.bind_eq_some] at ht
  obtain ⟨s, hs, hrun⟩ := ht
  exact Reachable_Run s ins t (Reachable.start _ _ _ _ _ _ _ _ _ s hs) hrun

/-- C4 at the sample state with a full player pool. -/
theorem bullet_counts_within_capacity_witness :
    Reachable (SampleAfter FullPoolInputs) ∧
    (SampleAfter FullPoolInputs).InvadersGameState.ActivePlayerBullets = 20 ∧
    BulletsWithinCapacity (SampleAfter FullPoolInputs) ∧
    (∀ t, PlayerShootTimerCallback (SampleAfter FullPoolInputs) = some t →
        t.InvadersGameState.ActivePlayerBullets = (MAX_BULLETS : Int) ∧
        t.PlayerBullets = (SampleAfter FullPoolInputs).PlayerBullets) := by
  have hd : ((StartPlay (SampleMode FGameRules.default)).bind fun s =>
        Run s FullPoolInputs).isSome = true ∧
      (SampleAfter FullPoolInputs).InvadersGameState.ActivePlayerBullets = 20 := by decide!
  have hR : Reachable (SampleAfter FullPoolInputs) := Reachable_SampleAfter _ hd.1
  have h20 : (SampleAfter FullPoolInputs).InvadersGameState.ActivePlayerBullets = 20 := hd.2
  have h := bullet_counts_within_capacity (SampleAfter FullPoolInputs) hR
  exact ⟨hR, h20, h.1, (h.2.2.1 h20).1⟩

/-! ### The shooting front in reachable states -/

/-- No engine call changes the rules, the number of enemies or the number of enemy slots. -/
theorem GridSame_closed : StepClosed GridSame where
  refl := fun s => ⟨rfl, rfl, rfl⟩
  trans := fun a b c h1 h2 => ⟨h2.1.trans h1.1, h2.2.1.trans h1.2.1, h2.2.2.trans h1.2.2⟩
  enemyAnim := by intro dt s; rw [UpdateEnemyAppearAnimation_frame]; exact ⟨rfl, rfl, rfl⟩
  playerAnim := by intro dt s; rw [UpdatePlayerAppearAnimation_frame]; exact ⟨rfl, rfl, rfl⟩
  playerMove := by intro dt inp s; rw [UpdatePlayerMovement_frame]; exact ⟨rfl, rfl, rfl⟩
  groupMove := by intro dt s; rw [UpdateEnemyGroupMovement_frame]; exact ⟨rfl, rfl, rfl⟩
  ufoMove := by intro dt Rand s; rw [UpdateUfoMovement_frame]; exact ⟨rfl, rfl, rfl⟩
  playerBullets := by intro s Bs _; exact ⟨rfl, rfl, rfl⟩
  enemyBullets := by intro s Bs _; exact ⟨rfl, rfl, rfl⟩
  asteroid := by intro s As HPs _; exact ⟨rfl, rfl, rfl⟩
  ufoKill := by intro s Points h; exact ⟨rfl, rfl, rfl⟩
  enemyKill := by
    intro s t i E Points _ hR
    obtain ⟨Sh, ht⟩ := ReorganizeShooters_inv _ _ _ hR
    rw [ht]; exact ⟨rfl, rfl, by simp⟩
  sound := by intro s e; exact ⟨rfl, rfl, rfl⟩
  playerDelete := by intro s Bs _ _ _; exact ⟨rfl, rfl, rfl⟩
  enemyDelete := by intro s Bs _ _ _; exact ⟨rfl, rfl, rfl⟩
  allKilled := by intro s; rw [AllEnemiesKilled_frame]; exact ⟨rfl, rfl, rfl⟩
  playerHit := by intro s; rw [HandlePlayerHit_frame]; exact ⟨rfl, rfl, rfl⟩
  tutorial := by intro s; exact ⟨rfl, rfl, rfl⟩
  shootPressed := by
    intro s t h
    obtain ⟨b, hd, Bs, c, _, _, _, ht⟩ := HandlePlayerShootPressed_inv s t h
    rw [ht]; exact ⟨rfl, rfl, rfl⟩
  shootReleased := by intro s; rw [HandlePlayerShootReleased_frame]; exact ⟨rfl, rfl, rfl⟩
  togglePause := by intro s; rw [HandleTogglePausePressed_frame]; exact ⟨rfl, rfl, rfl⟩
  fired := by intro s a b c d e; exact ⟨rfl, rfl, rfl⟩
  spawnEnemies := by
    intro s; rw [SpawnEnemies_frame]; exact ⟨rfl, rfl, forFirst_length _ _ _⟩
  spawnPlayer := by intro s; exact ⟨rfl, rfl, rfl⟩
  enemyShoot := by
    intro Rand s t h
    obtain ⟨hd, Bs, c, _, _, _, ht⟩ := EnemyShootTimerCallback_inv Rand s t h
    rw [ht]; exact ⟨rfl, rfl, rfl⟩
  playerShoot := by
    intro s t h
    rcases PlayerShootTimerCallback_inv s t h with e | e | ⟨_, _, Bs, _, e⟩ <;>
      (rw [e]; exact ⟨rfl, rfl, rfl⟩)
  ufoAppear := by intro Rand s; rw [UfoAppearCallback_frame]; exact ⟨rfl, rfl, rfl⟩

/-- The grid data is the same after every engine call, resets included. -/
theorem GridSame_Step (s t : AInvadersGameMode) (i : Input) (h : Step s i = some t) :
    GridSame s t := by
  refine Step_closed GridSame_closed i ?_ s t h
  intro _
  constructor
  · intro Rand s; rw [RestartInvadersGame_frame]; exact ⟨rfl, rfl, forFirst_length _ _ _⟩
  · intro s; rw [ShowMainMenu_frame]; exact ⟨rfl, rfl, forFirst_length _ _ _⟩

/-- Well-formedness of the grid only depends on the grid data. -/
theorem GridWF_of_GridSame (s t : AInvadersGameMode) (h : GridSame s t) (hs : GridWF s) :
    GridWF t := by
  obtain ⟨h1, h2, h3⟩ := h
  unfold GridWF
  rw [h1, h2, h3]
  exact hs

/-- The enemy instancing loop creates one enemy per index. -/
theorem SpawnEnemyShips_length (s : AInvadersGameMode) : ∀ (n : Nat) (l : List AActor),
    SpawnEnemyShips s n = some l → l.length = n := by
  intro n
  induction n with
  | zero =>
    intro l h
    simp only [SpawnEnemyShips, Option.some.injEq] at h
    rw [← h]; rfl
  | succ n ih =>
    intro l h
    simp only [SpawnEnemyShips, Option.bind_eq_some, Option.some.injEq] at h
    obtain ⟨l0, h0, E, _, hl⟩ := h
    rw [← hl, List.length_append, ih l0 h0]
    rfl

/-- `InitGameObjects` adds `TotalEnemyNum` enemies and keeps the rules. -/
theorem InitGameObjects_grid (s t : AInvadersGameMode) (h : InitGameObjects s = some t) :
    t.Rules = s.Rules ∧
    t.InvadersGameState.TotalEnemyNum = s.InvadersGameState.TotalEnemyNum ∧
    t.EnemyShips.length = s.EnemyShips.length + s.InvadersGameState.TotalEnemyNum := by
  unfold InitGameObjects at h
  split at h
  · cases h
  · simp only [Option.bind_eq_some, Option.some.injEq] at h
    obtain ⟨Ships, hS, Top, _, ht⟩ := h
    rw [← ht, ResetUnits_frame]
    refine ⟨rfl, rfl, ?_⟩
    simp only [forFirst_length, List.length_append]
    rw [SpawnEnemyShips_length s _ Ships hS]

/-- The grid is well formed in every reachable state. -/
theorem Reachable_GridWF (s : AInvadersGameMode) (hs : Reachable s) : GridWF s := by
  induction hs with
  | start Rules PlayerDef EnemyDefs EnemySpawnPoint UfoSpawnPoint AsteroidDef PlayerBulletDef
      EnemyBulletDef SaveSlot s h =>
    obtain ⟨s1, s2, h1, e1, e2, e3, rfl⟩ := StartPlay_inv _ _ h
    obtain ⟨g1, g2, g3⟩ := InitGameObjects_grid s1 s2 h1
    rw [ShowMainMenu_frame]
    unfold GridWF
    simp only [forFirst_length]
    rw [g1, g2, g3, e1, e2, e3]
    exact ⟨rfl, by simp [InitGame, NewGameMode]⟩
  | step s t i _ h ih => exact GridWF_of_GridSame s t (GridSame_Step s t i h) ih

/-- No engine call other than a reset breaks an exact front. -/
theorem FrontKept_closed : StepClosed FrontKept where
  refl := fun s h => h
  trans := fun a b c h1 h2 h => h2 (h1 h)
  enemyAnim := by intro dt s; rw [UpdateEnemyAppearAnimation_frame]; exact fun h => h
  playerAnim := by intro dt s; rw [UpdatePlayerAppearAnimation_frame]; exact fun h => h
  playerMove := by intro dt inp s; rw [UpdatePlayerMovement_frame]; exact fun h => h
  groupMove := by intro dt s; rw [UpdateEnemyGroupMovement_frame]; exact fun h => h
  ufoMove := by intro dt Rand s; rw [UpdateUfoMovement_frame]; exact fun h => h
  playerBullets := by intro s Bs _; exact fun h => h
  enemyBullets := by intro s Bs _; exact fun h => h
  asteroid := by intro s As HPs _; exact fun h => h
  ufoKill := by intro s Points h; exact fun h => h
  enemyKill := by
    intro s t i E Points hE hR
    rintro ⟨⟨hG, hL⟩, hF⟩
    have hi : i < s.EnemyShips.length := getElem?_some_lt _ _ _ hE
    have hRow : 0 < s.Rules.EnemiesInRow := by
      rcases Nat.eq_zero_or_pos s.Rules.EnemiesInRow with h0 | h0
      · rw [h0, Nat.zero_mul] at hG; omega
      · exact h0
    obtain ⟨hA, hB⟩ := ReorganizeShooters_enemy i
      { s with
        EnemyShips := s.EnemyShips.set i E.deactivate
        InvadersGameState := { s.InvadersGameState with
          Score := Int32Add s.InvadersGameState.Score Points
          ActiveEnemyNum := s.InvadersGameState.ActiveEnemyNum - 1 } }
      hRow (by simp [hL]) (by simpa using hi)
    by_cases hmem : i ∈ s.ShootingEnemies
    · obtain ⟨Sh, hSh, hcases⟩ := hB hmem
      rw [hR] at hSh
      cases hSh
      exact ⟨⟨hG, by simpa using hL⟩, FrontInvL_kill_front _ _ _ _ hF i E hE hmem Sh hcases⟩
    · have := hA hmem
      rw [hR] at this
      cases this
      exact ⟨⟨hG, by simpa using hL⟩, FrontInvL_kill_not_front _ _ _ _ hF i E hE hmem⟩
  sound := by intro s e; exact fun h => h
  playerDelete := by intro s Bs _ _ _; exact fun h => h
  enemyDelete := by intro s Bs _ _ _; exact fun h => h
  allKilled := by intro s; rw [AllEnemiesKilled_frame]; exact fun h => h
  playerHit := by intro s; rw [HandlePlayerHit_frame]; exact fun h => h
  tutorial := by intro s; exact fun h => h
  shootPressed := by
    intro s t h
    obtain ⟨b, hd, Bs, c, _, _, _, ht⟩ := HandlePlayerShootPressed_inv s t h
    rw [ht]; exact fun h => h
  shootReleased := by intro s; rw [HandlePlayerShootReleased_frame]; exact fun h => h
  togglePause := by intro s; rw [HandleTogglePausePressed_frame]; exact fun h => h
  fired := by intro s a b c d e; exact fun h => h
  spawnEnemies := by
    intro s
    rintro ⟨⟨hG, hL⟩, _⟩
    refine ⟨?_, SpawnEnemies_FrontInv s hG (by omega)⟩
    rw [SpawnEnemies_frame]
    exact ⟨hG, by simpa [forFirst_length] using hL⟩
  spawnPlayer := by intro s; exact fun h => h
  enemyShoot := by
    intro Rand s t h
    obtain ⟨hd, Bs, c, _, _, _, ht⟩ := EnemyShootTimerCallback_inv Rand s t h
    rw [ht]; exact fun h => h
  playerShoot := by
    intro s t h
    rcases PlayerShootTimerCallback_inv s t h with e | e | ⟨_, _, Bs, _, e⟩ <;>
      (rw [e]; exact fun h => h)
  ufoAppear := by intro Rand s; rw [UfoAppearCallback_frame]; exact fun h => h

/-- During a wave the front is exact: `ShootingEnemies` is the set of the front-most
visible enemies, one per column. -/
theorem InWave_FrontInv (s : AInvadersGameMode) (hs : InWave s) :
    FrontInv s ∧
    (∀ a ∈ s.ShootingEnemies, ∀ b ∈ s.ShootingEnemies,
      a % s.Rules.EnemiesInRow = b % s.Rules.EnemiesInRow → a = b) ∧
    (∀ j ∈ s.ShootingEnemies, j < s.InvadersGameState.TotalEnemyNum ∧
      IsVisible s.EnemyShips j = true ∧
      ∀ k, k < j → k % s.Rules.EnemiesInRow = j % s.Rules.EnemiesInRow →
        IsVisible s.EnemyShips k = false) := by
  have key : GridWF s ∧ FrontInv s := by
    induction hs with
    | spawn s t hs h =>
      have hG := Reachable_GridWF s hs
      simp only [Step] at h
      split at h
      · cases h
        have hG' : GridWF ({ s with EnemyAppearTHandle := afterFire s.EnemyAppearTHandle } :
          AInvadersGameMode) := hG
        refine ⟨?_, SpawnEnemies_FrontInv _ hG'.1 (by have := hG'.2; omega)⟩
        rw [SpawnEnemies_frame]
        exact ⟨hG.1, by simpa [forFirst_length] using hG.2⟩
      · cases h
    | step s t i _ hi h ih =>
      exact Step_closed FrontKept_closed i (by intro h'; rw [hi] at h'; cases h') s t h ih
  obtain ⟨_, hF⟩ := key
  refine ⟨hF, ?_, ?_⟩
  · intro a ha b hb hab
    exact IsFront_unique _ _ _ a b (hF.2.1 a ha) (hF.2.1 b hb) hab
  · intro j hj
    exact hF.2.1 j hj

/-- The first row has one index per column. -/
theorem OnePerColumn_range (R n : Nat) :
    (List.range (min R n)).Nodup ∧
    ∀ a ∈ List.range (min R n), ∀ b ∈ List.range (min R n), a % R = b % R → a = b := by
  refine ⟨List.nodup_range _, ?_⟩
  intro a ha b hb hab
  rw [List.mem_range] at ha hb
  rw [Nat.mod_eq_of_lt (by omega), Nat.mod_eq_of_lt (by omega)] at hab
  exact hab

/-- No engine call puts two indices of one column into the front. -/
theorem OnePerColumnKept_closed : StepClosed OnePerColumnKept where
  refl := fun s h => h
  trans := fun a b c h1 h2 h => h2 (h1 h)
  enemyAnim := by intro dt s; rw [UpdateEnemyAppearAnimation_frame]; exact fun h => h
  playerAnim := by intro dt s; rw [UpdatePlayerAppearAnimation_frame]; exact fun h => h
  playerMove := by intro dt inp s; rw [UpdatePlayerMovement_frame]; exact fun h => h
  groupMove := by intro dt s; rw [UpdateEnemyGroupMovement_frame]; exact fun h => h
  ufoMove := by intro dt Rand s; rw [UpdateUfoMovement_frame]; exact fun h => h
  playerBullets := by intro s Bs _; exact fun h => h
  enemyBullets := by intro s Bs _; exact fun h => h
  asteroid := by intro s As HPs _; exact fun h => h
  ufoKill := by intro s Points h; exact fun h => h
  enemyKill := by
    intro s t i E Points hE hR
    rintro ⟨⟨hG, hL⟩, hnd, hcol⟩
    have hi : i < s.EnemyShips.length := getElem?_some_lt _ _ _ hE
    have hRow : 0 < s.Rules.EnemiesInRow := by
      rcases Nat.eq_zero_or_pos s.Rules.EnemiesInRow with h0 | h0
      · rw [h0, Nat.zero_mul] at hG; omega
      · exact h0
    obtain ⟨hA, hB⟩ := ReorganizeShooters_enemy i
      { s with
        EnemyShips := s.EnemyShips.set i E.deactivate
        InvadersGameState := { s.InvadersGameState with
          Score := Int32Add s.InvadersGameState.Score Points
          ActiveEnemyNum := s.InvadersGameState.ActiveEnemyNum - 1 } }
      hRow (by simp [hL]) (by simpa using hi)
    by_cases hmem : i ∈ s.ShootingEnemies
    · obtain ⟨Sh, hSh, hcases⟩ := hB hmem
      rw [hR] at hSh
      cases hSh
      refine ⟨⟨hG, by simpa using hL⟩, ?_⟩
      have hmemE : ∀ x, x ∈ s.ShootingEnemies.erase i → x ≠ i ∧ x ∈ s.ShootingEnemies :=
        fun x hx => hnd.mem_erase_iff.1 hx
      have hcolE : ∀ x, x ∈ s.ShootingEnemies.erase i →
          x % s.Rules.EnemiesInRow ≠ i % s.Rules.EnemiesInRow := by
        intro x hx hm
        exact (hmemE x hx).1 (hcol x (hmemE x hx).2 i hmem hm)
      rcases hcases with ⟨j, rfl, h1, h2, h3, h4, h5⟩ | ⟨rfl, _⟩
      · simp only at h3
        constructor
        · show (s.ShootingEnemies.erase i ++ [j]).Nodup
          rw [List.nodup_append]
          refine ⟨hnd.erase i, List.nodup_singleton j, ?_⟩
          intro a ha hb
          rw [List.mem_singleton] at hb
          exact hcolE a ha (hb ▸ h3)
        · intro a ha b hb hab
          change a ∈ s.ShootingEnemies.erase i ++ [j] at ha
          change b ∈ s.ShootingEnemies.erase i ++ [j] at hb
          change a % s.Rules.EnemiesInRow = b % s.Rules.EnemiesInRow at hab
          rw [List.mem_append, List.mem_singleton] at ha hb
          rcases ha with ha | rfl <;> rcases hb with hb | rfl
          · exact hcol a (hmemE a ha).2 b (hmemE b hb).2 hab
          · exact absurd (hab.trans h3) (hcolE a ha)
          · exact absurd (hab.symm.trans h3) (hcolE b hb)
          · rfl
      · constructor
        · exact hnd.erase i
        · intro a ha b hb hab
          exact hcol a (hmemE a ha).2 b (hmemE b hb).2 hab
    · have := hA hmem
      rw [hR] at this
      cases this
      exact ⟨⟨hG, by simpa using hL⟩, hnd, hcol⟩
  sound := by intro s e; exact fun h => h
  playerDelete := by intro s Bs _ _ _; exact fun h => h
  enemyDelete := by intro s Bs _ _ _; exact fun h => h
  allKilled := by intro s; rw [AllEnemiesKilled_frame]; exact fun h => h
  playerHit := by intro s; rw [HandlePlayerHit_frame]; exact fun h => h
  tutorial := by intro s; exact fun h => h
  shootPressed := by
    intro s t h
    obtain ⟨b, hd, Bs, c, _, _, _, ht⟩ := HandlePlayerShootPressed_inv s t h
    rw [ht]; exact fun h => h
  shootReleased := by intro s; rw [HandlePlayerShootReleased_frame]; exact fun h => h
  togglePause := by intro s; rw [HandleTogglePausePressed_frame]; exact fun h => h
  fired := by intro s a b c d e; exact fun h => h
  spawnEnemies := by
    intro s
    rintro ⟨⟨hG, hL⟩, _⟩
    rw [SpawnEnemies_frame]
    exact ⟨⟨hG, by simpa [forFirst_length] using hL⟩, OnePerColumn_range _ _⟩
  spawnPlayer := by intro s; exact fun h => h
  enemyShoot := by
    intro Rand s t h
    obtain ⟨hd, Bs, c, _, _, _, ht⟩ := EnemyShootTimerCallback_inv Rand s t h
    rw [ht]; exact fun h => h
  playerShoot := by
    intro s t h
    rcases PlayerShootTimerCallback_inv s t h with e | e | ⟨_, _, Bs, _, e⟩ <;>
      (rw [e]; exact fun h => h)
  ufoAppear := by intro Rand s; rw [UfoAppearCallback_frame]; exact fun h => h

/-- `StartPlay` leaves `ShootingEnemies` as it is. -/
theorem StartPlay_ShootingEnemies (s0 s : AInvadersGameMode) (h : StartPlay s0 = some s) :
    s.ShootingEnemies = s0.ShootingEnemies := by
  simp only [StartPlay, Option.bind_eq_some, Option.some.injEq] at h
  obtain ⟨s2, h1, h2⟩ := h
  unfold InitGameObjects at h1
  split at h1
  · cases h1
  · simp only [Option.bind_eq_some, Option.some.injEq] at h1
    obtain ⟨Ships, _, Top, _, ht⟩ := h1
    rw [← h2, ShowMainMenu_frame, ← ht, ResetUnits_frame]
    unfold LoadHiScore
    split <;> rfl

/-- In every reachable state the front has at most one index per column. -/
theorem Reachable_OnePerColumn (s : AInvadersGameMode) (hs : Reachable s) :
    GridWF s ∧ OnePerColumn s := by
  induction hs with
  | start Rules PlayerDef EnemyDefs EnemySpawnPoint UfoSpawnPoint AsteroidDef PlayerBulletDef
      EnemyBulletDef SaveSlot s h =>
    refine ⟨Reachable_GridWF s (Reachable.start _ _ _ _ _ _ _ _ _ s h), ?_⟩
    have e : s.ShootingEnemies = [] := StartPlay_ShootingEnemies _ _ h
    unfold OnePerColumn
    rw [e]
    exact ⟨List.nodup_nil, by intro a ha; cases ha⟩
  | step s t i _ h ih =>
    refine Step_closed OnePerColumnKept_closed i ?_ s t h ih
    intro _
    constructor
    · intro Rand s
      rw [RestartInvadersGame_frame]
      rintro ⟨⟨hG, hL⟩, h⟩
      exact ⟨⟨hG, by simpa [forFirst_length] using hL⟩, h⟩
    · intro s
      rw [ShowMainMenu_frame]
      rintro ⟨⟨hG, hL⟩, h⟩
      exact ⟨⟨hG, by simpa [forFirst_length] using hL⟩, h⟩

/-- The states of a wave are reachable. -/
theorem InWave_Reachable (s : AInvadersGameMode) (hs : InWave s) : Reachable s := by
  induction hs with
  | spawn s t hs h => exact Reachable.step s t _ hs h
  | step s t i _ _ h ih => exact Reachable.step s t i ih h

/-- Running two sequences of engine calls one after the other. -/
theorem Run_append : ∀ (s : AInvadersGameMode) (a b : List Input),
    Run s (a ++ b) = (Run s a).bind fun t => Run t b := by
  intro s a
  induction a generalizing s with
  | nil => intro b; rfl
  | cons i a ih =>
    intro b
    simp only [List.cons_append, Run]
    cases Step s i with
    | none => rfl
    | some u => simp only [Option.some_bind]; exact ih u b

/-- Engine calls without a reset stay within the wave. -/
theorem InWave_Run : ∀ (s : AInvadersGameMode) (ins : List Input) (t : AInvadersGameMode),
    InWave s → (∀ i ∈ ins, i.Resets = false) → Run s ins = some t → InWave t := by
  intro s ins
  induction ins generalizing s with
  | nil =>
    intro t hs _ h
    simp only [Run, Option.some.injEq] at h
    rw [← h]; exact hs
  | cons i ins ih =>
    intro t hs hall h
    simp only [Run, Option.bind_eq_some] at h
    obtain ⟨u, hu, ht⟩ := h
    exact ih u t (InWave.step s u i hs (hall i (List.mem_cons_self _ _)) hu)
      (fun j hj => hall j (List.mem_cons_of_mem _ hj)) ht

/-- A sample run that succeeds, spawns a wave and does not reset afterwards ends in a
state of that wave. -/
theorem InWave_SampleAfter (pre post : List Input)
    (h : ((StartPlay (SampleMode FGameRules.default)).bind fun s =>
      Run s (pre ++ [Input.EnemyAppearTimer] ++ post)).isSome = true)
    (hpost : ∀ i ∈ post, i.Resets = false) :
    InWave (SampleAfter (pre ++ [Input.EnemyAppearTimer] ++ post)) := by
  obtain ⟨t, ht⟩ := Option.isSome_iff_exists.1 h
  have e : SampleAfter (pre ++ [Input.EnemyAppearTimer] ++ post) = t := by
    unfold SampleAfter; rw [ht]; rfl
  rw [e]
  simp only [Option.bind_eq_some] at ht
  obtain ⟨s, hs, hrun⟩ := ht
  rw [Run_append, Run_append] at hrun
  simp only [Option.bind_eq_some] at hrun
  obtain ⟨u, ⟨v, hv, hu⟩, hpostrun⟩ := hrun
  have hR : Reachable v := Reachable_Run s pre v (Reachable.start _ _ _ _ _ _ _ _ _ s hs) hv
  simp only [Run, Option.bind_eq_some, Option.some.injEq] at hu
  obtain ⟨w, hw, rfl⟩ := hu
  exact InWave_Run w post t (InWave.spawn v w hR hw) hpost hpostrun

/-- C1 (as stated, refuted): after a wave was spawned and the game restarted from the
pause menu, the reachable state has `ShootingEnemies = [0, ..., 9]` while every one of these
enemies is hidden, so the front is not the set of front-most visible enemies. -/
theorem front_stale_after_restart :
    Reachable (SampleAfter RestartInWaveInputs) ∧
    (SampleAfter RestartInWaveInputs).ShootingEnemies = [0, 1, 2, 3, 4, 5, 6, 7, 8, 9] ∧
    (∀ j ∈ (SampleAfter RestartInWaveInputs).ShootingEnemies,
      IsVisible (SampleAfter RestartInWaveInputs).EnemyShips j = false) ∧
    ¬ FrontInv (SampleAfter RestartInWaveInputs) := by
  have hd : ((StartPlay (SampleMode FGameRules.default)).bind fun s =>
        Run s RestartInWaveInputs).isSome = true ∧
      (SampleAfter RestartInWaveInputs).ShootingEnemies = [0, 1, 2, 3, 4, 5, 6, 7, 8, 9] ∧
      (∀ j ∈ (SampleAfter RestartInWaveInputs).ShootingEnemies,
        IsVisible (SampleAfter RestartInWaveInputs).EnemyShips j = false) ∧
      ¬ FrontInv (SampleAfter RestartInWaveInputs) := by decide!
  exact ⟨Reachable_SampleAfter _ hd.1, hd.2⟩

/-- C1 (amended): in every reachable state `ShootingEnemies` holds at most one index per
column (no duplicates, no two entries congruent modulo `EnemiesInRow`); in every state of a
wave, i.e. after `SpawnEnemies` and before the next `ResetUnits`, it is exactly the set of
front-most units: every entry is the smallest index of a visible enemy in its column, and
every column with a visible enemy has its entry. -/
theorem shooting_front_invariant (s : AInvadersGameMode) (hs : Reachable s) :
    OnePerColumn s ∧
    (InWave s →
      FrontInv s ∧
      ∀ j ∈ s.ShootingEnemies, j < s.InvadersGameState.TotalEnemyNum ∧
        IsVisible s.EnemyShips j = true ∧
        ∀ k, k < j → k % s.Rules.EnemiesInRow = j % s.Rules.EnemiesInRow →
          IsVisible s.EnemyShips k = false) :=
  ⟨(Reachable_OnePerColumn s hs).2, fun hw =>
    ⟨(InWave_FrontInv s hw).1, (InWave_FrontInv s hw).2.2⟩⟩

/-- C1 (amended) at a state of the sample wave, after the enemy 3 was killed. -/
theorem shooting_front_invariant_witness :
    Reachable (SampleAfter ([.StartGameButton, .TutorialShootPressed 7] ++
      [Input.EnemyAppearTimer] ++ KillInWaveInputs)) ∧
    InWave (SampleAfter ([.StartGameButton, .TutorialShootPressed 7] ++
      [Input.EnemyAppearTimer] ++ KillInWaveInputs)) ∧
    (SampleAfter ([.StartGameButton, .TutorialShootPressed 7] ++ [Input.EnemyAppearTimer]
      ++ KillInWaveInputs)).ShootingEnemies = [0, 1, 2, 4, 5, 6, 7, 8, 9, 13] ∧
    OnePerColumn (SampleAfter ([.StartGameButton, .TutorialShootPressed 7] ++
      [Input.EnemyAppearTimer] ++ KillInWaveInputs)) ∧
    FrontInv (SampleAfter ([.StartGameButton, .TutorialShootPressed 7] ++
      [Input.EnemyAppearTimer] ++ KillInWaveInputs)) := by
  have hd : ((StartPlay (SampleMode FGameRules.default)).bind fun s =>
        Run s ([.StartGameButton, .TutorialShootPressed 7] ++ [Input.EnemyAppearTimer] ++
          KillInWaveInputs)).isSome = true ∧
      (SampleAfter ([.StartGameButton, .TutorialShootPressed 7] ++ [Input.EnemyAppearTimer]
        ++ KillInWaveInputs)).ShootingEnemies = [0, 1, 2, 4, 5, 6, 7, 8, 9, 13] := by decide!
  have hW := InWave_SampleAfter [.StartGameButton, .TutorialShootPressed 7] KillInWaveInputs
    hd.1 (by decide)
  have hR := InWave_Reachable _ hW
  have h := shooting_front_invariant _ hR
  exact ⟨hR, hW, hd.2, h.1, (h.2 hW).1⟩

/-! ### Wave completion -/

theorem LevelRel_same (s t : AInvadersGameMode)
    (h1 : t.InvadersGameState.CurrentLevel = s.InvadersGameState.CurrentLevel)
    (h2 : t.EnemyAppearTHandle = s.EnemyAppearTHandle)
    (h3 : t.InvadersGameState.LevelStarted = s.InvadersGameState.LevelStarted)
    (h4 : t.PauseMenuInViewport = s.PauseMenuInViewport) : LevelRel s t :=
  ⟨fun _ => ⟨h1, h2⟩, Or.inl h1, h3, h4⟩

theorem AllEnemiesKilled_raise (s : AInvadersGameMode)
    (h1 : IsTimerActive s.EnemyAppearTHandle = false)
    (h2 : s.InvadersGameState.ActiveEnemyNum = 0) :
    AllEnemiesKilled s = { s with
      InvadersGameState := { s.InvadersGameState with
        CurrentLevel := s.InvadersGameState.CurrentLevel + 1
        EnemyProgTime := 0 }
      EnemyAppearTHandle := some ⟨3, false, false⟩ } := by
  simp [AllEnemiesKilled, h1, h2, SetTimer]

theorem AllEnemiesKilled_keep (s : AInvadersGameMode)
    (h : IsTimerActive s.EnemyAppearTHandle = true ∨ s.InvadersGameState.ActiveEnemyNum ≠ 0) :
    AllEnemiesKilled s = s := by
  rcases h with h | h
  · simp [AllEnemiesKilled, h]
  · simp [AllEnemiesKilled, h]

theorem LevelRel_closed : TickClosed LevelRel where
  refl := fun s => LevelRel_same s s rfl rfl rfl rfl
  trans := by
    rintro a b c ⟨h1, h2, h3, h4⟩ ⟨g1, g2, g3, g4⟩
    refine ⟨?_, ?_, g3.trans h3, g4.trans h4⟩
    · intro ha
      obtain ⟨e1, e2⟩ := h1 ha
      obtain ⟨e3, e4⟩ := g1 (by rw [e2]; exact ha)
      exact ⟨e3.trans e1, e4.trans e2⟩
    · rcases h2 with e | ⟨e, hb⟩
      · rcases g2 with e' | ⟨e', hc⟩
        · left; rw [e', e]
        · right; exact ⟨by rw [e', e], hc⟩
      · obtain ⟨e3, e4⟩ := g1 hb
        right
        exact ⟨by rw [e3, e], by rw [e4]; exact hb⟩
  enemyAnim := by
    intro dt s; rw [UpdateEnemyAppearAnimation_frame]; exact LevelRel_same _ _ rfl rfl rfl rfl
  playerAnim := by
    intro dt s; rw [UpdatePlayerAppearAnimation_frame]; exact LevelRel_same _ _ rfl rfl rfl rfl
  playerMove := by
    intro dt inp s; rw [UpdatePlayerMovement_frame]; exact LevelRel_same _ _ rfl rfl rfl rfl
  groupMove := by
    intro dt s; rw [UpdateEnemyGroupMovement_frame]; exact LevelRel_same _ _ rfl rfl rfl rfl
  ufoMove := by
    intro dt Rand s; rw [UpdateUfoMovement_frame]; exact LevelRel_same _ _ rfl rfl rfl rfl
  playerBullets := by intro s Bs _; exact LevelRel_same _ _ rfl rfl rfl rfl
  enemyBullets := by intro s Bs _; exact LevelRel_same _ _ rfl rfl rfl rfl
  asteroid := by intro s As HPs _; exact LevelRel_same _ _ rfl rfl rfl rfl
  ufoKill := by intro s Points h; exact LevelRel_same _ _ rfl rfl rfl rfl
  enemyKill := by
    intro s t i E Points _ hR
    obtain ⟨Sh, ht⟩ := ReorganizeShooters_inv _ _ _ hR
    rw [ht]; exact LevelRel_same _ _ rfl rfl rfl rfl
  sound := by intro s e; exact LevelRel_same _ _ rfl rfl rfl rfl
  playerDelete := by intro s Bs _ _ _; exact LevelRel_same _ _ rfl rfl rfl rfl
  enemyDelete := by intro s Bs _ _ _; exact LevelRel_same _ _ rfl rfl rfl rfl
  allKilled := by
    intro s
    by_cases h : IsTimerActive s.EnemyAppearTHandle = true ∨ s.InvadersGameState.ActiveEnemyNum ≠ 0
    · rw [AllEnemiesKilled_keep s h]; exact LevelRel_same _ _ rfl rfl rfl rfl
    · have h1 : IsTimerActive s.EnemyAppearTHandle = false := by
        cases e : IsTimerActive s.EnemyAppearTHandle
        · rfl
        · exact absurd (Or.inl e) h
      have h2 : s.InvadersGameState.ActiveEnemyNum = 0 := by
        by_contra e; exact h (Or.inr e)
      rw [AllEnemiesKilled_raise s h1 h2]
      refine ⟨?_, Or.inr ⟨rfl, rfl⟩, rfl, rfl⟩
      intro ha; rw [h1] at ha; cases ha
  playerHit := by intro s; rw [HandlePlayerHit_frame]; exact LevelRel_same _ _ rfl rfl rfl rfl

theorem SpawnPending_active (s : AInvadersGameMode) (hs : SpawnPending s)
    (h1 : s.InvadersGameState.LevelStarted = true) (h2 : s.PauseMenuInViewport = false) :
    IsTimerActive s.EnemyAppearTHandle = true := by
  obtain ⟨tm, e, hp⟩ := hs h1
  rw [e]
  simp [IsTimerActive, hp h2]

theorem SpawnPending_of_active (s : AInvadersGameMode)
    (h : IsTimerActive s.EnemyAppearTHandle = true) : SpawnPending s := by
  intro _
  cases e : s.EnemyAppearTHandle with
  | none => rw [e] at h; simp [IsTimerActive] at h
  | some tm =>
    rw [e] at h
    exact ⟨tm, rfl, fun _ => by simpa [IsTimerActive] using h⟩

theorem SpawnPending_congr (s t : AInvadersGameMode) (hs : SpawnPending s)
    (h1 : t.InvadersGameState.LevelStarted = s.InvadersGameState.LevelStarted)
    (h2 : t.EnemyAppearTHandle = s.EnemyAppearTHandle)
    (h3 : t.PauseMenuInViewport = s.PauseMenuInViewport) : SpawnPending t := by
  unfold SpawnPending
  rw [h1, h2, h3]
  exact hs

/-- While the spawn is pending, an engine call other than the firing of the enemy-appear
timer keeps the level and keeps the spawn pending. -/
theorem SpawnPending_Step (s t : AInvadersGameMode) (i : Input) (hs : SpawnPending s)
    (hi : i.IsEnemyAppear = false) (h : Step s i = some t) :
    t.InvadersGameState.CurrentLevel = s.InvadersGameState.CurrentLevel ∧ SpawnPending t := by
  cases i with
  | Tick dt inp =>
    simp only [Step] at h
    split at h
    · by_cases hg : (s.PauseMenuInViewport || !s.InvadersGameState.LevelStarted) = true
      · simp only [Tick, hg, if_true, Option.some.injEq] at h
        rw [← h]; exact ⟨rfl, hs⟩
      · have h1 : s.InvadersGameState.LevelStarted = true := by
          cases e : s.InvadersGameState.LevelStarted
          · simp [e] at hg
          · rfl
        have h2 : s.PauseMenuInViewport = false := by
          cases e : s.PauseMenuInViewport
          · rfl
          · simp [e] at hg
        have ha := SpawnPending_active s hs h1 h2
        obtain ⟨g1, _, g3, g4⟩ := Tick_closed LevelRel_closed dt inp s t h
        obtain ⟨e1, e2⟩ := g1 ha
        exact ⟨e1, SpawnPending_congr s t hs g3 e2 g4⟩
    · cases h
  | StartGameButton =>
    simp only [Step] at h
    split at h
    · cases h; exact ⟨rfl, hs⟩
    · cases h
  | TutorialShootPressed Rand =>
    simp only [Step] at h
    split at h
    · cases h
      rw [RestartInvadersGame_frame]
      exact ⟨rfl, fun _ => ⟨⟨2, false, false⟩, rfl, fun _ => rfl⟩⟩
    · cases h
  | RestartButton Rand =>
    simp only [Step] at h
    split at h
    · cases h
      rw [RestartInvadersGame_frame]
      exact ⟨rfl, fun _ => ⟨⟨2, false, false⟩, rfl, fun _ => rfl⟩⟩
    · cases h
  | ExitButton =>
    simp only [Step] at h
    split at h
    · cases h
      rw [ShowMainMenu_frame]
      exact ⟨rfl, fun e => by cases e⟩
    · cases h
  | ShootPressed =>
    obtain ⟨b, hd, Bs, c, _, _, _, ht⟩ := HandlePlayerShootPressed_inv s t h
    rw [ht]; exact ⟨rfl, hs⟩
  | ShootReleased =>
    simp only [Step, Option.some.injEq] at h
    rw [← h, HandlePlayerShootReleased_frame]; exact ⟨rfl, hs⟩
  | EscapePressed =>
    simp only [Step, Option.some.injEq] at h
    rw [← h]
    refine ⟨by rw [HandleTogglePausePressed_frame], ?_⟩
    intro hL
    have hL' : s.InvadersGameState.LevelStarted = true := by
      rw [HandleTogglePausePressed_frame] at hL; exact hL
    obtain ⟨tm, e, hp⟩ := hs hL'
    cases hP : s.PauseMenuInViewport
    · refine ⟨{ tm with Paused := true }, ?_, ?_⟩
      · simp [HandleTogglePausePressed, hP, ShowPauseMenu, PauseGame, e, PauseTimer]
      · simp [HandleTogglePausePressed, hP, ShowPauseMenu, PauseGame]
    · refine ⟨{ tm with Paused := false }, ?_, fun _ => rfl⟩
      simp [HandleTogglePausePressed, hP, UnpauseGame, e, UnPauseTimer]
  | EnemyAppearTimer => simp [Input.IsEnemyAppear] at hi
  | PlayerAppearTimer =>
    simp only [Step] at h
    split at h
    · cases h; exact ⟨rfl, hs⟩
    · cases h
  | EnemyShootTimer Rand =>
    simp only [Step] at h
    split at h
    · obtain ⟨hd, Bs, c, _, _, _, ht⟩ := EnemyShootTimerCallback_inv Rand _ t h
      rw [ht]; exact ⟨rfl, hs⟩
    · cases h
  | PlayerShootTimer =>
    simp only [Step] at h
    split at h
    · rcases PlayerShootTimerCallback_inv _ t h with e | e | ⟨_, _, Bs, _, e⟩ <;>
        (rw [e]; exact ⟨rfl, hs⟩)
    · cases h
  | UfoAppearTimer Rand =>
    simp only [Step] at h
    split at h
    · cases h
      rw [UfoAppearCallback_frame]; exact ⟨rfl, hs⟩
    · cases h

theorem SpawnPending_Run : ∀ (s : AInvadersGameMode) (ins : List Input) (t : AInvadersGameMode),
    SpawnPending s → (∀ i ∈ ins, i.IsEnemyAppear = false) → Run s ins = some t →
    t.InvadersGameState.CurrentLevel = s.InvadersGameState.CurrentLevel ∧ SpawnPending t := by
  intro s ins
  induction ins generalizing s with
  | nil =>
    intro t hs _ h
    simp only [Run, Option.some.injEq] at h
    rw [← h]; exact ⟨rfl, hs⟩
  | cons i ins ih =>
    intro t hs hall h
    simp only [Run, Option.bind_eq_some] at h
    obtain ⟨u, hu, ht⟩ := h
    obtain ⟨e1, hp⟩ := SpawnPending_Step s u i hs (hall i (List.mem_cons_self _ _)) hu
    obtain ⟨e2, hq⟩ := ih u t hp (fun j hj => hall j (List.mem_cons_of_mem _ hj)) ht
    exact ⟨e2.trans e1, hq⟩

theorem WaveRel_same (s t : AInvadersGameMode)
    (h0 : t.InvadersGameState.ActiveEnemyNum ≤ s.InvadersGameState.ActiveEnemyNum)
    (h1 : t.InvadersGameState.CurrentLevel = s.InvadersGameState.CurrentLevel)
    (h2 : t.InvadersGameState.EnemyProgTime = s.InvadersGameState.EnemyProgTime)
    (h3 : t.EnemyAppearTHandle = s.EnemyAppearTHandle) : WaveRel s t :=
  ⟨h0, Or.inl ⟨h1, h2, h3⟩⟩

theorem WaveRel_trans (a b c : AInvadersGameMode) (h : WaveRel a b) (g : WaveRel b c) :
    WaveRel a c := by
  obtain ⟨h0, h1⟩ := h
  obtain ⟨g0, g1⟩ := g
  refine ⟨le_trans g0 h0, ?_⟩
  rcases h1 with ⟨e1, e2, e3⟩ | ⟨ha, a0, b0, e1, e2, e3⟩
  · rcases g1 with ⟨f1, f2, f3⟩ | ⟨hb, b1, c0, f1, f2, f3⟩
    · exact Or.inl ⟨f1.trans e1, f2.trans e2, f3.trans e3⟩
    · exact Or.inr ⟨by rw [← e3]; exact hb, le_trans b1 h0, c0, by rw [f1, e1], f2, f3⟩
  · rcases g1 with ⟨f1, f2, f3⟩ | ⟨hb, _, _, f1, f2, f3⟩
    · exact Or.inr ⟨ha, a0, le_trans g0 b0, f1.trans e1, f2.trans e2, f3.trans e3⟩
    · rw [e3] at hb; simp [IsTimerActive] at hb

theorem PlayerBulletBody_WaveRel (dt : ℚ) (inp : FTickInput) (r : Nat) (s t : AInvadersGameMode)
    (h : PlayerBulletBody dt inp r s = some t) : WaveRel s t := by
  refine PlayerBulletBody_rel WaveRel (fun s => WaveRel_same s s le_rfl rfl rfl rfl)
    WaveRel_trans ?_ ?_ ?_ ?_ ?_ dt inp r s t h
  · intro s Bs _; exact WaveRel_same _ _ le_rfl rfl rfl rfl
  · intro Rand U s t hU hH
    refine PlayerBulletHit_rel_frame WaveRel ?_ ?_ ?_ Rand U s t hU hH
    · intro s As HPs _; exact WaveRel_same _ _ le_rfl rfl rfl rfl
    · intro s Points h; exact WaveRel_same _ _ le_rfl rfl rfl rfl
    · intro s i E Points Sh
      exact WaveRel_same _ _ (by show _ - 1 ≤ _; omega) rfl rfl rfl
  · intro s e; exact WaveRel_same _ _ le_rfl rfl rfl rfl
  · intro s Bs _ _ _; exact WaveRel_same _ _ le_rfl rfl rfl rfl
  · intro s
    by_cases h : IsTimerActive s.EnemyAppearTHandle = true ∨ s.InvadersGameState.ActiveEnemyNum ≠ 0
    · rw [AllEnemiesKilled_keep s h]; exact WaveRel_same _ _ le_rfl rfl rfl rfl
    · have h1 : IsTimerActive s.EnemyAppearTHandle = false := by
        cases e : IsTimerActive s.EnemyAppearTHandle
        · rfl
        · exact absurd (Or.inl e) h
      have h2 : s.InvadersGameState.ActiveEnemyNum = 0 := by
        by_contra e; exact h (Or.inr e)
      rw [AllEnemiesKilled_raise s h1 h2]
      exact ⟨le_rfl, Or.inr ⟨h1, le_of_eq h2.symm, le_of_eq h2, rfl, rfl, rfl⟩⟩

/-- An iteration of the player loop up to its all-enemies-killed check: the state `s2` that
the check reads has the level and the spawn schedule of the state before the iteration. -/
theorem PlayerBulletBody_before_check (dt : ℚ) (inp : FTickInput) (r : Nat)
    (s t : AInvadersGameMode) (h : PlayerBulletBody dt inp r s = some t) :
    ∃ s2, t = AllEnemiesKilled s2 ∧
      s2.InvadersGameState.CurrentLevel = s.InvadersGameState.CurrentLevel ∧
      s2.InvadersGameState.EnemyProgTime = s.InvadersGameState.EnemyProgTime ∧
      s2.EnemyAppearTHandle = s.EnemyAppearTHandle := by
  obtain ⟨B, s1, s2, hB, h1, h2, ht⟩ := PlayerBulletBody_inv dt inp r s t h
  have hs1 : s1.InvadersGameState.CurrentLevel = s.InvadersGameState.CurrentLevel ∧
      s1.InvadersGameState.EnemyProgTime = s.InvadersGameState.EnemyProgTime ∧
      s1.EnemyAppearTHandle = s.EnemyAppearTHandle := by
    rcases PlayerBulletUnit_inv _ _ _ _ h1 with ⟨_, e⟩ | ⟨U, t1, hU, hH, e⟩
    · rw [e]; exact ⟨rfl, rfl, rfl⟩
    · have hh := PlayerBulletHit_rel_frame
        (fun a b => b.InvadersGameState.CurrentLevel = a.InvadersGameState.CurrentLevel ∧
          b.InvadersGameState.EnemyProgTime = a.InvadersGameState.EnemyProgTime ∧
          b.EnemyAppearTHandle = a.EnemyAppearTHandle)
        (fun _ _ _ _ => ⟨rfl, rfl, rfl⟩) (fun _ _ _ => ⟨rfl, rfl, rfl⟩)
        (fun _ _ _ _ _ => ⟨rfl, rfl, rfl⟩) _ U _ t1 (PlayerUnitActor_IsEnemy inp r U hU).1 hH
      rw [e]
      exact hh
  have hs2 : s2.InvadersGameState.CurrentLevel = s1.InvadersGameState.CurrentLevel ∧
      s2.InvadersGameState.EnemyProgTime = s1.InvadersGameState.EnemyProgTime ∧
      s2.EnemyAppearTHandle = s1.EnemyAppearTHandle := by
    rcases DeletePlayerBullet_inv _ _ _ _ h2 with ⟨_, e⟩ | ⟨_, res, hD, e⟩
    · rw [e]; exact ⟨rfl, rfl, rfl⟩
    · rw [e]; exact ⟨rfl, rfl, rfl⟩
  exact ⟨s2, ht, hs2.1.trans hs1.1, hs2.2.1.trans hs1.2.1, hs2.2.2.trans hs1.2.2⟩

/-- An iteration of the player loop completes the wave exactly when, at its check, the
enemy-appear timer is not active and no enemy is left; otherwise it keeps the level and the
spawn schedule. -/
theorem PlayerBulletBody_wave_iff (dt : ℚ) (inp : FTickInput) (r : Nat)
    (s t : AInvadersGameMode) (h : PlayerBulletBody dt inp r s = some t) :
    (t.InvadersGameState.CurrentLevel = s.InvadersGameState.CurrentLevel + 1 ↔
      IsTimerActive s.EnemyAppearTHandle = false ∧ t.InvadersGameState.ActiveEnemyNum = 0) ∧
    (¬ (IsTimerActive s.EnemyAppearTHandle = false ∧ t.InvadersGameState.ActiveEnemyNum = 0) →
      t.InvadersGameState.CurrentLevel = s.InvadersGameState.CurrentLevel ∧
      t.InvadersGameState.EnemyProgTime = s.InvadersGameState.EnemyProgTime ∧
      t.EnemyAppearTHandle = s.EnemyAppearTHandle) := by
  obtain ⟨s2, ht, e1, e2, e3⟩ := PlayerBulletBody_before_check dt inp r s t h
  by_cases hc : IsTimerActive s2.EnemyAppearTHandle = true ∨ s2.InvadersGameState.ActiveEnemyNum ≠ 0
  · rw [AllEnemiesKilled_keep s2 hc] at ht
    rw [ht]
    have hn : ¬ (IsTimerActive s.EnemyAppearTHandle = false ∧
        s2.InvadersGameState.ActiveEnemyNum = 0) := by
      rintro ⟨a, b⟩
      rcases hc with c | c
      · rw [e3, a] at c; cases c
      · exact c b
    refine ⟨⟨fun g => ?_, fun g => absurd g hn⟩, fun _ => ⟨e1, e2, e3⟩⟩
    rw [e1] at g
    omega
  · have h1 : IsTimerActive s2.EnemyAppearTHandle = false := by
      cases e : IsTimerActive s2.EnemyAppearTHandle
      · rfl
      · exact absurd (Or.inl e) hc
    have h2 : s2.InvadersGameState.ActiveEnemyNum = 0 := by
      by_contra e; exact hc (Or.inr e)
    rw [AllEnemiesKilled_raise s2 h1 h2] at ht
    rw [ht]
    have hy : IsTimerActive s.EnemyAppearTHandle = false ∧
        s2.InvadersGameState.ActiveEnemyNum = 0 := ⟨by rw [← e3]; exact h1, h2⟩
    exact ⟨⟨fun _ => hy, fun _ => by
      show s2.InvadersGameState.CurrentLevel + 1 = _
      rw [e1]⟩, fun g => absurd hy g⟩

/-- After an iteration of the player loop the wave completion is not outstanding: the
enemy-appear timer is active or an enemy is left. -/
theorem PlayerBulletBody_settled (dt : ℚ) (inp : FTickInput) (r : Nat)
    (s t : AInvadersGameMode) (h : PlayerBulletBody dt inp r s = some t) :
    IsTimerActive t.EnemyAppearTHandle = true ∨ t.InvadersGameState.ActiveEnemyNum ≠ 0 := by
  obtain ⟨B, s1, s2, _, _, _, ht⟩ := PlayerBulletBody_inv dt inp r s t h
  by_cases hc : IsTimerActive s2.EnemyAppearTHandle = true ∨ s2.InvadersGameState.ActiveEnemyNum ≠ 0
  · rw [ht, AllEnemiesKilled_keep s2 hc]; exact hc
  · have h1 : IsTimerActive s2.EnemyAppearTHandle = false := by
      cases e : IsTimerActive s2.EnemyAppearTHandle
      · rfl
      · exact absurd (Or.inl e) hc
    have h2 : s2.InvadersGameState.ActiveEnemyNum = 0 := by
      by_contra e; exact hc (Or.inr e)
    rw [ht, AllEnemiesKilled_raise s2 h1 h2]
    left; rfl

theorem PlayerBulletLoop_settled (dt : ℚ) (inp : FTickInput) :
    ∀ (n : Nat) (s t : AInvadersGameMode), PlayerBulletLoop dt inp (n + 1) s = some t →
      IsTimerActive t.EnemyAppearTHandle = true ∨ t.InvadersGameState.ActiveEnemyNum ≠ 0 := by
  intro n
  induction n with
  | zero =>
    intro s t h
    simp only [PlayerBulletLoop, Option.bind_eq_some, Option.some.injEq] at h
    obtain ⟨u, hu, e⟩ := h
    rw [← e]; exact PlayerBulletBody_settled dt inp 0 s u hu
  | succ n ih =>
    intro s t h
    rw [PlayerBulletLoop] at h
    simp only [Option.bind_eq_some] at h
    obtain ⟨u, _, ht⟩ := h
    exact ih u t ht

theorem UpdatePlayerBullets_WaveRel (dt : ℚ) (inp : FTickInput) (s t : AInvadersGameMode)
    (h : UpdatePlayerBullets dt inp s = some t) : WaveRel s t :=
  PlayerBulletLoop_rel WaveRel (fun s => WaveRel_same s s le_rfl rfl rfl rfl) WaveRel_trans
    dt inp (PlayerBulletBody_WaveRel dt inp) _ s t h

theorem UpdatePlayerBullets_settled (dt : ℚ) (inp : FTickInput) (s t : AInvadersGameMode)
    (h : UpdatePlayerBullets dt inp s = some t) :
    t = s ∨ IsTimerActive t.EnemyAppearTHandle = true ∨ t.InvadersGameState.ActiveEnemyNum ≠ 0 := by
  unfold UpdatePlayerBullets at h
  cases e : s.InvadersGameState.ActivePlayerBullets.toNat with
  | zero =>
    rw [e] at h
    simp only [PlayerBulletLoop, Option.some.injEq] at h
    exact Or.inl h.symm
  | succ n =>
    rw [e] at h
    exact Or.inr (PlayerBulletLoop_settled dt inp n s t h)

/-- C5: wave completion happens exactly once per cleared wave. For a call of
`UpdatePlayerBullets` from `s` to `t`: (1) the call raises `CurrentLevel` by at most one,
however many bullets are active; (2) while the enemy-appear timer is active the level and
the timer are unchanged; (3) when the timer is not active and the call brings
`ActiveEnemyNum` to 0, `CurrentLevel` grows by exactly 1, `EnemyProgTime` is 0 and the timer
is scheduled one-shot with delay 3. Moreover (4) a whole tick raises the level at most once,
(5) after a tick that raised the level no sequence of engine calls raises it again before
the enemy-appear timer fires, and (6) the firing of that timer runs `SpawnEnemies`, which
restores `ActiveEnemyNum` to `TotalEnemyNum`, so with `TotalEnemyNum ≥ 1` enemies are left.
The wave is completed only when it is cleared: (7) when enemies are left after the call
(`ActiveEnemyNum > 0`), or the count was negative before it, the level, `EnemyProgTime` and
the timer are unchanged, and a call that raises the level starts with a count `≥ 0` and a
timer that is not active and ends with a count `≤ 0`; (8) an iteration of the loop raises
the level exactly when the enemy-appear timer is not active and the iteration ends with
`ActiveEnemyNum = 0`, and otherwise keeps the level, `EnemyProgTime` and the timer. -/
theorem wave_completion_once (dt : ℚ) (inp : FTickInput) (s t : AInvadersGameMode)
    (h : UpdatePlayerBullets dt inp s = some t) :
    (t.InvadersGameState.CurrentLevel = s.InvadersGameState.CurrentLevel ∨
      t.InvadersGameState.CurrentLevel = s.InvadersGameState.CurrentLevel + 1) ∧
    (IsTimerActive s.EnemyAppearTHandle = true →
      t.InvadersGameState.CurrentLevel = s.InvadersGameState.CurrentLevel ∧
      t.EnemyAppearTHandle = s.EnemyAppearTHandle) ∧
    (IsTimerActive s.EnemyAppearTHandle = false → s.InvadersGameState.ActiveEnemyNum ≠ 0 →
      t.InvadersGameState.ActiveEnemyNum = 0 →
      t.InvadersGameState.CurrentLevel = s.InvadersGameState.CurrentLevel + 1 ∧
      t.InvadersGameState.EnemyProgTime = 0 ∧
      t.EnemyAppearTHandle = some ⟨3, false, false⟩) ∧
    (∀ (dt1 : ℚ) (inp1 : FTickInput) (a b : AInvadersGameMode),
      Step a (.Tick dt1 inp1) = some b →
      (b.InvadersGameState.CurrentLevel = a.InvadersGameState.CurrentLevel ∨
        b.InvadersGameState.CurrentLevel = a.InvadersGameState.CurrentLevel + 1) ∧
      (b.InvadersGameState.CurrentLevel ≠ a.InvadersGameState.CurrentLevel →
        ∀ (ins : List Input) (u : AInvadersGameMode),
          (∀ i ∈ ins, i.IsEnemyAppear = false) → Run b ins = some u →
          u.InvadersGameState.CurrentLevel = b.InvadersGameState.CurrentLevel)) ∧
    (∀ a b : AInvadersGameMode, Step a .EnemyAppearTimer = some b →
      b.InvadersGameState.ActiveEnemyNum = (a.InvadersGameState.TotalEnemyNum : Int) ∧
      b.InvadersGameState.TotalEnemyNum = a.InvadersGameState.TotalEnemyNum ∧
      (1 ≤ a.InvadersGameState.TotalEnemyNum → b.InvadersGameState.ActiveEnemyNum ≠ 0)) ∧
    ((0 < t.InvadersGameState.ActiveEnemyNum ∨ s.InvadersGameState.ActiveEnemyNum < 0 →
        t.InvadersGameState.CurrentLevel = s.InvadersGameState.CurrentLevel ∧
        t.InvadersGameState.EnemyProgTime = s.InvadersGameState.EnemyProgTime ∧
        t.EnemyAppearTHandle = s.EnemyAppearTHandle) ∧
      (t.InvadersGameState.CurrentLevel ≠ s.InvadersGameState.CurrentLevel →
        IsTimerActive s.EnemyAppearTHandle = false ∧
        0 ≤ s.InvadersGameState.ActiveEnemyNum ∧ t.InvadersGameState.ActiveEnemyNum ≤ 0)) ∧
    (∀ (r : Nat) (a b : AInvadersGameMode), PlayerBulletBody dt inp r a = some b →
      (b.InvadersGameState.CurrentLevel = a.InvadersGameState.CurrentLevel + 1 ↔
        IsTimerActive a.EnemyAppearTHandle = false ∧ b.InvadersGameState.ActiveEnemyNum = 0) ∧
      (¬ (IsTimerActive a.EnemyAppearTHandle = false ∧
          b.InvadersGameState.ActiveEnemyNum = 0) →
        b.InvadersGameState.CurrentLevel = a.InvadersGameState.CurrentLevel ∧
        b.InvadersGameState.EnemyProgTime = a.InvadersGameState.EnemyProgTime ∧
        b.EnemyAppearTHandle = a.EnemyAppearTHandle)) := by
  obtain ⟨_, hW⟩ := UpdatePlayerBullets_WaveRel dt inp s t h
  refine ⟨?_, ?_, ?_, ?_, ?_, ⟨?_, ?_⟩, fun r a b hab => PlayerBulletBody_wave_iff dt inp r a b hab⟩
  · rcases hW with ⟨e, _, _⟩ | ⟨_, _, _, e, _, _⟩
    · exact Or.inl e
    · exact Or.inr e
  · intro ha
    rcases hW with ⟨e1, _, e3⟩ | ⟨hn, _, _, _, _, _⟩
    · exact ⟨e1, e3⟩
    · rw [hn] at ha; cases ha
  · intro hn h0 ht0
    rcases hW with ⟨_, _, e3⟩ | ⟨_, _, _, e1, e2, e3⟩
    · rcases UpdatePlayerBullets_settled dt inp s t h with e | e | e
      · rw [e] at ht0; exact absurd ht0 h0
      · rw [e3, hn] at e; cases e
      · exact absurd ht0 e
    · exact ⟨e1, e2, e3⟩
  · intro dt1 inp1 a b hab
    simp only [Step] at hab
    split at hab
    · obtain ⟨_, g2, _, _⟩ := Tick_closed LevelRel_closed dt1 inp1 a b hab
      constructor
      · rcases g2 with e | ⟨e, _⟩
        · exact Or.inl e
        · exact Or.inr e
      · intro hne ins u hins hrun
        rcases g2 with e | ⟨_, hb⟩
        · exact absurd e hne
        · exact (SpawnPending_Run b ins u (SpawnPending_of_active b hb) hins hrun).1
    · cases hab
  · intro a b hab
    simp only [Step] at hab
    split at hab
    · cases hab
      rw [SpawnEnemies_frame]
      refine ⟨rfl, rfl, ?_⟩
      intro h1
      show (a.InvadersGameState.TotalEnemyNum : Int) ≠ 0
      omega
    · cases hab
  · intro hl
    rcases hW with e | ⟨_, a0, b0, _, _, _⟩
    · exact e
    · rcases hl with hl | hl <;> omega
  · intro hne
    rcases hW with ⟨e, _, _⟩ | ⟨hn, a0, b0, _, _, _⟩
    · exact absurd e hne
    · exact ⟨hn, a0, b0⟩

/-- C5 at the single-enemy game: the player bullet kills the last enemy and the wave is
completed. In the sample game of 50 enemies the bullet kills the grid enemy 3, 49 enemies
are left, and the level and the enemy-appear timer are unchanged. -/
theorem wave_completion_once_witness :
    UpdatePlayerBullets (1 / 10) HitEnemy0 SmallShot = some SmallCleared ∧
    IsTimerActive SmallShot.EnemyAppearTHandle = false ∧
    SmallShot.InvadersGameState.ActiveEnemyNum = 1 ∧
    SmallCleared.InvadersGameState.ActiveEnemyNum = 0 ∧
    SmallCleared.InvadersGameState.CurrentLevel = SmallShot.InvadersGameState.CurrentLevel + 1 ∧
    SmallCleared.InvadersGameState.EnemyProgTime = 0 ∧
    SmallCleared.EnemyAppearTHandle = some ⟨3, false, false⟩ ∧
    UpdatePlayerBullets (1 / 10) HitEnemy3 (SampleAfter BothInFlight) = some AfterEnemyKill ∧
    IsTimerActive (SampleAfter BothInFlight).EnemyAppearTHandle = false ∧
    (SampleAfter BothInFlight).InvadersGameState.ActiveEnemyNum = 50 ∧
    AfterEnemyKill.InvadersGameState.ActiveEnemyNum = 49 ∧
    AfterEnemyKill.InvadersGameState.CurrentLevel
      = (SampleAfter BothInFlight).InvadersGameState.CurrentLevel ∧
    AfterEnemyKill.EnemyAppearTHandle = (SampleAfter BothInFlight).EnemyAppearTHandle := by
  have hd : (UpdatePlayerBullets (1 / 10) HitEnemy0 SmallShot).isSome = true ∧
      IsTimerActive SmallShot.EnemyAppearTHandle = false ∧
      SmallShot.InvadersGameState.ActiveEnemyNum = 1 ∧
      SmallCleared.InvadersGameState.ActiveEnemyNum = 0 := by decide!
  obtain ⟨hs, h1, h2, h3⟩ := hd
  have hU : UpdatePlayerBullets (1 / 10) HitEnemy0 SmallShot = some SmallCleared := by
    obtain ⟨t, ht⟩ := Option.isSome_iff_exists.1 hs
    unfold SmallCleared; rw [ht]; rfl
  have h4' : (UpdatePlayerBullets (1 / 10) HitEnemy3 (SampleAfter BothInFlight)).isSome
        = true ∧
      IsTimerActive (SampleAfter BothInFlight).EnemyAppearTHandle = false ∧
      (SampleAfter BothInFlight).InvadersGameState.ActiveEnemyNum = 50 ∧
      AfterEnemyKill.InvadersGameState.ActiveEnemyNum = 49 := by decide!
  have hV : UpdatePlayerBullets (1 / 10) HitEnemy3 (SampleAfter BothInFlight)
      = some AfterEnemyKill := by
    obtain ⟨t, ht⟩ := Option.isSome_iff_exists.1 h4'.1
    unfold AfterEnemyKill; rw [ht]; rfl
  have h4 := h4'.2
  have h5 := (wave_completion_once (1 / 10) HitEnemy3 (SampleAfter BothInFlight)
    AfterEnemyKill hV).2.2.2.2.2.1.1 (Or.inl (by rw [h4.2.2]; decide))
  obtain ⟨g1, g2, g3⟩ := (wave_completion_once (1 / 10) HitEnemy0 SmallShot SmallCleared
    hU).2.2.1 h1 (by rw [h2]; decide) h3
  exact ⟨hU, h1, h2, h3, g1, g2, g3, hV, h4.1, h4.2.1, h4.2.2, h5.1, h5.2.2⟩

/-! ### High score shown after a restart -/

/-- The sample game after one more engine call. -/
theorem SampleAfter_snoc (ins : List Input) (i : Input)
    (h : ((StartPlay (SampleMode FGameRules.default)).bind fun s =>
      Run s (ins ++ [i])).isSome = true) :
    Step (SampleAfter ins) i = some (SampleAfter (ins ++ [i])) := by
  obtain ⟨t, ht⟩ := Option.isSome_iff_exists.1 h
  have e : SampleAfter (ins ++ [i]) = t := by unfold SampleAfter; rw [ht]; rfl
  rw [e]
  simp only [Option.bind_eq_some] at ht
  obtain ⟨s, hs, hrun⟩ := ht
  rw [Run_append] at hrun
  simp only [Option.bind_eq_some] at hrun
  obtain ⟨u, hu, hstep⟩ := hrun
  have e2 : SampleAfter ins = u := by unfold SampleAfter; rw [hs]; simp [hu]
  rw [e2]
  simpa [Run] using hstep

/-- C9 (the code deviates): in the second game of a session, reached by Restart from the
game-over menu, the player loses the last life in a reachable state with `HiScore = 10`
and `Score = 10`. After the game-over save `PrevHiScore` is `0`, not the `10` that `HiScore`
had immediately before the save, and the game-over menu shows "hiscore: 0" and
"score: 10 // new hiscore //" (the last event before the sound of the hit). `ShowMainMenu` on the same state sets `PrevHiScore` to
`HiScore`. -/
theorem PrevHiScore_stale_at_second_game_over :
    Reachable (SampleAfter SecondGameInputs) ∧
    (SampleAfter SecondGameInputs).InvadersGameState.CurrentLives = 1 ∧
    (SampleAfter SecondGameInputs).InvadersGameState.HiScore = 10 ∧
    (SampleAfter SecondGameInputs).InvadersGameState.Score = 10 ∧
    Step (SampleAfter SecondGameInputs) (.Tick (1 / 10) HitPlayer) =
      some (SampleAfter SecondGameOverInputs) ∧
    (SampleAfter SecondGameOverInputs).InvadersGameState.CurrentLives = 0 ∧
    (SampleAfter SecondGameOverInputs).GameOverInViewport = true ∧
    (SampleAfter SecondGameOverInputs).SaveSlot = some 10 ∧
    (SampleAfter SecondGameOverInputs).InvadersGameState.HiScore = 10 ∧
    (SampleAfter SecondGameOverInputs).InvadersGameState.PrevHiScore = 0 ∧
    (SampleAfter SecondGameOverInputs).Events.reverse.take 2 =
      [Event.PlaySoundAtLocation, Event.ScoreTexts 0 (some (10, true))] ∧
    (ShowMainMenu (SampleAfter SecondGameInputs)).InvadersGameState.PrevHiScore = 10 := by
  have h1 : ((StartPlay (SampleMode FGameRules.default)).bind fun s =>
        Run s SecondGameInputs).isSome = true ∧
      (SampleAfter SecondGameInputs).InvadersGameState.CurrentLives = 1 ∧
      (SampleAfter SecondGameInputs).InvadersGameState.HiScore = 10 ∧
      (SampleAfter SecondGameInputs).InvadersGameState.Score = 10 ∧
      (ShowMainMenu (SampleAfter SecondGameInputs)).InvadersGameState.PrevHiScore = 10 := by
    decide!
  have h2 : ((StartPlay (SampleMode FGameRules.default)).bind fun s =>
        Run s (SecondGameInputs ++ [.Tick (1 / 10) HitPlayer])).isSome = true ∧
      (SampleAfter SecondGameOverInputs).InvadersGameState.CurrentLives = 0 ∧
      (SampleAfter SecondGameOverInputs).GameOverInViewport = true ∧
      (SampleAfter SecondGameOverInputs).SaveSlot = some 10 ∧
      (SampleAfter SecondGameOverInputs).InvadersGameState.HiScore = 10 ∧
      (SampleAfter SecondGameOverInputs).InvadersGameState.PrevHiScore = 0 ∧
      (SampleAfter SecondGameOverInputs).Events.reverse.take 2 =
        [Event.PlaySoundAtLocation, Event.ScoreTexts 0 (some (10, true))] := by
    decide!
  exact ⟨Reachable_SampleAfter _ h1.1, h1.2.1, h1.2.2.1, h1.2.2.2.1,
    SampleAfter_snoc _ _ h2.1, h2.2.1, h2.2.2.1, h2.2.2.2.1, h2.2.2.2.2.1, h2.2.2.2.2.2.1,
    h2.2.2.2.2.2.2, h1.2.2.2.2⟩

/-- The save keeps `PrevHiScore` when the score does not exceed the high score, so after the
save `PrevHiScore` is the former `HiScore` exactly when the score exceeded it or the two
high scores already agreed. -/
theorem SaveHiScore_PrevHiScore (s : AInvadersGameMode) :
    (SaveHiScore s).InvadersGameState.PrevHiScore = s.InvadersGameState.HiScore ↔
      (s.InvadersGameState.Score > s.InvadersGameState.HiScore ∨
        s.InvadersGameState.PrevHiScore = s.InvadersGameState.HiScore) := by
  unfold SaveHiScore
  by_cases h : s.InvadersGameState.Score > s.InvadersGameState.HiScore
  · simp [h]
  · simp [h]

/-! ### Bounds of the speed factor -/

/-- C11 (as stated, refuted): on a 21 x 5 grid with `MinSpeedFactor = 1/4`, the speed
factor at 105 active enemies is 41/20, above 1.5, although `0 ≤ 105 ≤ TotalEnemyNum`. -/
theorem SpeedFact_above_bound_on_grid_21x5 :
    (1 / 4 : ℚ) ≤ 3 / 2 ∧ (0 : Int) ≤ 105 ∧ (105 : Int) ≤ ((21 * 5 : Nat) : Int) ∧
      SpeedFact (1 / 4) 105 = 41 / 20 ∧ ¬ (SpeedFact (1 / 4) 105 ≤ 3 / 2) := by
  have e : SpeedFact (1 / 4) 105 = 41 / 20 := by
    rw [SpeedFact, Lerp, RoundToFloat_div_ten]
    norm_num
  refine ⟨by norm_num, by norm_num, by norm_num, e, ?_⟩
  rw [e]
  norm_num

/-- C11 (amended): on every grid with at most 104 enemies (the default 10 x 5 grid is
one), for `MinSpeedFactor ≤ 1.5` and `0 ≤ n ≤ TotalEnemyNum`, the speed factor that
`UpdateEnemyGroupMovement` computes at `n` active enemies (the factor by which it scales
`DeltaSeconds`) lies in `[MinSpeedFactor, 1.5]`. -/
theorem SpeedFact_bounds_upto_104 (s : AInvadersGameMode)
    (hGrid : s.Rules.EnemiesInRow * s.Rules.EnemiesInColumn ≤ 104)
    (hMin : s.Rules.MinSpeedFactor ≤ 3 / 2)
    (h0 : 0 ≤ s.InvadersGameState.ActiveEnemyNum)
    (hn : s.InvadersGameState.ActiveEnemyNum
      ≤ ((s.Rules.EnemiesInRow * s.Rules.EnemiesInColumn : Nat) : Int)) :
    s.Rules.MinSpeedFactor ≤ SpeedFact s.Rules.MinSpeedFactor s.InvadersGameState.ActiveEnemyNum ∧
    SpeedFact s.Rules.MinSpeedFactor s.InvadersGameState.ActiveEnemyNum ≤ 3 / 2 ∧
    ∀ dt : ℚ, (UpdateEnemyGroupMovement dt s).InvadersGameState.EnemyProgTime =
      s.InvadersGameState.EnemyProgTime +
        dt * SpeedFact s.Rules.MinSpeedFactor s.InvadersGameState.ActiveEnemyNum := by
  have hn104 : s.InvadersGameState.ActiveEnemyNum ≤ 104 := by
    have : ((s.Rules.EnemiesInRow * s.Rules.EnemiesInColumn : Nat) : Int) ≤ 104 := by
      exact_mod_cast hGrid
    omega
  refine ⟨?_, ?_, fun dt => rfl⟩
  · unfold SpeedFact Lerp
    have hpos : 0 ≤ 3 / 2 - s.Rules.MinSpeedFactor := by linarith
    nlinarith [mul_nonneg (sq_nonneg
      (1 - RoundToFloat ((s.InvadersGameState.ActiveEnemyNum : ℚ) / 10) / 5)) hpos]
  · unfold SpeedFact Lerp
    rw [RoundToFloat_div_ten]
    have h2 : (s.InvadersGameState.ActiveEnemyNum + 5) / 10 ≤ 10 := by omega
    have h3 : 0 ≤ (s.InvadersGameState.ActiveEnemyNum + 5) / 10 := by omega
    have h2q : (((s.InvadersGameState.ActiveEnemyNum + 5) / 10 : Int) : ℚ) ≤ 10 := by
      exact_mod_cast h2
    have h3q : (0 : ℚ) ≤ (((s.InvadersGameState.ActiveEnemyNum + 5) / 10 : Int) : ℚ) := by
      exact_mod_cast h3
    have hsq : (1 - (((s.InvadersGameState.ActiveEnemyNum + 5) / 10 : Int) : ℚ) / 5) ^ 2 ≤ 1 := by
      have ha : -1 ≤ 1 - (((s.InvadersGameState.ActiveEnemyNum + 5) / 10 : Int) : ℚ) / 5 := by
        linarith
      have hb : 1 - (((s.InvadersGameState.ActiveEnemyNum + 5) / 10 : Int) : ℚ) / 5 ≤ 1 := by
        linarith
      nlinarith
    have hpos : 0 ≤ 3 / 2 - s.Rules.MinSpeedFactor := by linarith
    nlinarith [mul_le_mul_of_nonneg_right hsq hpos]

/-- C11 (amended), at a fresh wave of the default game: 50 active enemies. -/
theorem SpeedFact_bounds_upto_104_witness :
    SampleWave.InvadersGameState.ActiveEnemyNum = 50 ∧
    SampleWave.Rules.MinSpeedFactor
      ≤ SpeedFact SampleWave.Rules.MinSpeedFactor SampleWave.InvadersGameState.ActiveEnemyNum ∧
    SpeedFact SampleWave.Rules.MinSpeedFactor SampleWave.InvadersGameState.ActiveEnemyNum
      ≤ 3 / 2 := by
  have h := SpeedFact_bounds_upto_104 SampleWave (by decide!) (by decide!) (by decide!)
    (by decide!)
  exact ⟨by decide!, h.1, h.2.1⟩

/-! ### Side oscillation -/

theorem TruncToInt_of_nonneg (x : ℚ) (h : 0 ≤ x) : TruncToInt x = ⌊x⌋ := by
  simp [TruncToInt, h]

/-- For a progress time `t ≥ 0`, `Fmod t 4` is `t` minus four times the floor of `t / 4`. -/
theorem Fmod_four_of_nonneg (t : ℚ) (h : 0 ≤ t) : Fmod t 4 = t - 4 * ((⌊t / 4⌋ : Int) : ℚ) := by
  unfold Fmod
  rw [TruncToInt_of_nonneg _ (by positivity)]

theorem Fmod_four_range (t : ℚ) (h : 0 ≤ t) : 0 ≤ Fmod t 4 ∧ Fmod t 4 < 4 := by
  rw [Fmod_four_of_nonneg t h]
  have h1 := Int.floor_le (t / 4)
  have h2 := Int.lt_floor_add_one (t / 4)
  constructor
  · linarith
  · linarith

theorem Fmod_four_add_four (t : ℚ) (h : 0 ≤ t) : Fmod (t + 4) 4 = Fmod t 4 := by
  rw [Fmod_four_of_nonneg t h, Fmod_four_of_nonneg (t + 4) (by linarith)]
  have e : (t + 4) / 4 = t / 4 + 1 := by ring
  rw [e, Int.floor_add_one]
  push_cast
  ring

/-- The horizontal component of the group location is the spawn point plus
`SideMovementAmount` times the side term. -/
theorem GroupPos_X (Rules : FGameRules) (P : FVector) (L : Int) (t : ℚ) :
    (GroupPos Rules P L t).X = P.X + Rules.SideMovementAmount * SideTerm t := rfl

/-- C12: periodicity of the side oscillation. For every progress time `t ≥ 0`, the side
term `clamp(2·(1 − |fmod(t, 4) − 2|), −1, 1)`, the horizontal offset
`SideMovementAmount · SideTerm` and the horizontal component of the group location that
`UpdateEnemyGroupMovement` computes are the same at `t + 4` as at `t`, and the raw triangle
value `1 − |fmod(t, 4) − 2|` lies in `[−1, 1]`. -/
theorem side_oscillation_periodic (Rules : FGameRules) (P : FVector) (L : Int) (t : ℚ)
    (ht : 0 ≤ t) :
    SideTerm (t + 4) = SideTerm t ∧
    Rules.SideMovementAmount * SideTerm (t + 4) = Rules.SideMovementAmount * SideTerm t ∧
    (GroupPos Rules P L (t + 4)).X = (GroupPos Rules P L t).X ∧
    -1 ≤ 1 - |Fmod t 4 - 2| ∧ 1 - |Fmod t 4 - 2| ≤ 1 := by
  have e : SideTerm (t + 4) = SideTerm t := by
    unfold SideTerm
    rw [Fmod_four_add_four t ht]
  obtain ⟨h0, h4⟩ := Fmod_four_range t ht
  refine ⟨e, by rw [e], by rw [GroupPos_X, GroupPos_X, e], ?_, ?_⟩
  · have : |Fmod t 4 - 2| ≤ 2 := abs_le.2 ⟨by linarith, by linarith⟩
    linarith
  · have : 0 ≤ |Fmod t 4 - 2| := abs_nonneg _
    linarith

/-- C12 at the progress time 1/2 with the default rules and the sample spawn point: the
side term and the horizontal component of the group location agree at 1/2 and at 9/2. -/
theorem side_oscillation_periodic_witness :
    SideTerm (1 / 2 + 4) = SideTerm (1 / 2) ∧
    (GroupPos FGameRules.default ⟨0, -400, 0⟩ 0 (1 / 2 + 4)).X =
      (GroupPos FGameRules.default ⟨0, -400, 0⟩ 0 (1 / 2)).X :=
  have h := side_oscillation_periodic FGameRules.default ⟨0, -400, 0⟩ 0 (1 / 2) (by norm_num)
  ⟨h.1, h.2.2.1⟩

/-! ### Zero-time advance of the formation -/

theorem UpdateEnemyGroupMovement_zero (s : AInvadersGameMode) :
    UpdateEnemyGroupMovement 0 s = { s with
      EnemyShipGroup := GroupPos s.Rules s.EnemySpawnPoint s.InvadersGameState.CurrentLevel
        s.InvadersGameState.EnemyProgTime } := by
  simp [UpdateEnemyGroupMovement]

/-- C13: idempotence of a zero-time advance. `UpdateEnemyGroupMovement(0)` leaves
`EnemyProgTime` (and everything but the group location) unchanged; the group location it
sets is `GroupPos`, a function of the rules, the spawn point, `CurrentLevel` and
`EnemyProgTime` only, whose offset from the spawn point does not depend on the spawn point;
and any number `n + 1` of repeated calls with `dt = 0` gives the same state as one call. -/
theorem UpdateEnemyGroupMovement_zero_idempotent (s : AInvadersGameMode) :
    (UpdateEnemyGroupMovement 0 s).InvadersGameState.EnemyProgTime
      = s.InvadersGameState.EnemyProgTime ∧
    (UpdateEnemyGroupMovement 0 s).InvadersGameState = s.InvadersGameState ∧
    (UpdateEnemyGroupMovement 0 s).EnemyShipGroup =
      GroupPos s.Rules s.EnemySpawnPoint s.InvadersGameState.CurrentLevel
        s.InvadersGameState.EnemyProgTime ∧
    (∀ (P Q : FVector) (R : FGameRules) (L : Int) (T : ℚ),
      (GroupPos R P L T).X - P.X = (GroupPos R Q L T).X - Q.X ∧
      (GroupPos R P L T).Y - P.Y = (GroupPos R Q L T).Y - Q.Y ∧
      (GroupPos R P L T).Z - P.Z = (GroupPos R Q L T).Z - Q.Z) ∧
    (∀ n : Nat, (UpdateEnemyGroupMovement 0)^[n + 1] s = UpdateEnemyGroupMovement 0 s) ∧
    (∀ n : Nat, ((UpdateEnemyGroupMovement 0)^[n + 1] s).EnemyShipGroup
      = (UpdateEnemyGroupMovement 0 s).EnemyShipGroup ∧
      ((UpdateEnemyGroupMovement 0)^[n + 1] s).InvadersGameState.EnemyProgTime
      = s.InvadersGameState.EnemyProgTime) := by
  have hidem : ∀ n : Nat,
      (UpdateEnemyGroupMovement 0)^[n + 1] s = UpdateEnemyGroupMovement 0 s := by
    intro n
    induction n with
    | zero => rfl
    | succ n ih =>
      rw [Function.iterate_succ_apply', ih, UpdateEnemyGroupMovement_zero,
        UpdateEnemyGroupMovement_zero]
  refine ⟨?_, ?_, ?_, ?_, hidem, ?_⟩
  · rw [UpdateEnemyGroupMovement_zero]
  · rw [UpdateEnemyGroupMovement_zero]
  · rw [UpdateEnemyGroupMovement_zero]
  · intro P Q R L T
    simp [GroupPos]
  · intro n
    rw [hidem n, UpdateEnemyGroupMovement_zero]
    exact ⟨rfl, rfl⟩

/-! ### Gated tick -/

/-- C19: `Tick` is gated. For every `DeltaSeconds`, every engine input and every state in
which the pause menu is in the viewport or `LevelStarted` is false, `Tick` returns and
leaves the whole game mode as it is: the run state, both bullet pools, the shooting front
and every unit are unchanged. -/
theorem Tick_gated (dt : ℚ) (inp : FTickInput) (s : AInvadersGameMode)
    (h : s.PauseMenuInViewport = true ∨ s.InvadersGameState.LevelStarted = false) :
    Tick dt inp s = some s ∧
    ∀ t, Tick dt inp s = some t →
      t.InvadersGameState = s.InvadersGameState ∧
      t.PlayerBullets = s.PlayerBullets ∧ t.EnemyBullets = s.EnemyBullets ∧
      t.ShootingEnemies = s.ShootingEnemies ∧
      t.PlayerShip = s.PlayerShip ∧ t.UfoShip = s.UfoShip ∧ t.EnemyShips = s.EnemyShips ∧
      t.EnemyShipGroup = s.EnemyShipGroup ∧
      t.Asteroids = s.Asteroids ∧ t.AsteroidHP = s.AsteroidHP := by
  have e : Tick dt inp s = some s := by
    rcases h with h | h
    · simp [Tick, h]
    · simp [Tick, h]
  refine ⟨e, ?_⟩
  intro t ht
  rw [e] at ht
  cases ht
  exact ⟨rfl, rfl, rfl, rfl, rfl, rfl, rfl, rfl, rfl, rfl⟩

/-- C19 at a reachable paused state of the sample game, on a tick in which the bullet in
flight would hit the grid enemy 3, and at the main menu (`LevelStarted` false). -/
theorem Tick_gated_witness :
    Reachable (SampleAfter PausedInputs) ∧
    (SampleAfter PausedInputs).PauseMenuInViewport = true ∧
    (SampleAfter PausedInputs).InvadersGameState.ActivePlayerBullets = 1 ∧
    Tick (1 / 10) HitEnemy3 (SampleAfter PausedInputs) = some (SampleAfter PausedInputs) ∧
    (SampleAfter []).InvadersGameState.LevelStarted = false := by
  have hd : ((StartPlay (SampleMode FGameRules.default)).bind fun s =>
        Run s PausedInputs).isSome = true ∧
      (SampleAfter PausedInputs).PauseMenuInViewport = true ∧
      (SampleAfter PausedInputs).InvadersGameState.ActivePlayerBullets = 1 ∧
      (SampleAfter []).InvadersGameState.LevelStarted = false := by decide!
  obtain ⟨d0, hp, d2, d3⟩ := hd
  exact ⟨Reachable_SampleAfter _ d0, hp, d2,
    (Tick_gated (1 / 10) HitEnemy3 (SampleAfter PausedInputs) (Or.inl hp)).1, d3⟩

/-! ### Postcondition of SpawnEnemies -/

/-- C14: postcondition of `SpawnEnemies`. For every prior state, afterwards
`ActiveEnemyNum = TotalEnemyNum`, `EnemyProgTime = 0`, `EnemyAppearAnimTime = 5`, the
enemy-shoot timer is scheduled one-shot with delay `EnemyShootFrequency`, and every grid
enemy (every slot below `TotalEnemyNum` of `EnemyShips`) is visible and collidable. When
`TotalEnemyNum = EnemiesInRow * EnemiesInColumn` (as `InitGame` sets it) and
`EnemiesInColumn ≥ 1`, `ShootingEnemies` is exactly `[0, ..., EnemiesInRow - 1]`. In a
reachable state the grid has exactly `TotalEnemyNum` slots, so all of this holds there. -/
theorem SpawnEnemies_postcondition (s : AInvadersGameMode) :
    (SpawnEnemies s).InvadersGameState.ActiveEnemyNum
      = ((SpawnEnemies s).InvadersGameState.TotalEnemyNum : Int) ∧
    (SpawnEnemies s).InvadersGameState.TotalEnemyNum = s.InvadersGameState.TotalEnemyNum ∧
    (SpawnEnemies s).InvadersGameState.EnemyProgTime = 0 ∧
    (SpawnEnemies s).InvadersGameState.EnemyAppearAnimTime = 5 ∧
    (SpawnEnemies s).EnemyShootTHandle = some ⟨s.Rules.EnemyShootFrequency, false, false⟩ ∧
    (SpawnEnemies s).EnemyShips.length = s.EnemyShips.length ∧
    (∀ i, i < s.InvadersGameState.TotalEnemyNum → i < s.EnemyShips.length →
      ∃ E, (SpawnEnemies s).EnemyShips[i]? = some E ∧ E.Hidden = false ∧ E.Collision = true) ∧
    (s.InvadersGameState.TotalEnemyNum = s.Rules.EnemiesInRow * s.Rules.EnemiesInColumn →
      1 ≤ s.Rules.EnemiesInColumn →
      (SpawnEnemies s).ShootingEnemies = List.range s.Rules.EnemiesInRow) ∧
    (Reachable s → 1 ≤ s.Rules.EnemiesInColumn →
      (SpawnEnemies s).ShootingEnemies = List.range s.Rules.EnemiesInRow ∧
      (SpawnEnemies s).EnemyShips.length = s.InvadersGameState.TotalEnemyNum ∧
      ∀ E ∈ (SpawnEnemies s).EnemyShips, E.Hidden = false ∧ E.Collision = true) := by
  have hvis : ∀ i, i < s.InvadersGameState.TotalEnemyNum → i < s.EnemyShips.length →
      ∃ E, (SpawnEnemies s).EnemyShips[i]? = some E ∧ E.Hidden = false ∧
        E.Collision = true := by
    intro i hi hl
    refine ⟨(s.EnemyShips[i]).activate, ?_, rfl, rfl⟩
    rw [SpawnEnemies_frame]
    simp [forFirst_getElem?, hi, List.getElem?_eq_getElem hl]
  have hfront : s.InvadersGameState.TotalEnemyNum
        = s.Rules.EnemiesInRow * s.Rules.EnemiesInColumn →
      1 ≤ s.Rules.EnemiesInColumn →
      (SpawnEnemies s).ShootingEnemies = List.range s.Rules.EnemiesInRow := by
    intro hG hC
    rw [SpawnEnemies_frame]
    show List.range (min s.Rules.EnemiesInRow s.InvadersGameState.TotalEnemyNum) = _
    rw [Nat.min_eq_left]
    rw [hG]
    exact Nat.le_mul_of_pos_right _ (by omega)
  have hlen : (SpawnEnemies s).EnemyShips.length = s.EnemyShips.length := by
    rw [SpawnEnemies_frame]
    exact forFirst_length _ _ _
  refine ⟨?_, ?_, ?_, ?_, ?_, hlen, hvis, hfront, ?_⟩
  · rw [SpawnEnemies_frame]
  · rw [SpawnEnemies_frame]
  · rw [SpawnEnemies_frame]
  · rw [SpawnEnemies_frame]
  · rw [SpawnEnemies_frame]; rfl
  · intro hR hC
    obtain ⟨hG, hL⟩ := Reachable_GridWF s hR
    refine ⟨hfront hG hC, by rw [hlen, hL], ?_⟩
    intro E hE
    obtain ⟨i, hi, rfl⟩ := List.getElem_of_mem hE
    rw [hlen] at hi
    obtain ⟨E', hE', h1, h2⟩ := hvis i (by omega) hi
    rw [List.getElem?_eq_getElem (by rw [hlen]; exact hi)] at hE'
    cases hE'
    exact ⟨h1, h2⟩

/-- C14 at the reachable state of the sample game in which the first wave is about to
appear: 50 enemies, all hidden before, the front becomes `[0, ..., 9]`. -/
theorem SpawnEnemies_postcondition_witness :
    Reachable (SampleAfter StartedInputs) ∧
    (∀ E ∈ (SampleAfter StartedInputs).EnemyShips, E.Hidden = true) ∧
    (SpawnEnemies (SampleAfter StartedInputs)).InvadersGameState.ActiveEnemyNum = 50 ∧
    (SpawnEnemies (SampleAfter StartedInputs)).ShootingEnemies = List.range 10 ∧
    (SpawnEnemies (SampleAfter StartedInputs)).EnemyShips.length = 50 ∧
    (∀ E ∈ (SpawnEnemies (SampleAfter StartedInputs)).EnemyShips,
      E.Hidden = false ∧ E.Collision = true) := by
  have hd : ((StartPlay (SampleMode FGameRules.default)).bind fun s =>
        Run s StartedInputs).isSome = true ∧
      (SampleAfter StartedInputs).Rules.EnemiesInRow = 10 ∧
      (SampleAfter StartedInputs).InvadersGameState.TotalEnemyNum = 50 ∧
      (∀ E ∈ (SampleAfter StartedInputs).EnemyShips, E.Hidden = true) ∧
      (SpawnEnemies (SampleAfter StartedInputs)).InvadersGameState.ActiveEnemyNum = 50 := by
    decide!
  obtain ⟨d0, eR, eT, d3, d4⟩ := hd
  have hR : Reachable (SampleAfter StartedInputs) := Reachable_SampleAfter _ d0
  have h := (SpawnEnemies_postcondition (SampleAfter StartedInputs)).2.2.2.2.2.2.2.2 hR
    (by decide!)
  exact ⟨hR, d3, d4, by rw [h.1, eR], by rw [h.2.1, eT], h.2.2⟩

/-! ### Configuration -/

theorem ConfigSame_refl (s : AInvadersGameMode) : ConfigSame s s :=
  ⟨rfl, rfl, rfl, rfl, rfl, rfl, rfl, rfl, rfl, rfl⟩

theorem ConfigSame_trans (a b c : AInvadersGameMode) (h : ConfigSame a b) (g : ConfigSame b c) :
    ConfigSame a c := by
  obtain ⟨h1, h2, h3, h4, h5, h6, h7, h8, h9, h10⟩ := h
  obtain ⟨g1, g2, g3, g4, g5, g6, g7, g8, g9, g10⟩ := g
  exact ⟨g1.trans h1, g2.trans h2, g3.trans h3, g4.trans h4, g5.trans h5, g6.trans h6,
    g7.trans h7, g8.trans h8, g9.trans h9, g10.trans h10⟩

/-- No engine call changes the configuration. -/
theorem ConfigSame_closed : StepClosed ConfigSame where
  refl := ConfigSame_refl
  trans := ConfigSame_trans
  enemyAnim := by intro dt s; rw [UpdateEnemyAppearAnimation_frame]; exact ConfigSame_refl s
  playerAnim := by intro dt s; rw [UpdatePlayerAppearAnimation_frame]; exact ConfigSame_refl s
  playerMove := by intro dt inp s; rw [UpdatePlayerMovement_frame]; exact ConfigSame_refl s
  groupMove := by intro dt s; rw [UpdateEnemyGroupMovement_frame]; exact ConfigSame_refl s
  ufoMove := by intro dt Rand s; rw [UpdateUfoMovement_frame]; exact ConfigSame_refl s
  playerBullets := by
    intro s Bs h; exact ⟨rfl, rfl, rfl, rfl, rfl, rfl, rfl, h, rfl, rfl⟩
  enemyBullets := by
    intro s Bs h; exact ⟨rfl, rfl, rfl, rfl, rfl, rfl, rfl, rfl, h, rfl⟩
  asteroid := by
    intro s As HPs h; exact ⟨rfl, rfl, rfl, rfl, rfl, rfl, rfl, rfl, rfl, h⟩
  ufoKill := by intro s Points h; exact ConfigSame_refl s
  enemyKill := by
    intro s t i E Points _ hR
    obtain ⟨Sh, ht⟩ := ReorganizeShooters_inv _ _ _ hR
    rw [ht]; exact ConfigSame_refl s
  sound := by intro s e; exact ConfigSame_refl s
  playerDelete := by
    intro s Bs h _ _; exact ⟨rfl, rfl, rfl, rfl, rfl, rfl, rfl, h, rfl, rfl⟩
  enemyDelete := by
    intro s Bs h _ _; exact ⟨rfl, rfl, rfl, rfl, rfl, rfl, rfl, rfl, h, rfl⟩
  allKilled := by intro s; rw [AllEnemiesKilled_frame]; exact ConfigSame_refl s
  playerHit := by intro s; rw [HandlePlayerHit_frame]; exact ConfigSame_refl s
  tutorial := by intro s; exact ConfigSame_refl s
  shootPressed := by
    intro s t h
    obtain ⟨b, hd, Bs, c, hBs, _, _, ht⟩ := HandlePlayerShootPressed_inv s t h
    rw [ht]; exact ⟨rfl, rfl, rfl, rfl, rfl, rfl, rfl, hBs, rfl, rfl⟩
  shootReleased := by intro s; rw [HandlePlayerShootReleased_frame]; exact ConfigSame_refl s
  togglePause := by intro s; rw [HandleTogglePausePressed_frame]; exact ConfigSame_refl s
  fired := by intro s a b c d e; exact ConfigSame_refl s
  spawnEnemies := by intro s; rw [SpawnEnemies_frame]; exact ConfigSame_refl s
  spawnPlayer := by intro s; exact ConfigSame_refl s
  enemyShoot := by
    intro Rand s t h
    obtain ⟨hd, Bs, c, hBs, _, _, ht⟩ := EnemyShootTimerCallback_inv Rand s t h
    rw [ht]; exact ⟨rfl, rfl, rfl, rfl, rfl, rfl, rfl, rfl, hBs, rfl⟩
  playerShoot := by
    intro s t h
    rcases PlayerShootTimerCallback_inv s t h with e | e | ⟨_, _, Bs, hBs, e⟩
    · rw [e]; exact ConfigSame_refl s
    · rw [e]; exact ConfigSame_refl s
    · rw [e]; exact ⟨rfl, rfl, rfl, rfl, rfl, rfl, rfl, hBs, rfl, rfl⟩
  ufoAppear := by intro Rand s; rw [UfoAppearCallback_frame]; exact ConfigSame_refl s

/-- The configuration is the same after every engine call, resets included. -/
theorem ConfigSame_Step (s t : AInvadersGameMode) (i : Input) (h : Step s i = some t) :
    ConfigSame s t := by
  refine Step_closed ConfigSame_closed i ?_ s t h
  intro _
  constructor
  · intro Rand s; rw [RestartInvadersGame_frame]
    exact ⟨rfl, rfl, rfl, rfl, rfl, rfl, rfl, by simp, by simp, by simp⟩
  · intro s; rw [ShowMainMenu_frame]
    exact ⟨rfl, rfl, rfl, rfl, rfl, rfl, rfl, by simp, by simp, by simp⟩

/-! ### Scoring -/

/-- The delete step returns on a pool with `1 ≤ Active ≤ capacity` and a slot within the pool. -/
theorem DeleteBullet_some (Bullets : List AActor) (Active : Int) (r : Nat)
    (hA : 1 ≤ Active) (hcap : Active ≤ Bullets.length) (hr : r < Bullets.length) :
    ∃ Bs, DeleteBullet Bullets Active r = some (Bs, Active - 1) ∧
      Bs.length = Bullets.length := by
  have ha : (Active - 1).toNat < Bullets.length := by omega
  have hlast : getAt Bullets (Active - 1) = some Bullets[(Active - 1).toNat] := by
    simp [getAt, List.getElem?_eq_getElem ha]
    omega
  have hrl1 : r < (Bullets.set (Active - 1).toNat
      Bullets[(Active - 1).toNat].deactivate).length := by simpa using hr
  refine ⟨(Bullets.set (Active - 1).toNat Bullets[(Active - 1).toNat].deactivate).set r
      ((Bullets.set (Active - 1).toNat Bullets[(Active - 1).toNat].deactivate)[r].SetActorLocation
        Bullets[(Active - 1).toNat].Location), ?_, by simp⟩
  simp [DeleteBullet, hlast, List.getElem?_eq_getElem, hr]

/-- One iteration of the player loop on an existing bullet, as the sequence of its blocks. -/
theorem PlayerBulletBody_eq (dt : ℚ) (inp : FTickInput) (r : Nat) (s : AInvadersGameMode)
    (B : AActor) (hB : s.PlayerBullets[r]? = some B) :
    PlayerBulletBody dt inp r s =
      (PlayerBulletUnit inp.UfoAppearTime (PlayerUnitActor inp r)
        { s with PlayerBullets := s.PlayerBullets.set r (MovePlayerBullet dt s B) }).bind fun s1 =>
      (DeletePlayerBullet (decide (ToFloat (MovePlayerBullet dt s B).Location.Y < -500) ||
        (PlayerUnitActor inp r).isSome) r s1).bind fun s2 => some (AllEnemiesKilled s2) := by
  simp [PlayerBulletBody, hB]

/-- The delete block of the player loop returns on a state with `1 ≤ Active ≤ capacity`. -/
theorem DeletePlayerBullet_true (r : Nat) (s : AInvadersGameMode)
    (hA : 1 ≤ s.InvadersGameState.ActivePlayerBullets)
    (hcap : s.InvadersGameState.ActivePlayerBullets ≤ s.PlayerBullets.length)
    (hr : r < s.PlayerBullets.length) :
    ∃ Bs, Bs.length = s.PlayerBullets.length ∧
      DeleteBullet s.PlayerBullets s.InvadersGameState.ActivePlayerBullets r
        = some (Bs, s.InvadersGameState.ActivePlayerBullets - 1) ∧
      DeletePlayerBullet true r s = some { s with
        PlayerBullets := Bs
        InvadersGameState := { s.InvadersGameState with
          ActivePlayerBullets := s.InvadersGameState.ActivePlayerBullets - 1 } } := by
  obtain ⟨Bs, hD, hl⟩ := DeleteBullet_some s.PlayerBullets _ r hA hcap hr
  exact ⟨Bs, hl, hD, by simp [DeletePlayerBullet, hD]⟩

/-- The delete block of the enemy loop returns on a state with `1 ≤ Active ≤ capacity`. -/
theorem DeleteEnemyBullet_true (r : Nat) (s : AInvadersGameMode)
    (hA : 1 ≤ s.InvadersGameState.ActiveEnemyBullets)
    (hcap : s.InvadersGameState.ActiveEnemyBullets ≤ s.EnemyBullets.length)
    (hr : r < s.EnemyBullets.length) :
    ∃ Bs, Bs.length = s.EnemyBullets.length ∧
      DeleteBullet s.EnemyBullets s.InvadersGameState.ActiveEnemyBullets r
        = some (Bs, s.InvadersGameState.ActiveEnemyBullets - 1) ∧
      DeleteEnemyBullet true r s = some { s with
        EnemyBullets := Bs
        InvadersGameState := { s.InvadersGameState with
          ActiveEnemyBullets := s.InvadersGameState.ActiveEnemyBullets - 1 } } := by
  obtain ⟨Bs, hD, hl⟩ := DeleteBullet_some s.EnemyBullets _ r hA hcap hr
  exact ⟨Bs, hl, hD, by simp [DeleteEnemyBullet, hD]⟩

/-- A player bullet that hits no unit, or an asteroid, leaves the score as it is. -/
theorem PlayerBulletBody_ScoreSame (dt : ℚ) (inp : FTickInput) (r : Nat)
    (s t : AInvadersGameMode)
    (hU : PlayerUnitActor inp r = none ∨ ∃ k, PlayerUnitActor inp r = some (.Asteroid k))
    (h : PlayerBulletBody dt inp r s = some t) : ScoreSame s t := by
  obtain ⟨B, s1, s2, hB, h1, h2, ht⟩ := PlayerBulletBody_inv dt inp r s t h
  have e1 : s1.InvadersGameState.Score = s.InvadersGameState.Score := by
    rcases PlayerBulletUnit_inv _ _ _ _ h1 with ⟨_, e⟩ | ⟨U, t1, hUA, hH, e⟩
    · rw [e]
    · rcases hU with hU | ⟨k, hU⟩
      · rw [hU] at hUA; cases hUA
      · rw [hU] at hUA
        cases hUA
        have hA := hH
        simp only [PlayerBulletHit, ActorRef.IsAsteroid, if_true] at hA
        obtain ⟨k', HP0, A, _, _, _, ht1⟩ := AsteroidHit_inv _ _ t1 hA
        rw [e, ht1]
  have e2 : s2.InvadersGameState.Score = s1.InvadersGameState.Score := by
    rcases DeletePlayerBullet_inv _ _ _ _ h2 with ⟨_, e⟩ | ⟨_, res, hD, e⟩
    · rw [e]
    · rw [e]
  unfold ScoreSame
  rw [ht, AllEnemiesKilled_frame]
  exact e2.trans e1

theorem MapFind_MapAdd (m : List (Nat × Int)) (k : Nat) (v : Int) (c : Nat) :
    MapFind (MapAdd m k v) c = if k = c then some v else MapFind m c := by
  unfold MapFind MapAdd
  by_cases h : k = c
  · simp [h]
  · simp only [h, if_false]
    rw [List.find?_cons_of_neg _ (by simpa using h)]
    congr 1
    induction m with
    | nil => rfl
    | cons e m ih =>
      by_cases he : e.1 = k
      · have hec : e.1 ≠ c := fun e' => h (he ▸ e')
        rw [List.filter_cons_of_neg (by simpa using he), ih,
          List.find?_cons_of_neg _ (by simpa using hec)]
      · rw [List.filter_cons_of_pos (by simpa using he)]
        by_cases hec : e.1 = c
        · rw [List.find?_cons_of_pos _ (by simpa using hec),
            List.find?_cons_of_pos _ (by simpa using hec)]
        · rw [List.find?_cons_of_neg _ (by simpa using hec),
            List.find?_cons_of_neg _ (by simpa using hec), ih]

/-- The map built by the loop of `StartPlay` from an empty map. -/
theorem MapFind_foldl (c : Nat) : ∀ (defs : List FEnemyDef) (m0 : List (Nat × Int)),
    MapFind (defs.foldl (fun m Def => MapAdd m Def.ShipClass Def.Points) m0) c =
      (DefPoints defs c).or (MapFind m0 c) := by
  intro defs
  induction defs with
  | nil => intro m0; simp [DefPoints]
  | cons d defs ih =>
    intro m0
    rw [List.foldl_cons, ih, MapFind_MapAdd]
    unfold DefPoints
    rw [List.reverse_cons, List.find?_append]
    cases hf : List.find? (fun d => d.ShipClass == c) defs.reverse with
    | some x => simp
    | none =>
      by_cases hd : d.ShipClass = c
      · simp [hd]
      · simp [hd]

/-- The point map and the definitions after `StartPlay`. -/
theorem StartPlay_config (s0 s : AInvadersGameMode) (h : StartPlay s0 = some s) :
    s.EnemyDefs = s0.EnemyDefs ∧
    s.EnemyPointMap =
      s0.EnemyDefs.foldl (fun m Def => MapAdd m Def.ShipClass Def.Points) s0.EnemyPointMap ∧
    s.AsteroidDef = s0.AsteroidDef ∧ s.PlayerBulletDef = s0.PlayerBulletDef ∧
    s.EnemyBulletDef = s0.EnemyBulletDef ∧
    s.PlayerBullets.length = s0.PlayerBullets.length + MAX_BULLETS ∧
    s.EnemyBullets.length = s0.EnemyBullets.length + MAX_BULLETS := by
  simp only [StartPlay, Option.bind_eq_some, Option.some.injEq] at h
  obtain ⟨s2, h1, h2⟩ := h
  unfold InitGameObjects at h1
  split at h1
  · cases h1
  · simp only [Option.bind_eq_some, Option.some.injEq] at h1
    obtain ⟨Ships, _, Top, _, ht⟩ := h1
    rw [← h2, ShowMainMenu_frame, ← ht, ResetUnits_frame]
    unfold LoadHiScore
    split <;> simp

/-- In every reachable state the point map holds, for each ship class, the points of the
last enemy definition with that class. -/
theorem Reachable_EnemyPointMap (s : AInvadersGameMode) (hs : Reachable s) (c : Nat) :
    MapFind s.EnemyPointMap c = DefPoints s.EnemyDefs c := by
  induction hs with
  | start Rules PlayerDef EnemyDefs EnemySpawnPoint UfoSpawnPoint AsteroidDef PlayerBulletDef
      EnemyBulletDef SaveSlot s h =>
    obtain ⟨e1, e2, _⟩ := StartPlay_config _ _ h
    rw [e1, e2, MapFind_foldl]
    simp [InitGame, NewGameMode, MapFind]
  | step s t i _ h ih =>
    obtain ⟨_, _, e3, _, _, _, e7, _⟩ := ConfigSame_Step s t i h
    rw [e3, e7]
    exact ih

/-- The front update returns on a well-formed grid and changes `ShootingEnemies` only. -/
theorem ReorganizeShooters_some (i : Nat) (u : AInvadersGameMode)
    (hR : 0 < u.Rules.EnemiesInRow)
    (hlen : u.InvadersGameState.TotalEnemyNum ≤ u.EnemyShips.length)
    (hi : i < u.EnemyShips.length) :
    ∃ Sh, ReorganizeShooters (.Enemy i) u = some { u with ShootingEnemies := Sh } := by
  obtain ⟨h1, h2⟩ := ReorganizeShooters_enemy i u hR hlen hi
  by_cases h : i ∈ u.ShootingEnemies
  · obtain ⟨Sh, e, _⟩ := h2 h
    exact ⟨Sh, e⟩
  · exact ⟨u.ShootingEnemies, h1 h⟩

/-- The iteration of the player loop for a bullet that overlaps the grid enemy `i`: it
returns, the enemy is hidden, its points are added, the bullet is deleted. -/
theorem PlayerBulletBody_enemy (dt : ℚ) (inp : FTickInput) (r i : Nat) (s : AInvadersGameMode)
    (E : AActor) (Points : Int)
    (hr : (r : Int) < s.InvadersGameState.ActivePlayerBullets)
    (hcap : s.InvadersGameState.ActivePlayerBullets ≤ s.PlayerBullets.length)
    (hO : inp.PlayerOverlap r = some (.Enemy i)) (hE : s.EnemyShips[i]? = some E)
    (hP : MapFind s.EnemyPointMap E.Class = some Points)
    (hR : 0 < s.Rules.EnemiesInRow)
    (hlen : s.InvadersGameState.TotalEnemyNum ≤ s.EnemyShips.length) :
    ∃ (t : AInvadersGameMode) (Sh : List Nat) (Bs : List AActor),
      PlayerBulletBody dt inp r s = some (AllEnemiesKilled t) ∧
      Bs.length = s.PlayerBullets.length ∧
      t = { s with
        EnemyShips := s.EnemyShips.set i E.deactivate
        ShootingEnemies := Sh
        PlayerBullets := Bs
        Events := s.Events ++ [Event.PlaySoundAtLocation]
        InvadersGameState := { s.InvadersGameState with
          Score := Int32Add s.InvadersGameState.Score Points
          ActiveEnemyNum := s.InvadersGameState.ActiveEnemyNum - 1
          ActivePlayerBullets := s.InvadersGameState.ActivePlayerBullets - 1 } } := by
  have hrl : r < s.PlayerBullets.length := by omega
  have hU : PlayerUnitActor inp r = some (.Enemy i) := by
    simp [PlayerUnitActor, hO, ActorRef.IsEnemy]
  have hil : i < s.EnemyShips.length := getElem?_some_lt _ _ _ hE
  obtain ⟨Sh, hSh⟩ := ReorganizeShooters_some i
    { s with
      PlayerBullets := s.PlayerBullets.set r (MovePlayerBullet dt s s.PlayerBullets[r])
      EnemyShips := s.EnemyShips.set i E.deactivate
      InvadersGameState := { s.InvadersGameState with
        Score := Int32Add s.InvadersGameState.Score Points
        ActiveEnemyNum := s.InvadersGameState.ActiveEnemyNum - 1 } }
    hR (by simpa using hlen) (by simpa using hil)
  obtain ⟨Bs, hBs, hDB, hD⟩ := DeletePlayerBullet_true r
    { s with
      PlayerBullets := s.PlayerBullets.set r (MovePlayerBullet dt s s.PlayerBullets[r])
      EnemyShips := s.EnemyShips.set i E.deactivate
      ShootingEnemies := Sh
      Events := s.Events ++ [Event.PlaySoundAtLocation]
      InvadersGameState := { s.InvadersGameState with
        Score := Int32Add s.InvadersGameState.Score Points
        ActiveEnemyNum := s.InvadersGameState.ActiveEnemyNum - 1 } }
    (by show 1 ≤ s.InvadersGameState.ActivePlayerBullets; omega)
    (by simpa using hcap) (by simpa using hrl)
  refine ⟨_, Sh, Bs, ?_, by simpa using hBs, rfl⟩
  rw [PlayerBulletBody_eq dt inp r s _ (List.getElem?_eq_getElem hrl), hU]
  simp only [PlayerBulletUnit, Option.isSome_some, Bool.or_true]
  have hH : PlayerBulletHit inp.UfoAppearTime (.Enemy i)
      { s with PlayerBullets := s.PlayerBullets.set r (MovePlayerBullet dt s s.PlayerBullets[r]) }
      = some { s with
        PlayerBullets := s.PlayerBullets.set r (MovePlayerBullet dt s s.PlayerBullets[r])
        EnemyShips := s.EnemyShips.set i E.deactivate
        ShootingEnemies := Sh
        InvadersGameState := { s.InvadersGameState with
          Score := Int32Add s.InvadersGameState.Score Points
          ActiveEnemyNum := s.InvadersGameState.ActiveEnemyNum - 1 } } :=
    (PlayerBulletHit_enemy inp.UfoAppearTime i
      { s with PlayerBullets := s.PlayerBullets.set r (MovePlayerBullet dt s s.PlayerBullets[r]) }
      E Points hE hP).trans hSh
  rw [hH]
  simp only [Option.some_bind]
  rw [hD]
  rfl

/-- The iteration of the player loop for a bullet that overlaps the ufo: it returns, the
ufo is hidden, its points are added, the bullet is deleted. -/
theorem PlayerBulletBody_ufo (dt : ℚ) (inp : FTickInput) (r : Nat) (s : AInvadersGameMode)
    (Points : Int)
    (hr : (r : Int) < s.InvadersGameState.ActivePlayerBullets)
    (hcap : s.InvadersGameState.ActivePlayerBullets ≤ s.PlayerBullets.length)
    (hO : inp.PlayerOverlap r = some .Ufo)
    (hP : MapFind s.EnemyPointMap s.UfoShip.Class = some Points) :
    ∃ (t : AInvadersGameMode) (Bs : List AActor),
      PlayerBulletBody dt inp r s = some (AllEnemiesKilled t) ∧
      Bs.length = s.PlayerBullets.length ∧
      t = { s with
        UfoShip := s.UfoShip.deactivate
        UfoAppearTHandle := SetTimer inp.UfoAppearTime false
        PlayerBullets := Bs
        Events := s.Events ++ [Event.PlaySoundAtLocation]
        InvadersGameState := { s.InvadersGameState with
          Score := Int32Add s.InvadersGameState.Score Points
          UfoProgTime := 0
          ActivePlayerBullets := s.InvadersGameState.ActivePlayerBullets - 1 } } := by
  have hrl : r < s.PlayerBullets.length := by omega
  have hU : PlayerUnitActor inp r = some .Ufo := by
    simp [PlayerUnitActor, hO, ActorRef.IsEnemy]
  obtain ⟨Bs, hBs, hDB, hD⟩ := DeletePlayerBullet_true r
    { s with
      PlayerBullets := s.PlayerBullets.set r (MovePlayerBullet dt s s.PlayerBullets[r])
      UfoShip := s.UfoShip.deactivate
      UfoAppearTHandle := SetTimer inp.UfoAppearTime false
      Events := s.Events ++ [Event.PlaySoundAtLocation]
      InvadersGameState := { s.InvadersGameState with
        Score := Int32Add s.InvadersGameState.Score Points
        UfoProgTime := 0 } }
    (by show 1 ≤ s.InvadersGameState.ActivePlayerBullets; omega)
    (by simpa using hcap) (by simpa using hrl)
  refine ⟨_, Bs, ?_, by simpa using hBs, rfl⟩
  rw [PlayerBulletBody_eq dt inp r s _ (List.getElem?_eq_getElem hrl), hU]
  simp only [PlayerBulletUnit, Option.isSome_some, Bool.or_true]
  have hH : PlayerBulletHit inp.UfoAppearTime .Ufo
      { s with PlayerBullets := s.PlayerBullets.set r (MovePlayerBullet dt s s.PlayerBullets[r]) }
      = some { s with
        PlayerBullets := s.PlayerBullets.set r (MovePlayerBullet dt s s.PlayerBullets[r])
        UfoShip := s.UfoShip.deactivate
        UfoAppearTHandle := SetTimer inp.UfoAppearTime false
        InvadersGameState := { s.InvadersGameState with
          Score := Int32Add s.InvadersGameState.Score Points
          UfoProgTime := 0 } } := by
    simp [PlayerBulletHit, ActorRef.IsAsteroid, ActorRef.IsUfo, Deref, DeactivateUnit, hP]
  rw [hH]
  simp only [Option.some_bind]
  rw [hD]
  rfl

/-- The iteration of the player loop for a bullet that overlaps nothing: it returns, and
the bullet is deleted exactly when it left the field. -/
theorem PlayerBulletBody_none (dt : ℚ) (inp : FTickInput) (r : Nat) (s : AInvadersGameMode)
    (hr : (r : Int) < s.InvadersGameState.ActivePlayerBullets)
    (hcap : s.InvadersGameState.ActivePlayerBullets ≤ s.PlayerBullets.length)
    (hU : PlayerUnitActor inp r = none) :
    ∃ B, s.PlayerBullets[r]? = some B ∧
      ((ToFloat (B.Location.Y - s.PlayerBulletDef.Velocity * dt) < -500 →
        ∃ Bs, Bs.length = s.PlayerBullets.length ∧
          DeleteBullet (s.PlayerBullets.set r (MovePlayerBullet dt s B))
            s.InvadersGameState.ActivePlayerBullets r
            = some (Bs, s.InvadersGameState.ActivePlayerBullets - 1) ∧
          PlayerBulletBody dt inp r s = some (AllEnemiesKilled { s with
            PlayerBullets := Bs
            InvadersGameState := { s.InvadersGameState with
              ActivePlayerBullets := s.InvadersGameState.ActivePlayerBullets - 1 } })) ∧
      (¬ ToFloat (B.Location.Y - s.PlayerBulletDef.Velocity * dt) < -500 →
        PlayerBulletBody dt inp r s = some (AllEnemiesKilled { s with
          PlayerBullets := s.PlayerBullets.set r (MovePlayerBullet dt s B) }))) := by
  have hrl : r < s.PlayerBullets.length := by omega
  refine ⟨s.PlayerBullets[r], List.getElem?_eq_getElem hrl, ?_, ?_⟩
  · intro hout
    obtain ⟨Bs, hBs, hDB, hD⟩ := DeletePlayerBullet_true r
      { s with PlayerBullets := s.PlayerBullets.set r (MovePlayerBullet dt s s.PlayerBullets[r]) }
      (by show 1 ≤ s.InvadersGameState.ActivePlayerBullets; omega)
      (by simpa using hcap) (by simpa using hrl)
    refine ⟨Bs, by simpa using hBs, hDB, ?_⟩
    rw [PlayerBulletBody_eq dt inp r s _ (List.getElem?_eq_getElem hrl), hU]
    have hd : decide (ToFloat (MovePlayerBullet dt s s.PlayerBullets[r]).Location.Y < -500) = true := by
      simpa [MovePlayerBullet, AActor.SetActorLocation] using hout
    simp only [PlayerBulletUnit, Option.some_bind, hd, Bool.true_or]
    rw [hD]
    rfl
  · intro hin
    rw [PlayerBulletBody_eq dt inp r s _ (List.getElem?_eq_getElem hrl), hU]
    have hd : decide (ToFloat (MovePlayerBullet dt s s.PlayerBullets[r]).Location.Y < -500) = false := by
      simpa [MovePlayerBullet, AActor.SetActorLocation] using hin
    simp [PlayerBulletUnit, hd, DeletePlayerBullet]

/-- The `int32` addition is the exact sum when the sum is in the range of `int32`. -/
theorem Int32Add_eq (a b : Int) (h1 : -2147483648 ≤ a + b) (h2 : a + b ≤ 2147483647) :
    Int32Add a b = a + b := by
  unfold Int32Add toInt32 toUInt32
  have e1 : (2 : Int) ^ 32 = 4294967296 := by norm_num
  have e2 : (2 : Nat) ^ 32 = 4294967296 := by norm_num
  have e3 : (2 : Nat) ^ 31 = 2147483648 := by norm_num
  rw [e1, e2, e3]
  split_ifs <;> omega

/-- The `int32` addition wraps a sum above the range of `int32`. -/
theorem Int32Add_wrap (a b : Int) (h1 : 2147483647 < a + b) (h2 : a + b ≤ 6442450943) :
    Int32Add a b = a + b - 4294967296 := by
  unfold Int32Add toInt32 toUInt32
  have e1 : (2 : Int) ^ 32 = 4294967296 := by norm_num
  have e2 : (2 : Nat) ^ 32 = 4294967296 := by norm_num
  have e3 : (2 : Nat) ^ 31 = 2147483648 := by norm_num
  rw [e1, e2, e3]
  split_ifs <;> omega

theorem Reachable_BigPointAfter (ins : List Input)
    (h : ((StartPlay BigPointMode).bind fun s => Run s ins).isSome = true) :
    Reachable (BigPointAfter ins) := by
  obtain ⟨t, ht⟩ := Option.isSome_iff_exists.1 h
  have e : BigPointAfter ins = t := by simp [BigPointAfter, ht]
  rw [e]
  simp only [Option.bind_eq_some] at ht
  obtain ⟨s, hs, hrun⟩ := ht
  exact Reachable_Run s ins t (Reachable.start _ _ _ _ _ _ _ _ _ s hs) hrun

/-- C15, the claim as stated fails: `Score` is an `int32`. In a game whose first enemy
definition is worth `2^30` points, after the first kill (`Score = 2^30`) the bullet in
flight overlaps the visible grid enemy 4 of that definition: the enemy is hidden and
`Score` becomes `-2^31`, not `2^30 + 2^30`. -/
theorem score_wraps_at_int32 :
    Reachable (BigPointAfter FirstKillInputs) ∧
    (BigPointAfter FirstKillInputs).InvadersGameState.Score = 1073741824 ∧
    (BigPointAfter FirstKillInputs).InvadersGameState.ActivePlayerBullets = 1 ∧
    HitEnemy4.PlayerOverlap 0 = some (.Enemy 4) ∧
    (BigPointAfter FirstKillInputs).EnemyShips[4]? = some ⟨1, ⟨-25, 0, 0⟩, false, true⟩ ∧
    MapFind (BigPointAfter FirstKillInputs).EnemyPointMap 1 = some 1073741824 ∧
    (PlayerBulletBody (1 / 10) HitEnemy4 0 (BigPointAfter FirstKillInputs)).map
        (fun t => (t.InvadersGameState.Score, t.EnemyShips[4]?))
      = some (-2147483648, some ⟨1, ⟨-25, 0, 0⟩, true, false⟩) ∧
    (1073741824 : Int) + 1073741824 ≠ -2147483648 :=
  by
  have hd : ((StartPlay BigPointMode).bind fun s => Run s FirstKillInputs).isSome = true ∧
      (BigPointAfter FirstKillInputs).InvadersGameState.Score = 1073741824 ∧
      (BigPointAfter FirstKillInputs).InvadersGameState.ActivePlayerBullets = 1 ∧
      HitEnemy4.PlayerOverlap 0 = some (.Enemy 4) ∧
      (BigPointAfter FirstKillInputs).EnemyShips[4]? = some ⟨1, ⟨-25, 0, 0⟩, false, true⟩ ∧
      MapFind (BigPointAfter FirstKillInputs).EnemyPointMap 1 = some 1073741824 ∧
      (PlayerBulletBody (1 / 10) HitEnemy4 0 (BigPointAfter FirstKillInputs)).map
          (fun t => (t.InvadersGameState.Score, t.EnemyShips[4]?))
        = some (-2147483648, some ⟨1, ⟨-25, 0, 0⟩, true, false⟩) ∧
      (1073741824 : Int) + 1073741824 ≠ -2147483648 := by decide!
  exact ⟨Reachable_BigPointAfter _ hd.1, hd.2⟩

/-- C15, amended: scoring in `int32`. For the iteration of `UpdatePlayerBullets` on an
active bullet `r` (`r < ActivePlayerBullets ≤ pool size`): when the bullet overlaps the grid
enemy `i` whose class is mapped to `Points` by `EnemyPointMap` (on a grid with the slots of
all `TotalEnemyNum` enemies and `EnemiesInRow ≥ 1`), the iteration returns, `Score` becomes
the `int32` sum of `Score` and `Points`, which is `Score + Points` exactly when that sum is
within `[-2^31, 2^31 - 1]` and is `Score + Points - 2^32` when the sum exceeds `2^31 - 1` by
at most `2^32`, and the enemy is hidden and not collidable; the same holds for the ufo;
when the bullet overlaps nothing or no unit with the tag "IsEnemy" (whether or not it
leaves the field), the iteration returns and `Score` is unchanged; when it hits an
asteroid, `Score` is unchanged. In a reachable state `EnemyPointMap` maps each ship class
to the points of its enemy definition, as built by `StartPlay`. -/
theorem player_bullet_scoring (dt : ℚ) (inp : FTickInput) (r : Nat) (s : AInvadersGameMode)
    (hr : (r : Int) < s.InvadersGameState.ActivePlayerBullets)
    (hcap : s.InvadersGameState.ActivePlayerBullets ≤ s.PlayerBullets.length) :
    (∀ (i : Nat) (E : AActor) (Points : Int),
      inp.PlayerOverlap r = some (.Enemy i) → s.EnemyShips[i]? = some E →
      MapFind s.EnemyPointMap E.Class = some Points → 0 < s.Rules.EnemiesInRow →
      s.InvadersGameState.TotalEnemyNum ≤ s.EnemyShips.length →
      ∃ t, PlayerBulletBody dt inp r s = some t ∧
        t.InvadersGameState.Score = Int32Add s.InvadersGameState.Score Points ∧
        (-2147483648 ≤ s.InvadersGameState.Score + Points →
          s.InvadersGameState.Score + Points ≤ 2147483647 →
          t.InvadersGameState.Score = s.InvadersGameState.Score + Points) ∧
        (2147483647 < s.InvadersGameState.Score + Points →
          s.InvadersGameState.Score + Points ≤ 6442450943 →
          t.InvadersGameState.Score = s.InvadersGameState.Score + Points - 4294967296) ∧
        t.EnemyShips[i]? = some E.deactivate ∧
        E.deactivate.Hidden = true ∧ E.deactivate.Collision = false) ∧
    (∀ Points : Int, inp.PlayerOverlap r = some .Ufo →
      MapFind s.EnemyPointMap s.UfoShip.Class = some Points →
      ∃ t, PlayerBulletBody dt inp r s = some t ∧
        t.InvadersGameState.Score = Int32Add s.InvadersGameState.Score Points ∧
        (-2147483648 ≤ s.InvadersGameState.Score + Points →
          s.InvadersGameState.Score + Points ≤ 2147483647 →
          t.InvadersGameState.Score = s.InvadersGameState.Score + Points) ∧
        (2147483647 < s.InvadersGameState.Score + Points →
          s.InvadersGameState.Score + Points ≤ 6442450943 →
          t.InvadersGameState.Score = s.InvadersGameState.Score + Points - 4294967296) ∧
        t.UfoShip.Hidden = true ∧ t.UfoShip.Collision = false) ∧
    ((inp.PlayerOverlap r = none ∨ ∃ A, inp.PlayerOverlap r = some A ∧ A.IsEnemy = false) →
      ∃ t, PlayerBulletBody dt inp r s = some t ∧
        t.InvadersGameState.Score = s.InvadersGameState.Score) ∧
    (∀ (k : Nat) (t : AInvadersGameMode), inp.PlayerOverlap r = some (.Asteroid k) →
      PlayerBulletBody dt inp r s = some t →
      t.InvadersGameState.Score = s.InvadersGameState.Score) ∧
    (Reachable s → ∀ c, MapFind s.EnemyPointMap c = DefPoints s.EnemyDefs c) := by
  refine ⟨?_, ?_, ?_, ?_, fun hs c => Reachable_EnemyPointMap s hs c⟩
  · intro i E Points hO hE hP hR hlen
    obtain ⟨t, Sh, Bs, hb, _, ht⟩ :=
      PlayerBulletBody_enemy dt inp r i s E Points hr hcap hO hE hP hR hlen
    have hil : i < s.EnemyShips.length := getElem?_some_lt _ _ _ hE
    have hS : (AllEnemiesKilled t).InvadersGameState.Score
        = Int32Add s.InvadersGameState.Score Points := by
      rw [AllEnemiesKilled_frame, ht]
    refine ⟨_, hb, hS, ?_, ?_, ?_, rfl, rfl⟩
    · intro h1 h2
      rw [hS, Int32Add_eq _ _ h1 h2]
    · intro h1 h2
      rw [hS, Int32Add_wrap _ _ h1 h2]
    · rw [AllEnemiesKilled_frame, ht]
      show (s.EnemyShips.set i E.deactivate)[i]? = _
      rw [List.getElem?_set_self hil]
  · intro Points hO hP
    obtain ⟨t, Bs, hb, _, ht⟩ := PlayerBulletBody_ufo dt inp r s Points hr hcap hO hP
    have hS : (AllEnemiesKilled t).InvadersGameState.Score
        = Int32Add s.InvadersGameState.Score Points := by
      rw [AllEnemiesKilled_frame, ht]
    refine ⟨_, hb, hS, ?_, ?_, ?_, ?_⟩
    · intro h1 h2
      rw [hS, Int32Add_eq _ _ h1 h2]
    · intro h1 h2
      rw [hS, Int32Add_wrap _ _ h1 h2]
    · rw [AllEnemiesKilled_frame, ht]; rfl
    · rw [AllEnemiesKilled_frame, ht]; rfl
  · intro hO
    have hU : PlayerUnitActor inp r = none := by
      rcases hO with hO | ⟨A, hO, hA⟩
      · simp [PlayerUnitActor, hO]
      · simp [PlayerUnitActor, hO, hA]
    obtain ⟨B, _, h1, h2⟩ := PlayerBulletBody_none dt inp r s hr hcap hU
    by_cases hout : ToFloat (B.Location.Y - s.PlayerBulletDef.Velocity * dt) < -500
    · obtain ⟨Bs, _, _, hb⟩ := h1 hout
      exact ⟨_, hb, by rw [AllEnemiesKilled_frame]⟩
    · exact ⟨_, h2 hout, by rw [AllEnemiesKilled_frame]⟩
  · intro k t hO hb
    exact PlayerBulletBody_ScoreSame dt inp r s t
      (Or.inr ⟨k, by simp [PlayerUnitActor, hO, ActorRef.IsEnemy]⟩) hb

/-- C15 in the first wave of the sample game: the bullet in flight hits the grid enemy 3,
an enemy of the first definition (10 points); the score goes from 0 to 10 and the enemy is
hidden. -/
theorem player_bullet_scoring_witness :
    Reachable (SampleAfter LastShotInputs) ∧
    (SampleAfter LastShotInputs).InvadersGameState.Score = 0 ∧
    DefPoints (SampleAfter LastShotInputs).EnemyDefs 1 = some 10 ∧
    ∃ t, PlayerBulletBody (1 / 10) HitEnemy3 0 (SampleAfter LastShotInputs) = some t ∧
      t.InvadersGameState.Score = 10 ∧
      t.EnemyShips[3]? = some ⟨1, ⟨-50, 0, 0⟩, true, false⟩ := by
  have hd : ((StartPlay (SampleMode FGameRules.default)).bind fun s =>
        Run s LastShotInputs).isSome = true ∧
      ((0 : Nat) : Int) < (SampleAfter LastShotInputs).InvadersGameState.ActivePlayerBullets ∧
      (SampleAfter LastShotInputs).InvadersGameState.ActivePlayerBullets
        ≤ (SampleAfter LastShotInputs).PlayerBullets.length ∧
      (SampleAfter LastShotInputs).EnemyShips[3]? = some ⟨1, ⟨-50, 0, 0⟩, false, true⟩ ∧
      MapFind (SampleAfter LastShotInputs).EnemyPointMap 1 = some 10 ∧
      0 < (SampleAfter LastShotInputs).Rules.EnemiesInRow ∧
      (SampleAfter LastShotInputs).InvadersGameState.TotalEnemyNum
        ≤ (SampleAfter LastShotInputs).EnemyShips.length ∧
      (SampleAfter LastShotInputs).InvadersGameState.Score = 0 ∧
      DefPoints (SampleAfter LastShotInputs).EnemyDefs 1 = some 10 := by decide!
  obtain ⟨d0, d1, d2, d3, d4, d5, d6, h0, d8⟩ := hd
  have hR : Reachable (SampleAfter LastShotInputs) := Reachable_SampleAfter _ d0
  have h := player_bullet_scoring (1 / 10) HitEnemy3 0 (SampleAfter LastShotInputs) d1 d2
  obtain ⟨t, ht, _, hS, _, hE, _, _⟩ := h.1 3 ⟨1, ⟨-50, 0, 0⟩, false, true⟩ 10 rfl d3 d4 d5 d6
  refine ⟨hR, h0, d8, t, ht, ?_, hE⟩
  rw [hS (by rw [h0]; decide) (by rw [h0]; decide), h0]
  rfl

/-! ### Out-of-bounds removal -/

/-- The asteroid branch on an asteroid with a hit-point entry: it returns, stores `HP - 1`
and hides the asteroid when `HP - 1 ≤ 0`. -/
theorem AsteroidHit_some (k : Nat) (s : AInvadersGameMode) (HP0 : Int) (A : AActor)
    (hHP : s.AsteroidHP[k]? = some HP0) (hA : s.Asteroids[k]? = some A) :
    AsteroidHit (.Asteroid k) s = some { s with
      Asteroids := if HP0 - 1 ≤ 0 then s.Asteroids.set k A.deactivate else s.Asteroids
      AsteroidHP := s.AsteroidHP.set k (HP0 - 1) } := by
  have hk : k < s.Asteroids.length := getElem?_some_lt _ _ _ hA
  by_cases h : HP0 - 1 ≤ 0
  · simp only [AsteroidHit, AsteroidsFind, hk, if_true, Option.some_bind, hHP, h,
      DeactivateUnit, hA]
  · simp only [AsteroidHit, AsteroidsFind, hk, if_true, Option.some_bind, hHP, h, if_false]

/-- The iteration of the player loop for a bullet that overlaps the asteroid `k`. -/
theorem PlayerBulletBody_asteroid (dt : ℚ) (inp : FTickInput) (r k : Nat)
    (s : AInvadersGameMode) (HP0 : Int) (A : AActor)
    (hr : (r : Int) < s.InvadersGameState.ActivePlayerBullets)
    (hcap : s.InvadersGameState.ActivePlayerBullets ≤ s.PlayerBullets.length)
    (hO : inp.PlayerOverlap r = some (.Asteroid k))
    (hHP : s.AsteroidHP[k]? = some HP0) (hA : s.Asteroids[k]? = some A) :
    ∃ Bs, Bs.length = s.PlayerBullets.length ∧
      PlayerBulletBody dt inp r s = some (AllEnemiesKilled { s with
        Asteroids := if HP0 - 1 ≤ 0 then s.Asteroids.set k A.deactivate else s.Asteroids
        AsteroidHP := s.AsteroidHP.set k (HP0 - 1)
        PlayerBullets := Bs
        Events := s.Events ++ [Event.PlaySoundAtLocation]
        InvadersGameState := { s.InvadersGameState with
          ActivePlayerBullets := s.InvadersGameState.ActivePlayerBullets - 1 } }) := by
  have hrl : r < s.PlayerBullets.length := by omega
  have hU : PlayerUnitActor inp r = some (.Asteroid k) := by
    simp [PlayerUnitActor, hO, ActorRef.IsEnemy]
  obtain ⟨Bs, hBs, _, hD⟩ := DeletePlayerBullet_true r
    { s with
      PlayerBullets := s.PlayerBullets.set r (MovePlayerBullet dt s s.PlayerBullets[r])
      Asteroids := if HP0 - 1 ≤ 0 then s.Asteroids.set k A.deactivate else s.Asteroids
      AsteroidHP := s.AsteroidHP.set k (HP0 - 1)
      Events := s.Events ++ [Event.PlaySoundAtLocation] }
    (by show 1 ≤ s.InvadersGameState.ActivePlayerBullets; omega)
    (by simpa using hcap) (by simpa using hrl)
  refine ⟨Bs, by simpa using hBs, ?_⟩
  rw [PlayerBulletBody_eq dt inp r s _ (List.getElem?_eq_getElem hrl), hU]
  simp only [PlayerBulletUnit, Option.isSome_some, Bool.or_true, PlayerBulletHit,
    ActorRef.IsAsteroid, if_true]
  rw [AsteroidHit_some k
    { s with PlayerBullets := s.PlayerBullets.set r (MovePlayerBullet dt s s.PlayerBullets[r]) }
    HP0 A hHP hA]
  simp only [Option.some_bind]
  rw [hD]
  rfl

/-- The iteration of the enemy loop for a bullet that overlaps the asteroid `k`. -/
theorem EnemyBulletBody_asteroid (dt : ℚ) (inp : FTickInput) (r k : Nat)
    (s : AInvadersGameMode) (HP0 : Int) (A : AActor)
    (hr : (r : Int) < s.InvadersGameState.ActiveEnemyBullets)
    (hcap : s.InvadersGameState.ActiveEnemyBullets ≤ s.EnemyBullets.length)
    (hO : inp.EnemyOverlap r = some (.Asteroid k))
    (hHP : s.AsteroidHP[k]? = some HP0) (hA : s.Asteroids[k]? = some A) :
    ∃ Bs, Bs.length = s.EnemyBullets.length ∧
      EnemyBulletBody dt inp r s = some { s with
        Asteroids := if HP0 - 1 ≤ 0 then s.Asteroids.set k A.deactivate else s.Asteroids
        AsteroidHP := s.AsteroidHP.set k (HP0 - 1)
        EnemyBullets := Bs
        Events := s.Events ++ [Event.PlaySoundAtLocation]
        InvadersGameState := { s.InvadersGameState with
          ActiveEnemyBullets := s.InvadersGameState.ActiveEnemyBullets - 1 } } := by
  have hrl : r < s.EnemyBullets.length := by omega
  obtain ⟨Bs, hBs, _, hD⟩ := DeleteEnemyBullet_true r
    { s with
      EnemyBullets := s.EnemyBullets.set r (MoveEnemyBullet dt s s.EnemyBullets[r])
      Asteroids := if HP0 - 1 ≤ 0 then s.Asteroids.set k A.deactivate else s.Asteroids
      AsteroidHP := s.AsteroidHP.set k (HP0 - 1)
      Events := s.Events ++ [Event.PlaySoundAtLocation] }
    (by show 1 ≤ s.InvadersGameState.ActiveEnemyBullets; omega)
    (by simpa using hcap) (by simpa using hrl)
  refine ⟨Bs, by simpa using hBs, ?_⟩
  simp only [EnemyBulletBody, List.getElem?_eq_getElem hrl, Option.some_bind, hO,
    EnemyBulletUnit, EnemyBulletHits, ActorRef.IsAsteroid, if_true, Bool.true_or, Bool.or_true]
  rw [AsteroidHit_some k
    { s with EnemyBullets := s.EnemyBullets.set r (MoveEnemyBullet dt s s.EnemyBullets[r]) }
    HP0 A hHP hA]
  simp only [Option.some_bind]
  rw [hD]

/-- `n ≤ H` hits in a row on a visible asteroid with `H` hit points: the hit points are
`H - n`, the asteroid is untouched while `n < H` and hidden at `n = H`, the other asteroids
and their hit points are unchanged. -/
theorem AsteroidHits_spec (k : Nat) (A : AActor) :
    ∀ (n : Nat) (s : AInvadersGameMode) (H : Int),
      s.AsteroidHP[k]? = some H → s.Asteroids[k]? = some A → (n : Int) ≤ H →
      ∃ t, AsteroidHits k n s = some t ∧ t.AsteroidHP[k]? = some (H - n) ∧
        ((n : Int) < H → t.Asteroids[k]? = some A) ∧
        (1 ≤ n → (n : Int) = H → t.Asteroids[k]? = some A.deactivate) ∧
        (∀ j, j ≠ k → t.AsteroidHP[j]? = s.AsteroidHP[j]? ∧ t.Asteroids[j]? = s.Asteroids[j]?) := by
  intro n
  induction n with
  | zero =>
    intro s H hHP hA _
    exact ⟨s, rfl, by simpa using hHP, fun _ => hA, fun h => absurd h (by decide),
      fun j _ => ⟨rfl, rfl⟩⟩
  | succ n ih =>
    intro s H hHP hA hn
    have hkH : k < s.AsteroidHP.length := getElem?_some_lt _ _ _ hHP
    have hkA : k < s.Asteroids.length := getElem?_some_lt _ _ _ hA
    have hstep := AsteroidHit_some k s H A hHP hA
    by_cases h1 : H - 1 ≤ 0
    · -- the last hit: `H = 1` and `n = 0`
      have hH : H = 1 := by push_cast at hn; omega
      have hn0 : n = 0 := by push_cast at hn; omega
      subst hn0
      refine ⟨_, by simp only [AsteroidHits, hstep, Option.some_bind]; rfl, ?_, ?_, ?_, ?_⟩
      · simp [List.getElem?_set_self hkH, hH]
      · intro hlt; rw [hH] at hlt; simp at hlt
      · intro _ _
        simp only [if_pos h1]
        exact List.getElem?_set_self hkA
      · intro j hj
        simp only [if_pos h1]
        exact ⟨List.getElem?_set_ne (Ne.symm hj), List.getElem?_set_ne (Ne.symm hj)⟩
    · obtain ⟨t, ht, e1, e2, e3, e4⟩ := ih
        { s with
          Asteroids := if H - 1 ≤ 0 then s.Asteroids.set k A.deactivate else s.Asteroids
          AsteroidHP := s.AsteroidHP.set k (H - 1) }
        (H - 1) (by simp [List.getElem?_set_self hkH]) (by simp only [if_neg h1]; exact hA)
        (by push_cast at hn; omega)
      refine ⟨t, by simp only [AsteroidHits, hstep, Option.some_bind]; exact ht, ?_, ?_, ?_, ?_⟩
      · rw [e1]; congr 1; push_cast; ring
      · intro hlt; exact e2 (by push_cast at hlt; omega)
      · intro _ hnH
        have hn1 : 1 ≤ n := by push_cast at hnH; omega
        exact e3 hn1 (by push_cast at hnH; omega)
      · intro j hj
        obtain ⟨f1, f2⟩ := e4 j hj
        rw [f1, f2]
        simp only [if_neg h1]
        exact ⟨List.getElem?_set_ne (Ne.symm hj), trivial⟩

/-- C18: asteroid hit points. (1) After `ResetUnits` every asteroid has the hit points
`AsteroidDef.Health` and is visible and collidable. (2) The iteration of either bullet loop
for an active bullet that overlaps the asteroid `k` returns, lowers the hit points of `k` by
exactly 1 (the entries of the other asteroids are unchanged), removes the bullet (the count
drops by 1), and hides the asteroid exactly when the new hit points are `≤ 0`. (3) For a
visible asteroid with `H ≥ 1` hit points and `n ≤ H` hits in a row, the hit points are
`H - n`; the asteroid is visible and collidable while `n < H` and hidden and not collidable
at `n = H`; the other asteroids and their hit points are unchanged. -/
theorem asteroid_hit_points (s : AInvadersGameMode) :
    ((ResetUnits s).AsteroidDef = s.AsteroidDef ∧
      (ResetUnits s).Asteroids.length = s.Asteroids.length ∧
      (ResetUnits s).AsteroidHP.length = s.Asteroids.length ∧
      ∀ k, k < s.Asteroids.length →
        (ResetUnits s).AsteroidHP[k]? = some s.AsteroidDef.Health ∧
        ∃ A, (ResetUnits s).Asteroids[k]? = some A ∧ A.Hidden = false ∧ A.Collision = true) ∧
    (∀ (dt : ℚ) (inp : FTickInput) (r k : Nat) (HP0 : Int) (A : AActor),
      (r : Int) < s.InvadersGameState.ActivePlayerBullets →
      s.InvadersGameState.ActivePlayerBullets ≤ s.PlayerBullets.length →
      inp.PlayerOverlap r = some (.Asteroid k) →
      s.AsteroidHP[k]? = some HP0 → s.Asteroids[k]? = some A →
      ∃ t, PlayerBulletBody dt inp r s = some t ∧
        t.AsteroidHP = s.AsteroidHP.set k (HP0 - 1) ∧
        t.Asteroids = (if HP0 - 1 ≤ 0 then s.Asteroids.set k A.deactivate else s.Asteroids) ∧
        t.InvadersGameState.ActivePlayerBullets
          = s.InvadersGameState.ActivePlayerBullets - 1) ∧
    (∀ (dt : ℚ) (inp : FTickInput) (r k : Nat) (HP0 : Int) (A : AActor),
      (r : Int) < s.InvadersGameState.ActiveEnemyBullets →
      s.InvadersGameState.ActiveEnemyBullets ≤ s.EnemyBullets.length →
      inp.EnemyOverlap r = some (.Asteroid k) →
      s.AsteroidHP[k]? = some HP0 → s.Asteroids[k]? = some A →
      ∃ t, EnemyBulletBody dt inp r s = some t ∧
        t.AsteroidHP = s.AsteroidHP.set k (HP0 - 1) ∧
        t.Asteroids = (if HP0 - 1 ≤ 0 then s.Asteroids.set k A.deactivate else s.Asteroids) ∧
        t.InvadersGameState.ActiveEnemyBullets
          = s.InvadersGameState.ActiveEnemyBullets - 1) ∧
    (∀ (k : Nat) (A : AActor) (H : Int) (n : Nat),
      s.AsteroidHP[k]? = some H → s.Asteroids[k]? = some A →
      A.Hidden = false → A.Collision = true → 1 ≤ H → (n : Int) ≤ H →
      ∃ t, AsteroidHits k n s = some t ∧ t.AsteroidHP[k]? = some (H - n) ∧
        ((n : Int) < H →
          ∃ A1, t.Asteroids[k]? = some A1 ∧ A1.Hidden = false ∧ A1.Collision = true) ∧
        ((n : Int) = H →
          ∃ A1, t.Asteroids[k]? = some A1 ∧ A1.Hidden = true ∧ A1.Collision = false) ∧
        (∀ j, j ≠ k →
          t.AsteroidHP[j]? = s.AsteroidHP[j]? ∧ t.Asteroids[j]? = s.Asteroids[j]?)) := by
  refine ⟨?_, ?_, ?_, ?_⟩
  · rw [ResetUnits_frame]
    refine ⟨rfl, by simp, by simp, ?_⟩
    intro k hk
    refine ⟨by rw [List.getElem?_map, List.getElem?_eq_getElem hk]; rfl,
      (s.Asteroids[k]).activate, ?_, rfl, rfl⟩
    simp [List.getElem?_eq_getElem hk]
  · intro dt inp r k HP0 A hr hcap hO hHP hA
    obtain ⟨Bs, _, hb⟩ := PlayerBulletBody_asteroid dt inp r k s HP0 A hr hcap hO hHP hA
    exact ⟨_, hb, by rw [AllEnemiesKilled_frame], by rw [AllEnemiesKilled_frame],
      by rw [AllEnemiesKilled_frame]⟩
  · intro dt inp r k HP0 A hr hcap hO hHP hA
    obtain ⟨Bs, _, hb⟩ := EnemyBulletBody_asteroid dt inp r k s HP0 A hr hcap hO hHP hA
    exact ⟨_, hb, rfl, rfl, rfl⟩
  · intro k A H n hHP hA hvis hcol hH hn
    obtain ⟨t, ht, e1, e2, e3, e4⟩ := AsteroidHits_spec k A n s H hHP hA hn
    refine ⟨t, ht, e1, fun h => ⟨A, e2 h, hvis, hcol⟩, ?_, e4⟩
    intro h
    exact ⟨A.deactivate, e3 (by omega) h, rfl, rfl⟩

/-- C18 in the sample game (health 5): in its first wave the asteroid 1 has 5 hit points;
the hit of the player bullet in flight leaves 4 and removes the bullet; after 4 hits in a
row the asteroid is still visible, after 5 it has 0 hit points and is hidden. -/
theorem asteroid_hit_points_witness :
    Reachable (SampleAfter LastShotInputs) ∧
    (SampleAfter LastShotInputs).AsteroidDef.Health = 5 ∧
    (SampleAfter LastShotInputs).AsteroidHP = [5, 5, 5, 5] ∧
    (∃ t, PlayerBulletBody (1 / 10) HitAsteroid1 0 (SampleAfter LastShotInputs) = some t ∧
      t.AsteroidHP = [5, 4, 5, 5] ∧ t.InvadersGameState.ActivePlayerBullets = 0) ∧
    (∃ t, AsteroidHits 1 4 (SampleAfter LastShotInputs) = some t ∧
      t.AsteroidHP[1]? = some 1 ∧
      ∃ A1, t.Asteroids[1]? = some A1 ∧ A1.Hidden = false ∧ A1.Collision = true) ∧
    (∃ t, AsteroidHits 1 5 (SampleAfter LastShotInputs) = some t ∧
      t.AsteroidHP[1]? = some 0 ∧
      ∃ A1, t.Asteroids[1]? = some A1 ∧ A1.Hidden = true ∧ A1.Collision = false) := by
  have hd : ((StartPlay (SampleMode FGameRules.default)).bind fun s =>
        Run s LastShotInputs).isSome = true ∧
      (SampleAfter LastShotInputs).AsteroidHP = [5, 5, 5, 5] ∧
      (SampleAfter LastShotInputs).Asteroids[1]?
        = some ⟨7, ⟨(-400 : ℚ) / 3, 300, 0⟩, false, true⟩ ∧
      (SampleAfter LastShotInputs).InvadersGameState.ActivePlayerBullets = 1 ∧
      ((0 : Nat) : Int) < (SampleAfter LastShotInputs).InvadersGameState.ActivePlayerBullets ∧
      (SampleAfter LastShotInputs).InvadersGameState.ActivePlayerBullets
        ≤ (SampleAfter LastShotInputs).PlayerBullets.length ∧
      (SampleAfter LastShotInputs).AsteroidDef.Health = 5 := by decide!
  obtain ⟨d0, hHP, hA, hAPB, d4, d5, d6⟩ := hd
  have hR : Reachable (SampleAfter LastShotInputs) := Reachable_SampleAfter _ d0
  have hHP1 : (SampleAfter LastShotInputs).AsteroidHP[1]? = some 5 := by rw [hHP]; rfl
  have h := asteroid_hit_points (SampleAfter LastShotInputs)
  obtain ⟨t, ht, e1, _, e3⟩ := h.2.1 (1 / 10) HitAsteroid1 0 1 5 _ d4 d5
    rfl hHP1 hA
  obtain ⟨t4, ht4, f1, f2, _, _⟩ := h.2.2.2 1 _ 5 4 hHP1 hA rfl rfl (by decide) (by decide)
  obtain ⟨t5, ht5, g1, _, g3, _⟩ := h.2.2.2 1 _ 5 5 hHP1 hA rfl rfl (by decide) (by decide)
  refine ⟨hR, d6, hHP, ⟨t, ht, ?_, ?_⟩, ⟨t4, ht4, f1, f2 (by decide)⟩,
    ⟨t5, ht5, g1, g3 rfl⟩⟩
  · rw [e1, hHP]; rfl
  · rw [e3, hAPB]; rfl

/-! ### Bounds of the active enemy count -/

theorem EnemyCountInv_of_same (s t : AInvadersGameMode) (h : EnemyCountSame s t)
    (hs : EnemyCountInv s) : EnemyCountInv t := by
  obtain ⟨h1, h2, h3, h4⟩ := h
  unfold EnemyCountInv GridWF
  rw [h1, h2, h3, h4]
  exact hs

theorem EnemyCountSame_refl (s : AInvadersGameMode) : EnemyCountSame s s := ⟨rfl, rfl, rfl, rfl⟩

theorem EnemyCountSame_trans (a b c : AInvadersGameMode) (h : EnemyCountSame a b)
    (g : EnemyCountSame b c) : EnemyCountSame a c :=
  ⟨g.1.trans h.1, g.2.1.trans h.2.1, g.2.2.1.trans h.2.2.1, g.2.2.2.trans h.2.2.2⟩

theorem VisibleCount_le (l : List AActor) : VisibleCount l ≤ l.length := List.countP_le_length _

/-- Hiding a visible enemy lowers the number of visible enemies by one. -/
theorem VisibleCount_set_deactivate : ∀ (l : List AActor) (i : Nat) (E : AActor),
    l[i]? = some E → E.Hidden = false →
    VisibleCount (l.set i E.deactivate) + 1 = VisibleCount l := by
  intro l
  induction l with
  | nil => intro i E h; simp at h
  | cons a l ih =>
    intro i E h hv
    cases i with
    | zero =>
      simp only [List.getElem?_cons_zero, Option.some.injEq] at h
      subst h
      simp [VisibleCount, List.countP_cons, AActor.deactivate, hv]
    | succ i =>
      simp only [List.getElem?_cons_succ] at h
      have := ih i E h hv
      simp only [VisibleCount, List.set_cons_succ, List.countP_cons] at this ⊢
      omega

/-- After the hiding loop over all slots no enemy is visible. -/
theorem VisibleCount_forFirst_deactivate : ∀ (n : Nat) (l : List AActor), l.length ≤ n →
    VisibleCount (forFirst AActor.deactivate n l) = 0 := by
  intro n
  induction n with
  | zero =>
    intro l h
    have : l = [] := List.length_eq_zero.1 (by omega)
    subst this; rfl
  | succ n ih =>
    intro l h
    cases l with
    | nil => rfl
    | cons a l =>
      have := ih l (by simpa using h)
      simp only [VisibleCount, forFirst, List.countP_cons] at this ⊢
      simp [this, AActor.deactivate]

theorem EnemyCountInv_spawn (s : AInvadersGameMode) (hs : EnemyCountInv s) :
    EnemyCountInv (SpawnEnemies s) := by
  obtain ⟨⟨hG, hL⟩, _, _⟩ := hs
  rw [SpawnEnemies_frame]
  refine ⟨⟨hG, by simpa [forFirst_length] using hL⟩, ?_, le_refl _⟩
  have h := VisibleCount_le
    (forFirst AActor.activate s.InvadersGameState.TotalEnemyNum s.EnemyShips)
  rw [forFirst_length, hL] at h
  show ((VisibleCount (forFirst AActor.activate s.InvadersGameState.TotalEnemyNum
    s.EnemyShips) : Nat) : Int) ≤ (s.InvadersGameState.TotalEnemyNum : Int)
  exact_mod_cast h

theorem EnemyCountInv_reset (s t : AInvadersGameMode) (hs : EnemyCountInv s)
    (hR : t.Rules = s.Rules)
    (hE : t.EnemyShips = forFirst AActor.deactivate s.InvadersGameState.TotalEnemyNum s.EnemyShips)
    (hT : t.InvadersGameState.TotalEnemyNum = s.InvadersGameState.TotalEnemyNum)
    (hA : t.InvadersGameState.ActiveEnemyNum = s.InvadersGameState.ActiveEnemyNum) :
    EnemyCountInv t := by
  obtain ⟨⟨hG, hL⟩, h1, h2⟩ := hs
  unfold EnemyCountInv GridWF
  rw [hR, hE, hT, hA, forFirst_length, VisibleCount_forFirst_deactivate _ _ (by omega)]
  refine ⟨⟨hG, hL⟩, ?_, h2⟩
  have : (0 : Int) ≤ (VisibleCount s.EnemyShips : Int) := Int.natCast_nonneg _
  simp only [Nat.cast_zero]
  omega

/-- A reflexive and transitive relation holds for one iteration of the loop of
`UpdateEnemyBullets` once it holds for each of its blocks. -/
theorem EnemyBulletBody_rel (P : AInvadersGameMode → AInvadersGameMode → Prop)
    (hrefl : ∀ s, P s s) (htrans : ∀ a b c, P a b → P b c → P a c)
    (hmove : ∀ (s : AInvadersGameMode) (Bs : List AActor), Bs.length = s.EnemyBullets.length →
      P s { s with EnemyBullets := Bs })
    (hast : ∀ (s : AInvadersGameMode) (As : List AActor) (HPs : List Int),
      As.length = s.Asteroids.length → P s { s with Asteroids := As, AsteroidHP := HPs })
    (hhit : ∀ s, P s (HandlePlayerHit s))
    (hsound : ∀ (s : AInvadersGameMode) (e : Event), P s { s with Events := s.Events ++ [e] })
    (hdel : ∀ (s : AInvadersGameMode) (Bs : List AActor),
      Bs.length = s.EnemyBullets.length →
      1 ≤ s.InvadersGameState.ActiveEnemyBullets →
      s.InvadersGameState.ActiveEnemyBullets ≤ s.EnemyBullets.length →
      P s { s with
        EnemyBullets := Bs
        InvadersGameState := { s.InvadersGameState with
          ActiveEnemyBullets := s.InvadersGameState.ActiveEnemyBullets - 1 } })
    (dt : ℚ) (inp : FTickInput) (r : Nat) (s t : AInvadersGameMode)
    (h : EnemyBulletBody dt inp r s = some t) : P s t := by
  obtain ⟨B, s1, hB, h1, h2⟩ := EnemyBulletBody_inv dt inp r s t h
  have hs0 : P s { s with EnemyBullets := s.EnemyBullets.set r (MoveEnemyBullet dt s B) } :=
    hmove s _ (by simp)
  have hs1 : P { s with EnemyBullets := s.EnemyBullets.set r (MoveEnemyBullet dt s B) } s1 := by
    rcases EnemyBulletUnit_inv _ _ _ h1 with ⟨_, e⟩ | ⟨_, U, t1, _, _, hA, e⟩ | ⟨_, U, _, _, _, e⟩
    · rw [e]; exact hrefl _
    · obtain ⟨k', HP0, A, _, _, _, ht1⟩ := AsteroidHit_inv U _ t1 hA
      rw [e]
      refine htrans _ _ _ ?_ (hsound t1 _)
      rw [ht1]
      apply hast
      split <;> simp
    · rw [e]
      exact htrans _ _ _ (hhit _) (hsound _ _)
  have hs2 : P s1 t := by
    rcases DeleteEnemyBullet_inv _ _ _ _ h2 with ⟨_, e⟩ | ⟨_, res, hD, e⟩
    · rw [e]; exact hrefl _
    · obtain ⟨e1, e2, e3, e4⟩ := DeleteBullet_inv _ _ _ _ hD
      rw [e, e1]
      exact hdel s1 res.1 e2 e3 e4
  exact htrans _ _ _ hs0 (htrans _ _ _ hs1 hs2)

/-- `UpdateEnemyBullets` leaves the grid and the enemy count as they are. -/
theorem UpdateEnemyBullets_EnemyCountSame (dt : ℚ) (inp : FTickInput)
    (s t : AInvadersGameMode) (h : UpdateEnemyBullets dt inp s = some t) :
    EnemyCountSame s t := by
  refine EnemyBulletLoop_rel EnemyCountSame EnemyCountSame_refl EnemyCountSame_trans dt inp
    ?_ _ s t h
  intro r s t hb
  refine EnemyBulletBody_rel EnemyCountSame EnemyCountSame_refl EnemyCountSame_trans
    ?_ ?_ ?_ ?_ ?_ dt inp r s t hb
  · intro s Bs _; exact EnemyCountSame_refl s
  · intro s As HPs _; exact EnemyCountSame_refl s
  · intro s; rw [HandlePlayerHit_frame]; exact EnemyCountSame_refl s
  · intro s e; exact EnemyCountSame_refl s
  · intro s Bs _ _ _; exact EnemyCountSame_refl s

/-- The blocks of `Tick` before the bullet loops leave the grid and the enemy count as they
are. -/
theorem BeforePlayerBullets_EnemyCountSame (dt : ℚ) (inp : FTickInput) (s : AInvadersGameMode) :
    EnemyCountSame s (BeforePlayerBullets dt inp s) := by
  have h1 : ∀ x, EnemyCountSame x (UpdateEnemyAppearAnimation dt x) := by
    intro x; rw [UpdateEnemyAppearAnimation_frame]; exact ⟨rfl, rfl, rfl, rfl⟩
  have h2 : ∀ x, EnemyCountSame x (UpdatePlayerAppearAnimation dt x) := by
    intro x; rw [UpdatePlayerAppearAnimation_frame]; exact ⟨rfl, rfl, rfl, rfl⟩
  have h3 : ∀ x, EnemyCountSame x (UpdatePlayerMovement dt inp x) := by
    intro x; rw [UpdatePlayerMovement_frame]; exact ⟨rfl, rfl, rfl, rfl⟩
  have h4 : ∀ x, EnemyCountSame x (UpdateEnemyGroupMovement dt x) := by
    intro x; rw [UpdateEnemyGroupMovement_frame]; exact ⟨rfl, rfl, rfl, rfl⟩
  have h5 : ∀ x, EnemyCountSame x (UpdateUfoMovement dt inp.UfoAppearTime x) := by
    intro x; rw [UpdateUfoMovement_frame]; exact ⟨rfl, rfl, rfl, rfl⟩
  unfold BeforePlayerBullets
  exact EnemyCountSame_trans _ _ _ (h1 s) (EnemyCountSame_trans _ _ _ (h2 _)
    (EnemyCountSame_trans _ _ _ (h3 _) (EnemyCountSame_trans _ _ _ (h4 _) (h5 _))))

/-- One iteration of the player loop keeps the count invariant when its overlap reports a
visible unit. -/
theorem PlayerBulletBody_EnemyCountInv (dt : ℚ) (inp : FTickInput) (r : Nat)
    (s t : AInvadersGameMode) (hs : EnemyCountInv s)
    (hv : OverlapVisible s (inp.PlayerOverlap r) = true)
    (h : PlayerBulletBody dt inp r s = some t) : EnemyCountInv t := by
  obtain ⟨B, s1, s2, hB, h1, h2, ht⟩ := PlayerBulletBody_inv dt inp r s t h
  have hs1 : EnemyCountInv s1 := by
    rcases PlayerBulletUnit_inv _ _ _ _ h1 with ⟨_, e⟩ | ⟨U, t1, hU, hH, e⟩
    · rw [e]; exact EnemyCountInv_of_same s _ (EnemyCountSame_refl s) hs
    · obtain ⟨hUE, hO⟩ := PlayerUnitActor_IsEnemy inp r U hU
      rw [e]
      refine EnemyCountInv_of_same t1 _ (EnemyCountSame_refl t1) ?_
      rcases PlayerBulletHit_inv _ U _ t1 hUE hH with ⟨k, _, hA⟩ | ⟨_, Points, _, ht1⟩ |
        ⟨i, E, Points, hUi, hE, _, hR⟩
      · obtain ⟨k', HP0, A, _, _, _, ht1⟩ := AsteroidHit_inv U _ t1 hA
        rw [ht1]
        exact EnemyCountInv_of_same s _ (EnemyCountSame_refl s) hs
      · rw [ht1]
        exact EnemyCountInv_of_same s _ (EnemyCountSame_refl s) hs
      · obtain ⟨Sh, ht1⟩ := ReorganizeShooters_inv _ _ _ hR
        have hE' : s.EnemyShips[i]? = some E := hE
        have hvis : E.Hidden = false := by
          rw [hO, hUi] at hv
          simp only [OverlapVisible, Deref, hE'] at hv
          simp at hv
          exact hv.1
        obtain ⟨⟨hG, hL⟩, c1, c2⟩ := hs
        have hc := VisibleCount_set_deactivate s.EnemyShips i E hE' hvis
        rw [ht1]
        refine ⟨⟨hG, by simpa using hL⟩, ?_, ?_⟩
        · show ((VisibleCount (s.EnemyShips.set i E.deactivate) : Nat) : Int)
            ≤ s.InvadersGameState.ActiveEnemyNum - 1
          omega
        · show s.InvadersGameState.ActiveEnemyNum - 1
            ≤ (s.InvadersGameState.TotalEnemyNum : Int)
          omega
  have hs2 : EnemyCountInv s2 := by
    rcases DeletePlayerBullet_inv _ _ _ _ h2 with ⟨_, e⟩ | ⟨_, res, hD, e⟩
    · rw [e]; exact hs1
    · rw [e]; exact EnemyCountInv_of_same s1 _ (EnemyCountSame_refl s1) hs1
  rw [ht, AllEnemiesKilled_frame]
  exact EnemyCountInv_of_same s2 _ (EnemyCountSame_refl s2) hs2

theorem PlayerBulletLoop_EnemyCountInv (dt : ℚ) (inp : FTickInput) :
    ∀ (n : Nat) (s t : AInvadersGameMode), EnemyCountInv s →
      PlayerOverlapsVisible dt inp n s = true → PlayerBulletLoop dt inp n s = some t →
      EnemyCountInv t := by
  intro n
  induction n with
  | zero =>
    intro s t hs _ h
    simp only [PlayerBulletLoop, Option.some.injEq] at h
    rw [← h]; exact hs
  | succ n ih =>
    intro s t hs hv h
    simp only [PlayerBulletLoop, Option.bind_eq_some] at h
    obtain ⟨u, hu, ht⟩ := h
    simp only [PlayerOverlapsVisible, hu, Bool.and_eq_true] at hv
    exact ih u t (PlayerBulletBody_EnemyCountInv dt inp n s u hs hv.1 hu) hv.2 ht

/-- A tick whose overlaps report visible units only keeps the count invariant. -/
theorem Tick_EnemyCountInv (dt : ℚ) (inp : FTickInput) (s t : AInvadersGameMode)
    (hs : EnemyCountInv s) (hv : Input.OverlapsVisible s (.Tick dt inp) = true)
    (h : Tick dt inp s = some t) : EnemyCountInv t := by
  unfold Tick at h
  split at h
  · cases h; exact hs
  · rename_i hg
    simp only [Option.bind_eq_some] at h
    obtain ⟨u, hu, ht⟩ := h
    have hv' : PlayerOverlapsVisible dt inp
        (BeforePlayerBullets dt inp s).InvadersGameState.ActivePlayerBullets.toNat
        (BeforePlayerBullets dt inp s) = true := by
      simp only [Input.OverlapsVisible, Bool.or_eq_true] at hv
      rcases hv with hv | hv
      · exact absurd (by simpa using hv) hg
      · exact hv
    have h5 := EnemyCountInv_of_same s _ (BeforePlayerBullets_EnemyCountSame dt inp s) hs
    have hu' : PlayerBulletLoop dt inp
        (BeforePlayerBullets dt inp s).InvadersGameState.ActivePlayerBullets.toNat
        (BeforePlayerBullets dt inp s) = some u := hu
    have h6 := PlayerBulletLoop_EnemyCountInv dt inp _ _ u h5 hv' hu'
    exact EnemyCountInv_of_same u t (UpdateEnemyBullets_EnemyCountSame dt inp u t ht) h6

/-- An engine call whose overlaps report visible units only keeps the count invariant. -/
theorem Step_EnemyCountInv (s t : AInvadersGameMode) (i : Input) (hs : EnemyCountInv s)
    (hv : i.OverlapsVisible s = true) (h : Step s i = some t) : EnemyCountInv t := by
  cases i with
  | Tick dt inp =>
    simp only [Step] at h
    split at h
    · exact Tick_EnemyCountInv dt inp s t hs hv h
    · cases h
  | StartGameButton =>
    simp only [Step] at h
    split at h
    · cases h; exact EnemyCountInv_of_same s _ ⟨rfl, rfl, rfl, rfl⟩ hs
    · cases h
  | TutorialShootPressed Rand =>
    simp only [Step] at h
    split at h
    · cases h
      refine EnemyCountInv_reset s _ hs ?_ ?_ ?_ ?_ <;> rw [RestartInvadersGame_frame]
    · cases h
  | RestartButton Rand =>
    simp only [Step] at h
    split at h
    · cases h
      refine EnemyCountInv_reset s _ hs ?_ ?_ ?_ ?_ <;> rw [RestartInvadersGame_frame]
    · cases h
  | ExitButton =>
    simp only [Step] at h
    split at h
    · cases h
      refine EnemyCountInv_reset s _ hs ?_ ?_ ?_ ?_ <;> rw [ShowMainMenu_frame]
    · cases h
  | ShootPressed =>
    obtain ⟨b, hd, Bs, c, _, _, _, ht⟩ := HandlePlayerShootPressed_inv s t h
    rw [ht]; exact EnemyCountInv_of_same s _ ⟨rfl, rfl, rfl, rfl⟩ hs
  | ShootReleased =>
    simp only [Step, Option.some.injEq] at h
    rw [← h, HandlePlayerShootReleased_frame]
    exact EnemyCountInv_of_same s _ ⟨rfl, rfl, rfl, rfl⟩ hs
  | EscapePressed =>
    simp only [Step, Option.some.injEq] at h
    rw [← h, HandleTogglePausePressed_frame]
    exact EnemyCountInv_of_same s _ ⟨rfl, rfl, rfl, rfl⟩ hs
  | EnemyAppearTimer =>
    simp only [Step] at h
    split at h
    · cases h
      exact EnemyCountInv_spawn _ (EnemyCountInv_of_same s _ ⟨rfl, rfl, rfl, rfl⟩ hs)
    · cases h
  | PlayerAppearTimer =>
    simp only [Step] at h
    split at h
    · cases h; exact EnemyCountInv_of_same s _ ⟨rfl, rfl, rfl, rfl⟩ hs
    · cases h
  | EnemyShootTimer Rand =>
    simp only [Step] at h
    split at h
    · obtain ⟨hd, Bs, c, _, _, _, ht⟩ := EnemyShootTimerCallback_inv Rand _ t h
      rw [ht]; exact EnemyCountInv_of_same s _ ⟨rfl, rfl, rfl, rfl⟩ hs
    · cases h
  | PlayerShootTimer =>
    simp only [Step] at h
    split at h
    · rcases PlayerShootTimerCallback_inv _ t h with e | e | ⟨_, _, Bs, _, e⟩ <;>
        (rw [e]; exact EnemyCountInv_of_same s _ ⟨rfl, rfl, rfl, rfl⟩ hs)
    · cases h
  | UfoAppearTimer Rand =>
    simp only [Step] at h
    split at h
    · cases h
      rw [UfoAppearCallback_frame]
      exact EnemyCountInv_of_same s _ ⟨rfl, rfl, rfl, rfl⟩ hs
    · cases h

/-- The enemy count and the grid after `StartPlay`: every enemy is hidden. -/
theorem StartPlay_count (s0 s : AInvadersGameMode) (h : StartPlay s0 = some s) :
    s.InvadersGameState.ActiveEnemyNum = s0.InvadersGameState.ActiveEnemyNum ∧
    s.InvadersGameState.TotalEnemyNum = s0.InvadersGameState.TotalEnemyNum ∧
    ∃ l, l.length = s0.EnemyShips.length + s0.InvadersGameState.TotalEnemyNum ∧
      s.EnemyShips = forFirst AActor.deactivate s0.InvadersGameState.TotalEnemyNum l := by
  simp only [StartPlay, Option.bind_eq_some, Option.some.injEq] at h
  obtain ⟨s2, h1, h2⟩ := h
  unfold InitGameObjects at h1
  split at h1
  · cases h1
  · simp only [Option.bind_eq_some, Option.some.injEq] at h1
    obtain ⟨Ships, hS, Top, _, ht⟩ := h1
    have hlen := SpawnEnemyShips_length _ _ Ships hS
    rw [← h2, ShowMainMenu_frame, ← ht, ResetUnits_frame]
    refine ⟨?_, ?_, forFirst AActor.deactivate s0.InvadersGameState.TotalEnemyNum
      (s0.EnemyShips ++ Ships), ?_, ?_⟩
    · unfold LoadHiScore; split <;> rfl
    · unfold LoadHiScore; split <;> rfl
    · rw [forFirst_length, List.length_append, hlen]
      unfold LoadHiScore; split <;> rfl
    · unfold LoadHiScore; split <;> rfl

/-- The count invariant holds in every state reached with overlaps of visible units. -/
theorem ReachableVisible_EnemyCountInv (s : AInvadersGameMode) (hs : ReachableVisible s) :
    EnemyCountInv s := by
  induction hs with
  | start Rules PlayerDef EnemyDefs EnemySpawnPoint UfoSpawnPoint AsteroidDef PlayerBulletDef
      EnemyBulletDef SaveSlot s h =>
    have hWF := Reachable_GridWF s (Reachable.start _ _ _ _ _ _ _ _ _ s h)
    obtain ⟨e1, e2, l, hl, e3⟩ := StartPlay_count _ _ h
    refine ⟨hWF, ?_, ?_⟩
    · rw [e3, VisibleCount_forFirst_deactivate _ _ (by rw [hl]; simp [InitGame, NewGameMode]), e1]
      simp only [InitGame, NewGameMode, Nat.cast_zero]
      exact Int.natCast_nonneg _
    · rw [e1, e2]
      simp [InitGame, NewGameMode]
  | step s t i _ hv h ih => exact Step_EnemyCountInv s t i ih hv h

theorem ReachableVisible_Reachable (s : AInvadersGameMode) (hs : ReachableVisible s) :
    Reachable s := by
  induction hs with
  | start Rules PlayerDef EnemyDefs EnemySpawnPoint UfoSpawnPoint AsteroidDef PlayerBulletDef
      EnemyBulletDef SaveSlot s h => exact Reachable.start _ _ _ _ _ _ _ _ _ s h
  | step s t i _ _ h ih => exact Reachable.step s t i ih h

theorem ReachableVisible_RunVisible : ∀ (s : AInvadersGameMode) (ins : List Input)
    (t : AInvadersGameMode), ReachableVisible s → RunVisible s ins = some t →
    ReachableVisible t ∧ Run s ins = some t := by
  intro s ins
  induction ins generalizing s with
  | nil =>
    intro t hs h
    simp only [RunVisible, Option.some.injEq] at h
    rw [← h]; exact ⟨hs, rfl⟩
  | cons i ins ih =>
    intro t hs h
    simp only [RunVisible] at h
    split at h
    · rename_i hv
      simp only [Option.bind_eq_some] at h
      obtain ⟨u, hu, ht⟩ := h
      obtain ⟨h1, h2⟩ := ih u t (ReachableVisible.step s u i hs hv hu) ht
      exact ⟨h1, by simp [Run, hu, h2]⟩
    · cases h

/-- The sample game after engine calls whose overlaps report visible units only. -/
theorem ReachableVisible_SampleAfter (ins : List Input)
    (h : ((StartPlay (SampleMode FGameRules.default)).bind fun s =>
      RunVisible s ins).isSome = true) :
    ReachableVisible (SampleAfter ins) := by
  obtain ⟨t, ht⟩ := Option.isSome_iff_exists.1 h
  simp only [Option.bind_eq_some] at ht
  obtain ⟨s, hs, hrun⟩ := ht
  obtain ⟨h1, h2⟩ := ReachableVisible_RunVisible s ins t
    (ReachableVisible.start _ _ _ _ _ _ _ _ _ s hs) hrun
  have e : SampleAfter ins = t := by
    unfold SampleAfter; rw [hs]; simp [h2]
  rw [e]
  exact h1

/-- C17: in every state reached from game initialisation by engine calls in which the
overlap of a player bullet only ever reports a unit that exists and is visible and
collidable (`ReachableVisible`), `0 ≤ ActiveEnemyNum ≤ TotalEnemyNum`; moreover
`ActiveEnemyNum` is at least the number of visible grid enemies. -/
theorem active_enemy_count_within_total (s : AInvadersGameMode) (hs : ReachableVisible s) :
    0 ≤ s.InvadersGameState.ActiveEnemyNum ∧
    s.InvadersGameState.ActiveEnemyNum ≤ (s.InvadersGameState.TotalEnemyNum : Int) ∧
    (VisibleCount s.EnemyShips : Int) ≤ s.InvadersGameState.ActiveEnemyNum ∧
    Reachable s := by
  obtain ⟨_, h1, h2⟩ := ReachableVisible_EnemyCountInv s hs
  refine ⟨?_, h2, h1, ReachableVisible_Reachable s hs⟩
  have : (0 : Int) ≤ (VisibleCount s.EnemyShips : Int) := Int.natCast_nonneg _
  omega

/-- C17 in the sample game after the bullet in flight killed the visible grid enemy 3:
49 of the 50 enemies are active. -/
theorem active_enemy_count_within_total_witness :
    ReachableVisible (SampleAfter (LastShotInputs ++ [.Tick (1 / 10) HitEnemy3])) ∧
    (SampleAfter (LastShotInputs ++ [.Tick (1 / 10) HitEnemy3])).InvadersGameState.ActiveEnemyNum
      = 49 ∧
    (SampleAfter (LastShotInputs ++ [.Tick (1 / 10) HitEnemy3])).InvadersGameState.TotalEnemyNum
      = 50 ∧
    0 ≤ (SampleAfter
      (LastShotInputs ++ [.Tick (1 / 10) HitEnemy3])).InvadersGameState.ActiveEnemyNum := by
  have hR : ReachableVisible (SampleAfter (LastShotInputs ++ [.Tick (1 / 10) HitEnemy3])) :=
    ReachableVisible_SampleAfter _ (by decide!)
  have hd : (SampleAfter
        (LastShotInputs ++ [.Tick (1 / 10) HitEnemy3])).InvadersGameState.ActiveEnemyNum = 49 ∧
      (SampleAfter
        (LastShotInputs ++ [.Tick (1 / 10) HitEnemy3])).InvadersGameState.TotalEnemyNum = 50 := by
    decide!
  exact ⟨hR, hd.1, hd.2, (active_enemy_count_within_total _ hR).1⟩

/-! ### Reverse iteration of the bullet loops -/

theorem drop_take_set_self (X : AActor) : ∀ (l : List AActor) (n b : Nat),
    n < l.length → n < b →
    ((l.set n X).take b).drop n = X :: (l.take b).drop (n + 1) := by
  intro l
  induction l with
  | nil => intro n b h; simp at h
  | cons x l ih =>
    intro n b hn hb
    cases b with
    | zero => omega
    | succ b =>
      cases n with
      | zero => simp
      | succ n =>
        simp only [List.set_cons_succ, List.take_succ_cons, List.drop_succ_cons]
        exact ih n b (by simpa using hn) (by omega)

theorem drop_take_set_outside (X : AActor) : ∀ (l : List AActor) (m a b : Nat),
    m < a ∨ b ≤ m → ((l.set m X).take b).drop a = (l.take b).drop a := by
  intro l
  induction l with
  | nil => intro m a b _; simp
  | cons x l ih =>
    intro m a b h
    cases b with
    | zero => simp
    | succ b =>
      cases m with
      | zero =>
        cases a with
        | zero => omega
        | succ a => simp
      | succ m =>
        cases a with
        | zero =>
          simp only [List.set_cons_succ, List.take_succ_cons, List.drop_zero]
          have := ih m 0 b (by omega)
          simp only [List.drop_zero] at this
          rw [this]
        | succ a =>
          simp only [List.set_cons_succ, List.take_succ_cons, List.drop_succ_cons]
          exact ih m a b (by omega)

theorem take_set_of_le (X : AActor) (l : List AActor) (m n : Nat) (h : n ≤ m) :
    (l.set m X).take n = l.take n := by
  have := drop_take_set_outside X l m 0 n (Or.inr h)
  simpa using this

theorem Seg_set_self (l : List AActor) (n b : Nat) (X : AActor) (hn : n < l.length)
    (hb : n < b) : Seg (l.set n X) n b = X.Location ::ₘ Seg l (n + 1) b := by
  unfold Seg
  rw [drop_take_set_self X l n b hn hb]
  rfl

theorem Seg_set_outside (l : List AActor) (m a b : Nat) (X : AActor) (h : m < a ∨ b ≤ m) :
    Seg (l.set m X) a b = Seg l a b := by
  unfold Seg
  rw [drop_take_set_outside X l m a b h]

theorem Seg_empty (l : List AActor) (a b : Nat) (h : b ≤ a) : Seg l a b = 0 := by
  unfold Seg
  have : (l.take b).drop a = [] := by
    apply List.drop_eq_nil_of_le
    rw [List.length_take]
    omega
  rw [this]
  rfl

theorem Seg_succ_right (l : List AActor) (a b : Nat) (hab : a ≤ b) (hb : b < l.length) :
    Seg l a (b + 1) = l[b].Location ::ₘ Seg l a b := by
  unfold Seg
  rw [← List.take_concat_get l b hb, List.concat_eq_append,
    List.drop_append_of_le_length (by rw [List.length_take]; omega), List.map_append]
  exact Multiset.coe_eq_coe.2 (List.perm_append_singleton _ _)

theorem Seg_succ_left (l : List AActor) (a b : Nat) (hab : a < b) (hb : b ≤ l.length) :
    Seg l a b = l[a].Location ::ₘ Seg l (a + 1) b := by
  unfold Seg
  have ha : a < (l.take b).length := by rw [List.length_take]; omega
  rw [List.drop_eq_getElem_cons ha]
  simp [List.getElem_take]

theorem Seg_le_succ_left (l : List AActor) (a b : Nat) : Seg l (a + 1) b ≤ Seg l a b := by
  unfold Seg
  apply List.Sublist.subperm
  apply List.Sublist.map
  rw [← List.drop_drop 1 a]
  exact List.drop_sublist _ _

/-- The delete step on a pool with count `a + 1`, in closed form. -/
theorem DeleteBullet_eq (l : List AActor) (a n : Nat) (ha : a < l.length) (hn : n < l.length) :
    ∃ X, (l.set a l[a].deactivate)[n]? = some X ∧
      DeleteBullet l ((a : Int) + 1) n =
        some ((l.set a l[a].deactivate).set n (X.SetActorLocation l[a].Location), (a : Int)) := by
  have hn1 : n < (l.set a l[a].deactivate).length := by simpa using hn
  refine ⟨(l.set a l[a].deactivate)[n], List.getElem?_eq_getElem hn1, ?_⟩
  have e1 : ((a : Int) + 1 - 1) = a := by ring
  have hlast : getAt l (a : Int) = some l[a] := by
    simp [getAt, List.getElem?_eq_getElem ha]
  simp [DeleteBullet, e1, hlast, List.getElem?_eq_getElem hn1]

theorem getElem?_of_take_eq (l l0 : List AActor) (n : Nat) (h : l.take (n + 1) = l0.take (n + 1)) :
    l[n]? = l0[n]? := by
  have h1 : (l.take (n + 1))[n]? = l[n]? := List.getElem?_take_of_lt (by omega)
  have h2 : (l0.take (n + 1))[n]? = l0[n]? := List.getElem?_take_of_lt (by omega)
  rw [← h1, ← h2, h]

theorem take_of_take_succ_eq (l l0 : List AActor) (n : Nat)
    (h : l.take (n + 1) = l0.take (n + 1)) : l.take n = l0.take n := by
  have h1 : (l.take (n + 1)).take n = l.take n := by rw [List.take_take]; simp
  have h2 : (l0.take (n + 1)).take n = l0.take n := by rw [List.take_take]; simp
  rw [← h1, ← h2, h]

/-- The loop invariant holds when the loop starts. -/
theorem PoolInv_init (mv : AActor → AActor) (pool0 : List AActor) (A0 : Int) (h0 : 0 ≤ A0)
    (hcap : A0 ≤ pool0.length) : PoolInv mv pool0 A0 A0.toNat (pool0, A0) := by
  refine ⟨by simp; omega, le_refl _, hcap, rfl, rfl, ?_, ?_⟩
  · intro hvis j a hj ha
    apply hvis
    have hjl : j < pool0.length := getElem?_some_lt _ _ _ ha
    rw [List.mem_iff_getElem?]
    exact ⟨j, by rw [List.getElem?_take_of_lt (by omega)]; exact ha⟩
  · rw [Seg_empty _ _ _ (le_refl _)]
    exact Multiset.zero_le _

/-- One iteration keeps the loop invariant and lowers the count by at most one. -/
theorem PoolInv_step (mv : AActor → AActor) (hmvH : ∀ B, (mv B).Hidden = B.Hidden)
    (pool0 : List AActor) (A0 : Int) (n : Nat) (p q : List AActor × Int)
    (hp : PoolInv mv pool0 A0 (n + 1) p) (hq : PoolStep mv n p q) :
    PoolInv mv pool0 A0 n q ∧ p.1[n]? = pool0[n]? := by
  obtain ⟨c1, c2, c3, c4, c5, c6, c7⟩ := hp
  obtain ⟨B, hB, hcase⟩ := hq
  have hnl : n < p.1.length := getElem?_some_lt _ _ _ hB
  have hB0 : pool0[n]? = some B := by rw [← getElem?_of_take_eq _ _ _ c5]; exact hB
  have htake : p.1.take n = pool0.take n := take_of_take_succ_eq _ _ _ c5
  have hBvis : (∀ a ∈ pool0.take A0.toNat, a.Hidden = false) → B.Hidden = false :=
    fun h0 => c6 h0 n B (by omega) hB
  have hnl0 : n < pool0.length := by omega
  have hnC : n < p.2.toNat := by omega
  have hnA : n < A0.toNat := by omega
  have hadv : Seg (pool0.map mv) n A0.toNat
      = (mv B).Location ::ₘ Seg (pool0.map mv) (n + 1) A0.toNat := by
    rw [Seg_succ_left _ _ _ hnA (by simp; omega)]
    congr 2
    have : pool0[n] = B := by
      rw [List.getElem?_eq_getElem hnl0] at hB0
      exact Option.some.inj hB0
    simp [this]
  refine ⟨?_, by rw [hB, hB0]⟩
  rcases hcase with ⟨e1, e2⟩ | hD
  · -- the bullet stays
    refine ⟨by rw [e2]; omega, by rw [e2]; exact c2, c3, by rw [e1]; simpa using c4, ?_, ?_, ?_⟩
    · rw [e1, take_set_of_le _ _ _ _ (le_refl _)]; exact htake
    · intro h0 j a hj ha
      rw [e2] at hj
      rw [e1] at ha
      by_cases hjn : j = n
      · subst hjn
        rw [List.getElem?_set_self hnl] at ha
        cases ha
        rw [hmvH]; exact hBvis h0
      · rw [List.getElem?_set_ne (Ne.symm hjn)] at ha
        exact c6 h0 j a hj ha
    · rw [e1, e2, Seg_set_self _ _ _ _ hnl hnC, hadv]
      exact (Multiset.cons_le_cons_iff _).2 c7
  · -- the bullet is deleted
    obtain ⟨a, ha⟩ : ∃ a : Nat, p.2 = (a : Int) + 1 := ⟨(p.2 - 1).toNat, by omega⟩
    have hal : a < p.1.length := by omega
    have hna : n ≤ a := by omega
    have hal1 : a < (p.1.set n (mv B)).length := by simpa using hal
    have hnl1 : n < (p.1.set n (mv B)).length := by simpa using hnl
    obtain ⟨X, hX, hDe⟩ := DeleteBullet_eq (p.1.set n (mv B)) a n hal1 hnl1
    rw [ha, hDe] at hD
    have hq1 : q.1 = ((p.1.set n (mv B)).set a ((p.1.set n (mv B))[a]).deactivate).set n
        (X.SetActorLocation ((p.1.set n (mv B))[a]).Location) := by
      rw [← Option.some.inj hD]
    have hq2 : q.2 = (a : Int) := by rw [← Option.some.inj hD]
    refine ⟨by rw [hq2]; omega, by rw [hq2]; omega, c3, by rw [hq1]; simpa using c4,
      ?_, ?_, ?_⟩
    · rw [hq1, take_set_of_le _ _ _ _ (le_refl _), take_set_of_le _ _ _ _ hna,
        take_set_of_le _ _ _ _ (le_refl _)]
      exact htake
    · intro h0 j b hj hb
      rw [hq2] at hj
      have hja : j < a := by omega
      rw [hq1] at hb
      by_cases hjn : j = n
      · subst hjn
        rw [List.getElem?_set_self (by simpa using hnl)] at hb
        cases hb
        rw [List.getElem?_set_ne (by omega), List.getElem?_set_self hnl] at hX
        cases hX
        show (mv B).Hidden = false
        rw [hmvH]; exact hBvis h0
      · rw [List.getElem?_set_ne (Ne.symm hjn), List.getElem?_set_ne (by omega),
          List.getElem?_set_ne (Ne.symm hjn)] at hb
        exact c6 h0 j b (by omega) hb
    · rw [hq2, Int.toNat_ofNat]
      by_cases hna' : n = a
      · rw [Seg_empty _ _ _ (by omega)]
        exact Multiset.zero_le _
      · have hlt : n < a := by omega
        have hLast : (p.1.set n (mv B))[a] = p.1[a] := by
          simp [List.getElem_set, hna']
        rw [hq1, Seg_set_self _ _ _ _ (by simpa using hnl) hlt,
          Seg_set_outside _ _ _ _ _ (Or.inr (le_refl _)),
          Seg_set_outside _ _ _ _ _ (Or.inl (Nat.lt_succ_self n))]
        have e : (X.SetActorLocation ((p.1.set n (mv B))[a]).Location).Location
            = p.1[a].Location := by rw [hLast]; rfl
        rw [e, ← Seg_succ_right _ _ _ (by omega) hal]
        have e2 : a + 1 = p.2.toNat := by omega
        rw [e2]
        exact le_trans c7 (Seg_le_succ_left _ _ _)

/-- An invariant kept by each iteration holds at every entry of the trace. -/
theorem LoopTrace_inv (Body : Nat → AInvadersGameMode → Option AInvadersGameMode)
    (I : Nat → AInvadersGameMode → Prop)
    (hstep : ∀ n s u, I (n + 1) s → Body n s = some u → I n u) :
    ∀ (n : Nat) (s : AInvadersGameMode), I n s →
      ∀ p ∈ LoopTrace Body n s, I (p.1 + 1) p.2 := by
  intro n
  induction n with
  | zero => intro s _ p hp; simp [LoopTrace] at hp
  | succ n ih =>
    intro s hs p hp
    simp only [LoopTrace, List.mem_cons] at hp
    rcases hp with rfl | hp
    · exact hs
    · cases hb : Body n s with
      | none => rw [hb] at hp; simp at hp
      | some u =>
        rw [hb] at hp
        exact ih u (hstep n s u hs hb) p hp

/-- The hit block of the player loop leaves the player pool, its count and the bullet
definition as they are. -/
theorem PlayerBulletUnit_pool (Rand : ℚ) (UA : Option ActorRef) (s t : AInvadersGameMode)
    (hUA : ∀ U, UA = some U → U.IsEnemy = true) (h : PlayerBulletUnit Rand UA s = some t) :
    t.PlayerBullets = s.PlayerBullets ∧
    t.InvadersGameState.ActivePlayerBullets = s.InvadersGameState.ActivePlayerBullets ∧
    t.PlayerBulletDef = s.PlayerBulletDef := by
  rcases PlayerBulletUnit_inv _ _ _ _ h with ⟨_, e⟩ | ⟨U, t1, hU, hH, e⟩
  · rw [e]; exact ⟨rfl, rfl, rfl⟩
  · rw [e]
    exact PlayerBulletHit_rel_frame
      (fun a b => b.PlayerBullets = a.PlayerBullets ∧
        b.InvadersGameState.ActivePlayerBullets = a.InvadersGameState.ActivePlayerBullets ∧
        b.PlayerBulletDef = a.PlayerBulletDef)
      (by intro s As HPs _; exact ⟨rfl, rfl, rfl⟩) (by intro s Points h; exact ⟨rfl, rfl, rfl⟩)
      (by intro s i E Points Sh; exact ⟨rfl, rfl, rfl⟩)
      Rand U s t1 (hUA U hU) hH

/-- One iteration of the player loop, seen on the player pool and its count. -/
theorem PlayerBulletBody_pool (dt : ℚ) (inp : FTickInput) (n : Nat) (s u : AInvadersGameMode)
    (h : PlayerBulletBody dt inp n s = some u) :
    u.PlayerBulletDef = s.PlayerBulletDef ∧
    PoolStep (MovePlayerBullet dt s) n
      (s.PlayerBullets, s.InvadersGameState.ActivePlayerBullets)
      (u.PlayerBullets, u.InvadersGameState.ActivePlayerBullets) ∧
    u.InvadersGameState.ActivePlayerBullets =
      (if PlayerDeleteFlag dt inp n s then s.InvadersGameState.ActivePlayerBullets - 1
        else s.InvadersGameState.ActivePlayerBullets) := by
  obtain ⟨B, s1, s2, hB, h1, h2, ht⟩ := PlayerBulletBody_inv dt inp n s u h
  have e0 := PlayerBulletUnit_pool _ _ _ _
    (fun U hU => (PlayerUnitActor_IsEnemy inp n U hU).1) h1
  obtain ⟨p1, p2, p3⟩ :
      s1.PlayerBullets = s.PlayerBullets.set n (MovePlayerBullet dt s B) ∧
      s1.InvadersGameState.ActivePlayerBullets = s.InvadersGameState.ActivePlayerBullets ∧
      s1.PlayerBulletDef = s.PlayerBulletDef := e0
  have hflag : PlayerDeleteFlag dt inp n s =
      (decide (ToFloat (MovePlayerBullet dt s B).Location.Y < -500) ||
        (PlayerUnitActor inp n).isSome) := by
    simp only [PlayerDeleteFlag, hB]
  rw [ht, AllEnemiesKilled_frame, hflag]
  rcases DeletePlayerBullet_inv _ _ _ _ h2 with ⟨ef, e⟩ | ⟨ef, res, hD, e⟩
  · rw [e, ef]
    exact ⟨p3, ⟨B, hB, Or.inl ⟨p1, p2⟩⟩, by simpa using p2⟩
  · obtain ⟨r1, _, _, _⟩ := DeleteBullet_inv _ _ _ _ hD
    rw [e, ef]
    refine ⟨p3, ⟨B, hB, Or.inr ?_⟩, ?_⟩
    · rw [p1, p2] at hD
      exact hD
    · simp only [if_true]
      show res.2 = _
      rw [r1, p2]

/-- One iteration of the enemy loop, seen on the enemy pool and its count. -/
theorem EnemyBulletBody_pool (dt : ℚ) (inp : FTickInput) (n : Nat) (s u : AInvadersGameMode)
    (h : EnemyBulletBody dt inp n s = some u) :
    u.EnemyBulletDef = s.EnemyBulletDef ∧
    PoolStep (MoveEnemyBullet dt s) n
      (s.EnemyBullets, s.InvadersGameState.ActiveEnemyBullets)
      (u.EnemyBullets, u.InvadersGameState.ActiveEnemyBullets) ∧
    u.InvadersGameState.ActiveEnemyBullets =
      (if EnemyDeleteFlag dt inp n s then s.InvadersGameState.ActiveEnemyBullets - 1
        else s.InvadersGameState.ActiveEnemyBullets) := by
  obtain ⟨B, s1, hB, h1, h2⟩ := EnemyBulletBody_inv dt inp n s u h
  obtain ⟨p1, p2, p3⟩ :
      s1.EnemyBullets = s.EnemyBullets.set n (MoveEnemyBullet dt s B) ∧
      s1.InvadersGameState.ActiveEnemyBullets = s.InvadersGameState.ActiveEnemyBullets ∧
      s1.EnemyBulletDef = s.EnemyBulletDef := by
    rcases EnemyBulletUnit_inv _ _ _ h1 with ⟨_, e⟩ | ⟨_, U, t1, _, _, hA, e⟩ | ⟨_, U, _, _, _, e⟩
    · rw [e]; exact ⟨rfl, rfl, rfl⟩
    · obtain ⟨k', HP0, A, _, _, _, ht1⟩ := AsteroidHit_inv U _ t1 hA
      rw [e, ht1]; exact ⟨rfl, rfl, rfl⟩
    · rw [e, HandlePlayerHit_frame]; exact ⟨rfl, rfl, rfl⟩
  have hflag : EnemyDeleteFlag dt inp n s =
      (decide (ToFloat (MoveEnemyBullet dt s B).Location.Y > 500) ||
        EnemyBulletHits (inp.EnemyOverlap n)) := by
    simp only [EnemyDeleteFlag, hB]
  rw [hflag]
  rcases DeleteEnemyBullet_inv _ _ _ _ h2 with ⟨ef, e⟩ | ⟨ef, res, hD, e⟩
  · rw [e, ef]
    exact ⟨p3, ⟨B, hB, Or.inl ⟨p1, p2⟩⟩, by simpa using p2⟩
  · obtain ⟨r1, _, _, _⟩ := DeleteBullet_inv _ _ _ _ hD
    rw [e, ef]
    refine ⟨p3, ⟨B, hB, Or.inr ?_⟩, ?_⟩
    · rw [p1, p2] at hD
      exact hD
    · simp only [if_true]
      show res.2 = _
      rw [r1, p2]

theorem MovePlayerBullet_congr (dt : ℚ) (s s0 : AInvadersGameMode)
    (h : s.PlayerBulletDef = s0.PlayerBulletDef) :
    MovePlayerBullet dt s = MovePlayerBullet dt s0 := by
  funext B
  simp [MovePlayerBullet, h]

theorem MoveEnemyBullet_congr (dt : ℚ) (s s0 : AInvadersGameMode)
    (h : s.EnemyBulletDef = s0.EnemyBulletDef) :
    MoveEnemyBullet dt s = MoveEnemyBullet dt s0 := by
  funext B
  simp [MoveEnemyBullet, h]

/-- One iteration of the player loop keeps its loop invariant. -/
theorem PlayerLoopInv_step (dt : ℚ) (inp : FTickInput) (s0 : AInvadersGameMode) (n : Nat)
    (s u : AInvadersGameMode) (hs : PlayerLoopInv dt s0 (n + 1) s)
    (h : PlayerBulletBody dt inp n s = some u) : PlayerLoopInv dt s0 n u := by
  obtain ⟨hd, hp⟩ := hs
  obtain ⟨e1, e2, _⟩ := PlayerBulletBody_pool dt inp n s u h
  rw [MovePlayerBullet_congr dt s s0 hd] at e2
  exact ⟨e1.trans hd,
    (PoolInv_step (MovePlayerBullet dt s0) (fun B => rfl) _ _ n _ _ hp e2).1⟩

/-- One iteration of the enemy loop keeps its loop invariant. -/
theorem EnemyLoopInv_step (dt : ℚ) (inp : FTickInput) (s0 : AInvadersGameMode) (n : Nat)
    (s u : AInvadersGameMode) (hs : EnemyLoopInv dt s0 (n + 1) s)
    (h : EnemyBulletBody dt inp n s = some u) : EnemyLoopInv dt s0 n u := by
  obtain ⟨hd, hp⟩ := hs
  obtain ⟨e1, e2, _⟩ := EnemyBulletBody_pool dt inp n s u h
  rw [MoveEnemyBullet_congr dt s s0 hd] at e2
  exact ⟨e1.trans hd,
    (PoolInv_step (MoveEnemyBullet dt s0) (fun B => rfl) _ _ n _ _ hp e2).1⟩

theorem PlayerBulletLoop_inv (dt : ℚ) (inp : FTickInput) (s0 : AInvadersGameMode) :
    ∀ (n : Nat) (s t : AInvadersGameMode), PlayerLoopInv dt s0 n s →
      PlayerBulletLoop dt inp n s = some t →
      PlayerLoopInv dt s0 0 t ∧
      (LoopTrace (PlayerBulletBody dt inp) n s).map Prod.fst = (List.range n).reverse := by
  intro n
  induction n with
  | zero =>
    intro s t hs h
    simp only [PlayerBulletLoop, Option.some.injEq] at h
    rw [← h]; exact ⟨hs, rfl⟩
  | succ n ih =>
    intro s t hs h
    simp only [PlayerBulletLoop, Option.bind_eq_some] at h
    obtain ⟨u, hu, ht⟩ := h
    obtain ⟨h1, h2⟩ := ih u t (PlayerLoopInv_step dt inp s0 n s u hs hu) ht
    refine ⟨h1, ?_⟩
    simp only [LoopTrace, hu, List.map_cons, h2, List.range_succ, List.reverse_append,
      List.reverse_cons, List.reverse_nil, List.nil_append, List.singleton_append]

theorem EnemyBulletLoop_inv (dt : ℚ) (inp : FTickInput) (s0 : AInvadersGameMode) :
    ∀ (n : Nat) (s t : AInvadersGameMode), EnemyLoopInv dt s0 n s →
      EnemyBulletLoop dt inp n s = some t →
      EnemyLoopInv dt s0 0 t ∧
      (LoopTrace (EnemyBulletBody dt inp) n s).map Prod.fst = (List.range n).reverse := by
  intro n
  induction n with
  | zero =>
    intro s t hs h
    simp only [EnemyBulletLoop, Option.some.injEq] at h
    rw [← h]; exact ⟨hs, rfl⟩
  | succ n ih =>
    intro s t hs h
    simp only [EnemyBulletLoop, Option.bind_eq_some] at h
    obtain ⟨u, hu, ht⟩ := h
    obtain ⟨h1, h2⟩ := ih u t (EnemyLoopInv_step dt inp s0 n s u hs hu) ht
    refine ⟨h1, ?_⟩
    simp only [LoopTrace, hu, List.map_cons, h2, List.range_succ, List.reverse_append,
      List.reverse_cons, List.reverse_nil, List.nil_append, List.singleton_append]

/-- What the loop invariant gives for the iteration of the slot `r`. -/
theorem PoolInv_facts (mv : AActor → AActor) (pool0 : List AActor) (A0 : Int) (r : Nat)
    (p : List AActor × Int) (h : PoolInv mv pool0 A0 (r + 1) p) :
    (r : Int) ≤ p.2 - 1 ∧ p.2 - 1 < A0 ∧ p.2 ≤ p.1.length ∧ p.1.length = pool0.length ∧
    p.1[r]? = pool0[r]? ∧
    (∃ B, p.1[r]? = some B ∧ ∀ X, ∃ res, DeleteBullet (p.1.set r X) p.2 r = some res) ∧
    ((∀ a ∈ pool0.take A0.toNat, a.Hidden = false) →
      ∃ L, p.1[(p.2 - 1).toNat]? = some L ∧ L.Hidden = false) := by
  obtain ⟨c1, c2, c3, c4, c5, c6, _⟩ := h
  have hrl : r < p.1.length := by omega
  refine ⟨by omega, by omega, by omega, c4, getElem?_of_take_eq _ _ _ c5,
    ⟨p.1[r], List.getElem?_eq_getElem hrl, ?_⟩, ?_⟩
  · intro X
    obtain ⟨Bs, hD, _⟩ := DeleteBullet_some (p.1.set r X) p.2 r (by omega)
      (by simp; omega) (by simpa using hrl)
    exact ⟨_, hD⟩
  · intro h0
    have hl : (p.2 - 1).toNat < p.1.length := by omega
    exact ⟨p.1[(p.2 - 1).toNat], List.getElem?_eq_getElem hl,
      c6 h0 _ _ (by omega) (List.getElem?_eq_getElem hl)⟩

/-- What the loop invariant gives when the loop is done. -/
theorem PoolInv_final (mv : AActor → AActor) (pool0 : List AActor) (A0 : Int)
    (p : List AActor × Int) (h : PoolInv mv pool0 A0 0 p) :
    0 ≤ p.2 ∧ p.2 ≤ A0 ∧ Seg p.1 0 p.2.toNat ≤ Seg (pool0.map mv) 0 A0.toNat := by
  obtain ⟨c1, c2, _, _, _, _, c7⟩ := h
  exact ⟨by simpa using c1, c2, c7⟩

/-- The player count after the loop is the count before minus the number of iterations
that set `DeleteBullet`. -/
theorem PlayerBulletLoop_deleted (dt : ℚ) (inp : FTickInput) :
    ∀ (n : Nat) (s t : AInvadersGameMode), PlayerBulletLoop dt inp n s = some t →
      t.InvadersGameState.ActivePlayerBullets = s.InvadersGameState.ActivePlayerBullets -
        ((LoopTrace (PlayerBulletBody dt inp) n s).countP
          fun p => PlayerDeleteFlag dt inp p.1 p.2) := by
  intro n
  induction n with
  | zero =>
    intro s t h
    simp only [PlayerBulletLoop, Option.some.injEq] at h
    rw [← h]; simp [LoopTrace]
  | succ n ih =>
    intro s t h
    simp only [PlayerBulletLoop, Option.bind_eq_some] at h
    obtain ⟨u, hu, ht⟩ := h
    obtain ⟨_, _, e⟩ := PlayerBulletBody_pool dt inp n s u hu
    rw [ih u t ht, e]
    simp only [LoopTrace, hu, List.countP_cons]
    by_cases hf : PlayerDeleteFlag dt inp n s = true
    · simp only [hf, if_true]; push_cast; ring
    · simp only [hf, if_false]; push_cast; ring

/-- The enemy count after the loop is the count before minus the number of iterations that
set `DeleteBullet`. -/
theorem EnemyBulletLoop_deleted (dt : ℚ) (inp : FTickInput) :
    ∀ (n : Nat) (s t : AInvadersGameMode), EnemyBulletLoop dt inp n s = some t →
      t.InvadersGameState.ActiveEnemyBullets = s.InvadersGameState.ActiveEnemyBullets -
        ((LoopTrace (EnemyBulletBody dt inp) n s).countP
          fun p => EnemyDeleteFlag dt inp p.1 p.2) := by
  intro n
  induction n with
  | zero =>
    intro s t h
    simp only [EnemyBulletLoop, Option.some.injEq] at h
    rw [← h]; simp [LoopTrace]
  | succ n ih =>
    intro s t h
    simp only [EnemyBulletLoop, Option.bind_eq_some] at h
    obtain ⟨u, hu, ht⟩ := h
    obtain ⟨_, _, e⟩ := EnemyBulletBody_pool dt inp n s u hu
    rw [ih u t ht, e]
    simp only [LoopTrace, hu, List.countP_cons]
    by_cases hf : EnemyDeleteFlag dt inp n s = true
    · simp only [hf, if_true]; push_cast; ring
    · simp only [hf, if_false]; push_cast; ring

/-- In a reachable state both pools have `MAX_BULLETS` slots. -/
theorem Reachable_pool_sizes (s : AInvadersGameMode) (hs : Reachable s) :
    s.PlayerBullets.length = MAX_BULLETS ∧ s.EnemyBullets.length = MAX_BULLETS := by
  induction hs with
  | start Rules PlayerDef EnemyDefs EnemySpawnPoint UfoSpawnPoint AsteroidDef PlayerBulletDef
      EnemyBulletDef SaveSlot s h =>
    obtain ⟨_, _, _, _, _, e6, e7⟩ := StartPlay_config _ _ h
    rw [e6, e7]
    simp [InitGame, NewGameMode]
  | step s t i _ h ih =>
    obtain ⟨_, _, _, _, _, _, _, e8, e9, _⟩ := ConfigSame_Step s t i h
    rw [e8, e9]
    exact ih

theorem ActiveVisible_of_same (s t : AInvadersGameMode) (h : PoolsSame s t)
    (hs : ActiveVisible s) : ActiveVisible t := by
  obtain ⟨h1, h2, h3, h4⟩ := h
  unfold ActiveVisible
  rw [h1, h2, h3, h4]
  exact hs

theorem PoolsSame_refl (s : AInvadersGameMode) : PoolsSame s s := ⟨rfl, rfl, rfl, rfl⟩

theorem PoolsSame_trans (a b c : AInvadersGameMode) (h : PoolsSame a b) (g : PoolsSame b c) :
    PoolsSame a c :=
  ⟨g.1.trans h.1, g.2.1.trans h.2.1, g.2.2.1.trans h.2.2.1, g.2.2.2.trans h.2.2.2⟩

/-- Visibility of the slots below the count, from the slot-wise statement. -/
theorem take_visible_of_index (l : List AActor) (C : Int)
    (h : ∀ (j : Nat) (a : AActor), (j : Int) < C → l[j]? = some a → a.Hidden = false) :
    ∀ a ∈ l.take C.toNat, a.Hidden = false := by
  intro a ha
  obtain ⟨j, hj⟩ := List.mem_iff_getElem?.1 ha
  have hjl : j < (l.take C.toNat).length := getElem?_some_lt _ _ _ hj
  have hjC : j < C.toNat := by
    rw [List.length_take] at hjl
    omega
  rw [List.getElem?_take_of_lt hjC] at hj
  exact h j a (by omega) hj

/-- Activating the slot `count` and raising the count keeps the active slots visible. -/
theorem take_visible_fire (l : List AActor) (C : Int) (B : AActor) (hC : 0 ≤ C)
    (hB : B.Hidden = false) (h : ∀ a ∈ l.take C.toNat, a.Hidden = false) :
    ∀ a ∈ (l.set C.toNat B).take (C + 1).toNat, a.Hidden = false := by
  apply take_visible_of_index
  intro j a hj ha
  by_cases hjC : j = C.toNat
  · subst hjC
    have hl : C.toNat < l.length := by
      have := getElem?_some_lt _ _ _ ha
      simpa using this
    rw [List.getElem?_set_self hl] at ha
    cases ha
    exact hB
  · rw [List.getElem?_set_ne (Ne.symm hjC)] at ha
    apply h
    rw [List.mem_iff_getElem?]
    exact ⟨j, by rw [List.getElem?_take_of_lt (by omega)]; exact ha⟩

/-- The player loop leaves the enemy pool and its count as they are. -/
theorem UpdatePlayerBullets_EnemyPoolSame (dt : ℚ) (inp : FTickInput)
    (s t : AInvadersGameMode) (h : UpdatePlayerBullets dt inp s = some t) :
    EnemyPoolSame s t := by
  refine PlayerBulletLoop_rel EnemyPoolSame (fun s => ⟨rfl, rfl⟩)
    (fun a b c h g => ⟨g.1.trans h.1, g.2.trans h.2⟩) dt inp ?_ _ s t h
  intro r s t hb
  refine PlayerBulletBody_rel EnemyPoolSame (fun s => ⟨rfl, rfl⟩)
    (fun a b c h g => ⟨g.1.trans h.1, g.2.trans h.2⟩) ?_ ?_ ?_ ?_ ?_ dt inp r s t hb
  · intro s Bs _; exact ⟨rfl, rfl⟩
  · intro Rand U s t hU hH
    exact PlayerBulletHit_rel_frame EnemyPoolSame
      (by intro s As HPs _; exact ⟨rfl, rfl⟩) (by intro s Points h; exact ⟨rfl, rfl⟩)
      (by intro s i E Points Sh; exact ⟨rfl, rfl⟩) Rand U s t hU hH
  · intro s e; exact ⟨rfl, rfl⟩
  · intro s Bs _ _ _; exact ⟨rfl, rfl⟩
  · intro s; rw [AllEnemiesKilled_frame]; exact ⟨rfl, rfl⟩

/-- The enemy loop leaves the player pool and its count as they are. -/
theorem UpdateEnemyBullets_PlayerPoolSame (dt : ℚ) (inp : FTickInput)
    (s t : AInvadersGameMode) (h : UpdateEnemyBullets dt inp s = some t) :
    PlayerPoolSame s t := by
  refine EnemyBulletLoop_rel PlayerPoolSame (fun s => ⟨rfl, rfl⟩)
    (fun a b c h g => ⟨g.1.trans h.1, g.2.trans h.2⟩) dt inp ?_ _ s t h
  intro r s t hb
  refine EnemyBulletBody_rel PlayerPoolSame (fun s => ⟨rfl, rfl⟩)
    (fun a b c h g => ⟨g.1.trans h.1, g.2.trans h.2⟩) ?_ ?_ ?_ ?_ ?_ dt inp r s t hb
  · intro s Bs _; exact ⟨rfl, rfl⟩
  · intro s As HPs _; exact ⟨rfl, rfl⟩
  · intro s; rw [HandlePlayerHit_frame]; exact ⟨rfl, rfl⟩
  · intro s e; exact ⟨rfl, rfl⟩
  · intro s Bs _ _ _; exact ⟨rfl, rfl⟩

/-- The blocks of `Tick` before the bullet loops leave both pools as they are. -/
theorem BeforePlayerBullets_PoolsSame (dt : ℚ) (inp : FTickInput) (s : AInvadersGameMode) :
    PoolsSame s (BeforePlayerBullets dt inp s) := by
  have h1 : ∀ x, PoolsSame x (UpdateEnemyAppearAnimation dt x) := by
    intro x; rw [UpdateEnemyAppearAnimation_frame]; exact ⟨rfl, rfl, rfl, rfl⟩
  have h2 : ∀ x, PoolsSame x (UpdatePlayerAppearAnimation dt x) := by
    intro x; rw [UpdatePlayerAppearAnimation_frame]; exact ⟨rfl, rfl, rfl, rfl⟩
  have h3 : ∀ x, PoolsSame x (UpdatePlayerMovement dt inp x) := by
    intro x; rw [UpdatePlayerMovement_frame]; exact ⟨rfl, rfl, rfl, rfl⟩
  have h4 : ∀ x, PoolsSame x (UpdateEnemyGroupMovement dt x) := by
    intro x; rw [UpdateEnemyGroupMovement_frame]; exact ⟨rfl, rfl, rfl, rfl⟩
  have h5 : ∀ x, PoolsSame x (UpdateUfoMovement dt inp.UfoAppearTime x) := by
    intro x; rw [UpdateUfoMovement_frame]; exact ⟨rfl, rfl, rfl, rfl⟩
  unfold BeforePlayerBullets
  exact PoolsSame_trans _ _ _ (h1 s) (PoolsSame_trans _ _ _ (h2 _)
    (PoolsSame_trans _ _ _ (h3 _) (PoolsSame_trans _ _ _ (h4 _) (h5 _))))

/-- `UpdatePlayerBullets` keeps the active slots visible. -/
theorem UpdatePlayerBullets_ActiveVisible (dt : ℚ) (inp : FTickInput)
    (s t : AInvadersGameMode) (h0 : 0 ≤ s.InvadersGameState.ActivePlayerBullets)
    (hcap : s.InvadersGameState.ActivePlayerBullets ≤ s.PlayerBullets.length)
    (hs : ActiveVisible s) (h : UpdatePlayerBullets dt inp s = some t) : ActiveVisible t := by
  obtain ⟨⟨_, hI⟩, _⟩ := PlayerBulletLoop_inv dt inp s _ s t ⟨rfl, PoolInv_init _ _ _ h0 hcap⟩ h
  obtain ⟨_, _, _, _, _, c6, _⟩ := hI
  obtain ⟨e1, e2⟩ := UpdatePlayerBullets_EnemyPoolSame dt inp s t h
  refine ⟨take_visible_of_index _ _ (c6 hs.1), ?_⟩
  rw [e1, e2]
  exact hs.2

/-- `UpdateEnemyBullets` keeps the active slots visible. -/
theorem UpdateEnemyBullets_ActiveVisible (dt : ℚ) (inp : FTickInput)
    (s t : AInvadersGameMode) (h0 : 0 ≤ s.InvadersGameState.ActiveEnemyBullets)
    (hcap : s.InvadersGameState.ActiveEnemyBullets ≤ s.EnemyBullets.length)
    (hs : ActiveVisible s) (h : UpdateEnemyBullets dt inp s = some t) : ActiveVisible t := by
  obtain ⟨⟨_, hI⟩, _⟩ := EnemyBulletLoop_inv dt inp s _ s t ⟨rfl, PoolInv_init _ _ _ h0 hcap⟩ h
  obtain ⟨_, _, _, _, _, c6, _⟩ := hI
  obtain ⟨e1, e2⟩ := UpdateEnemyBullets_PlayerPoolSame dt inp s t h
  refine ⟨?_, take_visible_of_index _ _ (c6 hs.2)⟩
  rw [e1, e2]
  exact hs.1

theorem getAt_nonneg {α : Type} (l : List α) (i : Int) (a : α) (h : getAt l i = some a) :
    0 ≤ i := by
  unfold getAt at h
  split at h
  · assumption
  · cases h

/-- The player shoot callback keeps the active slots visible. -/
theorem PlayerShootTimerCallback_ActiveVisible (s t : AInvadersGameMode)
    (hs : ActiveVisible s) (h : PlayerShootTimerCallback s = some t) : ActiveVisible t := by
  unfold PlayerShootTimerCallback at h
  split at h
  · split at h
    · cases h; exact hs
    · split at h
      · simp only [Option.bind_eq_some, Option.some.injEq] at h
        obtain ⟨B, hB, ht⟩ := h
        rw [← ht]
        exact ⟨take_visible_fire _ _ _ (getAt_nonneg _ _ _ hB) rfl hs.1, hs.2⟩
      · cases h; exact hs
  · cases h; exact hs

/-- The shoot press keeps the active slots visible. -/
theorem HandlePlayerShootPressed_ActiveVisible (s t : AInvadersGameMode)
    (hs : ActiveVisible s) (h : HandlePlayerShootPressed s = some t) : ActiveVisible t := by
  unfold HandlePlayerShootPressed at h
  cases hH : s.PlayerShip.Hidden
  · simp only [hH, Bool.not_false, if_true] at h
    split at h
    · exact PlayerShootTimerCallback_ActiveVisible _ t (by exact hs) h
    · cases h; exact hs
  · simp only [hH, Bool.not_true, Bool.false_eq_true, if_false] at h
    split at h
    · exact PlayerShootTimerCallback_ActiveVisible _ t (by exact hs) h
    · cases h; exact hs

/-- The enemy shoot callback keeps the active slots visible. -/
theorem EnemyShootTimerCallback_ActiveVisible (Rand : Nat) (s t : AInvadersGameMode)
    (hs : ActiveVisible s) (h : EnemyShootTimerCallback Rand s = some t) :
    ActiveVisible t := by
  unfold EnemyShootTimerCallback at h
  split at h
  · split at h
    · cases h; exact hs
    · simp only [Option.bind_eq_some, Option.some.injEq] at h
      obtain ⟨s1, h1, ht⟩ := h
      rw [← ht]
      unfold EnemyShoot at h1
      split at h1
      · simp only [Option.bind_eq_some, Option.some.injEq] at h1
        obtain ⟨Idx, _, E, _, B, hB, hs1⟩ := h1
        rw [← hs1]
        exact ⟨hs.1, take_visible_fire _ _ _ (getAt_nonneg _ _ _ hB) rfl hs.2⟩
      · cases h1; exact hs
  · cases h; exact hs

theorem ActiveVisible_of_zero (s : AInvadersGameMode)
    (h1 : s.InvadersGameState.ActivePlayerBullets = 0)
    (h2 : s.InvadersGameState.ActiveEnemyBullets = 0) : ActiveVisible s := by
  unfold ActiveVisible
  rw [h1, h2]
  simp

/-- An engine call from a reachable state keeps the active slots visible. -/
theorem Step_ActiveVisible (s t : AInvadersGameMode) (i : Input) (hR : Reachable s)
    (hs : ActiveVisible s) (h : Step s i = some t) : ActiveVisible t := by
  cases i with
  | Tick dt inp =>
    simp only [Step] at h
    split at h
    · unfold Tick at h
      split at h
      · cases h; exact hs
      · simp only [Option.bind_eq_some] at h
        obtain ⟨u, hu, ht⟩ := h
        obtain ⟨l1, l2⟩ := Reachable_pool_sizes s hR
        obtain ⟨b1, b2, b3, b4⟩ := Reachable_BulletsWithinCapacity s hR
        obtain ⟨p1, p2, p3, p4⟩ := BeforePlayerBullets_PoolsSame dt inp s
        have h5 := ActiveVisible_of_same s _ (BeforePlayerBullets_PoolsSame dt inp s) hs
        have hu' : UpdatePlayerBullets dt inp (BeforePlayerBullets dt inp s) = some u := hu
        have h6 := UpdatePlayerBullets_ActiveVisible dt inp _ u (by rw [p2]; exact b1)
          (by rw [p1, p2, l1]; exact b2) h5 hu'
        obtain ⟨e1, e2⟩ := UpdatePlayerBullets_EnemyPoolSame dt inp _ u hu'
        exact UpdateEnemyBullets_ActiveVisible dt inp u t (by rw [e2, p4]; exact b3)
          (by rw [e1, e2, p3, p4, l2]; exact b4) h6 ht
    · cases h
  | StartGameButton =>
    simp only [Step] at h
    split at h
    · cases h; exact hs
    · cases h
  | TutorialShootPressed Rand =>
    simp only [Step] at h
    split at h
    · cases h
      apply ActiveVisible_of_zero <;> rw [RestartInvadersGame_frame]
    · cases h
  | RestartButton Rand =>
    simp only [Step] at h
    split at h
    · cases h
      apply ActiveVisible_of_zero <;> rw [RestartInvadersGame_frame]
    · cases h
  | ExitButton =>
    simp only [Step] at h
    split at h
    · cases h
      apply ActiveVisible_of_zero <;> rw [ShowMainMenu_frame]
    · cases h
  | ShootPressed => exact HandlePlayerShootPressed_ActiveVisible s t hs h
  | ShootReleased =>
    simp only [Step, Option.some.injEq] at h
    rw [← h, HandlePlayerShootReleased_frame]
    exact hs
  | EscapePressed =>
    simp only [Step, Option.some.injEq] at h
    rw [← h, HandleTogglePausePressed_frame]
    exact hs
  | EnemyAppearTimer =>
    simp only [Step] at h
    split at h
    · cases h
      rw [SpawnEnemies_frame]
      exact hs
    · cases h
  | PlayerAppearTimer =>
    simp only [Step] at h
    split at h
    · cases h; exact hs
    · cases h
  | EnemyShootTimer Rand =>
    simp only [Step] at h
    split at h
    · exact EnemyShootTimerCallback_ActiveVisible Rand _ t (by exact hs) h
    · cases h
  | PlayerShootTimer =>
    simp only [Step] at h
    split at h
    · exact PlayerShootTimerCallback_ActiveVisible _ t (by exact hs) h
    · cases h
  | UfoAppearTimer Rand =>
    simp only [Step] at h
    split at h
    · cases h
      rw [UfoAppearCallback_frame]
      exact hs
    · cases h

/-- In every reachable state the bullets in the active slots of both pools are visible. -/
theorem Reachable_ActiveVisible (s : AInvadersGameMode) (hs : Reachable s) :
    ActiveVisible s := by
  induction hs with
  | start Rules PlayerDef EnemyDefs EnemySpawnPoint UfoSpawnPoint AsteroidDef PlayerBulletDef
      EnemyBulletDef SaveSlot s h =>
    obtain ⟨s1, s2, _, _, _, _, rfl⟩ := StartPlay_inv _ _ h
    apply ActiveVisible_of_zero <;> rw [ShowMainMenu_frame]
  | step s t i hR h ih => exact Step_ActiveVisible s t i hR ih h

/-- C20: reverse iteration makes removal safe. Let `UpdatePlayerBullets` start in `s` with
count `A = ActivePlayerBullets`, `0 ≤ A ≤ pool size` (in a reachable state the pool has
`MAX_BULLETS` slots, `A ≤ MAX_BULLETS` and the bullets of the active slots are visible). For every overlap pattern `inp` and every
iteration, i.e. every loop index `r` with the state `x` in which its iteration starts
(`LoopTrace`), with `C` the count in `x`: (1) `r ≤ C - 1 < A` and `C ≤ pool size`; (2) the
bullet in slot `r` is the start bullet of slot `r`, not yet advanced nor overwritten;
(3) the delete step of this iteration finds its slots, so the slot `C - 1` it reads is
valid, and that slot holds a visible bullet when the active slots were visible at the
start; (4) the iteration lowers the count by exactly 1 when `DeleteBullet` is set (out of
bounds, overlapping, or both) and leaves it otherwise. When the loop returns `t`: (5) each
index `A - 1, ..., 0` was visited exactly once, (6) the count of `t` is `A` minus the number
of iterations that set `DeleteBullet`, and (7) the locations in the active slots of `t`
are, with multiplicity, locations of start bullets advanced by `Velocity * dt` exactly
once. The same holds for `UpdateEnemyBullets`. -/
theorem reverse_iteration_safe (dt : ℚ) (inp : FTickInput) (s : AInvadersGameMode) :
    (0 ≤ s.InvadersGameState.ActivePlayerBullets →
      s.InvadersGameState.ActivePlayerBullets ≤ s.PlayerBullets.length →
      (∀ p ∈ LoopTrace (PlayerBulletBody dt inp)
          s.InvadersGameState.ActivePlayerBullets.toNat s,
        (p.1 : Int) ≤ p.2.InvadersGameState.ActivePlayerBullets - 1 ∧
        p.2.InvadersGameState.ActivePlayerBullets - 1
          < s.InvadersGameState.ActivePlayerBullets ∧
        p.2.InvadersGameState.ActivePlayerBullets ≤ p.2.PlayerBullets.length ∧
        p.2.PlayerBullets[p.1]? = s.PlayerBullets[p.1]? ∧
        (∃ B, p.2.PlayerBullets[p.1]? = some B ∧
          ∃ res, DeleteBullet (p.2.PlayerBullets.set p.1 (MovePlayerBullet dt p.2 B))
            p.2.InvadersGameState.ActivePlayerBullets p.1 = some res) ∧
        ((∀ a ∈ s.PlayerBullets.take s.InvadersGameState.ActivePlayerBullets.toNat,
            a.Hidden = false) →
          ∃ L, p.2.PlayerBullets[(p.2.InvadersGameState.ActivePlayerBullets - 1).toNat]?
            = some L ∧ L.Hidden = false) ∧
        (∀ u, PlayerBulletBody dt inp p.1 p.2 = some u →
          u.InvadersGameState.ActivePlayerBullets =
            (if PlayerDeleteFlag dt inp p.1 p.2
              then p.2.InvadersGameState.ActivePlayerBullets - 1
              else p.2.InvadersGameState.ActivePlayerBullets))) ∧
      (∀ t, UpdatePlayerBullets dt inp s = some t →
        (LoopTrace (PlayerBulletBody dt inp)
          s.InvadersGameState.ActivePlayerBullets.toNat s).map Prod.fst
          = (List.range s.InvadersGameState.ActivePlayerBullets.toNat).reverse ∧
        0 ≤ t.InvadersGameState.ActivePlayerBullets ∧
        t.InvadersGameState.ActivePlayerBullets = s.InvadersGameState.ActivePlayerBullets -
          ((LoopTrace (PlayerBulletBody dt inp)
            s.InvadersGameState.ActivePlayerBullets.toNat s).countP
              fun p => PlayerDeleteFlag dt inp p.1 p.2) ∧
        Seg t.PlayerBullets 0 t.InvadersGameState.ActivePlayerBullets.toNat
          ≤ Seg (s.PlayerBullets.map (MovePlayerBullet dt s)) 0
              s.InvadersGameState.ActivePlayerBullets.toNat)) ∧
    (0 ≤ s.InvadersGameState.ActiveEnemyBullets →
      s.InvadersGameState.ActiveEnemyBullets ≤ s.EnemyBullets.length →
      (∀ p ∈ LoopTrace (EnemyBulletBody dt inp)
          s.InvadersGameState.ActiveEnemyBullets.toNat s,
        (p.1 : Int) ≤ p.2.InvadersGameState.ActiveEnemyBullets - 1 ∧
        p.2.InvadersGameState.ActiveEnemyBullets - 1
          < s.InvadersGameState.ActiveEnemyBullets ∧
        p.2.InvadersGameState.ActiveEnemyBullets ≤ p.2.EnemyBullets.length ∧
        p.2.EnemyBullets[p.1]? = s.EnemyBullets[p.1]? ∧
        (∃ B, p.2.EnemyBullets[p.1]? = some B ∧
          ∃ res, DeleteBullet (p.2.EnemyBullets.set p.1 (MoveEnemyBullet dt p.2 B))
            p.2.InvadersGameState.ActiveEnemyBullets p.1 = some res) ∧
        ((∀ a ∈ s.EnemyBullets.take s.InvadersGameState.ActiveEnemyBullets.toNat,
            a.Hidden = false) →
          ∃ L, p.2.EnemyBullets[(p.2.InvadersGameState.ActiveEnemyBullets - 1).toNat]?
            = some L ∧ L.Hidden = false) ∧
        (∀ u, EnemyBulletBody dt inp p.1 p.2 = some u →
          u.InvadersGameState.ActiveEnemyBullets =
            (if EnemyDeleteFlag dt inp p.1 p.2
              then p.2.InvadersGameState.ActiveEnemyBullets - 1
              else p.2.InvadersGameState.ActiveEnemyBullets))) ∧
      (∀ t, UpdateEnemyBullets dt inp s = some t →
        (LoopTrace (EnemyBulletBody dt inp)
          s.InvadersGameState.ActiveEnemyBullets.toNat s).map Prod.fst
          = (List.range s.InvadersGameState.ActiveEnemyBullets.toNat).reverse ∧
        0 ≤ t.InvadersGameState.ActiveEnemyBullets ∧
        t.InvadersGameState.ActiveEnemyBullets = s.InvadersGameState.ActiveEnemyBullets -
          ((LoopTrace (EnemyBulletBody dt inp)
            s.InvadersGameState.ActiveEnemyBullets.toNat s).countP
              fun p => EnemyDeleteFlag dt inp p.1 p.2) ∧
        Seg t.EnemyBullets 0 t.InvadersGameState.ActiveEnemyBullets.toNat
          ≤ Seg (s.EnemyBullets.map (MoveEnemyBullet dt s)) 0
              s.InvadersGameState.ActiveEnemyBullets.toNat)) ∧
    (Reachable s →
      s.PlayerBullets.length = MAX_BULLETS ∧ s.EnemyBullets.length = MAX_BULLETS ∧
      0 ≤ s.InvadersGameState.ActivePlayerBullets ∧
      s.InvadersGameState.ActivePlayerBullets ≤ s.PlayerBullets.length ∧
      0 ≤ s.InvadersGameState.ActiveEnemyBullets ∧
      s.InvadersGameState.ActiveEnemyBullets ≤ s.EnemyBullets.length ∧
      (∀ a ∈ s.PlayerBullets.take s.InvadersGameState.ActivePlayerBullets.toNat,
        a.Hidden = false) ∧
      (∀ a ∈ s.EnemyBullets.take s.InvadersGameState.ActiveEnemyBullets.toNat,
        a.Hidden = false)) := by
  refine ⟨?_, ?_, ?_⟩
  · intro h0 hcap
    have hinit : PlayerLoopInv dt s s.InvadersGameState.ActivePlayerBullets.toNat s :=
      ⟨rfl, PoolInv_init _ _ _ h0 hcap⟩
    constructor
    · intro p hp
      obtain ⟨hd, hI⟩ := LoopTrace_inv (PlayerBulletBody dt inp) (PlayerLoopInv dt s)
        (PlayerLoopInv_step dt inp s) _ s hinit p hp
      obtain ⟨f1, f2, f3, _, f5, ⟨B, hB, f6⟩, f7⟩ := PoolInv_facts _ _ _ _ _ hI
      refine ⟨f1, f2, f3, f5, ⟨B, hB, f6 _⟩, f7, ?_⟩
      intro u hu
      exact (PlayerBulletBody_pool dt inp p.1 p.2 u hu).2.2
    · intro t ht
      obtain ⟨⟨_, hI⟩, htr⟩ := PlayerBulletLoop_inv dt inp s _ s t hinit ht
      obtain ⟨g1, _, g3⟩ := PoolInv_final _ _ _ _ hI
      exact ⟨htr, g1, PlayerBulletLoop_deleted dt inp _ s t ht, g3⟩
  · intro h0 hcap
    have hinit : EnemyLoopInv dt s s.InvadersGameState.ActiveEnemyBullets.toNat s :=
      ⟨rfl, PoolInv_init _ _ _ h0 hcap⟩
    constructor
    · intro p hp
      obtain ⟨hd, hI⟩ := LoopTrace_inv (EnemyBulletBody dt inp) (EnemyLoopInv dt s)
        (EnemyLoopInv_step dt inp s) _ s hinit p hp
      obtain ⟨f1, f2, f3, _, f5, ⟨B, hB, f6⟩, f7⟩ := PoolInv_facts _ _ _ _ _ hI
      refine ⟨f1, f2, f3, f5, ⟨B, hB, f6 _⟩, f7, ?_⟩
      intro u hu
      exact (EnemyBulletBody_pool dt inp p.1 p.2 u hu).2.2
    · intro t ht
      obtain ⟨⟨_, hI⟩, htr⟩ := EnemyBulletLoop_inv dt inp s _ s t hinit ht
      obtain ⟨g1, _, g3⟩ := PoolInv_final _ _ _ _ hI
      exact ⟨htr, g1, EnemyBulletLoop_deleted dt inp _ s t ht, g3⟩
  · intro hR
    obtain ⟨l1, l2⟩ := Reachable_pool_sizes s hR
    obtain ⟨b1, b2, b3, b4⟩ := Reachable_BulletsWithinCapacity s hR
    obtain ⟨v1, v2⟩ := Reachable_ActiveVisible s hR
    rw [l1, l2]
    exact ⟨rfl, rfl, b1, b2, b3, b4, v1, v2⟩

/-- C20 on the full player pool of the sample game (20 bullets), in a tick in which the
bullets of the slots 19 and 3 hit an asteroid: the loop returns with 18 bullets, visits
the slots 19, ..., 0 once each, at each index `r` the count `C` has `r ≤ C - 1 < 20`, and
the 18 remaining locations are start locations advanced once. -/
theorem reverse_iteration_safe_witness :
    Reachable (SampleAfter FullPoolInputs) ∧
    (SampleAfter FullPoolInputs).InvadersGameState.ActivePlayerBullets = 20 ∧
    UpdatePlayerBullets (1 / 10) TwoHits (SampleAfter FullPoolInputs) = some AfterTwoHits ∧
    AfterTwoHits.InvadersGameState.ActivePlayerBullets = 18 ∧
    (LoopTrace (PlayerBulletBody (1 / 10) TwoHits) 20 (SampleAfter FullPoolInputs)).map Prod.fst
      = (List.range 20).reverse ∧
    (∀ p ∈ LoopTrace (PlayerBulletBody (1 / 10) TwoHits) 20 (SampleAfter FullPoolInputs),
      (p.1 : Int) ≤ p.2.InvadersGameState.ActivePlayerBullets - 1 ∧
      p.2.InvadersGameState.ActivePlayerBullets - 1 < 20) ∧
    Seg AfterTwoHits.PlayerBullets 0 18
      ≤ Seg ((SampleAfter FullPoolInputs).PlayerBullets.map
          (MovePlayerBullet (1 / 10) (SampleAfter FullPoolInputs))) 0 20 := by
  have hd : ((StartPlay (SampleMode FGameRules.default)).bind fun s =>
        Run s FullPoolInputs).isSome = true ∧
      (SampleAfter FullPoolInputs).InvadersGameState.ActivePlayerBullets = 20 ∧
      (UpdatePlayerBullets (1 / 10) TwoHits (SampleAfter FullPoolInputs)).isSome = true ∧
      AfterTwoHits.InvadersGameState.ActivePlayerBullets = 18 ∧
      (SampleAfter FullPoolInputs).InvadersGameState.ActivePlayerBullets
        ≤ (SampleAfter FullPoolInputs).PlayerBullets.length := by decide!
  obtain ⟨d0, hA, hs, h18, d4⟩ := hd
  have hR : Reachable (SampleAfter FullPoolInputs) := Reachable_SampleAfter _ d0
  have hU : UpdatePlayerBullets (1 / 10) TwoHits (SampleAfter FullPoolInputs)
      = some AfterTwoHits := by
    obtain ⟨t, ht⟩ := Option.isSome_iff_exists.1 hs
    unfold AfterTwoHits; rw [ht]; rfl
  obtain ⟨h1, h2⟩ := (reverse_iteration_safe (1 / 10) TwoHits (SampleAfter FullPoolInputs)).1
    (by rw [hA]; decide) d4
  obtain ⟨g1, _, _, g4⟩ := h2 AfterTwoHits hU
  rw [hA] at h1 g1 g4
  rw [h18] at g4
  refine ⟨hR, hA, hU, h18, g1, ?_, g4⟩
  intro p hp
  obtain ⟨f1, f2, _⟩ := h1 p hp
  exact ⟨f1, f2⟩

/-! ### Forward movement while the side movement pauses -/

/-- The forward component of the group location is the spawn point plus the whole rows
plus `ForwardMovementAmount` times the forward term. -/
theorem GroupPos_Y (Rules : FGameRules) (P : FVector) (L : Int) (t : ℚ) :
    (GroupPos Rules P L t).Y = P.Y +
      (((L : ℚ) + (Modf (min ((t + 1 / 2) / 2) (Rules.LastRow : ℚ))).2)
          * Rules.ForwardMovementAmount
        + Rules.ForwardMovementAmount * ForwardTerm Rules.LastRow t) := rfl

theorem Clamp_zero_one_lt_one (x : ℚ) (h : Clamp x 0 1 < 1) : x < 1 := by
  unfold Clamp at h
  by_contra hx
  rw [if_neg (by linarith), if_neg hx] at h
  exact lt_irrefl _ h

/-- At a progress time `t ≥ 0` at which twice the fractional part of `(t + 1/2) / 2` is
below 1, the side term is saturated. -/
theorem SideTerm_saturated (t : ℚ) (h0 : 0 ≤ t)
    (hf : ((t + 1 / 2) / 2 - ((⌊(t + 1 / 2) / 2⌋ : Int) : ℚ)) * 2 < 1) :
    SideTerm t = 1 ∨ SideTerm t = -1 := by
  have k1 := Int.floor_le ((t + 1 / 2) / 2)
  have m1 := Int.floor_le (t / 4)
  have m2 := Int.lt_floor_add_one (t / 4)
  generalize hk : ⌊(t + 1 / 2) / 2⌋ = k at *
  generalize hm : ⌊t / 4⌋ = m at *
  have hN : Fmod t 4 = t - 4 * (m : ℚ) := by rw [Fmod_four_of_nonneg t h0, hm]
  have e1 : ((-1 : Int) : ℚ) < ((2 * k - 4 * m : Int) : ℚ) := by push_cast; linarith
  have e2 : ((2 * k - 4 * m : Int) : ℚ) < ((5 : Int) : ℚ) := by push_cast; linarith
  have e1' : (-1 : Int) < 2 * k - 4 * m := by exact_mod_cast e1
  have e2' : 2 * k - 4 * m < (5 : Int) := by exact_mod_cast e2
  have hcases : 2 * k - 4 * m = 0 ∨ 2 * k - 4 * m = 2 ∨ 2 * k - 4 * m = 4 := by omega
  unfold SideTerm Clamp
  rw [hN]
  rcases hcases with hc | hc | hc
  · have hq : (2 : ℚ) * k - 4 * m = 0 := by exact_mod_cast hc
    right
    have ha : |t - 4 * (m : ℚ) - 2| = -(t - 4 * (m : ℚ) - 2) := abs_of_nonpos (by linarith)
    rw [ha, if_pos (by linarith)]
  · have hq : (2 : ℚ) * k - 4 * m = 2 := by exact_mod_cast hc
    left
    have ha : |t - 4 * (m : ℚ) - 2| ≤ 1 / 2 := abs_le.2 ⟨by linarith, by linarith⟩
    rw [if_neg (by linarith), if_neg (by linarith)]
  · have hq : (2 : ℚ) * k - 4 * m = 4 := by exact_mod_cast hc
    right
    have ha : |t - 4 * (m : ℚ) - 2| = t - 4 * (m : ℚ) - 2 := abs_of_nonneg (by linarith)
    rw [ha]
    by_cases hlt : (1 - (t - 4 * (m : ℚ) - 2)) * 2 < -1
    · rw [if_pos hlt]
    · rw [if_neg hlt, if_pos (by linarith)]
      linarith

/-- C21: forward movement occurs only while side movement is paused. For every progress
time `t ≥ 0` with `(t + 0.5) / 2 < LastRow`, if the fractional part `f` of `(t + 0.5) / 2`
has `clamp(2·f, 0, 1) < 1` (the forward term is in its moving phase), then this value is the
forward term that `UpdateEnemyGroupMovement` uses at `t`, the side term
`clamp(2·(1 − |fmod(t, 4) − 2|), −1, 1)` has absolute value 1, and the horizontal component
of the group location is the spawn point plus or minus `SideMovementAmount`. -/
theorem forward_only_while_side_paused (Rules : FGameRules) (P : FVector) (L : Int) (t : ℚ)
    (h0 : 0 ≤ t) (hrow : (t + 1 / 2) / 2 < (Rules.LastRow : ℚ))
    (hmove : Clamp ((Modf ((t + 1 / 2) / 2)).1 * 2) 0 1 < 1) :
    ForwardTerm Rules.LastRow t = Clamp ((Modf ((t + 1 / 2) / 2)).1 * 2) 0 1 ∧
    |SideTerm t| = 1 ∧
    |Clamp ((1 - |Fmod t 4 - 2|) * 2) (-1) 1| = 1 ∧
    ((GroupPos Rules P L t).X = P.X + Rules.SideMovementAmount ∨
      (GroupPos Rules P L t).X = P.X - Rules.SideMovementAmount) := by
  have hF : ForwardTerm Rules.LastRow t = Clamp ((Modf ((t + 1 / 2) / 2)).1 * 2) 0 1 := by
    unfold ForwardTerm
    rw [min_eq_left (le_of_lt hrow)]
  have hf := Clamp_zero_one_lt_one _ hmove
  simp only [Modf] at hf
  rw [TruncToInt_of_nonneg _ (by linarith)] at hf
  have hS := SideTerm_saturated t h0 hf
  have hA : |SideTerm t| = 1 := by
    rcases hS with e | e
    · rw [e]; norm_num
    · rw [e]; norm_num
  refine ⟨hF, hA, hA, ?_⟩
  rw [GroupPos_X]
  rcases hS with e | e
  · left; rw [e]; ring
  · right; rw [e]; ring

/-- C21 at the progress time 1/4 with the default rules and the sample spawn point: the
row position is 3/8, the forward term 3/4 is in its moving phase, and the formation sits at
the left end of its oscillation. -/
theorem forward_only_while_side_paused_witness :
    ForwardTerm 8 (1 / 4) = 3 / 4 ∧ |SideTerm (1 / 4)| = 1 ∧
    (GroupPos FGameRules.default ⟨0, -400, 0⟩ 0 (1 / 4)).X = -200 := by
  have h := forward_only_while_side_paused FGameRules.default ⟨0, -400, 0⟩ 0 (1 / 4)
    (by norm_num) (by decide!) (by decide!)
  exact ⟨by decide!, h.2.1, by decide!⟩

/-! ### Enemy definitions of the grid -/

theorem Pow2_neg126_le : Pow2 (-126) ≤ 1 / 2 ^ 30 := by
  rw [Pow2_eq]
  norm_num

/-- In the normal range `ToFloat` is within the factor `1 ± 2^-24`. -/
theorem ToFloat_rel_bounds (x : ℚ) (hx : 1 / 2 ^ 30 ≤ x) :
    x * (1 - 1 / 2 ^ 24) ≤ ToFloat x ∧ ToFloat x ≤ x * (1 + 1 / 2 ^ 24) := by
  have hpos : 0 < x := lt_of_lt_of_le (by norm_num) hx
  have h := ToFloat_rel_error x (by
    rw [abs_of_pos hpos]
    exact le_trans Pow2_neg126_le hx)
  rw [abs_of_pos hpos, abs_le] at h
  constructor
  · linarith [h.1]
  · linarith [h.2]

theorem TruncToInt_natCast (n : Nat) : TruncToInt (n : ℚ) = (n : Int) := by
  rw [TruncToInt_of_nonneg _ (Nat.cast_nonneg n)]
  exact Int.floor_natCast n

/-- The row of the grid slot `Idx` in exact arithmetic: the integer part of
`Idx / EnemiesInRow`. -/
theorem Modf_row (Idx R : Nat) : (Modf ((Idx : ℚ) / R)).2 = ((Idx / R : Nat) : ℚ) := by
  simp only [Modf]
  rw [TruncToInt_of_nonneg _ (by positivity), Rat.floor_natCast_div_natCast]
  norm_cast

/-- The `float` quotient `Idx / EnemiesInRow` has the integer part of the exact quotient, for
a loop counter below `2^24`. -/
theorem FloatCol_eq (R Idx : Nat) (hR : 1 ≤ R) (hR2 : R ≤ 2 ^ 24) (hI : Idx < 2 ^ 24) :
    FloatCol R Idx = ((Idx / R : Nat) : ℚ) := by
  have hRq : (0 : ℚ) < (R : ℚ) := by exact_mod_cast hR
  have hx0 : (0 : ℚ) ≤ (Idx : ℚ) / (R : ℚ) := by positivity
  have hy0 := ToFloat_nonneg _ hx0
  have hk : ((Idx / R : Nat) : ℚ) ≤ (Idx : ℚ) / (R : ℚ) := by
    rw [le_div_iff₀ hRq]
    exact_mod_cast Nat.div_mul_le_self Idx R
  have hlow : ((Idx / R : Nat) : ℚ) ≤ ToFloat ((Idx : ℚ) / (R : ℚ)) := by
    have := ToFloat_mono _ _ hk
    rw [ToFloat_natCast _ (le_trans (Nat.div_le_self Idx R) (le_of_lt hI))] at this
    exact this
  have hlt : Idx + 1 ≤ (Idx / R + 1) * R := by
    have := (Nat.div_lt_iff_lt_mul hR).1 (Nat.lt_succ_self (Idx / R))
    exact this
  have hltq : (Idx : ℚ) + 1 ≤ (((Idx / R : Nat) : ℚ) + 1) * (R : ℚ) := by exact_mod_cast hlt
  have hIq : (Idx : ℚ) < 2 ^ 24 := by exact_mod_cast hI
  have hup : ToFloat ((Idx : ℚ) / (R : ℚ)) < ((Idx / R : Nat) : ℚ) + 1 := by
    rcases Nat.eq_zero_or_pos Idx with h0 | h0
    · rw [h0]
      simp [ToFloat_zero]
    · have h1 : (1 : ℚ) ≤ (Idx : ℚ) := by exact_mod_cast h0
      have hR2q : (R : ℚ) ≤ 2 ^ 24 := by exact_mod_cast hR2
      have hx : (1 : ℚ) / 2 ^ 30 ≤ (Idx : ℚ) / (R : ℚ) := by
        rw [div_le_div_iff₀ (by norm_num) hRq]
        nlinarith
      have h2 := (ToFloat_rel_bounds _ hx).2
      have h3 : (Idx : ℚ) / (R : ℚ) * (1 + 1 / 2 ^ 24) < ((Idx / R : Nat) : ℚ) + 1 := by
        rw [div_mul_eq_mul_div, div_lt_iff₀ hRq]
        nlinarith
      exact lt_of_le_of_lt h2 h3
  unfold FloatCol Modf
  simp only
  rw [ToFloat_natCast R hR2, TruncToInt_of_nonneg _ hy0]
  have : ⌊ToFloat ((Idx : ℚ) / (R : ℚ))⌋ = ((Idx / R : Nat) : Int) := by
    rw [Int.floor_eq_iff]
    exact ⟨by exact_mod_cast hlow, by exact_mod_cast hup⟩
  rw [this]
  norm_cast

/-- The definition index of the row `r` is the integer part of the rounded product of `r`
and the rounded quotient `(D - 1) / C`. -/
theorem EnemyDefIndex_eq (C D r : Nat) (hr : r ≤ 2 ^ 24) (hC : C ≤ 2 ^ 24) (hD : 1 ≤ D)
    (hD2 : D ≤ 2 ^ 24) :
    EnemyDefIndex C D (r : ℚ)
      = ⌊ToFloat ((r : ℚ) * ToFloat (((D - 1 : Nat) : ℚ) / (C : ℚ)))⌋ := by
  have e1 : ((((D : Int) - 1 : Int)) : ℚ) = (((D - 1 : Nat) : Int) : ℚ) := by
    push_cast [Nat.cast_sub hD]
    ring
  have e2 : ToFloat ((((D - 1 : Nat) : Int)) : ℚ) = ((D - 1 : Nat) : ℚ) := by
    rw [ToFloat_intCast _ (by rw [abs_of_nonneg (Int.natCast_nonneg _)]; omega)]
    norm_cast
  have e3 : ToFloat (((r : Nat) : Int) : ℚ) = (r : ℚ) := by
    rw [ToFloat_intCast _ (by rw [abs_of_nonneg (Int.natCast_nonneg _)]; exact_mod_cast hr)]
    norm_cast
  unfold EnemyDefIndex
  rw [TruncToInt_natCast, e1, e2, e3, ToFloat_natCast C hC]
  exact TruncToInt_of_nonneg _ (ToFloat_nonneg _ (mul_nonneg (Nat.cast_nonneg r)
    (ToFloat_nonneg _ (by positivity))))

/-- The rounded quotient `(D - 1) / C` of the definition index. -/
theorem DefQuot_bounds (C D : Nat) (hC : 1 ≤ C) (hC2 : C ≤ 2 ^ 23) (hD : 3 ≤ D) :
    0 ≤ ToFloat (((D - 1 : Nat) : ℚ) / (C : ℚ)) ∧
    ((D - 1 : Nat) : ℚ) / (C : ℚ) * (1 - 1 / 2 ^ 24) ≤ ToFloat (((D - 1 : Nat) : ℚ) / (C : ℚ)) ∧
    ToFloat (((D - 1 : Nat) : ℚ) / (C : ℚ)) ≤ ((D - 1 : Nat) : ℚ) / (C : ℚ) * (1 + 1 / 2 ^ 24) ∧
    (1 : ℚ) / 2 ^ 23 ≤ ToFloat (((D - 1 : Nat) : ℚ) / (C : ℚ)) := by
  have hc : (0 : ℚ) < (C : ℚ) := by exact_mod_cast hC
  have hc2 : (C : ℚ) ≤ 2 ^ 23 := by exact_mod_cast hC2
  have ht : (2 : ℚ) ≤ ((D - 1 : Nat) : ℚ) := by
    have : 2 ≤ D - 1 := by omega
    exact_mod_cast this
  have hx : (1 : ℚ) / 2 ^ 22 ≤ ((D - 1 : Nat) : ℚ) / (C : ℚ) := by
    rw [div_le_div_iff₀ (by norm_num) hc]
    nlinarith
  have hb := ToFloat_rel_bounds _ (le_trans (by norm_num) hx)
  refine ⟨ToFloat_nonneg _ (by positivity), hb.1, hb.2, ?_⟩
  have : (1 : ℚ) / 2 ^ 22 * (1 - 1 / 2 ^ 24) ≤ ((D - 1 : Nat) : ℚ) / (C : ℚ) * (1 - 1 / 2 ^ 24) :=
    mul_le_mul_of_nonneg_right hx (by norm_num)
  have h3 : (1 : ℚ) / 2 ^ 23 ≤ 1 / 2 ^ 22 * (1 - 1 / 2 ^ 24) := by norm_num
  linarith [hb.1]

/-- The rounded product of the definition index is at most the exact product times
`(1 + 2^-24)^2` and at least the exact product times `(1 - 2^-24)^2`. -/
theorem DefProd_bounds (C D r : Nat) (hC : 1 ≤ C) (hC2 : C ≤ 2 ^ 23) (hD : 3 ≤ D) :
    0 ≤ ToFloat ((r : ℚ) * ToFloat (((D - 1 : Nat) : ℚ) / (C : ℚ))) ∧
    (r : ℚ) * (((D - 1 : Nat) : ℚ) / (C : ℚ)) * (1 - 1 / 2 ^ 24) ^ 2
      ≤ ToFloat ((r : ℚ) * ToFloat (((D - 1 : Nat) : ℚ) / (C : ℚ))) ∧
    ToFloat ((r : ℚ) * ToFloat (((D - 1 : Nat) : ℚ) / (C : ℚ)))
      ≤ (r : ℚ) * (((D - 1 : Nat) : ℚ) / (C : ℚ)) * (1 + 1 / 2 ^ 24) ^ 2 := by
  obtain ⟨q0, q1, q2, q3⟩ := DefQuot_bounds C D hC hC2 hD
  have hr0 : (0 : ℚ) ≤ (r : ℚ) := Nat.cast_nonneg r
  refine ⟨ToFloat_nonneg _ (mul_nonneg hr0 q0), ?_⟩
  rcases Nat.eq_zero_or_pos r with h0 | h0
  · rw [h0]
    simp [ToFloat_zero]
  · have h1 : (1 : ℚ) ≤ (r : ℚ) := by exact_mod_cast h0
    have hx : (1 : ℚ) / 2 ^ 30 ≤ (r : ℚ) * ToFloat (((D - 1 : Nat) : ℚ) / (C : ℚ)) := by
      have : (1 : ℚ) / 2 ^ 30 ≤ 1 / 2 ^ 23 := by norm_num
      nlinarith
    obtain ⟨b1, b2⟩ := ToFloat_rel_bounds _ hx
    constructor
    · calc (r : ℚ) * (((D - 1 : Nat) : ℚ) / (C : ℚ)) * (1 - 1 / 2 ^ 24) ^ 2
          = (r : ℚ) * (((D - 1 : Nat) : ℚ) / (C : ℚ) * (1 - 1 / 2 ^ 24)) * (1 - 1 / 2 ^ 24) := by
            ring
        _ ≤ (r : ℚ) * ToFloat (((D - 1 : Nat) : ℚ) / (C : ℚ)) * (1 - 1 / 2 ^ 24) :=
            mul_le_mul_of_nonneg_right (mul_le_mul_of_nonneg_left q1 hr0) (by norm_num)
        _ ≤ _ := b1
    · calc ToFloat ((r : ℚ) * ToFloat (((D - 1 : Nat) : ℚ) / (C : ℚ)))
          ≤ (r : ℚ) * ToFloat (((D - 1 : Nat) : ℚ) / (C : ℚ)) * (1 + 1 / 2 ^ 24) := b2
        _ ≤ (r : ℚ) * (((D - 1 : Nat) : ℚ) / (C : ℚ) * (1 + 1 / 2 ^ 24)) * (1 + 1 / 2 ^ 24) :=
            mul_le_mul_of_nonneg_right (mul_le_mul_of_nonneg_left q2 hr0) (by norm_num)
        _ = _ := by ring

/-- The definition index of a row of the grid is a valid index and not the last one. -/
theorem EnemyDefIndex_bounds (C D r : Nat) (hC2 : C ≤ 2 ^ 23) (hD : 3 ≤ D) (hD2 : D ≤ 2 ^ 24)
    (hr : r < C) :
    0 ≤ EnemyDefIndex C D (r : ℚ) ∧ EnemyDefIndex C D (r : ℚ) ≤ (D : Int) - 2 := by
  have hC : 1 ≤ C := by omega
  obtain ⟨p0, _, p2⟩ := DefProd_bounds C D r hC hC2 hD
  rw [EnemyDefIndex_eq C D r (by omega) (by omega) (by omega) hD2]
  refine ⟨Int.floor_nonneg.2 p0, ?_⟩
  have hc : (0 : ℚ) < (C : ℚ) := by exact_mod_cast hC
  have hc2 : (C : ℚ) ≤ 2 ^ 23 := by exact_mod_cast hC2
  have ht : (0 : ℚ) < ((D - 1 : Nat) : ℚ) := by
    have : 0 < D - 1 := by omega
    exact_mod_cast this
  have hrq : (r : ℚ) + 1 ≤ (C : ℚ) := by exact_mod_cast hr
  have hK : (r : ℚ) * (1 + 1 / 2 ^ 24) ^ 2 < (C : ℚ) := by
    have : (r : ℚ) * (1 + 1 / 2 ^ 24) ^ 2 ≤ ((C : ℚ) - 1) * (1 + 1 / 2 ^ 24) ^ 2 :=
      mul_le_mul_of_nonneg_right (by linarith) (by norm_num)
    have h2 : ((C : ℚ) - 1) * (1 + 1 / 2 ^ 24) ^ 2 < (C : ℚ) := by
      norm_num
      linarith
    linarith
  have hlt : ToFloat ((r : ℚ) * ToFloat (((D - 1 : Nat) : ℚ) / (C : ℚ)))
      < (((D - 1 : Nat) : Int) : ℚ) := by
    have e : (r : ℚ) * (((D - 1 : Nat) : ℚ) / (C : ℚ)) * (1 + 1 / 2 ^ 24) ^ 2
        = ((D - 1 : Nat) : ℚ) / (C : ℚ) * ((r : ℚ) * (1 + 1 / 2 ^ 24) ^ 2) := by ring
    have h3 : ((D - 1 : Nat) : ℚ) / (C : ℚ) * ((r : ℚ) * (1 + 1 / 2 ^ 24) ^ 2)
        < ((D - 1 : Nat) : ℚ) / (C : ℚ) * (C : ℚ) :=
      mul_lt_mul_of_pos_left hK (div_pos ht hc)
    have h4 : ((D - 1 : Nat) : ℚ) / (C : ℚ) * (C : ℚ) = ((D - 1 : Nat) : ℚ) :=
      div_mul_cancel₀ _ (ne_of_gt hc)
    push_cast
    rw [e] at p2
    linarith
  have := Int.floor_lt.2 hlt
  omega

/-- The definition index does not decrease with the row. -/
theorem EnemyDefIndex_mono (C D r r2 : Nat) (hC2 : C ≤ 2 ^ 24) (hD : 1 ≤ D) (hD2 : D ≤ 2 ^ 24)
    (hle : r ≤ r2) (hr2 : r2 ≤ 2 ^ 24) :
    EnemyDefIndex C D (r : ℚ) ≤ EnemyDefIndex C D (r2 : ℚ) := by
  rw [EnemyDefIndex_eq C D r (by omega) hC2 hD hD2, EnemyDefIndex_eq C D r2 hr2 hC2 hD hD2]
  apply Int.floor_mono
  apply ToFloat_mono
  exact mul_le_mul_of_nonneg_right (by exact_mod_cast hle) (ToFloat_nonneg _ (by positivity))


/-- For a grid with `(D - 1) · C ≤ 2^22` the definition index of the row `r` is the exact
`⌊r · (D - 1) / C⌋` or one less. -/
theorem EnemyDefIndex_near (C D r : Nat) (hC : 1 ≤ C) (hD : 3 ≤ D)
    (hDC : (D - 1) * C ≤ 2 ^ 22) (hr : r < C) :
    EnemyDefIndex C D (r : ℚ) = ((r * (D - 1) / C : Nat) : Int) ∨
    EnemyDefIndex C D (r : ℚ) + 1 = ((r * (D - 1) / C : Nat) : Int) := by
  have hC2 : C ≤ 2 ^ 22 := by
    have : 1 * C ≤ (D - 1) * C := Nat.mul_le_mul_right C (by omega)
    omega
  have hD2 : D - 1 ≤ 2 ^ 22 := by
    have : (D - 1) * 1 ≤ (D - 1) * C := Nat.mul_le_mul_left (D - 1) hC
    omega
  obtain ⟨_, p1, p2⟩ := DefProd_bounds C D r hC (by omega) hD
  rw [EnemyDefIndex_eq C D r (by omega) (by omega) (by omega) (by omega)]
  have hc : (0 : ℚ) < (C : ℚ) := by exact_mod_cast hC
  have hk1 : r * (D - 1) / C * C ≤ r * (D - 1) := Nat.div_mul_le_self _ _
  have hk2 : r * (D - 1) + 1 ≤ (r * (D - 1) / C + 1) * C :=
    (Nat.div_lt_iff_lt_mul hC).1 (Nat.lt_succ_self _)
  have hk3 : r * (D - 1) / C + 1 ≤ D - 1 := by
    have h1 : r * (D - 1) < C * (D - 1) := Nat.mul_lt_mul_of_pos_right hr (by omega)
    have h2 : r * (D - 1) / C < D - 1 := Nat.div_lt_of_lt_mul h1
    omega
  have hm : (r * (D - 1) / C + 1) * C ≤ 2 ^ 22 :=
    le_trans (Nat.mul_le_mul_right C hk3) hDC
  have hk1q : ((r * (D - 1) / C : Nat) : ℚ) * (C : ℚ) ≤ (r : ℚ) * ((D - 1 : Nat) : ℚ) := by
    exact_mod_cast hk1
  have hk2q : (r : ℚ) * ((D - 1 : Nat) : ℚ) + 1 ≤ (((r * (D - 1) / C : Nat) : ℚ) + 1) * (C : ℚ) := by
    exact_mod_cast hk2
  have hmq : (((r * (D - 1) / C : Nat) : ℚ) + 1) * (C : ℚ) ≤ 2 ^ 22 := by exact_mod_cast hm
  have hkq : ((r * (D - 1) / C : Nat) : ℚ) ≤ 2 ^ 22 := by
    have : r * (D - 1) / C ≤ 2 ^ 22 := by omega
    exact_mod_cast this
  have hk0 : (0 : ℚ) ≤ ((r * (D - 1) / C : Nat) : ℚ) := Nat.cast_nonneg _
  have ex : (r : ℚ) * (((D - 1 : Nat) : ℚ) / (C : ℚ)) = (r : ℚ) * ((D - 1 : Nat) : ℚ) / (C : ℚ) := by
    ring
  rw [ex] at p1 p2
  have hup : ToFloat ((r : ℚ) * ToFloat (((D - 1 : Nat) : ℚ) / (C : ℚ)))
      < ((r * (D - 1) / C : Nat) : ℚ) + 1 := by
    apply lt_of_le_of_lt p2
    rw [div_mul_eq_mul_div, div_lt_iff₀ hc]
    have h1 : (r : ℚ) * ((D - 1 : Nat) : ℚ) * (1 + 1 / 2 ^ 24) ^ 2
        ≤ ((((r * (D - 1) / C : Nat) : ℚ) + 1) * (C : ℚ) - 1) * (1 + 1 / 2 ^ 24) ^ 2 :=
      mul_le_mul_of_nonneg_right (by linarith) (by norm_num)
    have h2 : ((((r * (D - 1) / C : Nat) : ℚ) + 1) * (C : ℚ) - 1) * (1 + 1 / 2 ^ 24) ^ 2
        < (((r * (D - 1) / C : Nat) : ℚ) + 1) * (C : ℚ) := by
      generalize (((r * (D - 1) / C : Nat) : ℚ) + 1) * (C : ℚ) = m at hmq
      norm_num
      linarith
    linarith
  have hlow : ((r * (D - 1) / C : Nat) : ℚ) - 1
      < ToFloat ((r : ℚ) * ToFloat (((D - 1 : Nat) : ℚ) / (C : ℚ))) := by
    apply lt_of_lt_of_le _ p1
    have h1 : ((r * (D - 1) / C : Nat) : ℚ) ≤ (r : ℚ) * ((D - 1 : Nat) : ℚ) / (C : ℚ) := by
      rw [le_div_iff₀ hc]
      exact hk1q
    have h2 : ((r * (D - 1) / C : Nat) : ℚ) * (1 - 1 / 2 ^ 24) ^ 2
        ≤ (r : ℚ) * ((D - 1 : Nat) : ℚ) / (C : ℚ) * (1 - 1 / 2 ^ 24) ^ 2 :=
      mul_le_mul_of_nonneg_right h1 (by norm_num)
    have h3 : ((r * (D - 1) / C : Nat) : ℚ) - 1
        < ((r * (D - 1) / C : Nat) : ℚ) * (1 - 1 / 2 ^ 24) ^ 2 := by
      generalize ((r * (D - 1) / C : Nat) : ℚ) = k at hkq hk0
      norm_num
      linarith
    linarith
  have f1 : ⌊ToFloat ((r : ℚ) * ToFloat (((D - 1 : Nat) : ℚ) / (C : ℚ)))⌋
      < ((r * (D - 1) / C : Nat) : Int) + 1 := Int.floor_lt.2 (by exact_mod_cast hup)
  have f2 : ((r * (D - 1) / C : Nat) : Int) - 1
      ≤ ⌊ToFloat ((r : ℚ) * ToFloat (((D - 1 : Nat) : ℚ) / (C : ℚ)))⌋ :=
    Int.le_floor.2 (by push_cast; exact le_of_lt hlow)
  omega

/-- The instancing of the grid enemy `Idx` reads the definition at the `EnemyDefIndex` of
its `float` row. -/
theorem SpawnEnemy_eq (s : AInvadersGameMode) (Idx : Nat) :
    SpawnEnemy s Idx =
      (getAt s.EnemyDefs (EnemyDefIndex s.Rules.EnemiesInColumn s.EnemyDefs.length
        (FloatCol s.Rules.EnemiesInRow Idx))).bind fun EDef =>
      some ((SpawnActor EDef.ShipClass).SetActorLocation
        ⟨(TruncToInt (s.Rules.EnemySpread * s.Rules.EnemiesInRow) : ℚ)
            * (Modf ((Idx : ℚ) / s.Rules.EnemiesInRow)).1
          - (TruncToInt (s.Rules.EnemySpread * s.Rules.EnemiesInRow) : ℚ) * (1 / 2),
          -s.Rules.EnemySpread * (Modf ((Idx : ℚ) / s.Rules.EnemiesInRow)).2, 0⟩) := rfl

/-- The instancing loop of `InitGameObjects` succeeds for every slot of the grid. -/
theorem SpawnEnemyShips_some (s : AInvadersGameMode)
    (hslot : ∀ Idx, Idx < s.Rules.EnemiesInRow * s.Rules.EnemiesInColumn →
      ∃ E, SpawnEnemy s Idx = some E) :
    ∀ n, n ≤ s.Rules.EnemiesInRow * s.Rules.EnemiesInColumn →
      ∃ l, SpawnEnemyShips s n = some l := by
  intro n
  induction n with
  | zero => intro _; exact ⟨[], rfl⟩
  | succ n ih =>
    intro hn
    obtain ⟨l, hl⟩ := ih (by omega)
    obtain ⟨E, hE⟩ := hslot n (by omega)
    exact ⟨l ++ [E], by simp [SpawnEnemyShips, hl, hE]⟩

/-- C22, the claim as stated fails: the index is computed in `float` arithmetic. (1) On a
grid of one column of 82 rows with three definitions, the row 41 reads the definition 0,
not `trunc(41 · 2 / 82) = 1`: the `float` quotient `2 / 82` is below the exact one.
(2) On a grid of one column of 16777215 rows with three definitions, the row 16777214 reads
the definition 2, the last one, which is outside `[0, D - 2]`. -/
theorem definition_index_not_exact :
    EnemyDefIndex 82 3 ((41 : Nat) : ℚ) = 0 ∧ 41 * (3 - 1) / 82 = 1 ∧
    FloatCol 1 41 = 41 ∧
    (SpawnEnemy (SampleMode { FGameRules.default with
        EnemiesInRow := 1, EnemiesInColumn := 82 }) 41).map (fun E => E.Class)
      = some 1 ∧
    SampleDefs.map (fun Def => Def.ShipClass) = [1, 2, 4] ∧
    16777214 < 16777215 ∧
    EnemyDefIndex 16777215 3 ((16777214 : Nat) : ℚ) = 2 ∧
    FloatCol 1 16777214 = 16777214 ∧
    (SpawnEnemy (SampleMode { FGameRules.default with
        EnemiesInRow := 1, EnemiesInColumn := 16777215 }) 16777214).map (fun E => E.Class)
      = some 4 := by
  decide!

/-- C22, amended: the last enemy definition is reserved for the UFO on every grid of at
most `2^23` slots with at most `2^24` definitions. For `EnemiesInRow ≥ 1`,
`EnemiesInColumn ≥ 1`, `EnemiesInRow · EnemiesInColumn ≤ 2^23` and `3 ≤ D ≤ 2^24` enemy
definitions: (1) the definition index of a row `r < EnemiesInColumn`, the truncated `float`
product `int(Col) * (Types / EnemiesInColumn)`, lies in `[0, D − 2]`, and when
`(D − 1) · EnemiesInColumn ≤ 2^22` it is `⌊r·(D − 1) / EnemiesInColumn⌋` or one less;
(2) it is non-decreasing in `r`; (3) in a game mode with these rules and `D` definitions,
every grid slot `Idx < EnemiesInRow · EnemiesInColumn` lies in the row
`Idx / EnemiesInRow < EnemiesInColumn` (and the column `Idx % EnemiesInRow`), the `float`
column operand of the code is that row, and the instancing reads `EnemyDefs[k]` with `k`
the index of that row, `k < D − 1`, so the access succeeds and is not the last definition,
which `EnemyDefs.Top()` gives to the UFO; (4) the instancing loop returns the whole,
non-empty grid. -/
theorem last_definition_reserved_for_ufo (R C D : Nat) (hR : 1 ≤ R) (hC : 1 ≤ C)
    (hD : 3 ≤ D) (hG : R * C ≤ 2 ^ 23) (hD2 : D ≤ 2 ^ 24) :
    (∀ r : Nat, r < C →
      0 ≤ EnemyDefIndex C D (r : ℚ) ∧ EnemyDefIndex C D (r : ℚ) ≤ (D : Int) - 2 ∧
      ((D - 1) * C ≤ 2 ^ 22 →
        EnemyDefIndex C D (r : ℚ) = ((r * (D - 1) / C : Nat) : Int) ∨
        EnemyDefIndex C D (r : ℚ) + 1 = ((r * (D - 1) / C : Nat) : Int))) ∧
    (∀ r r2 : Nat, r ≤ r2 → r2 < C →
      EnemyDefIndex C D (r : ℚ) ≤ EnemyDefIndex C D (r2 : ℚ)) ∧
    (∀ s : AInvadersGameMode, s.Rules.EnemiesInRow = R → s.Rules.EnemiesInColumn = C →
      s.EnemyDefs.length = D →
      (∀ Idx : Nat, Idx < R * C →
        ∃ (k : Nat) (Def Top : FEnemyDef) (Loc : FVector),
          Idx / R < C ∧ Idx % R < R ∧
          FloatCol R Idx = ((Idx / R : Nat) : ℚ) ∧
          (k : Int) = EnemyDefIndex C D ((Idx / R : Nat) : ℚ) ∧
          k + 1 < D ∧
          s.EnemyDefs[k]? = some Def ∧
          s.EnemyDefs.getLast? = some Top ∧ s.EnemyDefs[D - 1]? = some Top ∧
          SpawnEnemy s Idx = some ((SpawnActor Def.ShipClass).SetActorLocation Loc)) ∧
      ∃ l, SpawnEnemyShips s (R * C) = some l ∧ l.length = R * C ∧ 0 < l.length) := by
  have hC2 : C ≤ 2 ^ 23 := by
    have : 1 * C ≤ R * C := Nat.mul_le_mul_right C hR
    omega
  have hR2 : R ≤ 2 ^ 23 := by
    have : R * 1 ≤ R * C := Nat.mul_le_mul_left R hC
    omega
  have hslot : ∀ s : AInvadersGameMode, s.Rules.EnemiesInRow = R →
      s.Rules.EnemiesInColumn = C → s.EnemyDefs.length = D →
      ∀ Idx : Nat, Idx < R * C →
        ∃ (k : Nat) (Def Top : FEnemyDef) (Loc : FVector),
          Idx / R < C ∧ Idx % R < R ∧
          FloatCol R Idx = ((Idx / R : Nat) : ℚ) ∧
          (k : Int) = EnemyDefIndex C D ((Idx / R : Nat) : ℚ) ∧
          k + 1 < D ∧
          s.EnemyDefs[k]? = some Def ∧
          s.EnemyDefs.getLast? = some Top ∧ s.EnemyDefs[D - 1]? = some Top ∧
          SpawnEnemy s Idx = some ((SpawnActor Def.ShipClass).SetActorLocation Loc) := by
    intro s eR eC eD Idx hIdx
    have hrow : Idx / R < C := Nat.div_lt_of_lt_mul hIdx
    have hcol := FloatCol_eq R Idx hR (by omega) (by omega)
    obtain ⟨b0, b1⟩ := EnemyDefIndex_bounds C D (Idx / R) hC2 hD hD2 hrow
    obtain ⟨k, hk⟩ := Int.eq_ofNat_of_zero_le b0
    have hkD : k + 1 < D := by omega
    have hkl : k < s.EnemyDefs.length := by omega
    have hlast : D - 1 < s.EnemyDefs.length := by omega
    have hsp : ∃ Loc, SpawnEnemy s Idx = some
        ((SpawnActor (s.EnemyDefs[k]).ShipClass).SetActorLocation Loc) := by
      have h := SpawnEnemy_eq s Idx
      rw [eR, eC, eD, hcol, hk] at h
      simp only [getAt, Int.natCast_nonneg, if_true, Int.toNat_ofNat,
        List.getElem?_eq_getElem hkl, Option.some_bind] at h
      exact ⟨_, h⟩
    obtain ⟨Loc, hLoc⟩ := hsp
    refine ⟨k, s.EnemyDefs[k], s.EnemyDefs[D - 1], Loc, hrow, Nat.mod_lt _ hR, hcol, hk.symm,
      hkD, List.getElem?_eq_getElem hkl, ?_, List.getElem?_eq_getElem hlast, hLoc⟩
    rw [List.getLast?_eq_getElem?, eD, List.getElem?_eq_getElem hlast]
  refine ⟨?_, ?_, ?_⟩
  · intro r hr
    obtain ⟨b0, b1⟩ := EnemyDefIndex_bounds C D r hC2 hD hD2 hr
    exact ⟨b0, b1, fun hDC => EnemyDefIndex_near C D r hC hD hDC hr⟩
  · intro r r2 hle hr2
    exact EnemyDefIndex_mono C D r r2 (by omega) (by omega) hD2 hle (by omega)
  · intro s eR eC eD
    refine ⟨hslot s eR eC eD, ?_⟩
    obtain ⟨l, hl⟩ := SpawnEnemyShips_some s (by
      intro Idx hIdx
      rw [eR, eC] at hIdx
      obtain ⟨k, Def, Top, Loc, _, _, _, _, _, _, _, _, h⟩ := hslot s eR eC eD Idx hIdx
      exact ⟨_, h⟩) (R * C) (by rw [eR, eC])
    have hlen := SpawnEnemyShips_length s _ l hl
    exact ⟨l, hl, hlen, by rw [hlen]; exact Nat.mul_pos hR hC⟩

/-- C22 for the default grid (rows of 10, 5 rows) and the three sample definitions: the
rows 0, 1, 2 read the definition 0 and the rows 3, 4 the definition 1; the definition 2 is
left to the UFO. -/
theorem last_definition_reserved_for_ufo_witness :
    EnemyDefIndex 5 3 (0 : Nat) = 0 ∧ EnemyDefIndex 5 3 (2 : Nat) = 0 ∧
    EnemyDefIndex 5 3 (3 : Nat) = 1 ∧ EnemyDefIndex 5 3 (4 : Nat) = 1 ∧
    EnemyDefIndex 5 3 (4 : Nat) ≤ ((3 : Nat) : Int) - 2 ∧
    ∃ l, SpawnEnemyShips (SampleMode FGameRules.default) (10 * 5) = some l ∧
      l.length = 10 * 5 ∧ 0 < l.length := by
  have h := last_definition_reserved_for_ufo 10 5 3 (by decide) (by decide) (by decide)
    (by decide) (by decide)
  exact ⟨by decide!, by decide!, by decide!, by decide!, (h.1 4 (by decide)).2.1,
    (h.2.2 (SampleMode FGameRules.default) rfl rfl rfl).2⟩

/-! ### Frame of the enemy bookkeeping -/

theorem BookkeepingSame_refl (s : AInvadersGameMode) : BookkeepingSame s s := ⟨rfl, rfl⟩

theorem BookkeepingSame_trans (a b c : AInvadersGameMode) (h : BookkeepingSame a b)
    (g : BookkeepingSame b c) : BookkeepingSame a c := ⟨g.1.trans h.1, g.2.trans h.2⟩

theorem EnemyLoopFrame_refl (s : AInvadersGameMode) : EnemyLoopFrame s s :=
  ⟨rfl, rfl, rfl, rfl⟩

theorem EnemyLoopFrame_trans (a b c : AInvadersGameMode) (h : EnemyLoopFrame a b)
    (g : EnemyLoopFrame b c) : EnemyLoopFrame a c :=
  ⟨g.1.trans h.1, g.2.1.trans h.2.1, g.2.2.1.trans h.2.2.1, g.2.2.2.trans h.2.2.2⟩

/-- One iteration of the loop of `UpdatePlayerBullets`: in the grid-enemy branch
`ActiveEnemyNum` drops by exactly one, in every other case the enemy bookkeeping stays as it
is. -/
theorem PlayerBulletBody_bookkeeping (dt : ℚ) (inp : FTickInput) (r : Nat)
    (s t : AInvadersGameMode) (h : PlayerBulletBody dt inp r s = some t) :
    (GridEnemyHit inp r = true →
      t.InvadersGameState.ActiveEnemyNum = s.InvadersGameState.ActiveEnemyNum - 1) ∧
    (GridEnemyHit inp r = false → BookkeepingSame s t) := by
  obtain ⟨B, s1, s2, hB, h1, h2, ht⟩ := PlayerBulletBody_inv dt inp r s t h
  have h21 : BookkeepingSame s1 s2 := by
    rcases DeletePlayerBullet_inv _ _ _ _ h2 with ⟨_, e⟩ | ⟨_, res, hD, e⟩
    · rw [e]; exact ⟨rfl, rfl⟩
    · rw [e]; exact ⟨rfl, rfl⟩
  have h2t : BookkeepingSame s2 t := by
    rw [ht, AllEnemiesKilled_frame]; exact ⟨rfl, rfl⟩
  have hst := BookkeepingSame_trans _ _ _ h21 h2t
  rcases PlayerBulletUnit_inv _ _ _ _ h1 with ⟨hU, e⟩ | ⟨U, t1, hU, hH, e⟩
  · constructor
    · intro hg; simp [GridEnemyHit, hU] at hg
    · intro _
      refine BookkeepingSame_trans _ _ _ ?_ hst
      rw [e]; exact ⟨rfl, rfl⟩
  · obtain ⟨hUE, hO⟩ := PlayerUnitActor_IsEnemy inp r U hU
    rcases PlayerBulletHit_inv _ U _ t1 hUE hH with ⟨k, hk, hA⟩ | ⟨hufo, Points, _, ht1⟩ |
      ⟨i, E, Points, hUi, hE, _, hR⟩
    · obtain ⟨k2, HP0, A, _, _, _, ht1⟩ := AsteroidHit_inv U _ t1 hA
      constructor
      · intro hg; simp [GridEnemyHit, hU, hk, ActorRef.IsAsteroid] at hg
      · intro _
        refine BookkeepingSame_trans _ _ _ ?_ hst
        rw [e, ht1]; exact ⟨rfl, rfl⟩
    · constructor
      · intro hg; simp [GridEnemyHit, hU, hufo, ActorRef.IsUfo] at hg
      · intro _
        refine BookkeepingSame_trans _ _ _ ?_ hst
        rw [e, ht1]; exact ⟨rfl, rfl⟩
    · obtain ⟨Sh, ht1⟩ := ReorganizeShooters_inv _ _ _ hR
      constructor
      · intro _
        rw [hst.1, e, ht1]
      · intro hg; simp [GridEnemyHit, hU, hUi, ActorRef.IsAsteroid, ActorRef.IsUfo] at hg

/-- The loop of `UpdatePlayerBullets` over the slots `n - 1, ..., 0` lowers
`ActiveEnemyNum` by the number of iterations that take the grid-enemy branch, and leaves the
enemy bookkeeping as it is when there is none. -/
theorem PlayerBulletLoop_bookkeeping (dt : ℚ) (inp : FTickInput) :
    ∀ (n : Nat) (s t : AInvadersGameMode), PlayerBulletLoop dt inp n s = some t →
      t.InvadersGameState.ActiveEnemyNum = s.InvadersGameState.ActiveEnemyNum -
        ((List.range n).countP (GridEnemyHit inp) : Nat) ∧
      ((∀ r, r < n → GridEnemyHit inp r = false) → BookkeepingSame s t) := by
  intro n
  induction n with
  | zero =>
    intro s t h
    simp only [PlayerBulletLoop, Option.some.injEq] at h
    rw [← h]
    exact ⟨by simp, fun _ => ⟨rfl, rfl⟩⟩
  | succ n ih =>
    intro s t h
    simp only [PlayerBulletLoop, Option.bind_eq_some] at h
    obtain ⟨u, hu, ht⟩ := h
    obtain ⟨b1, b2⟩ := PlayerBulletBody_bookkeeping dt inp n s u hu
    obtain ⟨i1, i2⟩ := ih u t ht
    constructor
    · rw [i1, List.range_succ, List.countP_append]
      cases hg : GridEnemyHit inp n
      · rw [(b2 hg).1]
        simp [hg]
      · rw [b1 hg]
        simp [hg]
        ring
    · intro hall
      exact BookkeepingSame_trans _ _ _ (b2 (hall n (by omega)))
        (i2 fun r hr => hall r (by omega))

/-- One iteration of the loop of `UpdateEnemyBullets` leaves the enemy bookkeeping, the
score and the level as they are. -/
theorem EnemyBulletBody_frame (dt : ℚ) (inp : FTickInput) (r : Nat)
    (s t : AInvadersGameMode) (h : EnemyBulletBody dt inp r s = some t) :
    EnemyLoopFrame s t := by
  refine EnemyBulletBody_rel EnemyLoopFrame EnemyLoopFrame_refl EnemyLoopFrame_trans
    ?_ ?_ ?_ ?_ ?_ dt inp r s t h
  · intro s Bs _; exact EnemyLoopFrame_refl s
  · intro s As HPs _; exact EnemyLoopFrame_refl s
  · intro s; rw [HandlePlayerHit_frame]; exact EnemyLoopFrame_refl s
  · intro s e; exact EnemyLoopFrame_refl s
  · intro s Bs _ _ _; exact EnemyLoopFrame_refl s

/-- C23: frame of the enemy bookkeeping. (1) One iteration of the loop of
`UpdatePlayerBullets` lowers `ActiveEnemyNum` by exactly 1 when it takes the grid-enemy
branch (the player bullet kills a grid enemy), and otherwise leaves `ActiveEnemyNum` and
`ShootingEnemies` unchanged; (2) an overlap with the ufo or an asteroid and an iteration
without `UnitActor` (out-of-bounds removal or plain advance) are not the grid-enemy branch,
an overlap with a grid enemy is; (3) the whole loop lowers `ActiveEnemyNum` by the number of
its iterations in the grid-enemy branch and leaves `ActiveEnemyNum` and `ShootingEnemies`
unchanged when there is none; (4) every iteration of `UpdateEnemyBullets`, whatever its
bullet overlaps (an enemy ship included), and (5) the whole of `UpdateEnemyBullets` leave
`ActiveEnemyNum`, `ShootingEnemies`, `Score` and `CurrentLevel` unchanged. -/
theorem enemy_bookkeeping_frame (dt : ℚ) (inp : FTickInput) (s : AInvadersGameMode) :
    (∀ r t, PlayerBulletBody dt inp r s = some t →
      (GridEnemyHit inp r = true →
        t.InvadersGameState.ActiveEnemyNum = s.InvadersGameState.ActiveEnemyNum - 1) ∧
      (GridEnemyHit inp r = false → BookkeepingSame s t)) ∧
    (∀ r, (inp.PlayerOverlap r = some .Ufo ∨ (∃ k, inp.PlayerOverlap r = some (.Asteroid k)) ∨
        PlayerUnitActor inp r = none) → GridEnemyHit inp r = false) ∧
    (∀ r i, inp.PlayerOverlap r = some (.Enemy i) → GridEnemyHit inp r = true) ∧
    (∀ t, UpdatePlayerBullets dt inp s = some t →
      t.InvadersGameState.ActiveEnemyNum = s.InvadersGameState.ActiveEnemyNum -
        ((List.range s.InvadersGameState.ActivePlayerBullets.toNat).countP
          (GridEnemyHit inp) : Nat) ∧
      ((∀ r, r < s.InvadersGameState.ActivePlayerBullets.toNat → GridEnemyHit inp r = false) →
        BookkeepingSame s t)) ∧
    (∀ r t, EnemyBulletBody dt inp r s = some t → EnemyLoopFrame s t) ∧
    (∀ t, UpdateEnemyBullets dt inp s = some t → EnemyLoopFrame s t) := by
  refine ⟨fun r t h => PlayerBulletBody_bookkeeping dt inp r s t h, ?_, ?_,
    fun t h => PlayerBulletLoop_bookkeeping dt inp _ s t h,
    fun r t h => EnemyBulletBody_frame dt inp r s t h, ?_⟩
  · intro r h
    rcases h with h | ⟨k, h⟩ | h
    · simp [GridEnemyHit, PlayerUnitActor, h, ActorRef.IsEnemy, ActorRef.IsUfo]
    · simp [GridEnemyHit, PlayerUnitActor, h, ActorRef.IsEnemy, ActorRef.IsAsteroid]
    · simp [GridEnemyHit, h]
  · intro r i h
    simp [GridEnemyHit, PlayerUnitActor, h, ActorRef.IsEnemy, ActorRef.IsAsteroid,
      ActorRef.IsUfo]
  · intro t h
    exact EnemyBulletLoop_rel EnemyLoopFrame EnemyLoopFrame_refl EnemyLoopFrame_trans dt inp
      (fun r a b hb => EnemyBulletBody_frame dt inp r a b hb) _ s t h

/-- C23 in the sample wave with one bullet of each pool in flight: the player bullet that
kills the grid enemy 3 lowers `ActiveEnemyNum` from 50 to 49; the player bullet that hits
the ufo scores 100 and leaves `ActiveEnemyNum` at 50 and `ShootingEnemies` as it is; the
enemy bullet that overlaps the grid enemy 3 leaves count, front, score and level as they
are. -/
theorem enemy_bookkeeping_frame_witness :
    (SampleAfter BothInFlight).InvadersGameState.ActiveEnemyNum = 50 ∧
    UpdatePlayerBullets (1 / 10) HitEnemy3 (SampleAfter BothInFlight) = some AfterEnemyKill ∧
    AfterEnemyKill.InvadersGameState.ActiveEnemyNum = 49 ∧
    UpdatePlayerBullets (1 / 10) UfoAndEnemyOverlap (SampleAfter BothInFlight)
      = some AfterUfoHit ∧
    AfterUfoHit.InvadersGameState.Score = 100 ∧
    BookkeepingSame (SampleAfter BothInFlight) AfterUfoHit ∧
    UpdateEnemyBullets (1 / 10) UfoAndEnemyOverlap AfterUfoHit = some AfterEnemyOverlap ∧
    EnemyLoopFrame AfterUfoHit AfterEnemyOverlap := by
  have hd : (SampleAfter BothInFlight).InvadersGameState.ActiveEnemyNum = 50 ∧
      (SampleAfter BothInFlight).InvadersGameState.ActivePlayerBullets = 1 ∧
      (UpdatePlayerBullets (1 / 10) HitEnemy3 (SampleAfter BothInFlight)).isSome = true ∧
      (UpdatePlayerBullets (1 / 10) UfoAndEnemyOverlap (SampleAfter BothInFlight)).isSome
        = true ∧
      (UpdateEnemyBullets (1 / 10) UfoAndEnemyOverlap AfterUfoHit).isSome = true ∧
      AfterUfoHit.InvadersGameState.Score = 100 := by decide!
  obtain ⟨hA, hP, hsK, hsU, hsE, h100⟩ := hd
  have hK : UpdatePlayerBullets (1 / 10) HitEnemy3 (SampleAfter BothInFlight)
      = some AfterEnemyKill := by
    obtain ⟨t, ht⟩ := Option.isSome_iff_exists.1 hsK
    unfold AfterEnemyKill; rw [ht]; rfl
  have hU : UpdatePlayerBullets (1 / 10) UfoAndEnemyOverlap (SampleAfter BothInFlight)
      = some AfterUfoHit := by
    obtain ⟨t, ht⟩ := Option.isSome_iff_exists.1 hsU
    unfold AfterUfoHit; rw [ht]; rfl
  have hE : UpdateEnemyBullets (1 / 10) UfoAndEnemyOverlap AfterUfoHit
      = some AfterEnemyOverlap := by
    obtain ⟨t, ht⟩ := Option.isSome_iff_exists.1 hsE
    unfold AfterEnemyOverlap; rw [ht]; rfl
  have h1 := (enemy_bookkeeping_frame (1 / 10) HitEnemy3 (SampleAfter BothInFlight)).2.2.2.1
    AfterEnemyKill hK
  have h2 := (enemy_bookkeeping_frame (1 / 10) UfoAndEnemyOverlap
    (SampleAfter BothInFlight)).2.2.2.1 AfterUfoHit hU
  have h3 := (enemy_bookkeeping_frame (1 / 10) UfoAndEnemyOverlap AfterUfoHit).2.2.2.2.2
    AfterEnemyOverlap hE
  refine ⟨hA, hK, ?_, hU, h100, ?_, hE, h3⟩
  · rw [h1.1, hA, hP]
    decide
  · apply h2.2
    rw [hP]
    intro r hr
    have : r = 0 := by
      have : (1 : Int).toNat = 1 := rfl
      omega
    subst this
    decide

/-! ### Exact enemy count during a wave -/

theorem EnemyCountExact_of_same (s t : AInvadersGameMode) (h : EnemyCountSame s t)
    (hs : EnemyCountExact s) : EnemyCountExact t := by
  obtain ⟨h1, h2, h3, h4⟩ := h
  unfold EnemyCountExact GridWF
  rw [h1, h2, h3, h4]
  exact hs

/-- After the showing loop over all slots every enemy is visible. -/
theorem VisibleCount_forFirst_activate : ∀ (n : Nat) (l : List AActor), l.length ≤ n →
    VisibleCount (forFirst AActor.activate n l) = l.length := by
  intro n
  induction n with
  | zero =>
    intro l h
    have : l = [] := List.length_eq_zero.1 (by omega)
    subst this; rfl
  | succ n ih =>
    intro l h
    cases l with
    | nil => rfl
    | cons a l =>
      have := ih l (by simpa using h)
      simp only [VisibleCount, forFirst, List.countP_cons] at this ⊢
      simp [this, AActor.activate]

/-- No enemy slot is counted as visible exactly when every enemy is hidden. -/
theorem VisibleCount_eq_zero (l : List AActor) :
    VisibleCount l = 0 ↔ ∀ E ∈ l, E.Hidden = true := by
  unfold VisibleCount
  rw [List.countP_eq_zero]
  simp

/-- `SpawnEnemies` on a well-formed grid makes the enemy count exact. -/
theorem EnemyCountExact_spawn (s : AInvadersGameMode) (hs : GridWF s) :
    EnemyCountExact (SpawnEnemies s) := by
  obtain ⟨hG, hL⟩ := hs
  rw [SpawnEnemies_frame]
  refine ⟨⟨hG, by simpa [forFirst_length] using hL⟩, ?_⟩
  have h := VisibleCount_forFirst_activate s.InvadersGameState.TotalEnemyNum s.EnemyShips
    (by omega)
  show ((VisibleCount (forFirst AActor.activate s.InvadersGameState.TotalEnemyNum
    s.EnemyShips) : Nat) : Int) = (s.InvadersGameState.TotalEnemyNum : Int)
  rw [h, hL]

/-- One iteration of the player loop keeps the count exact when its overlap reports a
visible unit. -/
theorem PlayerBulletBody_EnemyCountExact (dt : ℚ) (inp : FTickInput) (r : Nat)
    (s t : AInvadersGameMode) (hs : EnemyCountExact s)
    (hv : OverlapVisible s (inp.PlayerOverlap r) = true)
    (h : PlayerBulletBody dt inp r s = some t) : EnemyCountExact t := by
  obtain ⟨B, s1, s2, hB, h1, h2, ht⟩ := PlayerBulletBody_inv dt inp r s t h
  have hs1 : EnemyCountExact s1 := by
    rcases PlayerBulletUnit_inv _ _ _ _ h1 with ⟨_, e⟩ | ⟨U, t1, hU, hH, e⟩
    · rw [e]; exact EnemyCountExact_of_same s _ (EnemyCountSame_refl s) hs
    · obtain ⟨hUE, hO⟩ := PlayerUnitActor_IsEnemy inp r U hU
      rw [e]
      refine EnemyCountExact_of_same t1 _ (EnemyCountSame_refl t1) ?_
      rcases PlayerBulletHit_inv _ U _ t1 hUE hH with ⟨k, _, hA⟩ | ⟨_, Points, _, ht1⟩ |
        ⟨i, E, Points, hUi, hE, _, hR⟩
      · obtain ⟨k2, HP0, A, _, _, _, ht1⟩ := AsteroidHit_inv U _ t1 hA
        rw [ht1]
        exact EnemyCountExact_of_same s _ (EnemyCountSame_refl s) hs
      · rw [ht1]
        exact EnemyCountExact_of_same s _ (EnemyCountSame_refl s) hs
      · obtain ⟨Sh, ht1⟩ := ReorganizeShooters_inv _ _ _ hR
        have hE2 : s.EnemyShips[i]? = some E := hE
        have hvis : E.Hidden = false := by
          rw [hO, hUi] at hv
          simp only [OverlapVisible, Deref, hE2] at hv
          simp at hv
          exact hv.1
        obtain ⟨⟨hG, hL⟩, c1⟩ := hs
        have hc := VisibleCount_set_deactivate s.EnemyShips i E hE2 hvis
        rw [ht1]
        refine ⟨⟨hG, by simpa using hL⟩, ?_⟩
        show ((VisibleCount (s.EnemyShips.set i E.deactivate) : Nat) : Int)
          = s.InvadersGameState.ActiveEnemyNum - 1
        omega
  have hs2 : EnemyCountExact s2 := by
    rcases DeletePlayerBullet_inv _ _ _ _ h2 with ⟨_, e⟩ | ⟨_, res, hD, e⟩
    · rw [e]; exact hs1
    · rw [e]; exact EnemyCountExact_of_same s1 _ (EnemyCountSame_refl s1) hs1
  rw [ht, AllEnemiesKilled_frame]
  exact EnemyCountExact_of_same s2 _ (EnemyCountSame_refl s2) hs2

theorem PlayerBulletLoop_EnemyCountExact (dt : ℚ) (inp : FTickInput) :
    ∀ (n : Nat) (s t : AInvadersGameMode), EnemyCountExact s →
      PlayerOverlapsVisible dt inp n s = true → PlayerBulletLoop dt inp n s = some t →
      EnemyCountExact t := by
  intro n
  induction n with
  | zero =>
    intro s t hs _ h
    simp only [PlayerBulletLoop, Option.some.injEq] at h
    rw [← h]; exact hs
  | succ n ih =>
    intro s t hs hv h
    simp only [PlayerBulletLoop, Option.bind_eq_some] at h
    obtain ⟨u, hu, ht⟩ := h
    simp only [PlayerOverlapsVisible, hu, Bool.and_eq_true] at hv
    exact ih u t (PlayerBulletBody_EnemyCountExact dt inp n s u hs hv.1 hu) hv.2 ht

/-- A tick whose overlaps report visible units only keeps the count exact. -/
theorem Tick_EnemyCountExact (dt : ℚ) (inp : FTickInput) (s t : AInvadersGameMode)
    (hs : EnemyCountExact s) (hv : Input.OverlapsVisible s (.Tick dt inp) = true)
    (h : Tick dt inp s = some t) : EnemyCountExact t := by
  unfold Tick at h
  split at h
  · cases h; exact hs
  · rename_i hg
    simp only [Option.bind_eq_some] at h
    obtain ⟨u, hu, ht⟩ := h
    have hv2 : PlayerOverlapsVisible dt inp
        (BeforePlayerBullets dt inp s).InvadersGameState.ActivePlayerBullets.toNat
        (BeforePlayerBullets dt inp s) = true := by
      simp only [Input.OverlapsVisible, Bool.or_eq_true] at hv
      rcases hv with hv | hv
      · exact absurd (by simpa using hv) hg
      · exact hv
    have h5 := EnemyCountExact_of_same s _ (BeforePlayerBullets_EnemyCountSame dt inp s) hs
    have hu2 : PlayerBulletLoop dt inp
        (BeforePlayerBullets dt inp s).InvadersGameState.ActivePlayerBullets.toNat
        (BeforePlayerBullets dt inp s) = some u := hu
    have h6 := PlayerBulletLoop_EnemyCountExact dt inp _ _ u h5 hv2 hu2
    exact EnemyCountExact_of_same u t (UpdateEnemyBullets_EnemyCountSame dt inp u t ht) h6

/-- An engine call that does not run `ResetUnits` and whose overlaps report visible units
only keeps the count exact. -/
theorem Step_EnemyCountExact (s t : AInvadersGameMode) (i : Input) (hs : EnemyCountExact s)
    (hi : i.Resets = false) (hv : i.OverlapsVisible s = true) (h : Step s i = some t) :
    EnemyCountExact t := by
  cases i with
  | Tick dt inp =>
    simp only [Step] at h
    split at h
    · exact Tick_EnemyCountExact dt inp s t hs hv h
    · cases h
  | StartGameButton =>
    simp only [Step] at h
    split at h
    · cases h; exact EnemyCountExact_of_same s _ ⟨rfl, rfl, rfl, rfl⟩ hs
    · cases h
  | TutorialShootPressed Rand => cases hi
  | RestartButton Rand => cases hi
  | ExitButton => cases hi
  | ShootPressed =>
    obtain ⟨b, hd, Bs, c, _, _, _, ht⟩ := HandlePlayerShootPressed_inv s t h
    rw [ht]; exact EnemyCountExact_of_same s _ ⟨rfl, rfl, rfl, rfl⟩ hs
  | ShootReleased =>
    simp only [Step, Option.some.injEq] at h
    rw [← h, HandlePlayerShootReleased_frame]
    exact EnemyCountExact_of_same s _ ⟨rfl, rfl, rfl, rfl⟩ hs
  | EscapePressed =>
    simp only [Step, Option.some.injEq] at h
    rw [← h, HandleTogglePausePressed_frame]
    exact EnemyCountExact_of_same s _ ⟨rfl, rfl, rfl, rfl⟩ hs
  | EnemyAppearTimer =>
    simp only [Step] at h
    split at h
    · cases h
      exact EnemyCountExact_spawn _ hs.1
    · cases h
  | PlayerAppearTimer =>
    simp only [Step] at h
    split at h
    · cases h; exact EnemyCountExact_of_same s _ ⟨rfl, rfl, rfl, rfl⟩ hs
    · cases h
  | EnemyShootTimer Rand =>
    simp only [Step] at h
    split at h
    · obtain ⟨hd, Bs, c, _, _, _, ht⟩ := EnemyShootTimerCallback_inv Rand _ t h
      rw [ht]; exact EnemyCountExact_of_same s _ ⟨rfl, rfl, rfl, rfl⟩ hs
    · cases h
  | PlayerShootTimer =>
    simp only [Step] at h
    split at h
    · rcases PlayerShootTimerCallback_inv _ t h with e | e | ⟨_, _, Bs, _, e⟩ <;>
        (rw [e]; exact EnemyCountExact_of_same s _ ⟨rfl, rfl, rfl, rfl⟩ hs)
    · cases h
  | UfoAppearTimer Rand =>
    simp only [Step] at h
    split at h
    · cases h
      rw [UfoAppearCallback_frame]
      exact EnemyCountExact_of_same s _ ⟨rfl, rfl, rfl, rfl⟩ hs
    · cases h

/-- The enemy count is exact in every state of a wave reached with overlaps of visible
units. -/
theorem InWaveVisible_EnemyCountExact (s : AInvadersGameMode) (hs : InWaveVisible s) :
    EnemyCountExact s := by
  induction hs with
  | spawn s t hs h =>
    simp only [Step] at h
    split at h
    · cases h
      exact EnemyCountExact_spawn _ (Reachable_GridWF s hs)
    · cases h
  | step s t i _ hi hv h ih => exact Step_EnemyCountExact s t i ih hi hv h

theorem InWaveVisible_InWave (s : AInvadersGameMode) (hs : InWaveVisible s) : InWave s := by
  induction hs with
  | spawn s t hs h => exact InWave.spawn s t hs h
  | step s t i _ hi _ h ih => exact InWave.step s t i ih hi h

/-- Engine calls without a reset and with overlaps of visible units stay within the wave. -/
theorem InWaveVisible_RunVisible : ∀ (s : AInvadersGameMode) (ins : List Input)
    (t : AInvadersGameMode), InWaveVisible s → (∀ i ∈ ins, i.Resets = false) →
    RunVisible s ins = some t → InWaveVisible t ∧ Run s ins = some t := by
  intro s ins
  induction ins generalizing s with
  | nil =>
    intro t hs _ h
    simp only [RunVisible, Option.some.injEq] at h
    rw [← h]; exact ⟨hs, rfl⟩
  | cons i ins ih =>
    intro t hs hall h
    simp only [RunVisible] at h
    split at h
    · rename_i hv
      simp only [Option.bind_eq_some] at h
      obtain ⟨u, hu, ht⟩ := h
      obtain ⟨h1, h2⟩ := ih u t
        (InWaveVisible.step s u i hs (hall i (List.mem_cons_self _ _)) hv hu)
        (fun j hj => hall j (List.mem_cons_of_mem _ hj)) ht
      exact ⟨h1, by simp [Run, hu, h2]⟩
    · cases h

/-- A run of the sample game mode with the given rules that succeeds, spawns a wave and
afterwards neither resets nor feeds in an overlap of a hidden unit ends in a state of that
wave. -/
theorem InWaveVisible_of_run (Rules : FGameRules) (pre post : List Input)
    (t : AInvadersGameMode)
    (h : ((StartPlay (SampleMode Rules)).bind fun s =>
      (Run s (pre ++ [Input.EnemyAppearTimer])).bind fun w => RunVisible w post) = some t)
    (hpost : ∀ i ∈ post, i.Resets = false) :
    InWaveVisible t ∧
    ((StartPlay (SampleMode Rules)).bind fun s =>
      Run s (pre ++ [Input.EnemyAppearTimer] ++ post)) = some t := by
  simp only [Option.bind_eq_some] at h
  obtain ⟨s, hs, w, hw, hrun⟩ := h
  have hw2 := hw
  rw [Run_append] at hw
  simp only [Option.bind_eq_some] at hw
  obtain ⟨v, hv, hu⟩ := hw
  have hR : Reachable v := Reachable_Run s pre v (Reachable.start _ _ _ _ _ _ _ _ _ s hs) hv
  simp only [Run, Option.bind_eq_some, Option.some.injEq] at hu
  obtain ⟨w2, hw3, rfl⟩ := hu
  obtain ⟨h1, h2⟩ := InWaveVisible_RunVisible w2 post t (InWaveVisible.spawn v w2 hR hw3)
    hpost hrun
  refine ⟨h1, ?_⟩
  simp only [Option.bind_eq_some]
  exact ⟨s, hs, by rw [Run_append, hw2]; exact h2⟩

/-- C24: during a wave the enemy count is exact. In every state `s` reached after
`SpawnEnemies` by engine calls that do not run `ResetUnits` and whose overlaps only report
visible, collidable units (`InWaveVisible`): (1) `s` is a state of the wave; (2)
`ActiveEnemyNum` equals the number of visible grid enemies; (3) `ActiveEnemyNum` is 0
exactly when every grid enemy is hidden; (4) in a tick from `s` whose overlaps report
visible units, at every iteration of the loop of `UpdatePlayerBullets` (index `p.1`, state
`p.2`) the count is exact, an iteration that kills a grid enemy lowers the count by one and
keeps it exact, so that the count reaches 0 exactly when the enemy killed was the last
visible one, and any other iteration leaves the count as it is. -/
theorem active_enemy_count_exact_in_wave (s : AInvadersGameMode) (hs : InWaveVisible s) :
    InWave s ∧
    (VisibleCount s.EnemyShips : Int) = s.InvadersGameState.ActiveEnemyNum ∧
    (s.InvadersGameState.ActiveEnemyNum = 0 ↔ ∀ E ∈ s.EnemyShips, E.Hidden = true) ∧
    (∀ (dt : ℚ) (inp : FTickInput),
      PlayerOverlapsVisible dt inp
        (BeforePlayerBullets dt inp s).InvadersGameState.ActivePlayerBullets.toNat
        (BeforePlayerBullets dt inp s) = true →
      ∀ p ∈ LoopTrace (PlayerBulletBody dt inp)
          (BeforePlayerBullets dt inp s).InvadersGameState.ActivePlayerBullets.toNat
          (BeforePlayerBullets dt inp s),
        (VisibleCount p.2.EnemyShips : Int) = p.2.InvadersGameState.ActiveEnemyNum ∧
        ∀ u, PlayerBulletBody dt inp p.1 p.2 = some u →
          (VisibleCount u.EnemyShips : Int) = u.InvadersGameState.ActiveEnemyNum ∧
          (GridEnemyHit inp p.1 = true →
            u.InvadersGameState.ActiveEnemyNum = p.2.InvadersGameState.ActiveEnemyNum - 1 ∧
            (u.InvadersGameState.ActiveEnemyNum = 0 ↔ VisibleCount p.2.EnemyShips = 1)) ∧
          (GridEnemyHit inp p.1 = false →
            u.InvadersGameState.ActiveEnemyNum = p.2.InvadersGameState.ActiveEnemyNum)) := by
  obtain ⟨hG, hE⟩ := InWaveVisible_EnemyCountExact s hs
  refine ⟨InWaveVisible_InWave s hs, hE, ?_, ?_⟩
  · rw [← VisibleCount_eq_zero, ← hE]
    exact Int.natCast_eq_zero
  · intro dt inp hv p hp
    have h0 : EnemyCountExact (BeforePlayerBullets dt inp s) :=
      EnemyCountExact_of_same s _ (BeforePlayerBullets_EnemyCountSame dt inp s) ⟨hG, hE⟩
    have hI := LoopTrace_inv (PlayerBulletBody dt inp)
      (fun n x => EnemyCountExact x ∧ PlayerOverlapsVisible dt inp n x = true)
      (by
        intro n x u hx hu
        obtain ⟨hx1, hx2⟩ := hx
        simp only [PlayerOverlapsVisible, hu, Bool.and_eq_true] at hx2
        exact ⟨PlayerBulletBody_EnemyCountExact dt inp n x u hx1 hx2.1 hu, hx2.2⟩)
      _ _ ⟨h0, hv⟩ p hp
    obtain ⟨⟨hpG, hpE⟩, hpv⟩ := hI
    refine ⟨hpE, ?_⟩
    intro u hu
    simp only [PlayerOverlapsVisible, hu, Bool.and_eq_true] at hpv
    have hu2 := PlayerBulletBody_EnemyCountExact dt inp p.1 p.2 u ⟨hpG, hpE⟩ hpv.1 hu
    obtain ⟨b1, b2⟩ := PlayerBulletBody_bookkeeping dt inp p.1 p.2 u hu
    refine ⟨hu2.2, ?_, fun hg => (b2 hg).1⟩
    intro hg
    have e := b1 hg
    refine ⟨e, ?_⟩
    omega

/-- C24 in the single-enemy game: with the bullet in flight the count and the number of
visible enemies are both 1; after the tick in which the bullet kills the enemy, the state
is still a state of the wave, the count is 0 and no enemy is visible. -/
theorem active_enemy_count_exact_in_wave_witness :
    InWaveVisible (SmallAfter LastKillInputs) ∧
    (SmallAfter LastKillInputs).InvadersGameState.ActiveEnemyNum = 0 ∧
    (VisibleCount (SmallAfter LastKillInputs).EnemyShips : Int) = 0 ∧
    (∀ E ∈ (SmallAfter LastKillInputs).EnemyShips, E.Hidden = true) ∧
    SmallShot.InvadersGameState.ActiveEnemyNum = 1 ∧ VisibleCount SmallShot.EnemyShips = 1 := by
  have hs : ((StartPlay (SampleMode SmallRules)).bind fun s =>
      (Run s (StartedInputs ++ [Input.EnemyAppearTimer])).bind fun w =>
        RunVisible w [.PlayerAppearTimer, .ShootPressed, .Tick (1 / 10) HitEnemy0]).isSome
      = true := by decide!
  obtain ⟨t, ht⟩ := Option.isSome_iff_exists.1 hs
  obtain ⟨h1, h2⟩ := InWaveVisible_of_run SmallRules StartedInputs
    [.PlayerAppearTimer, .ShootPressed, .Tick (1 / 10) HitEnemy0] t ht (by decide)
  have e : SmallAfter LastKillInputs = t := by
    unfold SmallAfter LastKillInputs; rw [h2]; rfl
  have hW : InWaveVisible (SmallAfter LastKillInputs) := by rw [e]; exact h1
  have h := active_enemy_count_exact_in_wave (SmallAfter LastKillInputs) hW
  have h0 : (SmallAfter LastKillInputs).InvadersGameState.ActiveEnemyNum = 0 := by decide!
  exact ⟨hW, h0, by rw [h.2.1, h0], h.2.2.1.1 h0, by decide!, by decide!⟩

/-! ### High-score bookkeeping -/

theorem HiScoreRel_refl (s : AInvadersGameMode) : HiScoreRel s s := ⟨le_refl _, fun h => h⟩

theorem HiScoreRel_trans (a b c : AInvadersGameMode) (h : HiScoreRel a b)
    (g : HiScoreRel b c) : HiScoreRel a c :=
  ⟨le_trans h.1 g.1, fun x => g.2 (h.2 x)⟩

/-- `SaveHiScore` raises the high score to the score when that is larger, and then the
previous high score is the old one. -/
theorem SaveHiScore_HiScoreRel (s : AInvadersGameMode) : HiScoreRel s (SaveHiScore s) := by
  unfold HiScoreRel SaveHiScore
  by_cases h : s.InvadersGameState.Score > s.InvadersGameState.HiScore
  · simp only [if_pos h]
    exact ⟨le_of_lt h, fun _ => le_of_lt h⟩
  · simp only [if_neg h]
    exact ⟨le_refl _, fun x => x⟩

theorem HandlePlayerHit_HiScoreRel (s : AInvadersGameMode) :
    HiScoreRel s (HandlePlayerHit s) := by
  unfold HandlePlayerHit
  simp only
  split
  · exact SaveHiScore_HiScoreRel
      { s with
        InvadersGameState :=
          { s.InvadersGameState with CurrentLives := s.InvadersGameState.CurrentLives - 1 }
        IsPlayerShooting := false
        PlayerShootTHandle := none
        PlayerShip := s.PlayerShip.deactivate }
  · exact HiScoreRel_refl s

/-- `ShowMainMenu` keeps the high score and sets the previous high score to it. -/
theorem ShowMainMenu_HiScoreRel (s : AInvadersGameMode) : HiScoreRel s (ShowMainMenu s) := by
  rw [ShowMainMenu_frame]
  exact ⟨le_refl _, fun _ => le_refl _⟩

theorem RestartInvadersGame_HiScoreRel (Rand : ℚ) (s : AInvadersGameMode) :
    HiScoreRel s (RestartInvadersGame Rand s) := by
  rw [RestartInvadersGame_frame]
  exact HiScoreRel_refl s

/-- Every block of the engine calls keeps the high-score relation. -/
theorem HiScoreRel_closed : StepClosed HiScoreRel where
  refl := HiScoreRel_refl
  trans := HiScoreRel_trans
  enemyAnim := by intro dt s; rw [UpdateEnemyAppearAnimation_frame]; exact HiScoreRel_refl s
  playerAnim := by intro dt s; rw [UpdatePlayerAppearAnimation_frame]; exact HiScoreRel_refl s
  playerMove := by intro dt inp s; rw [UpdatePlayerMovement_frame]; exact HiScoreRel_refl s
  groupMove := by intro dt s; rw [UpdateEnemyGroupMovement_frame]; exact HiScoreRel_refl s
  ufoMove := by intro dt Rand s; rw [UpdateUfoMovement_frame]; exact HiScoreRel_refl s
  playerBullets := by intro s Bs h; exact HiScoreRel_refl s
  enemyBullets := by intro s Bs h; exact HiScoreRel_refl s
  asteroid := by intro s As HPs h; exact HiScoreRel_refl s
  ufoKill := by intro s Points h; exact HiScoreRel_refl s
  enemyKill := by
    intro s t i E Points _ hR
    obtain ⟨Sh, ht⟩ := ReorganizeShooters_inv _ _ _ hR
    rw [ht]; exact HiScoreRel_refl s
  sound := by intro s e; exact HiScoreRel_refl s
  playerDelete := by intro s Bs h _ _; exact HiScoreRel_refl s
  enemyDelete := by intro s Bs h _ _; exact HiScoreRel_refl s
  allKilled := by intro s; rw [AllEnemiesKilled_frame]; exact HiScoreRel_refl s
  playerHit := HandlePlayerHit_HiScoreRel
  tutorial := by intro s; exact HiScoreRel_refl s
  shootPressed := by
    intro s t h
    obtain ⟨b, hd, Bs, c, hBs, _, _, ht⟩ := HandlePlayerShootPressed_inv s t h
    rw [ht]; exact HiScoreRel_refl s
  shootReleased := by intro s; rw [HandlePlayerShootReleased_frame]; exact HiScoreRel_refl s
  togglePause := by intro s; rw [HandleTogglePausePressed_frame]; exact HiScoreRel_refl s
  fired := by intro s a b c d e; exact HiScoreRel_refl s
  spawnEnemies := by intro s; rw [SpawnEnemies_frame]; exact HiScoreRel_refl s
  spawnPlayer := by intro s; exact HiScoreRel_refl s
  enemyShoot := by
    intro Rand s t h
    obtain ⟨hd, Bs, c, hBs, _, _, ht⟩ := EnemyShootTimerCallback_inv Rand s t h
    rw [ht]; exact HiScoreRel_refl s
  playerShoot := by
    intro s t h
    rcases PlayerShootTimerCallback_inv s t h with e | e | ⟨_, _, Bs, hBs, e⟩
    · rw [e]; exact HiScoreRel_refl s
    · rw [e]; exact HiScoreRel_refl s
    · rw [e]; exact HiScoreRel_refl s
  ufoAppear := by intro Rand s; rw [UfoAppearCallback_frame]; exact HiScoreRel_refl s

/-- Every engine call, resets included, keeps the high-score relation. -/
theorem HiScoreRel_Step (s t : AInvadersGameMode) (i : Input) (h : Step s i = some t) :
    HiScoreRel s t :=
  Step_closed HiScoreRel_closed i
    (fun _ => ⟨RestartInvadersGame_HiScoreRel, ShowMainMenu_HiScoreRel⟩) s t h

theorem HiScoreRel_Run : ∀ (s : AInvadersGameMode) (ins : List Input) (t : AInvadersGameMode),
    Run s ins = some t → HiScoreRel s t := by
  intro s ins
  induction ins generalizing s with
  | nil =>
    intro t h
    simp only [Run, Option.some.injEq] at h
    rw [← h]; exact HiScoreRel_refl s
  | cons i ins ih =>
    intro t h
    simp only [Run, Option.bind_eq_some] at h
    obtain ⟨u, hu, ht⟩ := h
    exact HiScoreRel_trans _ _ _ (HiScoreRel_Step s u i hu) (ih u t ht)

/-- The high scores after `StartPlay`: both are the loaded value. -/
theorem StartPlay_hiscore (s0 s : AInvadersGameMode) (h : StartPlay s0 = some s) :
    s.InvadersGameState.HiScore = (LoadHiScore s0).InvadersGameState.HiScore ∧
    s.InvadersGameState.PrevHiScore = s.InvadersGameState.HiScore := by
  simp only [StartPlay, Option.bind_eq_some, Option.some.injEq] at h
  obtain ⟨s2, h1, h2⟩ := h
  unfold InitGameObjects at h1
  split at h1
  · cases h1
  · simp only [Option.bind_eq_some, Option.some.injEq] at h1
    obtain ⟨Ships, hS, Top, _, ht⟩ := h1
    rw [← h2, ShowMainMenu_frame, ← ht, ResetUnits_frame]
    refine ⟨?_, rfl⟩
    show (LoadHiScore { s0 with EnemyPointMap := _ }).InvadersGameState.HiScore
      = (LoadHiScore s0).InvadersGameState.HiScore
    unfold LoadHiScore
    cases s0.SaveSlot <;> rfl

theorem toInt32_of_lt (v : Nat) (h : v < 2 ^ 31) : toInt32 v = (v : Int) := by
  unfold toInt32
  have e : v % 2 ^ 32 = v := Nat.mod_eq_of_lt (by omega)
  rw [e, if_pos h]

/-- In every reachable state the previous high score is at most the high score. -/
theorem Reachable_PrevHiScore_le (s : AInvadersGameMode) (hs : Reachable s) :
    s.InvadersGameState.PrevHiScore ≤ s.InvadersGameState.HiScore := by
  induction hs with
  | start Rules PlayerDef EnemyDefs EnemySpawnPoint UfoSpawnPoint AsteroidDef PlayerBulletDef
      EnemyBulletDef SaveSlot s h => exact le_of_eq (StartPlay_hiscore _ _ h).2
  | step s t i _ h ih => exact (HiScoreRel_Step s t i h).2 ih

/-- C25: high-score bookkeeping. (1) In every reachable state `PrevHiScore ≤ HiScore`;
(2) `SaveHiScore`, `ShowMainMenu`, `RestartInvadersGame`, `Tick`, every engine call and
every sequence of engine calls leave `HiScore` at least as large as it was, and keep
`PrevHiScore ≤ HiScore`; (3) after `StartPlay` with a stored value `v < 2^31` (`LoadHiScore`
found a save), `HiScore` and `PrevHiScore` are both `v`. -/
theorem hiscore_bookkeeping (s : AInvadersGameMode) :
    (Reachable s → s.InvadersGameState.PrevHiScore ≤ s.InvadersGameState.HiScore) ∧
    s.InvadersGameState.HiScore ≤ (SaveHiScore s).InvadersGameState.HiScore ∧
    s.InvadersGameState.HiScore ≤ (ShowMainMenu s).InvadersGameState.HiScore ∧
    (∀ Rand, s.InvadersGameState.HiScore
      ≤ (RestartInvadersGame Rand s).InvadersGameState.HiScore) ∧
    (∀ dt inp t, Tick dt inp s = some t →
      s.InvadersGameState.HiScore ≤ t.InvadersGameState.HiScore) ∧
    (∀ i t, Step s i = some t → HiScoreRel s t) ∧
    (∀ ins t, Run s ins = some t → HiScoreRel s t) ∧
    (∀ (Rules : FGameRules) (PlayerDef : FPlayerDef) (EnemyDefs : List FEnemyDef)
      (EnemySpawnPoint UfoSpawnPoint : FVector) (AsteroidDef : FAsteroidDef)
      (PlayerBulletDef EnemyBulletDef : FBulletDef) (v : Nat), v < 2 ^ 31 →
      StartPlay (InitGame (NewGameMode Rules PlayerDef EnemyDefs EnemySpawnPoint
        UfoSpawnPoint AsteroidDef PlayerBulletDef EnemyBulletDef (some v))) = some s →
      s.InvadersGameState.HiScore = (v : Int) ∧ s.InvadersGameState.PrevHiScore = (v : Int)) := by
  refine ⟨Reachable_PrevHiScore_le s, (SaveHiScore_HiScoreRel s).1,
    (ShowMainMenu_HiScoreRel s).1, fun Rand => (RestartInvadersGame_HiScoreRel Rand s).1,
    fun dt inp t h => (Tick_closed HiScoreRel_closed.toTickClosed dt inp s t h).1,
    fun i t h => HiScoreRel_Step s t i h, fun ins t h => HiScoreRel_Run s ins t h, ?_⟩
  intro Rules PlayerDef EnemyDefs EnemySpawnPoint UfoSpawnPoint AsteroidDef PlayerBulletDef
    EnemyBulletDef v hv h
  obtain ⟨e1, e2⟩ := StartPlay_hiscore _ _ h
  have e3 : s.InvadersGameState.HiScore = (v : Int) := by
    rw [e1]
    simp only [LoadHiScore, InitGame, NewGameMode]
    exact toInt32_of_lt v hv
  exact ⟨e3, e2.trans e3⟩

/-- C25 on two sample games. With the stored high score 500, `StartPlay` gives
`HiScore = PrevHiScore = 500`. Without a save, the run through two games that ends in the
second game over is a run from the start state, where `HiScore` is 0; at its end `HiScore`
is 10 and `PrevHiScore ≤ HiScore`. -/
theorem hiscore_bookkeeping_witness :
    StartPlay StoredMode = some StoredStart ∧
    StoredStart.InvadersGameState.HiScore = 500 ∧
    StoredStart.InvadersGameState.PrevHiScore = 500 ∧
    Reachable (SampleAfter SecondGameOverInputs) ∧
    Run (SampleAfter []) SecondGameOverInputs = some (SampleAfter SecondGameOverInputs) ∧
    (SampleAfter []).InvadersGameState.HiScore = 0 ∧
    (SampleAfter SecondGameOverInputs).InvadersGameState.HiScore = 10 ∧
    (SampleAfter []).InvadersGameState.HiScore
      ≤ (SampleAfter SecondGameOverInputs).InvadersGameState.HiScore ∧
    (SampleAfter SecondGameOverInputs).InvadersGameState.PrevHiScore
      ≤ (SampleAfter SecondGameOverInputs).InvadersGameState.HiScore := by
  have hS : StartPlay StoredMode = some StoredStart := by
    have hs : (StartPlay StoredMode).isSome = true := by decide!
    obtain ⟨t, ht⟩ := Option.isSome_iff_exists.1 hs
    unfold StoredStart; rw [ht]; rfl
  have h500 := (hiscore_bookkeeping StoredStart).2.2.2.2.2.2.2 FGameRules.default
    ⟨9, ⟨0, 400, 0⟩, 250, 3, 3 / 4⟩ SampleDefs ⟨0, -400, 0⟩ ⟨-600, -450, 0⟩
    ⟨7, ⟨0, 300, 0⟩, 200, 5⟩ ⟨5, 100⟩ ⟨6, 100⟩ 500 (by norm_num) hS
  have hd : ((StartPlay (SampleMode FGameRules.default)).bind fun s =>
        Run s SecondGameOverInputs).isSome = true ∧
      (SampleAfter []).InvadersGameState.HiScore = 0 ∧
      (SampleAfter SecondGameOverInputs).InvadersGameState.HiScore = 10 := by decide!
  have hR : Reachable (SampleAfter SecondGameOverInputs) :=
    Reachable_SampleAfter _ hd.1
  have hrun : Run (SampleAfter []) SecondGameOverInputs
      = some (SampleAfter SecondGameOverInputs) := by
    have hs := hd.1
    obtain ⟨t, ht⟩ := Option.isSome_iff_exists.1 hs
    have e2 : SampleAfter SecondGameOverInputs = t := by
      unfold SampleAfter; rw [ht]; rfl
    simp only [Option.bind_eq_some] at ht
    obtain ⟨s0, hs0, hr⟩ := ht
    have e1 : SampleAfter [] = s0 := by
      unfold SampleAfter; rw [hs0]; rfl
    rw [e1, e2]
    exact hr
  exact ⟨hS, h500.1, h500.2, hR, hrun, hd.2.1, hd.2.2,
    ((hiscore_bookkeeping (SampleAfter [])).2.2.2.2.2.2.1 _ _ hrun).1,
    (hiscore_bookkeeping (SampleAfter SecondGameOverInputs)).1 hR⟩

end Invaders
